import Mathlib

/-!
# goutils / stream : RTP parsing, pusher fan-out, player queues, server registry,
digest authentication, the RTSP request handler, the message codec and the SDP
parser

A shallow embedding of the Go packages `stream/rtsp`, `stream/headers` and
`stream/base`.

* Go `int` is taken as 64 bits wide and is modelled by `Int`; none of the
  quantities below leaves that range.
* A `[]byte` is modelled by `Slice`: the elements inside its length plus the
  elements of the backing array between its length and its capacity.
* A run-time panic (index or slice out of range, nil dereference) is a value of
  `GoPanic`; a Go function that can panic returns `Go α`.
* A method is the whole run of its body: it returns, panics, or blocks. A call
  blocks when it asks for `pushersLock` while the lock is held, and when it
  sends on `addPusherCh` or `removePusherCh`, which have no buffer and no
  receiver in the package. The lock is part of the state of the server,
  because a call can return with it held (server.go:131). The locks of a
  pusher, of a player and of the connection are released on every path that
  returns; they and the condition variables are not part of the state.
* The goroutine that `ClearPlayer` starts is recorded in the world, with its
  body as `Goroutine.run`. The statements `go pusher.Start()` and
  `go player.Start()` start the loops whose turns are `Pusher.process` and the
  queue functions of the player; they are not recorded.
* The data path (`ParseRTP`, the GOP cache, the queues, the registry as a map)
  works on values. The control path (`RebindSession`, `Session.Stop`,
  `handleRequest`) works on objects named by pointers, in a `Heap.World`.
* Library functions and the helpers of package `utils`, which is not among the
  sources, are the fields of the records `Lib`, `CodecLib` and `SDPLib`;
  statements hold for every value of them, under the hypotheses they name.
  The functions of package `strings` and `strconv.Atoi` that `ParseSDP` calls
  are written out.
* A Go `string` is a sequence of bytes. It is kept as a `String` with one
  character for each byte, so that `len(s)` is `s.length`; the bytes that a
  connection delivers are a `List Char` in the same way. Interleaved RTP frames
  are binary and are read from a `List Byte`.
-/

namespace Rtsp

/-! ## Go run-time model -/

/-- The ways in which Go code ends without a value. The first three are the
run-time panics that the embedding tracks. `blocked` is a goroutine that waits
for ever: for a lock that nothing releases any more, or to send on a channel
from which nothing receives. It is no panic: no deferred function runs and
`recover` does not see it. -/
inductive GoPanic where
  | indexOutOfRange
  | sliceOutOfRange
  | nilDereference
  | blocked
  deriving DecidableEq, Repr

/-- Result of Go code: a value, or the way in which it ended without one. -/
inductive Go (α : Type) where
  | ok (a : α)
  | panic (p : GoPanic)
  deriving DecidableEq, Repr

/-- Sequencing of Go statements: code that panics or blocks stops the rest. -/
def Go.bind {α β : Type} (x : Go α) (f : α → Go β) : Go β :=
  match x with
  | .ok a => f a
  | .panic p => .panic p

instance : Monad Go where
  pure := Go.ok
  bind := Go.bind

/-- Go code that changes a state `σ`; when it panics or blocks, the state
reached at that point is kept, as a deferred function and the other goroutines
see it. -/
def Act (σ α : Type) : Type := σ → Go α × σ

/-- Sequencing in `Act`: code that panics or blocks stops the rest and keeps the
state. -/
def Act.bind {σ α β : Type} (x : Act σ α) (f : α → Act σ β) : Act σ β := fun st =>
  match x st with
  | (.ok a, st') => f a st'
  | (.panic p, st') => (.panic p, st')

instance {σ : Type} : Monad (Act σ) where
  pure a := fun st => (.ok a, st)
  bind := Act.bind

/-- A run-time panic. -/
def Act.panic {σ α : Type} (p : GoPanic) : Act σ α := fun st => (.panic p, st)

/-- Code that reads the state only. -/
def Act.read {σ α : Type} (f : σ → Go α) : Act σ α := fun st => (f st, st)

/-- The state itself. -/
def Act.get {σ : Type} : Act σ σ := fun st => (.ok st, st)

/-- An assignment. -/
def Act.modify {σ : Type} (f : σ → σ) : Act σ Unit := fun st => (.ok (), f st)

/-- A send `ch <- v` on `addPusherCh` or `removePusherCh`. Both channels are
made without buffer (server.go:28-29) and no code of the package receives from
them, so the goroutine that sends waits for ever. -/
def chanSend {σ : Type} : Act σ Unit := Act.panic .blocked

/-- A Go `byte`. -/
abbrev Byte := Fin 256

/-- A Go `[]byte`: `elems` are the elements below the length, `spare` the
elements of the backing array from the length up to the capacity. -/
structure Slice where
  elems : List Byte
  spare : List Byte
  deriving DecidableEq, Repr

namespace Slice

/-- Go `len(s)`. -/
def len (s : Slice) : Int := s.elems.length

/-- Go `cap(s)`. -/
def cap (s : Slice) : Int := s.elems.length + s.spare.length

/-- Go `s[i]`: panics unless `0 <= i < len(s)`. -/
def index (s : Slice) (i : Int) : Go Byte :=
  if 0 ≤ i then
    match s.elems.get? i.toNat with
    | some b => .ok b
    | none => .panic .indexOutOfRange
  else .panic .indexOutOfRange

/-- Go `s[lo:]`: panics unless `0 <= lo <= len(s)`; the capacity region is kept. -/
def sliceFrom (s : Slice) (lo : Int) : Go Slice :=
  if 0 ≤ lo ∧ lo ≤ s.len then .ok ⟨s.elems.drop lo.toNat, s.spare⟩
  else .panic .sliceOutOfRange

/-- Go `s[lo:hi]`: panics unless `0 <= lo <= hi <= cap(s)`. -/
def slice (s : Slice) (lo hi : Int) : Go Slice :=
  if 0 ≤ lo ∧ lo ≤ hi ∧ hi ≤ s.cap then
    .ok ⟨((s.elems ++ s.spare).take hi.toNat).drop lo.toNat, (s.elems ++ s.spare).drop hi.toNat⟩
  else .panic .sliceOutOfRange

/-- Go `s[:hi]`, that is `s[0:hi]`. -/
def sliceTo (s : Slice) (hi : Int) : Go Slice := s.slice 0 hi

/-- Value of byte `i` of the slice as a number (`0` past the length); used to
state properties, never by the embedded code. -/
def byteAt (s : Slice) (i : Nat) : Nat := (s.elems.getD i 0).val

end Slice

/-- Go `binary.BigEndian.Uint16(b)`: `uint16(b[1]) | uint16(b[0])<<8` after the
bounds check `_ = b[1]`. -/
def BigEndian.Uint16 (b : Slice) : Go Nat := do
  let b1 ← b.index 1
  let b0 ← b.index 0
  pure (b1.val ||| (b0.val <<< 8))

/-- Go `binary.BigEndian.Uint32(b)`:
`uint32(b[3]) | uint32(b[2])<<8 | uint32(b[1])<<16 | uint32(b[0])<<24` after the
bounds check `_ = b[3]`. -/
def BigEndian.Uint32 (b : Slice) : Go Nat := do
  let b3 ← b.index 3
  let b2 ← b.index 2
  let b1 ← b.index 1
  let b0 ← b.index 0
  pure (b3.val ||| (b2.val <<< 8) ||| (b1.val <<< 16) ||| (b0.val <<< 24))

/-! ## rtpParser.go -/

/-- Length of the fixed RTP header. -/
def RTPFixedHeaderLength : Int := 12

/-- The `RTPInfo` struct. -/
structure RTPInfo where
  Version : Int
  Padding : Bool
  Extension : Bool
  CSRCCnt : Int
  Marker : Bool
  PayloadType : Int
  SequenceNumber : Int
  Timestamp : Int
  SSRC : Int
  Payload : Slice
  PayloadOffset : Int
  deriving DecidableEq, Repr

/-- The function `ParseRTP`; `none` is the nil result. -/
def ParseRTP (rtpBytes : Slice) : Go (Option RTPInfo) :=
  if rtpBytes.len < RTPFixedHeaderLength then pure none
  else do
    let firstByte ← rtpBytes.index 0
    let secondByte ← rtpBytes.index 1
    let sequenceNumber ← BigEndian.Uint16 (← rtpBytes.sliceFrom 2)
    let timestamp ← BigEndian.Uint32 (← rtpBytes.sliceFrom 4)
    let ssrc ← BigEndian.Uint32 (← rtpBytes.sliceFrom 8)
    let info : RTPInfo :=
      { Version := ((firstByte.val >>> 6 : Nat) : Int)
        Padding := (firstByte.val >>> 5) &&& 1 == 1
        Extension := (firstByte.val >>> 4) &&& 1 == 1
        CSRCCnt := ((firstByte.val &&& 0x0f : Nat) : Int)
        Marker := secondByte.val >>> 7 == 1
        PayloadType := ((secondByte.val &&& 0x7f : Nat) : Int)
        SequenceNumber := (sequenceNumber : Int)
        Timestamp := (timestamp : Int)
        SSRC := (ssrc : Int)
        Payload := ⟨[], []⟩
        PayloadOffset := 0 }
    let offset : Int := RTPFixedHeaderLength
    let stop : Int := rtpBytes.len
    let offset : Int :=
      if stop - offset ≥ 4 * info.CSRCCnt then offset + 4 * info.CSRCCnt else offset
    let offset : Int ←
      if info.Extension && decide (stop - offset ≥ 4) then do
        let extLen : Int := 4 * ((← BigEndian.Uint16 (← rtpBytes.sliceFrom (offset + 2)) : Nat) : Int)
        let offset : Int := offset + 4
        pure (if stop - offset ≥ extLen then offset + extLen else offset)
      else pure offset
    let stop : Int ←
      if info.Padding && decide (stop - offset > 0) then do
        let paddingLen : Int := (((← rtpBytes.index (stop - 1)).val : Nat) : Int)
        pure (if stop - offset ≥ paddingLen then stop - paddingLen else stop)
      else pure stop
    let payload ← rtpBytes.slice offset stop
    let info : RTPInfo := { info with Payload := payload, PayloadOffset := offset }
    if stop - offset < 1 then pure none else pure (some info)

/-! ### Positions reached by `ParseRTP`

The three positions below restate the steps of `ParseRTP` on the byte values
of the input; `ParseRTP_eq` proves that they are the positions the function
reaches. -/

/-- Offset that `ParseRTP` reaches after the CSRC step. -/
def ParseRTP.afterCSRC (s : Slice) : Int :=
  if s.len - 12 ≥ 4 * ((s.byteAt 0 &&& 0x0f : Nat) : Int) then 12 + 4 * ((s.byteAt 0 &&& 0x0f : Nat) : Int)
  else 12

/-- Offset that `ParseRTP` reaches after the extension step. -/
def ParseRTP.afterExt (s : Slice) : Int :=
  let o := ParseRTP.afterCSRC s
  if ((s.byteAt 0 >>> 4) &&& 1 == 1) && decide (s.len - o ≥ 4) then
    let x : Int := (4 : Int) * ((s.byteAt ((o + 2).toNat + 1) ||| (s.byteAt (o + 2).toNat <<< 8) : Nat) : Int)
    if s.len - (o + (4 : Int)) ≥ x then o + (4 : Int) + x else o + (4 : Int)
  else o

/-- End position that `ParseRTP` reaches after the padding step. -/
def ParseRTP.afterPad (s : Slice) : Int :=
  let o := ParseRTP.afterExt s
  if ((s.byteAt 0 >>> 5) &&& 1 == 1) && decide (s.len - o > 0) then
    let p : Int := ((s.byteAt (s.len - 1).toNat : Nat) : Int)
    if s.len - o ≥ p then s.len - p else s.len
  else s.len

/-! ### Quantities that an RTP header declares -/

/-- CSRC count that the first byte of an RTP buffer declares (its low four bits). -/
def declaredCSRC (P : Slice) : Nat := P.byteAt 0 % 16

/-- Extension bit of the first byte (bit 4). -/
def extensionBit (P : Slice) : Bool := (P.byteAt 0).testBit 4

/-- Padding bit of the first byte (bit 5). -/
def paddingBit (P : Slice) : Bool := (P.byteAt 0).testBit 5

/-- Number of 32-bit words that the extension header declares: the big-endian
16-bit number in the third and fourth byte after the CSRC list. -/
def declaredExtWords (P : Slice) : Nat :=
  256 * P.byteAt (12 + 4 * declaredCSRC P + 2) + P.byteAt (12 + 4 * declaredCSRC P + 3)

/-- Bytes of the extension block: `4 + 4e` when the extension bit is set, else `0`. -/
def declaredExtBytes (P : Slice) : Nat :=
  if extensionBit P then 4 + 4 * declaredExtWords P else 0

/-- Padding length: the last byte when the padding bit is set, else `0`. -/
def declaredPadding (P : Slice) : Nat :=
  if paddingBit P then P.byteAt (P.elems.length - 1) else 0

/-! ### Sample RTP buffers -/

/-- A 12-byte buffer of zeros: CSRC count 0, no extension, no padding. -/
def zeroHeader : Slice := ⟨List.replicate 12 0, []⟩

/-- A 32-byte buffer with one CSRC, an extension of one word, two bytes of
padding and a 6-byte payload. -/
def sampleRTP : Slice :=
  ⟨[0xb1, 0xe5, 1, 2,  0, 0, 1, 0,  0, 0, 0, 9,  1, 1, 1, 1,  0xab, 0xcd, 0, 1,  9, 9, 9, 9,
    0x65, 0x88, 0x84, 0, 0x21, 0xff,  0, 2], []⟩

/-- Thirteen bytes whose first byte declares one CSRC: the CSRC list would need
bytes 12..15. -/
def csrcOverrun : Slice := ⟨[0x81, 0, 0, 0,  0, 0, 0, 0,  0, 0, 0, 0,  7], []⟩

/-- Seventeen bytes with the extension bit set whose extension header declares
one word: the extension block would need bytes 12..19. -/
def extOverrun : Slice := ⟨[0x90, 0, 0, 0,  0, 0, 0, 0,  0, 0, 0, 0,  0xbe, 0xde, 0, 1,  7], []⟩

/-- Thirteen bytes with the padding bit set whose last byte declares five bytes
of padding, of which only one byte lies behind the header. -/
def padOverrun : Slice := ⟨[0xa0, 0, 0, 0,  0, 0, 0, 0,  0, 0, 0, 0,  5], []⟩

/-- The result of `ParseRTP` on `sampleRTP`. -/
def sampleInfo : RTPInfo :=
  { Version := 2, Padding := true, Extension := true, CSRCCnt := 1, Marker := true,
    PayloadType := 101, SequenceNumber := 258, Timestamp := 256, SSRC := 9,
    Payload := ⟨[0x65, 0x88, 0x84, 0, 0x21, 0xff], [0, 2]⟩, PayloadOffset := 24 }

/-! ## Go strings and maps -/

/-- Go `strings.EqualFold`, restricted to ASCII case folding. Go folds by
Unicode simple case folding; the two agree whenever one argument is `"h264"`,
the only use in this package, because no rune outside ASCII folds to `h`, `2`,
`6` or `4`. -/
def strings.EqualFold (s t : String) : Bool :=
  s.toList.map Char.toLower == t.toList.map Char.toLower

/-- A pointer to a Go object, as the name of that object; `Option Ptr` is a
pointer that may be nil. -/
abbrev Ptr := String

/-- A Go `map[string]V` as a list of entries. `get` reads the first entry of a
key; `set` and `delete` keep the keys pairwise distinct. -/
abbrev GoMap (V : Type) := List (String × V)

namespace GoMap

/-- Go `v, ok := m[k]`. -/
def get {V : Type} (m : GoMap V) (k : String) : Option V :=
  match m with
  | [] => none
  | (k', v) :: rest => if k' = k then some v else get rest k

/-- Go `m[k] = v`. -/
def set {V : Type} (m : GoMap V) (k : String) (v : V) : GoMap V :=
  match m with
  | [] => [(k, v)]
  | (k', v') :: rest => if k' = k then (k, v) :: rest else (k', v') :: set rest k v

/-- Go `delete(m, k)`. -/
def delete {V : Type} (m : GoMap V) (k : String) : GoMap V :=
  match m with
  | [] => []
  | (k', v') :: rest => if k' = k then delete rest k else (k', v') :: delete rest k

/-- Go `len(m)`. -/
def size {V : Type} (m : GoMap V) : Nat := m.length

end GoMap

/-! ## session.go : packs and sessions -/

/-- The type `RTPType`. -/
inductive RTPType where
  | RTP_TYPE_AUDIO
  | RTP_TYPE_VIDEO
  | RTP_TYPE_AUDIOCONTROL
  | RTP_TYPE_VIDEOCONTROL
  deriving DecidableEq, Repr

open RTPType

/-- The struct `RTPPack`. `Buffer` holds the unread bytes of the `bytes.Buffer`;
the field `Type` is spelled `Type_`. -/
structure RTPPack where
  Type_ : RTPType
  Buffer : List Byte
  deriving DecidableEq, Repr

/-- Go `pack.Buffer.Bytes()`. The read loops of `Session.Start` and
`Client.startStream` build each buffer by `make([]byte, n)`, so its capacity is
its length. -/
def RTPPack.Bytes (pack : RTPPack) : Slice := ⟨pack.Buffer, []⟩

/-- The type `url.Userinfo`: user name and password of a URL. -/
structure Userinfo where
  username : String
  password : String
  passwordSet : Bool
  deriving DecidableEq, Repr

/-- The type `url.URL`: the fields that the package reads. Its methods
`String` and `Port` and the function `url.Parse` are library code and enter the
request handler through `Lib`. -/
structure URL where
  Path : String
  Host : String := ""
  User : Option Userinfo := none
  deriving DecidableEq, Repr

/-- The struct `Session`, without its connection, its handler lists and its
pointers back to `Pusher` and `Player`. -/
structure Session where
  ID : String
  URL : Option URL
  VCodec : String
  VControl : String
  ACodec : String
  AControl : String
  SDPRaw : String
  Stopped : Bool
  deriving DecidableEq, Repr

/-! ## client.go -/

/-- The struct `ClientOptions`; `pusher.go` reads the encrypt and decode options
as `IsEncrypt` and `IsDecode`. -/
structure ClientOptions where
  Debug : Bool
  CustomPath : String
  IsEncrypt : Bool
  IsDecode : Bool
  deriving DecidableEq, Repr

/-- The struct `Client`, without its connection and handler lists. The two
callbacks are nil (`none`) unless the embedding program sets them. -/
structure Client where
  options : ClientOptions
  Path : String
  Stopped : Bool
  VCodec : String
  VControl : String
  ACodec : String
  AControl : String
  SDPRaw : String
  EncryptPack : Option (Slice → Nat → List Byte)
  DecodePack : Option (Slice → List Byte)
  Server : Option Ptr := none

/-- The method `Client.Println` on a `*Client`: it reads `c.options.Debug`, so a
nil receiver panics; the log line itself is not modelled. -/
def Client.Println (c : Option Client) : Go Unit :=
  match c with
  | some _ => pure ()
  | none => .panic .nilDereference

/-! ## player.go -/

/-- The struct `Player`. `NewPlayer` always embeds the live session that
handles the request, so the embedded `*Session` is not nil. -/
structure Player where
  Session : Session
  queue : List RTPPack
  queueLimit : Int
  dropPacketWhenPaused : Bool
  paused : Bool
  deriving DecidableEq, Repr

/-- The promoted field `player.ID`. -/
def Player.ID (p : Player) : String := p.Session.ID

/-- The method `Player.QueueRTP`; `none` is a nil pack. -/
def Player.QueueRTP (p : Player) (pack : Option RTPPack) : Player :=
  match pack with
  | none => p
  | some pack =>
    if p.paused && p.dropPacketWhenPaused then p
    else
      let queue := p.queue ++ [pack]
      let oldLen : Int := queue.length
      if p.queueLimit > 0 ∧ oldLen > p.queueLimit then { p with queue := queue.drop 1 }
      else { p with queue := queue }

/-- A run of `QueueRTP` calls with non-nil packs, in order. -/
def Player.queueAll (p : Player) (packs : List RTPPack) : Player :=
  packs.foldl (fun pl pack => pl.QueueRTP (some pack)) p

/-! ## pusher.go -/

/-- The struct `Pusher`: a nil `*Session` or `*Client` is `none`. -/
structure Pusher where
  Session : Option Session
  Client : Option Client
  players : GoMap Player
  gopCacheEnable : Bool
  gopCache : List RTPPack
  queue : List (Option RTPPack)

/-- The method `Pusher.Path`. -/
def Pusher.Path (p : Pusher) : Go String :=
  match p.Session with
  | some s =>
    match s.URL with
    | some u => pure u.Path
    | none => .panic .nilDereference
  | none =>
    match p.Client with
    | some c => if c.options.CustomPath ≠ "" then pure c.options.CustomPath else pure c.Path
    | none => .panic .nilDereference

/-- The promoted field `pusher.ID`: `Session` is the only embedded struct with
a field `ID`, so it reads `pusher.Session.ID`. -/
def Pusher.ID (p : Pusher) : Go String :=
  match p.Session with
  | some s => pure s.ID
  | none => .panic .nilDereference

/-- The method `Pusher.Stopped`. -/
def Pusher.Stopped (p : Pusher) : Go Bool :=
  match p.Session with
  | some s => pure s.Stopped
  | none =>
    match p.Client with
    | some c => pure c.Stopped
    | none => .panic .nilDereference

/-- The method `Pusher.VCodec`. -/
def Pusher.VCodec (p : Pusher) : Go String :=
  match p.Session with
  | some s => pure s.VCodec
  | none =>
    match p.Client with
    | some c => pure c.VCodec
    | none => .panic .nilDereference

/-- The method `Pusher.BroadcastRTP`: every player of the snapshot taken by
`GetPlayers` queues the pack. -/
def Pusher.BroadcastRTP (p : Pusher) (pack : RTPPack) : Pusher :=
  { p with players := p.players.map (fun e => (e.1, e.2.QueueRTP (some pack))) }

/-- The method `Pusher.HasPlayer`. -/
def Pusher.HasPlayer (p : Pusher) (player : Player) : Bool :=
  (p.players.get player.ID).isSome

/-- The method `Pusher.AddPlayer`. The player is a pointer: the result holds
the player as the method leaves it, and the map entry is that same player. -/
def Pusher.AddPlayer (p : Pusher) (player : Player) : Go (Pusher × Player) := do
  let player : Player :=
    if p.gopCacheEnable then p.gopCache.foldl (fun pl pack => pl.QueueRTP (some pack)) player
    else player
  match p.players.get player.ID with
  | none =>
    let p : Pusher := { p with players := p.players.set player.ID player }
    Client.Println p.Client
    pure (p, player)
  | some _ => pure (p, player)

/-- The method `Pusher.QueueRTP`. -/
def Pusher.QueueRTP (p : Pusher) (pack : Option RTPPack) : Pusher :=
  { p with queue := p.queue ++ [pack] }

/-- The method `Pusher.isKeyframe`. -/
def Pusher.isKeyframe (p : Pusher) (rtp : RTPInfo) : Go Bool := do
  let vcodec ← p.VCodec
  if strings.EqualFold vcodec "h264" then
    let payloadHeader ← rtp.Payload.index 0
    let t : Nat := payloadHeader.val &&& 0x1F
    if t ≤ 23 then
      pure (payloadHeader.val &&& 0x1F == 0x05)
    else if t = 28 ∨ t = 29 then
      let realNALU ← rtp.Payload.index 1
      if realNALU.val &&& 0x80 = 0 then pure false
      else pure (realNALU.val &&& 0x1F == 0x05)
    else
      pure ((0 : Nat) &&& 0x1F == 0x05)
  else pure false

/-- The condition of line 264 of `pusher.go`:
`rtp := ParseRTP(packBuffer); rtp != nil && p.isKeyframe(rtp)`, together with
the parsed header it binds. -/
def Pusher.keyframeInfo (p : Pusher) (pack : RTPPack) : Go (Option RTPInfo) := do
  match ← ParseRTP pack.Bytes with
  | none => pure none
  | some rtp => if ← p.isKeyframe rtp then pure (some rtp) else pure none

/-- The keyframe branch of `Pusher.Start` (lines 265 to 274) after the cache
reset: the payload hooks and the rewrite of `pack.Buffer`. -/
def Pusher.rewriteKeyframe (p : Pusher) (pack : RTPPack) (rtp : RTPInfo) : Go RTPPack := do
  let payload : List Byte := []
  let client ← match p.Client with
    | some c => pure c
    | none => .panic .nilDereference
  let payload ←
    if client.options.IsEncrypt then do
      let arg ← rtp.Payload.sliceFrom 2
      match client.EncryptPack with
      | some f => pure (f arg (rtp.SequenceNumber % 65536).toNat)
      | none => .panic .nilDereference
    else pure payload
  let payload ←
    if client.options.IsDecode then do
      let arg ← rtp.Payload.sliceFrom 2
      match client.DecodePack with
      | some f => pure (f arg)
      | none => .panic .nilDereference
    else pure payload
  let newPayload : List Byte := (← rtp.Payload.sliceTo 2).elems ++ payload
  let header ← pack.Bytes.sliceTo rtp.PayloadOffset
  pure { pack with Buffer := header.elems ++ newPayload }

/-- The body of the loop of `Pusher.Start` for a dequeued non-nil pack (lines
261 to 279): GOP caching, then the broadcast. -/
def Pusher.process (p : Pusher) (pack : RTPPack) : Go Pusher := do
  if p.gopCacheEnable && pack.Type_ == RTP_TYPE_VIDEO then
    match ← p.keyframeInfo pack with
    | some rtp =>
      let p : Pusher := { p with gopCache := [] }
      let pack ← p.rewriteKeyframe pack rtp
      let p : Pusher := { p with gopCache := p.gopCache ++ [pack] }
      pure (p.BroadcastRTP pack)
    | none =>
      let p : Pusher := { p with gopCache := p.gopCache ++ [pack] }
      pure (p.BroadcastRTP pack)
  else
    pure (p.BroadcastRTP pack)

/-- The loop body of `Pusher.Start` applied to the packs of the inbound queue in
order. -/
def Pusher.processAll (p : Pusher) (packs : List RTPPack) : Go Pusher :=
  match packs with
  | [] => pure p
  | pack :: rest => do
    let p ← p.process pack
    p.processAll rest

/-! ## Sample pushers, packs and players -/

/-- A client with every option off, video codec `h264` and no callbacks. -/
def plainClient : Client :=
  { options := { Debug := false, CustomPath := "", IsEncrypt := false, IsDecode := false }
    Path := "/live", Stopped := false
    VCodec := "h264", VControl := "", ACodec := "", AControl := "", SDPRaw := ""
    EncryptPack := none, DecodePack := none }

/-- The pusher that `NewClientPusher` builds around `plainClient`. -/
def clientPusher : Pusher :=
  { Session := none, Client := some plainClient, players := [], gopCacheEnable := true,
    gopCache := [], queue := [] }

/-- A fixed RTP header: version 2, no padding, no extension, no CSRC. -/
def plainHeader : List Byte := [0x80, 0x60, 0, 1,  0, 0, 0, 0,  0, 0, 0, 1]

/-- A video pack carrying an IDR slice (NAL type 5) with a 4-byte payload. -/
def keyPack : RTPPack := ⟨ RTP_TYPE_VIDEO, plainHeader ++ [0x65, 0x88, 0x84, 0x21]⟩

/-- A video pack carrying a non-IDR slice (NAL type 1). -/
def deltaPack : RTPPack := ⟨ RTP_TYPE_VIDEO, plainHeader ++ [0x41, 0x9a, 0x02, 0x03]⟩

/-- An audio pack. -/
def audioPack : RTPPack := ⟨ RTP_TYPE_AUDIO, plainHeader ++ [0x21, 0x10, 0x04]⟩

/-- The player that `NewPlayer` builds for a session with the given ID. -/
def newPlayer (id : String) : Player :=
  { Session := { ID := id, URL := none, VCodec := "", VControl := "", ACodec := "", AControl := "",
                 SDPRaw := "", Stopped := false }
    queue := [], queueLimit := 0, dropPacketWhenPaused := false, paused := false }

/-- A parsed header whose payload is a fragmentation unit (type 28) that starts
an IDR slice. -/
def fuStartInfo : RTPInfo :=
  { Version := 2, Padding := false, Extension := false, CSRCCnt := 0, Marker := false,
    PayloadType := 96, SequenceNumber := 1, Timestamp := 0, SSRC := 1,
    Payload := ⟨[0x7c, 0x85, 0x88], []⟩, PayloadOffset := 12 }

/-! ### Notions used to state the claims on the pusher -/

/-- The payload hooks of a client can be called: an option that is switched on
comes with its callback. -/
def Client.hooksSet (c : Client) : Bool :=
  (!c.options.IsEncrypt || c.EncryptPack.isSome) && (!c.options.IsDecode || c.DecodePack.isSome)

/-- Video packs of a list, in order. -/
def videoPacks (packs : List RTPPack) : List RTPPack :=
  packs.filter (fun f => f.Type_ == RTP_TYPE_VIDEO)

/-- Queue of the player registered under `id`, empty when there is none. -/
def Pusher.queueOf (p : Pusher) (id : String) : List RTPPack :=
  match p.players.get id with
  | some pl => pl.queue
  | none => []

/-- The pusher `clientPusher` with one subscriber. -/
def watchedPusher : Pusher := { clientPusher with players := [("a", newPlayer "a")] }

/-- What `Pusher.Start` stores and broadcasts for `keyPack` when no payload hook
is configured: the header and the first two payload bytes. -/
def keyPackStored : RTPPack := ⟨ RTP_TYPE_VIDEO, plainHeader ++ [0x65, 0x88]⟩

/-- The header that `ParseRTP` returns for `keyPack`. -/
def keyPackInfo : RTPInfo :=
  { Version := 2, Padding := false, Extension := false, CSRCCnt := 0, Marker := false,
    PayloadType := 96, SequenceNumber := 1, Timestamp := 0, SSRC := 1,
    Payload := ⟨[0x65, 0x88, 0x84, 0x21], []⟩, PayloadOffset := 12 }

/-- A player with queue limit 2. -/
def boundedPlayer : Player := { newPlayer "c" with queueLimit := 2 }

/-! ## server.go -/

/-- The struct `Server`: the registry `pushers`, the plain fields, and whether
`pushersLock` is held (a new lock is free). The two channels carry no state:
see `chanSend`. -/
structure Server where
  TCPPort : Int
  Stopped : Bool
  pushers : GoMap Pusher
  pushersLock : Bool := false

/-- The call `s.pushersLock.Lock()`. A call of this development is the whole
run of a method; it finds the lock held only when an earlier call has returned,
panicked or blocked while holding it, and then nothing releases the lock any
more: the caller waits for ever. -/
def Server.Lock : Act Server Unit := fun s =>
  if s.pushersLock then (.panic .blocked, s) else (.ok (), { s with pushersLock := true })

/-- The call `s.pushersLock.Unlock()`. -/
def Server.Unlock : Act Server Unit := Act.modify fun s => { s with pushersLock := false }

/-- The method `Server.GetPusher`; `none` is the nil pusher. `RLock` waits
while the lock is held for writing, and `RUnlock` undoes it. -/
def Server.GetPusher (path : String) : Act Server (Option Pusher) := fun s =>
  if s.pushersLock then (.panic .blocked, s) else (.ok (s.pushers.get path), s)

/-- The method `Server.AddPusher` (server.go:128-140). The `return false` of
line 131 leaves the lock held. The statement `go pusher.Start()` starts the
loop whose turn is `Pusher.process`; it is not recorded. -/
def Server.AddPusher (pusher : Pusher) : Act Server Bool := do
  Server.Lock
  let path ← Act.read fun _ => pusher.Path
  let s ← Act.get
  match s.pushers.get path with
  | some _ => pure false
  | none =>
    let path ← Act.read fun _ => pusher.Path
    Act.modify fun s => { s with pushers := s.pushers.set path pusher }
    Server.Unlock
    chanSend
    pure true

/-- The method `Server.RemovePusher` (server.go:88-100). -/
def Server.RemovePusher (pusher : Pusher) : Act Server Unit := do
  Server.Lock
  let path ← Act.read fun _ => pusher.Path
  let s ← Act.get
  let removed ←
    match s.pushers.get path with
    | some _pusher =>
      if (← Act.read fun _ => pusher.ID) = (← Act.read fun _ => _pusher.ID) then do
        let path ← Act.read fun _ => pusher.Path
        Act.modify fun s => { s with pushers := s.pushers.delete path }
        pure true
      else pure false
    | none => pure false
  Server.Unlock
  if removed then chanSend

/-! ### Sample servers -/

/-- A session that announced the stream at `path`. -/
def announcedSession (id path : String) : Session :=
  { ID := id, URL := some { Path := path }, VCodec := "h264", VControl := "", ACodec := "", AControl := "",
    SDPRaw := "", Stopped := false }

/-- The pusher that `NewPusher` builds around `announcedSession id path`. -/
def sessionPusher (id path : String) : Pusher :=
  { Session := some (announcedSession id path), Client := none, players := [],
    gopCacheEnable := true, gopCache := [], queue := [] }

/-- A server whose registry holds `clientPusher` at its path `/live`. -/
def clientServer : Server := { TCPPort := 554, Stopped := false, pushers := [("/live", clientPusher)] }

/-- A server whose registry holds the session-backed pusher `s1` at `/cam`. -/
def sessionServer : Server :=
  { TCPPort := 554, Stopped := false, pushers := [("/cam", sessionPusher "s1" "/cam")] }

/-! ## base: requests and responses -/

/-- The type `base.HeaderValue`. -/
abbrev HeaderValue := List String

/-- The type `base.Header`; a nil header map reads like an empty one. -/
abbrev Header := GoMap HeaderValue

/-- Go `h[key]` on a header map: the nil value when the key is absent. -/
def Header.values (h : Header) (key : String) : HeaderValue := (h.get key).getD []

/-- The struct `base.Request`. A Go `string` and a `[]byte` body are both kept
as `String`, one character for each byte. -/
structure Request where
  Method : String
  URL : Option URL
  Header : Header
  Body : String
  deriving DecidableEq, Repr

/-- The struct `base.Response`. -/
structure Response where
  StatusCode : Int
  StatusMessage : String
  Header : Header
  Body : String
  deriving DecidableEq, Repr

/-- The status codes that `session.go` uses. -/
def StatusOK : Int := 200

/-- Status 401. -/
def StatusUnauthorized : Int := 401

/-- Status 404. -/
def StatusNotFound : Int := 404

/-- Status 406. -/
def StatusNotAcceptable : Int := 406

/-- Status 500. -/
def StatusInternalServerError : Int := 500

/-! ## sdpParser.go : the type of its result -/

/-- The struct `SDPInfo`. -/
structure SDPInfo where
  AVType : String
  Codec : String
  TimeScale : Int
  Control : String
  RtpMap : Int
  Config : List Byte
  ParameterSets : List (List Byte)
  PayloadType : Int
  SizeLength : Int
  IndexLength : Int
  deriving DecidableEq, Repr

/-! ## Library code and code outside this development -/

/-- Functions that the request handler calls and that it takes as they come:
the helpers of package `utils` (not part of the sources at hand), the Go
libraries `net/url`, `regexp`, `strconv` and `encoding/base64`, and `ParseSDP`,
whose result the handler only stores (the function itself is embedded further
down). Every statement on the handler holds for all of them. -/
structure Lib where
  Md5Hex : String → String
  KeyValParse : String → Char → Except String (GoMap String)
  base64 : String → String
  urlString : URL → String
  urlPort : URL → String
  urlParse : String → Except String URL
  FindStringSubmatch : String → Option (List String)
  Atoi : String → Int
  ParseSDP : String → Go (GoMap SDPInfo)

/-! ## headers : authenticate.go -/

/-- The type `AuthMethod`. -/
inductive AuthMethod where
  | AuthBasic
  | AuthDigest
  deriving DecidableEq, Repr

open AuthMethod

/-- The integer behind an `AuthMethod` (`iota`). -/
def AuthMethod.toNat : AuthMethod → Nat
  | AuthBasic => 0
  | AuthDigest => 1

/-- The struct `Authenticate`; a nil `*string` is `none`. -/
structure Authenticate where
  Method : AuthMethod
  Username : Option String
  Realm : Option String
  Nonce : Option String
  URI : Option String
  Response : Option String
  Opaque : Option String
  Stale : Option String
  Algorithm : Option String
  deriving DecidableEq, Repr

/-- The zero value of `Authenticate` (`var auth Authenticate`). -/
def Authenticate.zero : Authenticate :=
  { Method := AuthBasic, Username := none, Realm := none, Nonce := none, URI := none,
    Response := none, Opaque := none, Stale := none, Algorithm := none }

/-- Go `strings.HasPrefix`. -/
def strings.HasPrefix (s pre : String) : Bool := pre.toList.isPrefixOf s.toList

/-- Go `i := strings.IndexByte(v0, ' ')` followed by `v0[:i], v0[i+1:]`: the
text before the first space and the text after it; `none` when `i < 0`. -/
def splitAtSpace (v0 : String) : Option (String × String) :=
  if ' ' ∈ v0.toList then
    some (String.mk (v0.toList.takeWhile (fun c => c ≠ ' ')),
      String.mk ((v0.toList.dropWhile (fun c => c ≠ ' ')).drop 1))
  else none

/-- The statement `h.F = &v` of the loop over the parsed pairs, for the key `k`:
the pairs of a Go map have distinct keys, so each field is set from its own key. -/
def fieldFrom (kvs : GoMap String) (k : String) (old : Option String) : Option String :=
  match kvs.get k with
  | some v => some v
  | none => old

/-- Go `fmt.Sprintf("%v", v)` for a `base.HeaderValue`, a slice of strings:
the elements between brackets, separated by one space. -/
def HeaderValue.format (v : HeaderValue) : String := "[" ++ " ".intercalate v ++ "]"

/-- The method `Authenticate.Read`: the receiver after a successful read, or
the error with its text. -/
def Authenticate.Read (lib : Lib) (h : Authenticate) (v : HeaderValue) :
    Except String Authenticate :=
  match v with
  | [] => .error "value not provided"
  | [v0] =>
    match splitAtSpace v0 with
    | none => .error ("unable to split between method and keys (" ++ v0 ++ ")")
    | some (method, rest) =>
      let h? : Option Authenticate :=
        if method = "Basic" then some { h with Method := AuthBasic }
        else if method = "Digest" then some { h with Method := AuthDigest }
        else none
      match h? with
      | none => .error ("invalid method (" ++ method ++ ")")
      | some h =>
        match lib.KeyValParse rest ',' with
        | .error e => .error e
        | .ok kvs =>
          .ok { h with
            Username := fieldFrom kvs "username" h.Username
            Realm := fieldFrom kvs "realm" h.Realm
            Nonce := fieldFrom kvs "nonce" h.Nonce
            URI := fieldFrom kvs "uri" h.URI
            Response := fieldFrom kvs "response" h.Response
            Opaque := fieldFrom kvs "opaque" h.Opaque
            Stale := fieldFrom kvs "stale" h.Stale
            Algorithm := fieldFrom kvs "algorithm" h.Algorithm }
  | v0 :: v1 :: rest => .error ("value provided multiple times (" ++ HeaderValue.format (v0 :: v1 :: rest) ++ ")")

/-- Go `key="value"`, one item of `Authenticate.Write`. -/
def quoted (key : String) (value : Option String) : List String :=
  match value with
  | some v => [key ++ "=\"" ++ v ++ "\""]
  | none => []

/-- The method `Authenticate.Write`. -/
def Authenticate.Write (h : Authenticate) : HeaderValue :=
  let ret : String :=
    match h.Method with
    | AuthBasic => "Basic"
    | AuthDigest => "Digest"
  let ret := ret ++ " "
  let rets : List String :=
    quoted "username" h.Username ++ quoted "realm" h.Realm ++ quoted "nonce" h.Nonce ++
    quoted "uri" h.URI ++ quoted "response" h.Response ++ quoted "opaque" h.Opaque ++
    quoted "stale" h.Stale ++ quoted "algorithm" h.Algorithm
  [ret ++ ", ".intercalate rets]

/-! ## headers : sender.go -/

/-- Modelled from the spec: the struct `Authorization` of package `headers`,
whose declaration is not part of the sources at hand. `AddAuthorization` fills
its fields `Method`, `BasicUser`, `BasicPass` and `DigestValues`. -/
structure Authorization where
  Method : AuthMethod
  BasicUser : String
  BasicPass : String
  DigestValues : Authenticate
  deriving DecidableEq, Repr

/-- Modelled from the spec: the method `Authorization.Write`, not part of the
sources at hand. The spec gives the header as `Basic <base64(user ":" pass)>`
for Basic and as `Digest username="…", realm="…", nonce="…", uri="…",
response="…"` for Digest. -/
def Authorization.Write (lib : Lib) (h : Authorization) : HeaderValue :=
  match h.Method with
  | AuthBasic => ["Basic " ++ lib.base64 (h.BasicUser ++ ":" ++ h.BasicPass)]
  | AuthDigest => h.DigestValues.Write

/-- The struct `Sender`. -/
structure Sender where
  user : String
  pass : String
  method : AuthMethod
  auth : Authenticate
  deriving DecidableEq, Repr

/-- The closures of `NewSender`: the first value with the given start, or `""`. -/
def firstStartingWith (start : String) (v : HeaderValue) : String :=
  match v with
  | [] => ""
  | vi :: rest => if strings.HasPrefix vi start then vi else firstStartingWith start rest

/-- The function `NewSender`: the sender, or the error. -/
def NewSender (lib : Lib) (v : HeaderValue) (user pass : String) : Except String Sender :=
  if firstStartingWith "Digest" v ≠ "" then
    match Authenticate.Read lib Authenticate.zero [firstStartingWith "Digest" v] with
    | .error e => .error e
    | .ok auth =>
      if auth.Realm = none then .error "realm is missing"
      else if auth.Nonce = none then .error "nonce is missing"
      else .ok { user := user, pass := pass, method := AuthDigest, auth := auth }
  else if firstStartingWith "Basic" v ≠ "" then
    match Authenticate.Read lib Authenticate.zero [firstStartingWith "Basic" v] with
    | .error e => .error e
    | .ok auth =>
      if auth.Realm = none then .error "realm is missing"
      else .ok { user := user, pass := pass, method := AuthBasic, auth := auth }
  else .error "no authentication methods available"

/-- Go `*p` on a `*string`. -/
def derefString (p : Option String) : Go String :=
  match p with
  | some v => .ok v
  | none => .panic .nilDereference

/-- Go `req.URL.String()`. -/
def Request.urlString (lib : Lib) (req : Request) : Go String :=
  match req.URL with
  | some u => .ok (lib.urlString u)
  | none => .panic .nilDereference

/-- Lines 86 to 113 of `Sender.AddAuthorization`: the value `h` that is written
into the header. -/
def Sender.authorization (lib : Lib) (se : Sender) (req : Request) : Go Authorization := do
  let urStr ← req.urlString lib
  let h : Authorization :=
    { Method := se.method, BasicUser := "", BasicPass := "", DigestValues := Authenticate.zero }
  match se.method with
  | AuthBasic => pure { h with BasicUser := se.user, BasicPass := se.pass }
  | AuthDigest =>
    let realm ← derefString se.auth.Realm
    let nonce ← derefString se.auth.Nonce
    let response : String :=
      lib.Md5Hex (lib.Md5Hex (se.user ++ ":" ++ realm ++ ":" ++ se.pass) ++ ":" ++ nonce ++ ":" ++
        lib.Md5Hex (req.Method ++ ":" ++ urStr))
    pure { h with
      DigestValues :=
        { Method := AuthDigest, Username := some se.user, Realm := se.auth.Realm,
          Nonce := se.auth.Nonce, URI := some urStr, Response := some response,
          Opaque := none, Stale := none, Algorithm := none } }

/-- The method `Sender.AddAuthorization`: the request afterwards. -/
def Sender.AddAuthorization (lib : Lib) (se : Sender) (req : Request) : Go Request := do
  let h ← se.authorization lib req
  pure { req with Header := req.Header.set "Authorization" (h.Write lib) }

/-- Go `string(se.method)`: the conversion of an integer to a string gives the
one-rune string of that code point. -/
def AuthMethod.toString (m : AuthMethod) : String := String.singleton (Char.ofNat m.toNat)

/-- The method `Sender.CheckAuth`: `Except.ok ()` is the nil error. -/
def Sender.CheckAuth (lib : Lib) (se : Sender) (url : Option URL) : Go (Except String Unit) := do
  let urStr ← match url with
    | some u => pure (lib.urlString u)
    | none => .panic .nilDereference
  let realm ← derefString se.auth.Realm
  let nonce ← derefString se.auth.Nonce
  let response : String :=
    lib.Md5Hex (lib.Md5Hex (se.user ++ ":" ++ realm ++ ":" ++ se.pass) ++ ":" ++ nonce ++ ":" ++
      lib.Md5Hex (se.method.toString ++ ":" ++ urStr))
  let given ← derefString se.auth.Response
  if response ≠ given then pure (.error " response not equal ") else pure (.ok ())

/-- The digest that `Sender.AddAuthorization` writes: the values of lines 105 to
112 for user, password, realm, nonce, request method and URL text. -/
def digestValues (lib : Lib) (user pass realm nonce method urStr : String) : Authenticate :=
  { Method := AuthDigest, Username := some user, Realm := some realm, Nonce := some nonce,
    URI := some urStr,
    Response := some (lib.Md5Hex (lib.Md5Hex (user ++ ":" ++ realm ++ ":" ++ pass) ++ ":" ++ nonce ++
      ":" ++ lib.Md5Hex (method ++ ":" ++ urStr))),
    Opaque := none, Stale := none, Algorithm := none }

/-- A stand-in for the library: a hash that wraps its argument (so it has no
collisions), a key-value parser that always finds realm `r` and nonce `n`, and
a URL printer that prints `rtsp://h` before the path. -/
def sampleLib : Lib :=
  { Md5Hex := fun s => "md5(" ++ s ++ ")"
    KeyValParse := fun _ _ => .ok [("realm", "r"), ("nonce", "n")]
    base64 := fun s => s
    urlString := fun u => "rtsp://h" ++ u.Path
    urlPort := fun _ => ""
    urlParse := fun s => .ok { Path := s }
    FindStringSubmatch := fun _ => none
    Atoi := fun _ => 0
    ParseSDP := fun _ => .ok [] }

/-- A Digest sender for user `u`, password `p`, realm `r`, nonce `n`. -/
def sampleSender : Sender :=
  { user := "u", pass := "p", method := AuthDigest,
    auth := { Authenticate.zero with Method := AuthDigest, Realm := some "r", Nonce := some "n" } }

/-- The request `DESCRIBE rtsp://h/s`. -/
def describeRequest : Request :=
  { Method := "DESCRIBE", URL := some { Path := "/s" }, Header := [], Body := "" }

/-- What `NewSender` does with the value it has chosen: read it, then demand a
realm, and for Digest a nonce. -/
def senderFrom (lib : Lib) (method : AuthMethod) (v0 user pass : String) : Except String Sender :=
  match Authenticate.Read lib Authenticate.zero [v0] with
  | .error e => .error e
  | .ok auth =>
    if auth.Realm = none then .error "realm is missing"
    else if method = AuthDigest ∧ auth.Nonce = none then .error "nonce is missing"
    else .ok { user := user, pass := pass, method := method, auth := auth }

/-- Two Basic challenges around a Digest challenge. -/
def mixedChallenges : HeaderValue :=
  ["Basic realm=\"r\"", "Digest realm=\"r\", nonce=\"n\"", "Basic realm=\"q\""]

/-- The word that names a method in a challenge. -/
def AuthMethod.word : AuthMethod → String
  | AuthBasic => "Basic"
  | AuthDigest => "Digest"

/-- The value `Authenticate.Read` leaves in a zero `Authenticate` when the
method is `method` and the parsed pairs are `kvs`: each field holds the value
of its key, or nil when the key is absent. -/
def authFrom (method : AuthMethod) (kvs : GoMap String) : Authenticate :=
  { Method := method, Username := kvs.get "username", Realm := kvs.get "realm", Nonce := kvs.get "nonce",
    URI := kvs.get "uri", Response := kvs.get "response", Opaque := kvs.get "opaque",
    Stale := kvs.get "stale", Algorithm := kvs.get "algorithm" }

/-- A stand-in for `utils.KeyValParse` on three sample texts: a realm with a
nonce, a realm alone, a nonce alone. -/
def challengeLib : Lib :=
  { sampleLib with
    KeyValParse := fun s _ =>
      if s = "realm=\"r\", nonce=\"n\"" then .ok [("realm", "r"), ("nonce", "n")]
      else if s = "realm=\"r\"" then .ok [("realm", "r")]
      else if s = "nonce=\"n\"" then .ok [("nonce", "n")]
      else .error "unable to read key" }

/-! ## The control path: objects behind pointers

`RebindSession`, `Session.Stop` and `handleRequest` work on sessions, pushers
and players that point at each other, and the closures in `StopHandles` compare
pointers. For these functions the objects live in a `World` and are named by
pointers. A function is the whole run of its body on the world: it returns,
panics, or blocks on `pushersLock` or on a channel of the server. -/

/-- The type `TransType`. -/
inductive TransType where
  | TransTypeTcp
  | TransTypeUdp
  deriving DecidableEq, Repr

/-- The type `SessionType`. -/
inductive SessionType where
  | SESSION_TYPE_PUSHER
  | SESSION_TYPE_PLAYER
  deriving DecidableEq, Repr

open TransType SessionType

/-- A closure stored in `Session.StopHandles`, as the variables it captured:
`releasePusher p s` is the closure that `bindSession` appends (pusher.go:208),
`leavePusher pusher player` the one that `NewPlayer` appends (player.go:30). -/
inductive StopHandle where
  | releasePusher (p s : Ptr)
  | leavePusher (pusher player : Ptr)
  deriving DecidableEq, Repr

/-- A goroutine started by a `go` statement on a function literal, as the
variables that the literal captured. The world records it when it is started;
`Goroutine.run` is its body. `stopPlayers players` is the goroutine that
`ClearPlayer` starts (pusher.go:178-182). -/
inductive Goroutine where
  | stopPlayers (players : GoMap Ptr)
  deriving DecidableEq, Repr

/-- The struct `SessionOptions`; `conn` says whether the connection is non-nil. -/
structure SessionOptions where
  Server : Option Ptr
  conn : Bool
  CloseOld : Bool
  Authorization : Bool
  Timeout : Int
  deriving DecidableEq, Repr

/-- The struct `Session` with its pointers; the buffered connection, the lock,
`cSeq`, `sessionID` and `RTPHandles` are left out. -/
structure Heap.Session where
  ID : String
  options : SessionOptions
  TransType : TransType
  Type_ : SessionType
  URL : Option URL
  VCodec : String
  VControl : String
  ACodec : String
  AControl : String
  authorization : Bool
  SDPRaw : String
  SDPMap : GoMap SDPInfo
  Stopped : Bool
  closeOld : Bool
  aRtpPort : Int
  aRtcpPort : Int
  vRtpPort : Int
  vRtcpPort : Int
  Pusher : Option Ptr
  Player : Option Ptr
  StopHandles : List StopHandle
  deriving DecidableEq, Repr

/-- The struct `Pusher` with its pointers. -/
structure Heap.Pusher where
  Session : Option Ptr
  Client : Option Rtsp.Client
  players : GoMap Ptr
  gopCacheEnable : Bool
  gopCache : List RTPPack
  queue : List (Option RTPPack)

/-- The struct `Player` with its pointers. -/
structure Heap.Player where
  Session : Option Ptr
  Pusher : Option Ptr
  queue : List RTPPack
  queueLimit : Int
  dropPacketWhenPaused : Bool
  paused : Bool
  deriving DecidableEq, Repr

/-- The struct `Server`, its registry holding pointers; `pushersLock` says
whether the lock is held (a new lock is free). -/
structure Heap.Server where
  TCPPort : Int
  Stopped : Bool
  pushers : GoMap Ptr
  pushersLock : Bool := false
  deriving DecidableEq, Repr

/-- All objects of the program, each kind keyed by its pointers, and the
goroutines started by function literals, in the order in which they were
started. -/
structure Heap.World where
  sessions : GoMap Heap.Session
  pushers : GoMap Heap.Pusher
  players : GoMap Heap.Player
  servers : GoMap Heap.Server
  goroutines : List Goroutine := []

/-- A pointer that is about to be dereferenced: nil panics. -/
def Heap.nonNil {σ α : Type} (p : Option α) : Act σ α :=
  match p with
  | some q => pure q
  | none => Act.panic .nilDereference

/-- The session behind a pointer. -/
def Heap.session (p : Ptr) : Act Heap.World Heap.Session :=
  Act.read fun w => match w.sessions.get p with
    | some o => .ok o
    | none => .panic .nilDereference

/-- The pusher behind a pointer. -/
def Heap.pusher (p : Ptr) : Act Heap.World Heap.Pusher :=
  Act.read fun w => match w.pushers.get p with
    | some o => .ok o
    | none => .panic .nilDereference

/-- The player behind a pointer. -/
def Heap.player (p : Ptr) : Act Heap.World Heap.Player :=
  Act.read fun w => match w.players.get p with
    | some o => .ok o
    | none => .panic .nilDereference

/-- The server behind a pointer. -/
def Heap.server (p : Ptr) : Act Heap.World Heap.Server :=
  Act.read fun w => match w.servers.get p with
    | some o => .ok o
    | none => .panic .nilDereference

/-- Assignment to fields of a session. -/
def Heap.setSession (p : Ptr) (f : Heap.Session → Heap.Session) : Act Heap.World Unit := do
  let o ← Heap.session p
  Act.modify fun w => { w with sessions := w.sessions.set p (f o) }

/-- Assignment to fields of a pusher. -/
def Heap.setPusher (p : Ptr) (f : Heap.Pusher → Heap.Pusher) : Act Heap.World Unit := do
  let o ← Heap.pusher p
  Act.modify fun w => { w with pushers := w.pushers.set p (f o) }

/-- Assignment to fields of a player. -/
def Heap.setPlayer (p : Ptr) (f : Heap.Player → Heap.Player) : Act Heap.World Unit := do
  let o ← Heap.player p
  Act.modify fun w => { w with players := w.players.set p (f o) }

/-- Assignment to fields of a server. -/
def Heap.setServer (p : Ptr) (f : Heap.Server → Heap.Server) : Act Heap.World Unit := do
  let o ← Heap.server p
  Act.modify fun w => { w with servers := w.servers.set p (f o) }

/-- The accessors of `Pusher` (pusher.go:30-97): the field of the session if
the pusher has one, else the field of the client. -/
def Heap.Pusher.field {α : Type} (fs : Heap.Session → Go α) (fc : Rtsp.Client → α)
    (p : Option Ptr) : Act Heap.World α := do
  let po ← Heap.pusher (← Heap.nonNil p)
  match po.Session with
  | some s =>
    let so ← Heap.session s
    Act.read fun _ => fs so
  | none =>
    match po.Client with
    | some c => pure (fc c)
    | none => Act.panic .nilDereference

/-- The method `Pusher.Path`. -/
def Heap.Pusher.Path : Option Ptr → Act Heap.World String :=
  Heap.Pusher.field
    (fun s => match s.URL with
      | some u => .ok u.Path
      | none => .panic .nilDereference)
    (fun c => if c.options.CustomPath ≠ "" then c.options.CustomPath else c.Path)

/-- The method `Pusher.Server`. -/
def Heap.Pusher.Server : Option Ptr → Act Heap.World (Option Ptr) :=
  Heap.Pusher.field (fun s => .ok s.options.Server) (fun c => c.Server)

/-- The method `Pusher.VCodec`. -/
def Heap.Pusher.VCodec : Option Ptr → Act Heap.World String :=
  Heap.Pusher.field (fun s => .ok s.VCodec) (fun c => c.VCodec)

/-- The method `Pusher.ACodec`. -/
def Heap.Pusher.ACodec : Option Ptr → Act Heap.World String :=
  Heap.Pusher.field (fun s => .ok s.ACodec) (fun c => c.ACodec)

/-- The method `Pusher.AControl`. -/
def Heap.Pusher.AControl : Option Ptr → Act Heap.World String :=
  Heap.Pusher.field (fun s => .ok s.AControl) (fun c => c.AControl)

/-- The method `Pusher.VControl`. -/
def Heap.Pusher.VControl : Option Ptr → Act Heap.World String :=
  Heap.Pusher.field (fun s => .ok s.VControl) (fun c => c.VControl)

/-- The method `Pusher.SDPRaw`. -/
def Heap.Pusher.SDPRaw : Option Ptr → Act Heap.World String :=
  Heap.Pusher.field (fun s => .ok s.SDPRaw) (fun c => c.SDPRaw)

/-- The promoted field `pusher.ID`, which is `pusher.Session.ID`. -/
def Heap.Pusher.ID (p : Option Ptr) : Act Heap.World String := do
  let po ← Heap.pusher (← Heap.nonNil p)
  let so ← Heap.session (← Heap.nonNil po.Session)
  pure so.ID

/-- The promoted field `player.ID`, which is `player.Session.ID`. -/
def Heap.Player.ID (player : Option Ptr) : Act Heap.World String := do
  let pl ← Heap.player (← Heap.nonNil player)
  let so ← Heap.session (← Heap.nonNil pl.Session)
  pure so.ID

/-- The call `p.Client.Println(...)` on a pusher: see `Client.Println`. -/
def Heap.Pusher.clientPrintln (p : Ptr) : Act Heap.World Unit := do
  let po ← Heap.pusher p
  Act.read fun _ => Rtsp.Client.Println po.Client

/-- The method `Player.QueueRTP` for a non-nil pack. -/
def Heap.Player.QueueRTP (player : Option Ptr) (pack : RTPPack) : Act Heap.World Unit := do
  let q ← Heap.nonNil player
  let pl ← Heap.player q
  if pl.paused && pl.dropPacketWhenPaused then pure ()
  else
    Heap.setPlayer q fun o =>
      let queue := o.queue ++ [pack]
      { o with queue := if o.queueLimit > 0 ∧ (queue.length : Int) > o.queueLimit then queue.drop 1 else queue }

/-- The method `Session.String`: the text is not modelled, the dereferences of
`s`, `s.URL` and the connection are. -/
def Heap.Session.String_ (s : Option Ptr) : Act Heap.World Unit := do
  let so ← Heap.session (← Heap.nonNil s)
  match so.URL with
  | none => Act.panic .nilDereference
  | some _ => if so.options.conn then pure () else Act.panic .nilDereference

/-- The method `Player.Pause`; its log line evaluates `p.String()`, the method
of the embedded session. -/
def Heap.Player.Pause (player : Option Ptr) (b : Bool) : Act Heap.World Unit := do
  let q ← Heap.nonNil player
  let pl ← Heap.player q
  Heap.Session.String_ pl.Session
  Heap.setPlayer q fun o =>
    { o with
      queue := if b && o.dropPacketWhenPaused && decide (o.queue.length > 0) then [] else o.queue
      paused := b }

/-- The method `Pusher.HasPlayer`. -/
def Heap.Pusher.HasPlayer (p player : Option Ptr) : Act Heap.World Bool := do
  let po ← Heap.pusher (← Heap.nonNil p)
  let id ← Heap.Player.ID player
  pure (po.players.get id).isSome

/-- The loop of `Pusher.AddPlayer` over the GOP cache. -/
def Heap.Pusher.replay (player : Option Ptr) : List RTPPack → Act Heap.World Unit
  | [] => pure ()
  | pack :: rest => do
    Heap.Player.QueueRTP player pack
    Heap.Pusher.replay player rest

/-- The method `Pusher.AddPlayer`. -/
def Heap.Pusher.AddPlayer (p player : Option Ptr) : Act Heap.World Unit := do
  let q ← Heap.nonNil p
  let po ← Heap.pusher q
  if po.gopCacheEnable then Heap.Pusher.replay player po.gopCache
  let pl ← Heap.nonNil player
  let id ← Heap.Player.ID (some pl)
  let po ← Heap.pusher q
  match po.players.get id with
  | some _ => pure ()
  | none =>
    Heap.setPusher q fun o => { o with players := o.players.set id pl }
    Heap.Pusher.clientPrintln q

/-- The method `Pusher.ClearPlayer`: the subscriber set is replaced by an
empty map, and a goroutine is started on the old one. -/
def Heap.Pusher.ClearPlayer (p : Ptr) : Act Heap.World Unit := do
  let po ← Heap.pusher p
  Heap.setPusher p fun o => { o with players := [] }
  Act.modify fun w => { w with goroutines := w.goroutines ++ [.stopPlayers po.players] }

/-- The method `Pusher.RemovePlayer`. -/
def Heap.Pusher.RemovePlayer (p : Ptr) (player : Option Ptr) : Act Heap.World Unit := do
  let po ← Heap.pusher p
  if po.players.size = 0 then pure ()
  else
    let id ← Heap.Player.ID player
    Heap.setPusher p fun o => { o with players := o.players.delete id }
    Heap.Pusher.clientPrintln p

/-- The method `Pusher.bindSession`. -/
def Heap.Pusher.bindSession (p : Ptr) (s : Option Ptr) : Act Heap.World Unit := do
  Heap.setPusher p fun o => { o with Session := s }
  let q ← Heap.nonNil s
  Heap.setSession q fun o => { o with StopHandles := o.StopHandles ++ [.releasePusher p q] }

/-- The call `s.pushersLock.Lock()` on the server behind `sv`: see
`Server.Lock`. -/
def Heap.Server.Lock (sv : Ptr) : Act Heap.World Unit := do
  let so ← Heap.server sv
  if so.pushersLock then Act.panic .blocked
  else Heap.setServer sv fun o => { o with pushersLock := true }

/-- The call `s.pushersLock.Unlock()`. -/
def Heap.Server.Unlock (sv : Ptr) : Act Heap.World Unit :=
  Heap.setServer sv fun o => { o with pushersLock := false }

/-- The call `s.pushersLock.RLock()`, which waits while the lock is held for
writing; the `RUnlock` that follows the read undoes it. -/
def Heap.Server.RLock (sv : Ptr) : Act Heap.World Unit := do
  let so ← Heap.server sv
  if so.pushersLock then Act.panic .blocked else pure ()

/-- The method `Server.RemovePusher` (server.go:88-100). -/
def Heap.Server.RemovePusher (srv : Option Ptr) (pusher : Ptr) : Act Heap.World Unit := do
  let sv ← Heap.nonNil srv
  Heap.Server.Lock sv
  let so ← Heap.server sv
  let path ← Heap.Pusher.Path (some pusher)
  let removed ←
    match so.pushers.get path with
    | some _pusher =>
      if (← Heap.Pusher.ID (some pusher)) = (← Heap.Pusher.ID (some _pusher)) then do
        let path ← Heap.Pusher.Path (some pusher)
        Heap.setServer sv fun o => { o with pushers := o.pushers.delete path }
        pure true
      else pure false
    | none => pure false
  Heap.Server.Unlock sv
  if removed then chanSend

/-- The method `Server.GetPusher`. -/
def Heap.Server.GetPusher (srv : Option Ptr) (path : String) : Act Heap.World (Option Ptr) := do
  let sv ← Heap.nonNil srv
  Heap.Server.RLock sv
  let so ← Heap.server sv
  pure (so.pushers.get path)

/-- The method `Server.AddPusher` (server.go:128-140). The `return false` of
line 131 leaves the lock held. The statement `go pusher.Start()` starts the
loop whose turn is `Pusher.process`; it is not recorded. -/
def Heap.Server.AddPusher (srv : Option Ptr) (pusher : Ptr) : Act Heap.World Bool := do
  let sv ← Heap.nonNil srv
  Heap.Server.Lock sv
  let so ← Heap.server sv
  match so.pushers.get (← Heap.Pusher.Path (some pusher)) with
  | some _ => pure false
  | none =>
    let path ← Heap.Pusher.Path (some pusher)
    Heap.setServer sv fun o => { o with pushers := o.pushers.set path pusher }
    Heap.Server.Unlock sv
    chanSend
    pure true

/-- One closure of `StopHandles`, run. -/
def StopHandle.run : StopHandle → Act Heap.World Unit
  | .releasePusher p s => do
    let po ← Heap.pusher p
    if some s ≠ po.Session then
      let _ ← Heap.session (← Heap.nonNil po.Session)
      Heap.Pusher.clientPrintln p
    else
      Heap.Pusher.ClearPlayer p
      Heap.Server.RemovePusher (← Heap.Pusher.Server (some p)) p
  | .leavePusher pusher player =>
    Heap.Pusher.RemovePlayer pusher (some player)

/-- The loop of `Session.Stop` over the handles. -/
def Heap.Session.runStopHandles : List StopHandle → Act Heap.World Unit
  | [] => pure ()
  | h :: rest => do
    h.run
    Heap.Session.runStopHandles rest

/-- The method `Session.Stop`. -/
def Heap.Session.Stop (s : Option Ptr) : Act Heap.World Unit := do
  let q ← Heap.nonNil s
  let so ← Heap.session q
  if so.Stopped then pure ()
  else
    Heap.setSession q fun o => { o with Stopped := true }
    Heap.Session.runStopHandles so.StopHandles
    let so ← Heap.session q
    if so.options.conn then
      Heap.setSession q fun o => { o with options := { o.options with conn := false } }

/-- The method `Pusher.RebindSession`. -/
def Heap.Pusher.RebindSession (p : Ptr) (session : Option Ptr) : Act Heap.World Bool := do
  let po ← Heap.pusher p
  match po.Client with
  | some c =>
    let _ ← Heap.session (← Heap.nonNil session)
    Act.read fun _ => Rtsp.Client.Println (some c)
    pure false
  | none =>
    Heap.Pusher.bindSession p session
    Heap.setSession (← Heap.nonNil session) fun o => { o with Pusher := some p }
    Heap.setPusher p fun o => { o with gopCache := [] }
    let po ← Heap.pusher p
    if po.Session ≠ none then Heap.Session.Stop po.Session
    pure true

/-- The body of the goroutine of `ClearPlayer`: `v.Stop()` for every player
`v` of the map it captured, `Stop` being the method of the session that the
player embeds. Go ranges over a map in no fixed order; the order taken here is
that of the list. -/
def Heap.stopPlayers : List (String × Ptr) → Act Heap.World Unit
  | [] => pure ()
  | (_, v) :: rest => do
    let pl ← Heap.player v
    Heap.Session.Stop pl.Session
    Heap.stopPlayers rest

/-- The body of a recorded goroutine. -/
def Goroutine.run : Goroutine → Act Heap.World Unit
  | .stopPlayers players => Heap.stopPlayers players

/-- The method `Server.TryAttachToPusher` (server.go:110-125), which holds the
lock while it calls `RebindSession`; of its two results the integer is the one
that is used. -/
def Heap.Server.TryAttachToPusher (srv session : Option Ptr) : Act Heap.World Int := do
  let sv ← Heap.nonNil srv
  Heap.Server.Lock sv
  let so ← Heap.server sv
  let ss ← Heap.session (← Heap.nonNil session)
  match ss.URL with
  | none => Act.panic .nilDereference
  | some u =>
    let attached : Int ←
      match so.pushers.get u.Path with
      | some _pusher => do
        if ← Heap.Pusher.RebindSession _pusher session then pure 1 else pure (-1)
      | none => pure 0
    Heap.Server.Unlock sv
    pure attached

/-- The function `NewPusher`; `fresh` is the pointer of the new object. -/
def Heap.NewPusher (fresh : Ptr) (s : Option Ptr) : Act Heap.World Ptr := do
  let o : Heap.Pusher :=
    { Session := s, Client := none, players := [], gopCacheEnable := true, gopCache := [], queue := [] }
  Act.modify fun w => { w with pushers := w.pushers.set fresh o }
  Heap.Pusher.bindSession fresh s
  pure fresh

/-- The function `NewPlayer`; `fresh` is the pointer of the new object. -/
def Heap.NewPlayer (fresh : Ptr) (s : Ptr) (pusher : Ptr) : Act Heap.World Ptr := do
  let o : Heap.Player :=
    { Session := some s, Pusher := some pusher, queue := [], queueLimit := 0,
      dropPacketWhenPaused := false, paused := false }
  Act.modify fun w => { w with players := w.players.set fresh o }
  Heap.setSession s fun o => { o with StopHandles := o.StopHandles ++ [.leavePusher pusher fresh] }
  pure fresh

/-- The session that `NewSession` builds; `id` is what `shortid.MustGenerate`
returned. Every field that the literal does not name has its zero value. -/
def Heap.NewSession.value (options : SessionOptions) (id : String) : Heap.Session :=
  { ID := id, options := options, TransType := TransTypeTcp, Type_ := SESSION_TYPE_PUSHER, URL := none,
    VCodec := "", VControl := "", ACodec := "", AControl := "", authorization := false,
    SDPRaw := "", SDPMap := [], Stopped := false, closeOld := false,
    aRtpPort := -1, aRtcpPort := -1, vRtpPort := -1, vRtcpPort := -1,
    Pusher := none, Player := none, StopHandles := [] }

/-- The function `NewSession`; `fresh` is the pointer of the new object. -/
def Heap.NewSession (fresh : Ptr) (options : SessionOptions) (id : String) : Act Heap.World Ptr := do
  Act.modify fun w => { w with sessions := w.sessions.set fresh (Heap.NewSession.value options id) }
  pure fresh

/-! ## session.go : `handleRequest` -/

/-- What `handleRequest` works on: the world, its local `res`, and the
responses written to the connection so far. -/
structure Heap.Handler where
  world : Heap.World
  res : Response
  out : List Response

/-- Code on the world, run inside `handleRequest`. -/
def Act.onWorld {α : Type} (x : Act Heap.World α) : Act Heap.Handler α := fun st =>
  ((x st.world).1, { st with world := (x st.world).2 })

/-- The assignment `res.StatusCode = code`. -/
def Heap.setStatus (code : Int) : Act Heap.Handler Unit :=
  Act.modify fun st => { st with res := { st.res with StatusCode := code } }

/-- The assignment `res.Header[key] = v`. -/
def Heap.setHeader (key : String) (v : HeaderValue) : Act Heap.Handler Unit :=
  Act.modify fun st => { st with res := { st.res with Header := st.res.Header.set key v } }

/-- The assignment `res.Body = body`. -/
def Heap.setBody (body : String) : Act Heap.Handler Unit :=
  Act.modify fun st => { st with res := { st.res with Body := body } }

/-- The assignment `res.StatusMessage = msg`. -/
def Heap.setStatusMessage (msg : String) : Act Heap.Handler Unit :=
  Act.modify fun st => { st with res := { st.res with StatusMessage := msg } }

/-- The challenge that `Session.CheckAuth` sends. -/
def digestChallenge (nonce : String) : String :=
  "Digest realm=\"EasyDarwin\", nonce=\"" ++ nonce ++ "\", algorithm=\"MD5\""

/-- The method `Session.CheckAuth`; the result is the error, `none` for nil.
`nonce` is the hex text of the MD5 sum of a fresh `shortid`. -/
def Heap.Session.CheckAuth (lib : Lib) (nonce : String) (req : Request) : Act Heap.Handler (Option String) := do
  let u ← Heap.nonNil req.URL
  let pass := match u.User with
    | some ui => ui.password
    | none => ""
  let user := match u.User with
    | some ui => ui.username
    | none => ""
  match NewSender lib (req.Header.values "Authorization") user pass with
  | .error e => pure (some e)
  | .ok sender =>
    match ← Act.read fun _ => sender.CheckAuth lib req.URL with
    | .error e =>
      Heap.setStatus StatusUnauthorized
      Heap.setHeader "WWW-Authenticate" [digestChallenge nonce]
      pure (some e)
    | .ok _ => pure none

/-- The value of the header `Public` in the answer to OPTIONS. -/
def publicMethods : String := ", ".intercalate
  ["DESCRIBE", "SETUP", "TEARDOWN", "PLAY", "PAUSE", "OPTIONS", "ANNOUNCE", "RECORD"]

/-- The case `base.Announce` of `handleRequest` (session.go:318-359). -/
def Heap.Session.announce (lib : Lib) (fresh : Ptr) (s : Ptr) (req : Request) : Act Heap.Handler Unit := do
  Act.onWorld (Heap.setSession s fun o =>
    { o with Type_ := SESSION_TYPE_PUSHER, URL := req.URL, SDPRaw := req.Body })
  let sdpMap ← Act.read fun _ => lib.ParseSDP req.Body
  Act.onWorld (Heap.setSession s fun o => { o with SDPMap := sdpMap })
  match sdpMap.get "audio" with
  | some sdp => Act.onWorld (Heap.setSession s fun o => { o with AControl := sdp.Control, ACodec := sdp.Codec })
  | none => pure ()
  match sdpMap.get "video" with
  | some sdp => Act.onWorld (Heap.setSession s fun o => { o with VControl := sdp.Control, VCodec := sdp.Codec })
  | none => pure ()
  let so ← Act.onWorld (Heap.session s)
  let addPusher ←
    if so.closeOld then do
      let r ← Act.onWorld (Heap.Server.TryAttachToPusher so.options.Server (some s))
      if r < -1 then
        Heap.setStatus StatusNotAcceptable
        pure false
      else if r = 0 then pure true
      else pure false
    else pure true
  if addPusher then
    let p ← Act.onWorld (Heap.NewPusher fresh (some s))
    Act.onWorld (Heap.setSession s fun o => { o with Pusher := some p })
    let so ← Act.onWorld (Heap.session s)
    let addedToServer ← Act.onWorld (Heap.Server.AddPusher so.options.Server p)
    if !addedToServer then Heap.setStatus StatusNotAcceptable

/-- The case `base.Describe` of `handleRequest` (session.go:361-377). -/
def Heap.Session.describe (fresh : Ptr) (s : Ptr) (req : Request) : Act Heap.Handler Unit := do
  Act.onWorld (Heap.setSession s fun o => { o with Type_ := SESSION_TYPE_PLAYER, URL := req.URL })
  let so ← Act.onWorld (Heap.session s)
  let u ← Heap.nonNil req.URL
  match ← Act.onWorld (Heap.Server.GetPusher so.options.Server u.Path) with
  | none => Heap.setStatus StatusNotFound
  | some pusher =>
    let player ← Act.onWorld (Heap.NewPlayer fresh s pusher)
    Act.onWorld (Heap.setSession s fun o => { o with Player := some player })
    Act.onWorld (Heap.setSession s fun o => { o with Pusher := some pusher })
    let aControl ← Act.onWorld (Heap.Pusher.AControl (some pusher))
    Act.onWorld (Heap.setSession s fun o => { o with AControl := aControl })
    let aCodec ← Act.onWorld (Heap.Pusher.ACodec (some pusher))
    Act.onWorld (Heap.setSession s fun o => { o with ACodec := aCodec })
    let vControl ← Act.onWorld (Heap.Pusher.VControl (some pusher))
    Act.onWorld (Heap.setSession s fun o => { o with VControl := vControl })
    let vCodec ← Act.onWorld (Heap.Pusher.VCodec (some pusher))
    Act.onWorld (Heap.setSession s fun o => { o with VCodec := vCodec })
    let so ← Act.onWorld (Heap.session s)
    let sdp ← Act.onWorld (Heap.Pusher.SDPRaw so.Pusher)
    Heap.setBody sdp

/-- The bytes of a Go string: one character stands for one byte. -/
def goBytes (s : String) : List Char := s.toList

/-- Go `strings.LastIndex` on the bytes of the two strings. -/
def strings.LastIndex (s substr : String) : Int :=
  match (List.range ((goBytes s).length + 1)).reverse.find?
      (fun i => (goBytes substr).isPrefixOf ((goBytes s).drop i)) with
  | some i => i
  | none => -1

/-- Go `len` of a string. -/
def strings.len (s : String) : Int := (goBytes s).length

/-- The test `strings.Index(strings.ToLower(control), "rtsp://") == 0`. Only
the letters `r`, `t`, `s`, `p` matter, for which lower-casing is that of ASCII. -/
def isRtspURL (control : String) : Bool :=
  strings.HasPrefix (String.mk (control.toList.map Char.toLower)) "rtsp://"

/-- The assignment `u.Host = fmt.Sprintf("%s:554", u.Host)` made when
`u.Port()` is empty, and then `u.String()`. -/
def urlWithPort (lib : Lib) (u : URL) : String :=
  if lib.urlPort u = "" then lib.urlString { u with Host := u.Host ++ ":554" } else lib.urlString u

/-- How SETUP turns a control attribute into a path (session.go:399-427):
`none` is the `return` with status 500. -/
def controlPath (lib : Lib) (control : String) : Option String :=
  if isRtspURL control then
    match lib.urlParse control with
    | .error _ => none
    | .ok u => some (urlWithPort lib u)
  else some control

/-- The test of SETUP whether the request is for the track (session.go:432, 435). -/
def isTrack (setupPath path : String) : Bool :=
  setupPath = path ||
    (path ≠ "" && strings.LastIndex setupPath path = strings.len setupPath - strings.len path)

/-- The element `tcpMatch[i]` of a match. -/
def matchAt (tcpMatch : List String) (i : Nat) : Act Heap.Handler String :=
  match tcpMatch.get? i with
  | some x => pure x
  | none => Act.panic .indexOutOfRange

/-- The case `base.Setup` of `handleRequest` (session.go:378-449). -/
def Heap.Session.setup (lib : Lib) (s : Ptr) (req : Request) : Act Heap.Handler Unit := do
  match req.Header.get "Transport" with
  | none => Heap.setStatus StatusInternalServerError
  | some ts =>
    let u ← Heap.nonNil req.URL
    let setupPath := urlWithPort lib u
    let so ← Act.onWorld (Heap.session s)
    if so.Pusher = none then Heap.setStatus StatusInternalServerError
    else
      match controlPath lib so.VControl with
      | none => Heap.setStatus StatusInternalServerError
      | some vPath =>
        match controlPath lib so.AControl with
        | none => Heap.setStatus StatusInternalServerError
        | some aPath =>
          let ts0 ← match ts.head? with
            | some x => pure x
            | none => Act.panic .indexOutOfRange
          match lib.FindStringSubmatch ts0 with
          | some tcpMatch =>
            Act.onWorld (Heap.setSession s fun o => { o with TransType := TransTypeTcp })
            if isTrack setupPath aPath then
              let rtp ← matchAt tcpMatch 1
              Act.onWorld (Heap.setSession s fun o => { o with aRtpPort := lib.Atoi rtp })
              let rtcp ← matchAt tcpMatch 3
              Act.onWorld (Heap.setSession s fun o => { o with aRtcpPort := lib.Atoi rtcp })
            else if isTrack setupPath vPath then
              let rtp ← matchAt tcpMatch 1
              Act.onWorld (Heap.setSession s fun o => { o with vRtpPort := lib.Atoi rtp })
              let rtcp ← matchAt tcpMatch 3
              Act.onWorld (Heap.setSession s fun o => { o with vRtcpPort := lib.Atoi rtcp })
            else
              Heap.setStatus StatusInternalServerError
              Heap.setStatusMessage ("SETUP [TCP] got UnKown control:" ++ setupPath)
          | none => pure ()
          Heap.setHeader "Transport" ts

/-- The case `base.Play` of `handleRequest` (session.go:450-456). -/
def Heap.Session.play (s : Ptr) (req : Request) : Act Heap.Handler Unit := do
  let so ← Act.onWorld (Heap.session s)
  if so.Pusher = none then Heap.setStatus StatusInternalServerError
  else Heap.setHeader "Range" (req.Header.values "Range")

/-- The case `base.Record` of `handleRequest` (session.go:457-462). -/
def Heap.Session.record (s : Ptr) : Act Heap.Handler Unit := do
  let so ← Act.onWorld (Heap.session s)
  if so.Pusher = none then Heap.setStatus StatusInternalServerError
  else pure ()

/-- The case `base.Pause` of `handleRequest` (session.go:463-468). -/
def Heap.Session.pause (s : Ptr) : Act Heap.Handler Unit := do
  let so ← Act.onWorld (Heap.session s)
  if so.Player = none then Heap.setStatus StatusInternalServerError
  else Act.onWorld (Heap.Player.Pause so.Player true)

/-- The `switch req.Method` of `handleRequest` (session.go:306-469). -/
def Heap.Session.dispatch (lib : Lib) (fresh : Ptr) (s : Ptr) (req : Request) : Act Heap.Handler Unit :=
  if req.Method = "OPTIONS" then Heap.setHeader "Public" [publicMethods]
  else if req.Method = "ANNOUNCE" then Heap.Session.announce lib fresh s req
  else if req.Method = "DESCRIBE" then Heap.Session.describe fresh s req
  else if req.Method = "SETUP" then Heap.Session.setup lib s req
  else if req.Method = "PLAY" then Heap.Session.play s req
  else if req.Method = "RECORD" then Heap.Session.record s
  else if req.Method = "PAUSE" then Heap.Session.pause s
  else pure ()

/-- The guard of session.go:296-304: whether `handleRequest` returns before
the `switch` because `CheckAuth` gave an error. -/
def Heap.Session.authFails (lib : Lib) (nonce : String) (s : Ptr) (req : Request) : Act Heap.Handler Bool := do
  if req.Method ≠ "OPTIONS" then
    let so ← Act.onWorld (Heap.session s)
    if so.authorization then
      match req.Header.get "Authorization" with
      | some _ => pure (← Heap.Session.CheckAuth lib nonce req).isSome
      | none => pure false
    else pure false
  else pure false

/-- The body of `handleRequest` after the `defer` (session.go:288-469); `none`
is the nil request that `Request.Read` returns when it cannot parse. The log
lines are left out: the one at the top prints the request and cannot panic
(`fmt` recovers from a panicking `String` method); it may add `Content-Length`
to the header map of the request, a key that `handleRequest` does not read. -/
def Heap.Session.handleBody (lib : Lib) (fresh : Ptr) (nonce : String) (s : Ptr) (req : Option Request) :
    Act Heap.Handler Unit := do
  let r ← Heap.nonNil req
  Heap.setHeader "CSeq" (r.Header.values "CSeq")
  let so ← Act.onWorld (Heap.session s)
  Heap.setHeader "Session" [so.ID]
  if ← Heap.Session.authFails lib nonce s r then pure ()
  else Heap.Session.dispatch lib fresh s r

/-- What `Response.Write` does to the header map it shares with `res`: a
response with a body gets `Content-Length`, the number of bytes of the body. -/
def Response.withContentLength (r : Response) : Response :=
  if r.Body = "" then r
  else { r with Header := r.Header.set "Content-Length" [toString r.Body.length] }

/-- The call `res.Write` (and the log line before it, which prints `res`
through the same `Write`): the response as it then stands is what the
connection receives. -/
def Heap.writeResponse : Act Heap.Handler Unit :=
  Act.modify fun st =>
    { st with res := st.res.withContentLength, out := st.out ++ [st.res.withContentLength] }

/-- The `switch req.Method` that ends the deferred function of `handleRequest`
(session.go:274-284): after PLAY and RECORD a player session resumes its
player or enrols it with the pusher. -/
def Heap.Session.startPlaying (s : Ptr) (req : Option Request) : Act Heap.Handler Unit := do
  let r ← Heap.nonNil req
  if r.Method = "PLAY" ∨ r.Method = "RECORD" then
    let so ← Act.onWorld (Heap.session s)
    if so.Type_ = SESSION_TYPE_PLAYER then
      if ← Act.onWorld (Heap.Pusher.HasPlayer so.Pusher so.Player) then
        Act.onWorld (Heap.Player.Pause so.Player false)
      else Act.onWorld (Heap.Pusher.AddPlayer so.Pusher so.Player)

/-- The deferred function of `handleRequest` (session.go:265-285); `recovered`
says whether `recover()` returned a panic of the body. -/
def Heap.Session.handleDeferred (s : Ptr) (req : Option Request) (recovered : Bool) : Act Heap.Handler Unit := do
  if recovered then Heap.setStatus StatusInternalServerError
  Heap.writeResponse
  Heap.Session.startPlaying s req

/-- Whether the code panicked: what `recover()` tells a deferred function,
which runs when the code has returned or panicked. -/
def Go.panicked {α : Type} : Go α → Bool
  | .ok _ => false
  | .panic _ => true

/-- The state in which `handleRequest` starts in the world `w`: `res` is
`&base.Response{StatusCode: base.StatusOK}` and nothing has been written. -/
def Heap.Handler.start (w : Heap.World) : Heap.Handler :=
  { world := w, res := { StatusCode := StatusOK, StatusMessage := "", Header := [], Body := "" }, out := [] }

/-- The method `Session.handleRequest` on the session `s` in the world `w`:
the body, then the deferred function. When the body blocks, the deferred
function does not run. The result `panic` is a panic that leaves
`handleRequest`, or the body blocked; the state holds the world afterwards and
the responses written. `fresh` is the pointer of the object the request may
create. -/
def Heap.Session.handleRequest (lib : Lib) (fresh : Ptr) (nonce : String) (s : Ptr) (req : Option Request)
    (w : Heap.World) : Go Unit × Heap.Handler :=
  if (Heap.Session.handleBody lib fresh nonce s req (Heap.Handler.start w)).1 = .panic .blocked then
    Heap.Session.handleBody lib fresh nonce s req (Heap.Handler.start w)
  else
    Heap.Session.handleDeferred s req
      (Heap.Session.handleBody lib fresh nonce s req (Heap.Handler.start w)).1.panicked
      (Heap.Session.handleBody lib fresh nonce s req (Heap.Handler.start w)).2

/-! ### Sample worlds and requests -/

/-- The options that `Server.Start` gives every session (server.go:74-81). -/
def Heap.relayOptions : SessionOptions :=
  { Server := some "srv", conn := true, CloseOld := true, Authorization := false, Timeout := 10000000000 }

/-- The session `old`: it has announced `/live` and is the source of pusher `P`. -/
def Heap.oldSession : Heap.Session :=
  { Heap.NewSession.value Heap.relayOptions "old" with
    URL := some { Path := "/live" }, SDPRaw := "v=0", Pusher := some "P",
    StopHandles := [.releasePusher "P" "old"] }

/-- The session `new`: a second publisher for `/live`, not yet bound to a pusher. -/
def Heap.newSession : Heap.Session :=
  { Heap.NewSession.value Heap.relayOptions "new" with URL := some { Path := "/live" } }

/-- A session that plays `/live` through the given player. -/
def Heap.viewer (id player : String) : Heap.Session :=
  { Heap.NewSession.value Heap.relayOptions id with
    Type_ := SESSION_TYPE_PLAYER, URL := some { Path := "/live" }, Player := some player,
    Pusher := some "P", StopHandles := [.leavePusher "P" player] }

/-- The player of a viewer session, as `NewPlayer` builds it. -/
def Heap.viewerPlayer (session : String) : Heap.Player :=
  { Session := some session, Pusher := some "P", queue := [], queueLimit := 0,
    dropPacketWhenPaused := false, paused := false }

/-- A session whose field `authorization` has been set by hand. -/
def Heap.guardedSession : Heap.Session :=
  { Heap.NewSession.value Heap.relayOptions "g" with authorization := true }

/-- A relay with one stream: the session-backed pusher `P` is registered at
`/live`, fed by session `old`, watched by the players of sessions `a` and `b`,
with two packs in its GOP cache. -/
def Heap.liveWorld : Heap.World :=
  { sessions := [("old", Heap.oldSession), ("new", Heap.newSession),
                 ("a", Heap.viewer "a" "pa"), ("b", Heap.viewer "b" "pb"), ("g", Heap.guardedSession)],
    pushers := [("P", { Session := some "old", Client := none, players := [("a", "pa"), ("b", "pb")],
                        gopCacheEnable := true, gopCache := [keyPack, deltaPack], queue := [] })],
    players := [("pa", Heap.viewerPlayer "a"), ("pb", Heap.viewerPlayer "b")],
    servers := [("srv", { TCPPort := 554, Stopped := false, pushers := [("/live", "P")] })] }

/-- A relay whose path `/live` is held by the client-backed pusher `C`; the
session `new` has `closeOld` set by hand. -/
def Heap.clientWorld : Heap.World :=
  { sessions := [("new", { Heap.newSession with closeOld := true })],
    pushers := [("C", { Session := none, Client := some plainClient, players := [],
                        gopCacheEnable := true, gopCache := [keyPack], queue := [] })],
    players := [],
    servers := [("srv", { TCPPort := 554, Stopped := false, pushers := [("/live", "C")] })] }

/-- A request with the given method for the stream at `path`, with `CSeq: 2`. -/
def requestFor (method path : String) : Request :=
  { Method := method, URL := some { Path := path }, Header := [("CSeq", ["2"])], Body := "" }

/-- A request with an `Authorization` header that names no known scheme. -/
def bearerRequest (method path : String) : Request :=
  { Method := method, URL := some { Path := path },
    Header := [("CSeq", ["2"]), ("Authorization", ["Bearer x"])], Body := "" }

/-! ### Notions used to state the claims on `handleRequest` -/

/-- Code of `handleRequest` that writes no response and leaves the header
`key` of `res` as it is. -/
def Heap.LeavesHeader (key : String) {α : Type} (x : Act Heap.Handler α) : Prop :=
  ∀ st : Heap.Handler, (x st).2.out = st.out ∧ (x st).2.res.Header.get key = st.res.Header.get key

/-- Code that never blocks. -/
def Heap.NeverBlocks {σ α : Type} (x : Act σ α) : Prop := ∀ st : σ, (x st).1 ≠ .panic .blocked

/-- The options of `Server.Start` with `Authorization` switched on. -/
def Heap.authOptions : SessionOptions := { Heap.relayOptions with Authorization := true }

/-! ## session.go : the read loop of `Session.Start` -/

/-- Go `io.ReadFull(r, buf)` with `len(buf) = n`, on the bytes still to come:
the bytes read and the bytes left; `none` is the error returned when fewer than
`n` bytes come. -/
def io.ReadFull (input : List Byte) (n : Nat) : Option (List Byte × List Byte) :=
  if n ≤ input.length then some (input.take n, input.drop n) else none

/-- How one turn of the loop of `Session.Start` ends: with the `return` after a
read error, with the bytes left for the next turn, or with the first byte of an
RTSP request, which `Request.Read` and `handleRequest` take over. -/
inductive StartStep where
  | stopped
  | next (rest : List Byte)
  | request (buf1 : Byte) (rest : List Byte)
  deriving DecidableEq, Repr

/-- The loop `for _, h := range s.RTPHandles { h(pack) }` (session.go:228). -/
def callRTPHandles {σ : Type} (handles : List (RTPPack → Act σ Unit)) (pack : RTPPack) : Act σ Unit :=
  match handles with
  | [] => pure ()
  | h :: rest => do
    h pack
    callRTPHandles rest pack

/-- One turn of the loop of `Session.Start` (session.go:165-239), entered with
`s.Stopped` false, on the bytes that the connection still delivers. `handles`
is `s.RTPHandles`; the log lines and their timer are left out. -/
def Heap.Session.startStep {σ : Type} (so : Heap.Session) (handles : List (RTPPack → Act σ Unit))
    (input : List Byte) : Act σ StartStep :=
  match io.ReadFull input 1 with
  | none => pure .stopped
  | some (buf1, in1) => do
    let b ← Act.read fun _ => Slice.index ⟨buf1, []⟩ 0
    if b.val = 0x24 then
      match io.ReadFull in1 1 with
      | none => pure .stopped
      | some (buf1, in2) =>
        match io.ReadFull in2 2 with
        | none => pure .stopped
        | some (buf2, in3) => do
          let c ← Act.read fun _ => Slice.index ⟨buf1, []⟩ 0
          let channel : Int := (c.val : Int)
          let rtpLen ← Act.read fun _ => BigEndian.Uint16 ⟨buf2, []⟩
          match io.ReadFull in3 rtpLen with
          | none => pure .stopped
          | some (rtpBytes, in4) =>
            if channel = so.aRtpPort then do
              callRTPHandles handles { Type_ := RTP_TYPE_AUDIO, Buffer := rtpBytes }
              pure (.next in4)
            else if channel = so.aRtcpPort then do
              callRTPHandles handles { Type_ := RTP_TYPE_AUDIOCONTROL, Buffer := rtpBytes }
              pure (.next in4)
            else if channel = so.vRtpPort then do
              callRTPHandles handles { Type_ := RTP_TYPE_VIDEO, Buffer := rtpBytes }
              pure (.next in4)
            else if channel = so.vRtcpPort then do
              callRTPHandles handles { Type_ := RTP_TYPE_VIDEOCONTROL, Buffer := rtpBytes }
              pure (.next in4)
            else pure (.next in4)
    else pure (.request b in1)

/-- The channels that a session has bound: those of `aRtpPort`, `aRtcpPort`,
`vRtpPort`, `vRtcpPort` that are no longer `-1`. -/
def Heap.Session.boundChannels (so : Heap.Session) : List Int :=
  [so.aRtpPort, so.aRtcpPort, so.vRtpPort, so.vRtcpPort].filter (fun c => c ≠ -1)

/-- The bound channels of a session are pairwise distinct. -/
def Heap.Session.channelsDistinct (so : Heap.Session) : Prop := so.boundChannels.Nodup

instance (so : Heap.Session) : Decidable so.channelsDistinct := by
  unfold Heap.Session.channelsDistinct
  infer_instance

/-- A turn of the read loop that hands one pack to every handler and goes on
with the bytes `rest`. -/
def delivers {σ : Type} (handles : List (RTPPack → Act σ Unit)) (pack : RTPPack) (rest : List Byte) :
    Act σ StartStep := do
  callRTPHandles handles pack
  pure (.next rest)

/-- A handler that records the packs it is given. -/
def recordPack (pack : RTPPack) : Act (List RTPPack) Unit := Act.modify fun log => log ++ [pack]

/-- A session with the channels of the example: audio on 2 and 3, video on 0
and 1. -/
def Heap.interleavedSession : Heap.Session :=
  { Heap.oldSession with aRtpPort := 2, aRtcpPort := 3, vRtpPort := 0, vRtcpPort := 1 }

/-! ### Samples for SETUP -/

/-- A stand-in for the libraries in which a URL is printed as its path, the
pattern `interleaved=(\d+)(-(\d+))?` is matched on four sample transports, and
`Atoi` reads the numbers that occur in them (`0` with an error, which the
callers drop, for the empty string). -/
def setupLib : Lib :=
  { sampleLib with
    urlString := fun u => u.Path
    urlPort := fun _ => "554"
    FindStringSubmatch := fun s =>
      if s = "RTP/AVP/TCP;unicast;interleaved=0-1" then some ["interleaved=0-1", "0", "-1", "1"]
      else if s = "RTP/AVP/TCP;unicast;interleaved=2-3" then some ["interleaved=2-3", "2", "-3", "3"]
      else if s = "RTP/AVP/TCP;unicast;interleaved=5-5" then some ["interleaved=5-5", "5", "-5", "5"]
      else if s = "RTP/AVP/TCP;unicast;interleaved=0" then some ["interleaved=0", "0", "", ""]
      else none
    Atoi := fun s =>
      if s = "1" then 1 else if s = "2" then 2 else if s = "3" then 3 else if s = "5" then 5 else 0 }

/-- A publisher session after ANNOUNCE, with an audio and a video track. -/
def Heap.trackSession : Heap.Session :=
  { Heap.oldSession with AControl := "/live/audio", VControl := "/live/video" }

/-- The sample relay with the tracks of session `old` declared. -/
def Heap.trackWorld : Heap.World :=
  { Heap.liveWorld with sessions := Heap.liveWorld.sessions.set "old" Heap.trackSession }

/-- A SETUP request for the track at `path` with the given `Transport` header. -/
def setupRequest (path transport : String) : Request :=
  { Method := "SETUP", URL := some { Path := path },
    Header := [("CSeq", ["3"]), ("Transport", [transport])], Body := "" }

/-! ## base : the helpers of the codec -/

/-- Code that the codec of package `base` calls and that is not re-implemented
here: `utils.ReadBytesLimited` and `utils.ReadByteEqual`, whose source is not at
hand, the library function `http.CanonicalHeaderKey`, and the methods `read`
and `write` of the type `body` of package `base`, whose file is not at hand
either. A `bufio.Reader` is the list of the bytes it still delivers; a function
that reads returns what it read together with the bytes left, or an error. -/
structure CodecLib where
  ReadBytesLimited : List Char → Char → Int → Except String (List Char × List Char)
  ReadByteEqual : List Char → Char → Except String (List Char)
  CanonicalHeaderKey : String → String
  bodyRead : Header → List Char → Except String (String × List Char)
  bodyWrite : String → List Char

/-- What the statements below assume of the two helpers of package `utils`.
`ReadBytesLimited(br, delim, n)` returns the bytes up to and including the
first `delim` when that `delim` is among the first `n` bytes. `ReadByteEqual(br,
c)` consumes one byte and returns an error unless that byte is `c`. -/
structure CodecLib.Sound (u : CodecLib) : Prop where
  found : ∀ (pre rest : List Char) (delim : Char) (n : Int), delim ∉ pre → (pre.length : Int) + 1 ≤ n →
    u.ReadBytesLimited (pre ++ delim :: rest) delim n = .ok (pre ++ [delim], rest)
  equal : ∀ (c : Char) (rest : List Char), u.ReadByteEqual (c :: rest) c = .ok rest
  differs : ∀ (c d : Char) (rest : List Char), c ≠ d → ∃ e, u.ReadByteEqual (c :: rest) d = .error e
  ended : ∀ d : Char, ∃ e, u.ReadByteEqual [] d = .error e

/-- The limit of `ReadBytesLimited`, as far as it does not depend on whether
the delimiter counts: no `delim` among the first `n + 1` bytes is an error. -/
def CodecLib.Limited (u : CodecLib) : Prop :=
  ∀ (input : List Char) (delim : Char) (n : Int), 0 ≤ n → delim ∉ input.take (n.toNat + 1) →
    ∃ e, u.ReadBytesLimited input delim n = .error e

/-- The slice expression `byts[:len(byts)-1]` that drops the delimiter; it
panics on an empty slice. -/
def dropDelim (byts : List Char) : Go (List Char) :=
  if byts = [] then .panic .sliceOutOfRange else .ok byts.dropLast

/-! ## base : Header.go -/

/-- The constant `headerMaxEntryCount`. -/
def headerMaxEntryCount : Nat := 255

/-- The constant `headerMaxKeyLength`. -/
def headerMaxKeyLength : Int := 512

/-- The constant `headerMaxValueLength`. -/
def headerMaxValueLength : Int := 2048

/-- Go `strings.ToLower` on the bytes of a string, as far as its result can be
a string of ASCII bytes. Go lower-cases rune by rune; the runes whose lower case
is an ASCII letter are `A` to `Z`, U+0130 (the bytes C4 B0, lower case `i`) and
U+212A (the bytes E2 84 AA, lower case `k`). Every other byte is left as it is
here: this differs from Go only where the result holds a byte outside ASCII,
so never in a comparison with a string of ASCII bytes. `skip` counts the bytes
of the rune at hand that are still to be passed over. -/
def strings.lowerBytes (skip : Nat) : List Char → List Char
  | [] => []
  | c :: rest =>
    match skip with
    | n + 1 => strings.lowerBytes n rest
    | 0 =>
      if c = Char.ofNat 0xC4 ∧ rest.head? = some (Char.ofNat 0xB0) then 'i' :: strings.lowerBytes 1 rest
      else if c = Char.ofNat 0xE2 ∧ rest.take 2 = [Char.ofNat 0x84, Char.ofNat 0xAA] then
        'k' :: strings.lowerBytes 2 rest
      else c.toLower :: strings.lowerBytes 0 rest

/-- Go `strings.ToLower`; see `strings.lowerBytes`. -/
def strings.ToLower (s : String) : String := String.mk (strings.lowerBytes 0 s.toList)

/-- The function `headerKeyNormalize`. -/
def headerKeyNormalize (u : CodecLib) (key : String) : String :=
  if strings.ToLower key = "rtp-info" then "RTP-Info"
  else if strings.ToLower key = "www-authenticate" then "WWW-Authenticate"
  else if strings.ToLower key = "cseq" then "CSeq"
  else u.CanonicalHeaderKey key

/-- The loop of `Header.read` that skips the spaces after the colon, and the
`br.UnreadByte()` after it: the bytes from the first one that is not a space;
`none` when the bytes end first (`ReadByte` returns `io.EOF`). -/
def skipSpaces : List Char → Option (List Char)
  | [] => none
  | c :: rest => if c = ' ' then skipSpaces rest else some (c :: rest)

/-- The statement `(*h)[key] = append((*h)[key], val)`. -/
def Header.append (h : Header) (key val : String) : Header := h.set key (h.values key ++ [val])

/-- The loop of `Header.read` (Header.go:44-96) with `left` header lines still
allowed, that is `count = headerMaxEntryCount - left`, on the map `h` filled so
far. The result is the map and the bytes left, or the error returned; a panic
is that of `byts[:len(byts)-1]`. -/
def Header.readLoop (u : CodecLib) (left : Nat) (h : Header) (input : List Char) :
    Go (Except String (Header × List Char)) :=
  match input with
  | [] => .ok (.error "EOF")
  | byt :: in1 =>
    if byt = '\r' then
      match u.ReadByteEqual in1 '\n' with
      | .error e => .ok (.error e)
      | .ok in2 => .ok (.ok (h, in2))
    else
      match left with
      | 0 => .ok (.error "headers count exceeds 255")
      | left + 1 =>
        match u.ReadBytesLimited in1 ':' (headerMaxKeyLength - 1) with
        | .error _ => .ok (.error "value is missing")
        | .ok (byts, in2) =>
          match dropDelim byts with
          | .panic p => .panic p
          | .ok name =>
            let key := headerKeyNormalize u (String.mk (byt :: name))
            match skipSpaces in2 with
            | none => .ok (.error "EOF")
            | some in3 =>
              match u.ReadBytesLimited in3 '\r' headerMaxValueLength with
              | .error e => .ok (.error e)
              | .ok (byts, in4) =>
                match dropDelim byts with
                | .panic p => .panic p
                | .ok val =>
                  match u.ReadByteEqual in4 '\n' with
                  | .error e => .ok (.error e)
                  | .ok in5 => Header.readLoop u left (h.append key (String.mk val)) in5

/-- The method `Header.read`: it starts from `make(Header)` with `count = 0`.
When it returns an error the map behind `h` holds the lines read so far; the
callers drop it. -/
def Header.read (u : CodecLib) (input : List Char) : Go (Except String (Header × List Char)) :=
  Header.readLoop u headerMaxEntryCount [] input

/-- The order `a <= b` of Go strings: byte by byte. -/
def strings.le : List Char → List Char → Bool
  | [], _ => true
  | _ :: _, [] => false
  | x :: xs, y :: ys => decide (x.toNat < y.toNat) || (decide (x = y) && strings.le xs ys)

/-- The order of Go strings as a relation. -/
def strings.Le (a b : String) : Prop := strings.le a.toList b.toList = true

instance : DecidableRel strings.Le := fun a b => by
  unfold strings.Le
  infer_instance

/-- Go `sort.Strings`. -/
def sort.Strings (keys : List String) : List String := keys.insertionSort strings.Le

/-- The slice `keys` of `Header.write` after `sort.Strings` (Header.go:101-106):
`make([]string, len(h))` starts it with `len(h)` empty strings, to which the
names of the map are appended. The names come in the order of the entries of
the map. -/
def Header.sortedKeys (h : Header) : List String :=
  sort.Strings (List.replicate h.size "" ++ h.map Prod.fst)

/-- The lines that the two loops of `Header.write` emit (Header.go:108-116), as
pairs of a name and a value. -/
def Header.lines (h : Header) : List (String × String) :=
  h.sortedKeys.flatMap fun key => (h.values key).map fun val => (key, val)

/-- The bytes of one header line: `[]byte(key + ": " + val + "\r\n")`. -/
def headerLine (key val : String) : List Char := (key ++ ": " ++ val ++ "\r\n").toList

/-- The method `Header.write`: the bytes written. Errors of the writer are not
part of the embedding. -/
def Header.write (h : Header) : List Char :=
  (h.lines.flatMap fun l => headerLine l.1 l.2) ++ "\r\n".toList

/-! ### Header lines on the wire -/

/-- A header line as a peer may send it: the name, a colon, `spaces` spaces,
the value, CR LF. -/
structure WireLine where
  name : String
  spaces : Nat
  value : String
  deriving DecidableEq, Repr

/-- The bytes of a header line on the wire. -/
def WireLine.bytes (l : WireLine) : List Char :=
  l.name.toList ++ ':' :: (List.replicate l.spaces ' ' ++ (l.value.toList ++ ['\r', '\n']))

/-- The header lines that the statements on `Header.read` are about. The name
is not empty, does not begin with CR, has no colon after its first byte and is
at most 511 bytes long; the value contains no CR, does not begin with a space
and is at most 2047 bytes long. With these lengths the delimiter is among the
bytes that `ReadBytesLimited` may look at, whether or not it counts the
delimiter. -/
def WireLine.WellFormed (l : WireLine) : Prop :=
  l.name ≠ "" ∧ l.name.toList.head? ≠ some '\r' ∧ ':' ∉ l.name.toList.tail ∧ l.name.length ≤ 511 ∧
    '\r' ∉ l.value.toList ∧ l.value.toList.head? ≠ some ' ' ∧ l.value.length ≤ 2047

instance (l : WireLine) : Decidable l.WellFormed := by
  unfold WireLine.WellFormed
  infer_instance

/-- The map that `Header.read` builds from header lines: each value is appended
under the normalized name of its line, in the order of the lines. -/
def Header.ofLines (u : CodecLib) (h : Header) (ls : List WireLine) : Header :=
  ls.foldl (fun acc l => acc.append (headerKeyNormalize u l.name) l.value) h

/-! ### Notions used to state the claims on header names -/

/-- The two strings are equal when the case of ASCII letters is ignored. -/
def equalIgnoringCase (s t : String) : Prop := s.toList.map Char.toLower = t.toList.map Char.toLower

instance (s t : String) : Decidable (equalIgnoringCase s t) := by
  unfold equalIgnoringCase
  infer_instance

/-- Every byte of the string is an ASCII byte. -/
def isASCII (s : String) : Prop := ∀ c ∈ s.toList, c.toNat < 128

instance (s : String) : Decidable (isASCII s) := by
  unfold isASCII
  infer_instance

/-- The name `rtp-` + U+0130 + `nfo`: the bytes C4 B0 are the UTF-8 encoding of
U+0130, the capital I with a dot above. -/
def dottedName : String := String.mk ['r', 't', 'p', '-', Char.ofNat 0xC4, Char.ofNat 0xB0, 'n', 'f', 'o']

/-! ## base : request.go -/

/-- The constant `RtspProtocol10`. -/
def RtspProtocol10 : String := "RTSP/1.0"

/-- The header map that `Request.Write` hands to `Header.write`: with a body
that is not empty, `Content-Length` is set to the decimal length of the body.
The map is taken to be non-nil. -/
def Header.withContentLength (header : Header) (body : String) : Header :=
  if body.length ≠ 0 then header.set "Content-Length" [toString body.length] else header

/-- The method `Request.Write`: the bytes written. A nil `URL` panics in
`req.URL.String()`. -/
def Request.Write (lib : Lib) (u : CodecLib) (req : Request) : Go (List Char) :=
  match req.URL with
  | none => .panic .nilDereference
  | some url =>
    .ok ((req.Method ++ " " ++ lib.urlString url ++ " " ++ RtspProtocol10 ++ "\r\n").toList ++
      Header.write (req.Header.withContentLength req.Body) ++ u.bodyWrite req.Body)

/-- The method `Request.Read`: `buf1` holds the byte that `Session.Start` has
read already, `input` the bytes that follow. The result `none` is the nil
request; with a request come the bytes left. Every field of the receiver is
assigned before it is returned, so the receiver is left out. -/
def Request.Read (lib : Lib) (u : CodecLib) (input buf1 : List Char) : Go (Option (Request × List Char)) :=
  match u.ReadBytesLimited input ' ' 64 with
  | .error _ => .ok none
  | .ok (byts, in1) =>
    match dropDelim byts with
    | .panic p => .panic p
    | .ok m =>
      let method := String.mk (buf1 ++ m)
      if method = "" then .ok none
      else
        match u.ReadBytesLimited in1 ' ' 2048 with
        | .error _ => .ok none
        | .ok (byts, in2) =>
          match dropDelim byts with
          | .panic p => .panic p
          | .ok rawURL =>
            match lib.urlParse (String.mk rawURL) with
            | .error _ => .ok none
            | .ok ur =>
              match u.ReadBytesLimited in2 '\r' 64 with
              | .error _ => .ok none
              | .ok (byts, in3) =>
                match dropDelim byts with
                | .panic p => .panic p
                | .ok proto =>
                  if String.mk proto ≠ RtspProtocol10 then .ok none
                  else
                    match u.ReadByteEqual in3 '\n' with
                    | .error _ => .ok none
                    | .ok in4 =>
                      match Header.read u in4 with
                      | .panic p => .panic p
                      | .ok (.error _) => .ok none
                      | .ok (.ok (header, in5)) =>
                        match u.bodyRead header in5 with
                        | .error _ => .ok none
                        | .ok (body, in6) =>
                          .ok (some ({ Method := method, URL := some ur, Header := header, Body := body }, in6))

/-! ## base : response.go -/

/-- The digits of a decimal number, as `strconv.ParseUint` reads them in base
10: at least one byte, every byte a digit. -/
def strconv.digits (l : List Char) : Option Nat :=
  if l ≠ [] ∧ l.all Char.isDigit then some (l.foldl (fun n c => 10 * n + (c.toNat - 48)) 0) else none

/-- Go `strconv.ParseInt(s, 10, 32)`, the only call of it; `none` is an error.
The string is an optional sign `+` or `-` and then decimal digits, and the
number must lie in the range of `int32`. -/
def strconv.ParseInt (s : String) : Option Int :=
  match s.toList with
  | [] => none
  | c :: rest =>
    if c = '+' then (strconv.digits rest).bind fun n => if n < 2147483648 then some (n : Int) else none
    else if c = '-' then (strconv.digits rest).bind fun n => if n ≤ 2147483648 then some (-(n : Int)) else none
    else (strconv.digits (c :: rest)).bind fun n => if n < 2147483648 then some (n : Int) else none

/-- The map `statusMessages`. -/
def statusMessages : List (Int × String) :=
  [(100, "Continue"), (200, "OK"), (301, "Moved Permanently"), (302, "Found"), (303, "See Other"),
   (304, "Not Modified"), (305, "Use Proxy"), (400, "Bad Request"), (401, "Unauthorized"),
   (402, "Payment Required"), (403, "Forbidden"), (404, "Not Found"), (405, "Method Not Allowed"),
   (406, "Not Acceptable"), (407, "Proxy Auth Required"), (408, "Request Timeout"), (410, "Gone"),
   (412, "Precondition Failed"), (413, "Request Entity Too Large"), (414, "Request URI Too Long"),
   (415, "Unsupported Media Type"), (451, "Parameter Not Understood"), (453, "Not Enough Bandwidth"),
   (454, "Session Not Found"), (455, "Method Not Valid In This State"),
   (456, "Header Field Not Valid for Resource"), (457, "Invalid Range"), (458, "Parameter Is Read-Only"),
   (459, "Aggregate Operation Not Allowed"), (460, "Only Aggregate Operation Allowed"),
   (461, "Unsupported Transport"), (462, "Destination Unreachable"), (463, "Destination Prohibited"),
   (464, "Data Transport Not Ready Yet"), (465, "Notification Reason Unknown"),
   (466, "Key Management Error"), (470, "Connection Authorization Required"),
   (471, "Connection Credentials Not Accepted"), (472, "Failure to Establish Secure Connection"),
   (500, "Internal Server Error"), (501, "Not Implemented"), (502, "Bad Gateway"),
   (503, "Service Unavailable"), (504, "Gateway Timeout"), (505, "RTSP Version Not Supported"),
   (551, "Option Not Supported"), (553, "Proxy Unavailable")]

/-- The status message that `Response.Write` prints: the one of the response,
or the one of the table when the response has none and the table knows its
status code. -/
def Response.messageWritten (r : Response) : String :=
  if r.StatusMessage = "" then
    match statusMessages.lookup r.StatusCode with
    | some status => status
    | none => r.StatusMessage
  else r.StatusMessage

/-- The method `Response.Write`: the bytes written. -/
def Response.Write (u : CodecLib) (r : Response) : List Char :=
  (RtspProtocol10 ++ " " ++ toString r.StatusCode ++ " " ++ r.messageWritten ++ "\r\n").toList ++
    Header.write r.withContentLength.Header ++ u.bodyWrite r.Body

/-- The method `Response.Read`: the response and the bytes left, or the error
returned; a panic is that of `b[:len(b)-1]`. Every field of the receiver is
assigned before it is returned, so the receiver is left out. -/
def Response.Read (u : CodecLib) (input : List Char) : Go (Except String (Response × List Char)) :=
  match u.ReadBytesLimited input ' ' 255 with
  | .error e => .ok (.error e)
  | .ok (b, in1) =>
    match dropDelim b with
    | .panic p => .panic p
    | .ok proto =>
      if String.mk proto ≠ RtspProtocol10 then
        .ok (.error ("expected '" ++ RtspProtocol10 ++ "', got '" ++ String.mk proto ++ "'"))
      else
        match u.ReadBytesLimited in1 ' ' 4 with
        | .error e => .ok (.error e)
        | .ok (b, in2) =>
          match dropDelim b with
          | .panic p => .panic p
          | .ok statusCodeStr =>
            match strconv.ParseInt (String.mk statusCodeStr) with
            | none => .ok (.error "unable to parse status code")
            | some statusCode =>
              match u.ReadBytesLimited in2 '\r' 255 with
              | .error e => .ok (.error e)
              | .ok (b, in3) =>
                match dropDelim b with
                | .panic p => .panic p
                | .ok message =>
                  if message.length = 0 then .ok (.error "empty status message")
                  else
                    match u.ReadByteEqual in3 '\n' with
                    | .error e => .ok (.error e)
                    | .ok in4 =>
                      match Header.read u in4 with
                      | .panic p => .panic p
                      | .ok (.error e) => .ok (.error e)
                      | .ok (.ok (header, in5)) =>
                        match u.bodyRead header in5 with
                        | .error e => .ok (.error e)
                        | .ok (body, in6) =>
                          .ok (.ok ({ StatusCode := statusCode, StatusMessage := String.mk message,
                                      Header := header, Body := body }, in6))

/-! ### Stand-ins for the helpers of the codec -/

/-- A `ReadBytesLimited` that looks at no more than `n` bytes. -/
def sampleReadBytesLimited (input : List Char) (delim : Char) (n : Nat) : Except String (List Char × List Char) :=
  match n, input with
  | 0, _ => .error "buffer length exceeds limit"
  | _ + 1, [] => .error "EOF"
  | n + 1, c :: rest =>
    if c = delim then .ok ([c], rest)
    else
      match sampleReadBytesLimited rest delim n with
      | .ok (bs, r) => .ok (c :: bs, r)
      | .error e => .error e

/-- Capitals at the start and after every `-`, small letters elsewhere. -/
def capitalize (upper : Bool) : List Char → List Char
  | [] => []
  | c :: rest => (if upper then c.toUpper else c.toLower) :: capitalize (c = '-') rest

/-- A canonical form of header names: names of letters, digits and `-` get
capitals at the start and after every `-`; other names are left as they are. -/
def sampleCanonical (s : String) : String :=
  if s.toList.all (fun c => c.isAlphanum || c = '-') then String.mk (capitalize true s.toList) else s

/-- A body reader: with one `Content-Length` value it reads that many bytes,
with none it reads nothing. -/
def sampleBodyRead (h : Header) (input : List Char) : Except String (String × List Char) :=
  match h.get "Content-Length" with
  | some [cl] =>
    match strconv.digits cl.toList with
    | none => .error "invalid Content-Length"
    | some n => if n ≤ input.length then .ok (String.mk (input.take n), input.drop n) else .error "EOF"
  | _ => .ok ("", input)

/-- Stand-ins for the helpers of the codec. -/
def sampleCodec : CodecLib :=
  { ReadBytesLimited := fun input delim n => sampleReadBytesLimited input delim n.toNat
    ReadByteEqual := fun input c =>
      match input with
      | [] => .error "EOF"
      | d :: rest => if d = c then .ok rest else .error "unexpected byte"
    CanonicalHeaderKey := sampleCanonical
    bodyRead := sampleBodyRead
    bodyWrite := String.toList }

/-! ### The lines that `Header.write` puts on the wire -/

/-- The header lines that `Header.write` emits, as lines on the wire: one space
after the colon. -/
def Header.wireLines (h : Header) : List WireLine := h.lines.map fun l => ⟨l.1, 1, l.2⟩

/-- A request whose header line has no space after the colon. -/
def tightRequest : List Char := "PTIONS rtsp://example/stream RTSP/1.0\r\nCSeq:1\r\n\r\n".toList

/-! ### Packs with a payload of one byte -/

/-- A video pack whose payload is the single byte `0x7c`: the indicator of a
fragmentation unit (type 28) without the header byte that should follow. -/
def fuShortPack : RTPPack := ⟨ RTP_TYPE_VIDEO, plainHeader ++ [0x7c]⟩

/-- A video pack whose payload is the single byte `0x65`: NAL type 5. -/
def idrShortPack : RTPPack := ⟨ RTP_TYPE_VIDEO, plainHeader ++ [0x65]⟩

/-- The header that `ParseRTP` returns for a pack of `plainHeader` and one
payload byte. -/
def shortInfo (b : Byte) : RTPInfo :=
  { Version := 2, Padding := false, Extension := false, CSRCCnt := 0, Marker := false,
    PayloadType := 96, SequenceNumber := 1, Timestamp := 0, SSRC := 1,
    Payload := ⟨[b], []⟩, PayloadOffset := 12 }

/-! ### A world in which a viewer is about to join -/

/-- The sample relay before the player of session `b` has joined: the
subscriber set of `P` holds the player of session `a` only. -/
def Heap.joinWorld : Heap.World :=
  { Heap.liveWorld with
    pushers := [("P", { Session := some "old", Client := none, players := [("a", "pa")],
                        gopCacheEnable := true, gopCache := [keyPack, deltaPack], queue := [] })] }

/-! ### Samples for the track test of SETUP -/

/-- A publisher session whose audio control is one byte longer than the URL of
its video track. -/
def Heap.longTrackSession : Heap.Session :=
  { Heap.oldSession with AControl := "/live/track10", VControl := "/live/track1" }

/-- The sample relay with the tracks of `Heap.longTrackSession`. -/
def Heap.longTrackWorld : Heap.World :=
  { Heap.liveWorld with sessions := Heap.liveWorld.sessions.set "old" Heap.longTrackSession }

/-! ### Notions used to state the claim on `Session.Stop` -/

/-- Code that assigns to no session. -/
def Heap.KeepsSessions {α : Type} (x : Act Heap.World α) : Prop :=
  ∀ w : Heap.World, (x w).2.sessions = w.sessions

/-- The handles of the list, run one after the other from the world `w`, all
return. -/
def StopHandle.allReturn : List StopHandle → Heap.World → Prop
  | [], _ => True
  | h :: rest, w => (h.run w).1 = .ok () ∧ StopHandle.allReturn rest (h.run w).2

/-- The world after the handles of the list have run one after the other, each
once, in the order of the list. -/
def StopHandle.after (hs : List StopHandle) (w : Heap.World) : Heap.World :=
  hs.foldl (fun v h => (h.run v).2) w

/-- The world `w` after the assignment `s.Stopped = true`. -/
def Heap.World.stopping (w : Heap.World) (s : Ptr) (so : Heap.Session) : Heap.World :=
  { w with sessions := w.sessions.set s { so with Stopped := true } }

/-- The session `so` as `Session.Stop` leaves it when it runs to its end:
stopped, and its connection closed and set to nil. -/
def Heap.Session.closed (so : Heap.Session) : Heap.Session :=
  { so with Stopped := true, options := { so.options with conn := false } }

/-! ### A viewer of a client-backed pusher -/

/-- A viewer session of the stream that the client-backed pusher `C` relays. -/
def Heap.clientViewer : Heap.Session :=
  { Heap.viewer "a" "ca" with Pusher := some "C", StopHandles := [.leavePusher "C" "ca"] }

/-- The relay of `Heap.clientWorld` with the session `a` watching `C` through
its player `ca`. -/
def Heap.clientViewerWorld : Heap.World :=
  { sessions := [("a", Heap.clientViewer)],
    pushers := [("C", { Session := none, Client := some plainClient, players := [("a", "ca")],
                        gopCacheEnable := true, gopCache := [keyPack], queue := [] })],
    players := [("ca", { Heap.viewerPlayer "a" with Pusher := some "C" })],
    servers := [("srv", { TCPPort := 554, Stopped := false, pushers := [("/live", "C")] })] }

/-! ### A viewer of two streams -/

/-- A viewer session that has asked for two streams, one after the other: it
holds the stop handles of its players `pa` (on `P`) and `qa` (on `Q`), in
this order. -/
def Heap.twoStreamViewer : Heap.Session :=
  { Heap.viewer "a" "qa" with
    URL := some { Path := "/cam2" }, Pusher := some "Q",
    StopHandles := [.leavePusher "P" "pa", .leavePusher "Q" "qa"] }

/-- The session `new` as the publisher of a second stream at `/cam2`, the
source of pusher `Q`. -/
def Heap.secondPublisher : Heap.Session :=
  { Heap.newSession with
    URL := some { Path := "/cam2" }, Pusher := some "Q", StopHandles := [.releasePusher "Q" "new"] }

/-- The sample relay with a second stream `Q` at `/cam2`, fed by session
`new`. Session `a` is `Heap.twoStreamViewer`, a subscriber of both streams. -/
def Heap.twoStreamWorld : Heap.World :=
  { sessions := [("old", Heap.oldSession), ("new", Heap.secondPublisher), ("a", Heap.twoStreamViewer),
                 ("b", Heap.viewer "b" "pb")],
    pushers := [("P", { Session := some "old", Client := none, players := [("a", "pa"), ("b", "pb")],
                        gopCacheEnable := true, gopCache := [], queue := [] }),
                ("Q", { Session := some "new", Client := none, players := [("a", "qa")],
                        gopCacheEnable := true, gopCache := [], queue := [] })],
    players := [("pa", Heap.viewerPlayer "a"), ("pb", Heap.viewerPlayer "b"),
                ("qa", { Heap.viewerPlayer "a" with Pusher := some "Q" })],
    servers := [("srv", { TCPPort := 554, Stopped := false, pushers := [("/live", "P"), ("/cam2", "Q")] })] }

/-! ## sdpParser.go : the library functions it calls -/

/-- Go `strings.Split(s, sep)` for a separator of one byte, on the bytes of
`s`: the pieces between the separators, one piece more than there are
separators. -/
def strings.splitBytes (sep : Char) : List Char → List (List Char)
  | [] => [[]]
  | c :: cs =>
    if c = sep then [] :: strings.splitBytes sep cs
    else
      match strings.splitBytes sep cs with
      | piece :: pieces => (c :: piece) :: pieces
      | [] => [[c]]

/-- Go `strings.Split(s, sep)` for a separator of one byte. -/
def strings.Split (s : String) (sep : Char) : List String :=
  (strings.splitBytes sep s.toList).map String.mk

/-- Go `strings.SplitN(s, sep, n)` for a separator of one byte, on the bytes
of `s`: at most `n` pieces, the last of them the rest of `s` unsplit. -/
def strings.splitNBytes (sep : Char) : Nat → List Char → List (List Char)
  | 0, _ => []
  | 1, s => [s]
  | n + 2, s =>
    if sep ∈ s then s.takeWhile (· ≠ sep) :: strings.splitNBytes sep (n + 1) ((s.dropWhile (· ≠ sep)).drop 1)
    else [s]

/-- Go `strings.SplitN(s, sep, n)` for a separator of one byte and `n >= 0`. -/
def strings.SplitN (s : String) (sep : Char) (n : Nat) : List String :=
  (strings.splitNBytes sep n s.toList).map String.mk

/-- The bytes that Go counts as white space below `0x80` (`asciiSpace`). -/
def asciiSpace (c : Char) : Bool :=
  c = '\t' || c = '\n' || c = Char.ofNat 0x0b || c = Char.ofNat 0x0c || c = '\r' || c = ' '

/-- The UTF-8 encodings of the other characters for which `unicode.IsSpace`
holds: U+0085, U+00A0, U+1680, U+2000 to U+200A, U+2028, U+2029, U+202F,
U+205F and U+3000. -/
def unicodeSpaces : List (List Char) :=
  ([[0xC2, 0x85], [0xC2, 0xA0], [0xE1, 0x9A, 0x80], [0xE2, 0x80, 0x80], [0xE2, 0x80, 0x81],
    [0xE2, 0x80, 0x82], [0xE2, 0x80, 0x83], [0xE2, 0x80, 0x84], [0xE2, 0x80, 0x85], [0xE2, 0x80, 0x86],
    [0xE2, 0x80, 0x87], [0xE2, 0x80, 0x88], [0xE2, 0x80, 0x89], [0xE2, 0x80, 0x8A], [0xE2, 0x80, 0xA8],
    [0xE2, 0x80, 0xA9], [0xE2, 0x80, 0xAF], [0xE2, 0x81, 0x9F], [0xE3, 0x80, 0x80]] : List (List Nat)).map
    fun q => q.map Char.ofNat

/-- White space taken off the front of a list of bytes; `seqs` are the
encodings of the white space above `0x7f`, and `skip` counts the bytes of
such an encoding that are still to be dropped. -/
def strings.trimFront (seqs : List (List Char)) : Nat → List Char → List Char
  | _, [] => []
  | skip + 1, _ :: cs => strings.trimFront seqs skip cs
  | 0, c :: cs =>
    if asciiSpace c then strings.trimFront seqs 0 cs
    else
      match seqs.find? fun q => q.isPrefixOf (c :: cs) with
      | some q => strings.trimFront seqs (q.length - 1) cs
      | none => c :: cs

/-- Go `strings.TrimSpace`: leading and trailing white space, as
`unicode.IsSpace` defines it on the UTF-8 text, is removed. -/
def strings.TrimSpace (s : String) : String :=
  String.mk (strings.trimFront (unicodeSpaces.map List.reverse) 0
    (strings.trimFront unicodeSpaces 0 s.toList).reverse).reverse

/-- Go `strconv.Atoi(s)`: the number and whether the error is nil. The string
is an optional sign and then decimal digits. A string that is not of this form
gives 0 and an error; a number outside the range of a 64-bit `int` gives the
nearest bound and an error. -/
def strconv.Atoi (s : String) : Int × Bool :=
  let clamp (v : Int) : Int × Bool :=
    if v > 9223372036854775807 then (9223372036854775807, false)
    else if v < -9223372036854775808 then (-9223372036854775808, false)
    else (v, true)
  match s.toList with
  | [] => (0, false)
  | c :: rest =>
    if c = '+' then
      match strconv.digits rest with
      | some n => clamp n
      | none => (0, false)
    else if c = '-' then
      match strconv.digits rest with
      | some n => clamp (-(n : Int))
      | none => (0, false)
    else
      match strconv.digits (c :: rest) with
      | some n => clamp n
      | none => (0, false)

/-- The two decoders of `encoding/hex` and `encoding/base64` that `ParseSDP`
calls: the bytes that `hex.DecodeString` and
`base64.StdEncoding.DecodeString` return, the error being dropped by the
caller. -/
structure SDPLib where
  hexDecodeString : String → List Byte
  base64DecodeString : String → List Byte

/-! ## sdpParser.go -/

/-- The value `&SDPInfo{AVType: avType}`. -/
def SDPInfo.new (avType : String) : SDPInfo :=
  { AVType := avType, Codec := "", TimeScale := 0, Control := "", RtpMap := 0, Config := [],
    ParameterSets := [], PayloadType := 0, SizeLength := 0, IndexLength := 0 }

/-- The variables of the loop of `ParseSDP`: the map, and the pointer `info`.
Whenever `info` is not nil it points to the entry that the map holds under the
media type of the last `m=` line, for both are assigned together (lines 39 and
40); so `info` is kept as that key, `none` being nil. -/
structure SDPState where
  sdpMap : GoMap SDPInfo
  info : Option String
  deriving DecidableEq, Repr

/-- An assignment through the pointer `info`. -/
def SDPState.update (st : SDPState) (f : SDPInfo → SDPInfo) : SDPState :=
  match st.info with
  | none => st
  | some key =>
    match st.sdpMap.get key with
    | some o => { st with sdpMap := st.sdpMap.set key (f o) }
    | none => st

/-- The body of the innermost loop of `ParseSDP` (lines 80 to 98) for one
`field`: a parameter `key=val`. -/
def ParseSDP.param (e : SDPLib) (info : SDPInfo) (field : String) : SDPInfo :=
  match strings.SplitN field '=' 2 with
  | [k, val] =>
    let key := strings.TrimSpace k
    if key = "config" then { info with Config := e.hexDecodeString val }
    else if key = "sizelength" then { info with SizeLength := (strconv.Atoi val).1 }
    else if key = "indexlength" then { info with IndexLength := (strconv.Atoi val).1 }
    else if key = "sprop-parameter-sets" then
      { info with ParameterSets := info.ParameterSets ++ (strings.Split val ',').map e.base64DecodeString }
    else info
  | _ => info

/-- The body of the loop over `fields` in the case `a` (lines 50 to 100) for
one `field`. The loop of line 79 ranges over `fields`, the two pieces of the
line, whatever the `field` at hand is. -/
def ParseSDP.attr (e : SDPLib) (fields : List String) (info : SDPInfo) (field : String) : SDPInfo :=
  let info : SDPInfo :=
    match strings.SplitN field ':' 2 with
    | key :: val :: _ =>
      if key = "control" then { info with Control := val }
      else if key = "rtpmap" then { info with RtpMap := (strconv.Atoi val).1 }
      else info
    | _ => info
  let info : SDPInfo :=
    match strings.Split field '/' with
    | key :: rate :: _ =>
      let info : SDPInfo :=
        if key = "MPEG4-GENERIC" then { info with Codec := "acc" }
        else if key = "H264" then { info with Codec := "h264" }
        else if key = "H265" then { info with Codec := "h265" }
        else info
      if (strconv.Atoi rate).2 then { info with TimeScale := (strconv.Atoi rate).1 } else info
    | _ => info
  if (strings.Split field ';').length > 1 then fields.foldl (ParseSDP.param e) info else info

/-- The body of the loop of `ParseSDP` over the lines (lines 30 to 104). -/
def ParseSDP.line (e : SDPLib) (st : SDPState) (line : String) : Go SDPState :=
  match strings.SplitN (strings.TrimSpace line) '=' 2 with
  | [typ, val] =>
    let fields := strings.SplitN val ' ' 2
    if typ = "m" then
      match fields with
      | [] => pure st
      | media :: rest =>
        if media = "audio" ∨ media = "video" then
          match rest with
          | [] => .panic .indexOutOfRange
          | ports :: _ =>
            let info : SDPInfo := SDPInfo.new media
            let info : SDPInfo :=
              match strings.Split ports ' ' with
              | _ :: _ :: pt :: _ => { info with PayloadType := (strconv.Atoi pt).1 }
              | _ => info
            pure { sdpMap := st.sdpMap.set media info, info := some media }
        else pure st
    else if typ = "a" then
      if st.info ≠ none then
        pure (fields.foldl (fun st field => st.update fun info => ParseSDP.attr e fields info field) st)
      else pure st
    else pure st
  | _ => pure st

/-- The loop of `ParseSDP` over the lines. -/
def ParseSDP.lines (e : SDPLib) (st : SDPState) : List String → Go SDPState
  | [] => pure st
  | line :: rest => do
    let st ← ParseSDP.line e st line
    ParseSDP.lines e st rest

/-- The function `ParseSDP`. -/
def ParseSDP (e : SDPLib) (sdpRaw : String) : Go (GoMap SDPInfo) := do
  let st ← ParseSDP.lines e { sdpMap := [], info := none } (strings.Split sdpRaw '\n')
  pure st.sdpMap

/-! ### Stand-ins and samples for `ParseSDP` -/

/-- The value of a hexadecimal digit. -/
def hexDigit (c : Char) : Option Nat :=
  if c.isDigit then some (c.toNat - 48)
  else if 'a'.toNat ≤ c.toNat ∧ c.toNat ≤ 'f'.toNat then some (c.toNat - 87)
  else if 'A'.toNat ≤ c.toNat ∧ c.toNat ≤ 'F'.toNat then some (c.toNat - 55)
  else none

/-- The bytes that `hex.DecodeString` returns: the pairs of digits decoded
before the first byte that is no digit. -/
def hexDecode : List Char → List Byte
  | a :: b :: rest =>
    match hexDigit a, hexDigit b with
    | some x, some y => Fin.ofNat (16 * x + y) :: hexDecode rest
    | _, _ => []
  | _ => []

/-- A stand-in for the decoders: `hex.DecodeString` as it is, and instead of
base64 a decoder that returns the bytes of the text. -/
def sampleSDPLib : SDPLib :=
  { hexDecodeString := fun s => hexDecode s.toList
    base64DecodeString := fun s => s.toList.map fun c => Fin.ofNat c.toNat }

/-- An SDP text with an audio and a video section. -/
def sampleSDP : String :=
  "v=0\r\nm=video 0 RTP/AVP 96\r\na=rtpmap:96 H264/90000\r\na=control:streamid=0\r\n" ++
  "m=audio 0 RTP/AVP 97\r\na=rtpmap:97 MPEG4-GENERIC/44100/2\r\n" ++
  "a=fmtp:97 profile-level-id=1;mode=AAC-hbr;sizelength=13;indexlength=3;indexdeltalength=3;config=1210\r\n" ++
  "a=control:streamid=1\r\n"

/-! ### Notions used to state the claims on `ParseSDP` -/

/-- None of the bytes `seps` occurs in the string. -/
def strings.free (s : String) (seps : List Char) : Prop := ∀ ch ∈ seps, ch ∉ s.toList

instance (s : String) (seps : List Char) : Decidable (strings.free s seps) := by
  unfold strings.free
  infer_instance

/-- The codec that `ParseSDP` records for the encoding name of an `rtpmap`
attribute. -/
def codecOf (enc : String) (old : String) : String :=
  if enc = "MPEG4-GENERIC" then "acc" else if enc = "H264" then "h264" else if enc = "H265" then "h265" else old

/-! ### The entry of a media section -/

/-- The entry that `ParseSDP` holds for a media type after the three lines
`m=<media> <port> <proto> <pt>`, `a=rtpmap:<pt> <enc>/<rate>` and
`a=control:<c>`. -/
def sectionInfo (media pt enc rate c : String) : SDPInfo :=
  { AVType := media, Codec := codecOf enc "", TimeScale := (strconv.Atoi rate).1, Control := c,
    RtpMap := (strconv.Atoi pt).1, Config := [], ParameterSets := [], PayloadType := (strconv.Atoi pt).1,
    SizeLength := 0, IndexLength := 0 }

/-! ### Samples for the `fmtp` attribute -/

/-- The state of the loop of `ParseSDP` after the line `m=audio 0 RTP/AVP 97`. -/
def audioState : SDPState :=
  { sdpMap := [("audio", { SDPInfo.new "audio" with PayloadType := 97 })], info := some "audio" }

/-! ### Notions used to state the claim on the result of `ParseSDP` -/

/-- The keys of the map are `audio` or `video`, and each entry has its key as
`AVType`. -/
def SDPKeyed (m : GoMap SDPInfo) : Prop :=
  ∀ p ∈ m, (p.1 = "audio" ∨ p.1 = "video") ∧ p.2.AVType = p.1

/-! # Theorems -/

/-! ## Go run-time model -/

@[simp] theorem Go.ok_bind {α β : Type} (a : α) (f : α → Go β) : (Go.ok a >>= f) = f a := rfl
@[simp] theorem Go.panic_bind {α β : Type} (p : GoPanic) (f : α → Go β) : (Go.panic p >>= f) = Go.panic p := rfl
@[simp] theorem Go.pure_eq {α : Type} (a : α) : (pure a : Go α) = Go.ok a := rfl

theorem Slice.index_ok (s : Slice) (i : Int) (h0 : 0 ≤ i) (h1 : i < s.len) :
    s.index i = .ok (s.elems.getD i.toNat 0) := by
  unfold Slice.index
  have hlt : i.toNat < s.elems.length := by
    unfold Slice.len at h1; omega
  simp [h0, List.getD, List.getElem?_eq_getElem hlt]

theorem Slice.sliceFrom_ok (s : Slice) (lo : Int) (h0 : 0 ≤ lo) (h1 : lo ≤ s.len) :
    s.sliceFrom lo = .ok ⟨s.elems.drop lo.toNat, s.spare⟩ := by
  unfold Slice.sliceFrom
  simp [h0, h1]

theorem Slice.slice_ok (s : Slice) (lo hi : Int) (h0 : 0 ≤ lo) (h1 : lo ≤ hi) (h2 : hi ≤ s.len) :
    s.slice lo hi = .ok ⟨(s.elems.take hi.toNat).drop lo.toNat, (s.elems ++ s.spare).drop hi.toNat⟩ := by
  unfold Slice.slice
  have hc : hi ≤ s.cap := by unfold Slice.cap; unfold Slice.len at h2; omega
  have hl : hi.toNat ≤ s.elems.length := by unfold Slice.len at h2; omega
  simp [h0, h1, hc, List.take_append_of_le_length hl]

theorem Uint16_drop (s : Slice) (lo : Nat) (sp : List Byte) (h1 : lo + 2 ≤ s.elems.length) :
    BigEndian.Uint16 ⟨s.elems.drop lo, sp⟩ = .ok (s.byteAt (lo + 1) ||| (s.byteAt lo <<< 8)) := by
  unfold BigEndian.Uint16
  rw [Slice.index_ok _ 1 (by omega) (by simp [Slice.len]; omega), Go.ok_bind,
    Slice.index_ok _ 0 (by omega) (by simp [Slice.len]; omega)]
  simp [Slice.byteAt, List.getD, List.getElem?_drop]

theorem Uint32_drop (s : Slice) (lo : Nat) (sp : List Byte) (h1 : lo + 4 ≤ s.elems.length) :
    BigEndian.Uint32 ⟨s.elems.drop lo, sp⟩ =
      .ok (s.byteAt (lo + 3) ||| (s.byteAt (lo + 2) <<< 8) ||| (s.byteAt (lo + 1) <<< 16)
        ||| (s.byteAt lo <<< 24)) := by
  unfold BigEndian.Uint32
  rw [Slice.index_ok _ 3 (by omega) (by simp [Slice.len]; omega), Go.ok_bind,
    Slice.index_ok _ 2 (by omega) (by simp [Slice.len]; omega), Go.ok_bind,
    Slice.index_ok _ 1 (by omega) (by simp [Slice.len]; omega), Go.ok_bind,
    Slice.index_ok _ 0 (by omega) (by simp [Slice.len]; omega)]
  simp [Slice.byteAt, List.getD, List.getElem?_drop]

/-! ## rtpParser.go -/

theorem ParseRTP.afterCSRC_bounds (s : Slice) (h : 12 ≤ s.len) :
    12 ≤ ParseRTP.afterCSRC s ∧ ParseRTP.afterCSRC s ≤ s.len := by
  unfold ParseRTP.afterCSRC
  split <;> omega

theorem ParseRTP.afterExt_bounds (s : Slice) (h : 12 ≤ s.len) :
    12 ≤ ParseRTP.afterExt s ∧ ParseRTP.afterExt s ≤ s.len := by
  have := ParseRTP.afterCSRC_bounds s h
  unfold ParseRTP.afterExt
  simp only []
  split
  · rename_i hc
    simp only [Bool.and_eq_true, decide_eq_true_eq] at hc
    split <;> omega
  · omega

theorem ParseRTP.afterPad_bounds (s : Slice) (h : 12 ≤ s.len) :
    ParseRTP.afterExt s ≤ ParseRTP.afterPad s ∧ ParseRTP.afterPad s ≤ s.len := by
  have := ParseRTP.afterExt_bounds s h
  unfold ParseRTP.afterPad
  simp only []
  split
  · split <;> omega
  · omega

/-- Normal form of `ParseRTP` on a buffer of at least 12 bytes: it never panics,
and its result is given by the positions `afterExt` and `afterPad`. -/
theorem ParseRTP_eq (s : Slice) (h : 12 ≤ s.len) :
    ParseRTP s = .ok
      (if ParseRTP.afterPad s - ParseRTP.afterExt s < 1 then none
       else some
        { Version := ((s.byteAt 0 >>> 6 : Nat) : Int)
          Padding := (s.byteAt 0 >>> 5) &&& 1 == 1
          Extension := (s.byteAt 0 >>> 4) &&& 1 == 1
          CSRCCnt := ((s.byteAt 0 &&& 0x0f : Nat) : Int)
          Marker := s.byteAt 1 >>> 7 == 1
          PayloadType := ((s.byteAt 1 &&& 0x7f : Nat) : Int)
          SequenceNumber := ((s.byteAt 3 ||| (s.byteAt 2 <<< 8) : Nat) : Int)
          Timestamp := ((s.byteAt 7 ||| (s.byteAt 6 <<< 8) ||| (s.byteAt 5 <<< 16)
            ||| (s.byteAt 4 <<< 24) : Nat) : Int)
          SSRC := ((s.byteAt 11 ||| (s.byteAt 10 <<< 8) ||| (s.byteAt 9 <<< 16)
            ||| (s.byteAt 8 <<< 24) : Nat) : Int)
          Payload := ⟨(s.elems.take (ParseRTP.afterPad s).toNat).drop (ParseRTP.afterExt s).toNat,
            (s.elems ++ s.spare).drop (ParseRTP.afterPad s).toNat⟩
          PayloadOffset := ParseRTP.afterExt s }) := by
  have hn : 12 ≤ s.elems.length := by unfold Slice.len at h; omega
  have hb1 := ParseRTP.afterCSRC_bounds s h
  have hb2 := ParseRTP.afterExt_bounds s h
  have hb3 := ParseRTP.afterPad_bounds s h
  unfold ParseRTP
  rw [if_neg (by unfold RTPFixedHeaderLength; omega)]
  rw [Slice.index_ok s 0 (by omega) (by omega), Go.ok_bind,
    Slice.index_ok s 1 (by omega) (by omega), Go.ok_bind,
    Slice.sliceFrom_ok s 2 (by omega) (by omega), Go.ok_bind,
    show (2 : Int).toNat = 2 from rfl, Uint16_drop s 2 _ (by omega), Go.ok_bind,
    Slice.sliceFrom_ok s 4 (by omega) (by omega), Go.ok_bind,
    show (4 : Int).toNat = 4 from rfl, Uint32_drop s 4 _ (by omega), Go.ok_bind,
    Slice.sliceFrom_ok s 8 (by omega) (by omega), Go.ok_bind,
    show (8 : Int).toNat = 8 from rfl, Uint32_drop s 8 _ (by omega), Go.ok_bind]
  simp only [Go.pure_eq, show (0 : Int).toNat = 0 from rfl, show (1 : Int).toNat = 1 from rfl,
    show RTPFixedHeaderLength = 12 from rfl]
  have e0 : ((s.elems.getD 0 0 : Byte) : Nat) = s.byteAt 0 := rfl
  have e1 : ((s.elems.getD 1 0 : Byte) : Nat) = s.byteAt 1 := rfl
  have hc : (if s.len - 12 ≥ 4 * ((s.byteAt 0 &&& 15 : Nat) : Int)
      then 12 + 4 * ((s.byteAt 0 &&& 15 : Nat) : Int) else 12) = ParseRTP.afterCSRC s := rfl
  simp only [e0, e1, hc]
  -- the padding step and the final slice, for the offset reached
  have tail : ∀ (F : Slice → Int → RTPInfo),
      (if ((s.byteAt 0 >>> 5 &&& 1 == 1) && decide (s.len - ParseRTP.afterExt s > 0)) = true then do
          let b ← s.index (s.len - 1)
          let y ← Go.ok (if s.len - ParseRTP.afterExt s ≥ ((b.val : Nat) : Int)
            then s.len - ((b.val : Nat) : Int) else s.len)
          let payload ← s.slice (ParseRTP.afterExt s) y
          if y - ParseRTP.afterExt s < 1 then Go.ok none
            else Go.ok (some (F payload (ParseRTP.afterExt s)))
        else do
          let y ← Go.ok s.len
          let payload ← s.slice (ParseRTP.afterExt s) y
          if y - ParseRTP.afterExt s < 1 then Go.ok none
            else Go.ok (some (F payload (ParseRTP.afterExt s)))) =
      Go.ok (if ParseRTP.afterPad s - ParseRTP.afterExt s < 1 then none
        else some (F ⟨(s.elems.take (ParseRTP.afterPad s).toNat).drop (ParseRTP.afterExt s).toNat,
            (s.elems ++ s.spare).drop (ParseRTP.afterPad s).toNat⟩ (ParseRTP.afterExt s))) := by
    intro F
    by_cases hP : ((s.byteAt 0 >>> 5 &&& 1 == 1) && decide (s.len - ParseRTP.afterExt s > 0)) = true
    · have hP2 := hP
      simp only [Bool.and_eq_true, decide_eq_true_eq] at hP2
      have hy : (if s.len - ParseRTP.afterExt s ≥ ((s.byteAt (s.len - 1).toNat : Nat) : Int)
          then s.len - ((s.byteAt (s.len - 1).toNat : Nat) : Int) else s.len) = ParseRTP.afterPad s := by
        unfold ParseRTP.afterPad
        simp only [hP, if_true]
      rw [if_pos hP, Slice.index_ok s (s.len - 1) (by omega) (by omega), Go.ok_bind]
      have eb : ((s.elems.getD (s.len - 1).toNat 0 : Byte) : Nat) = s.byteAt (s.len - 1).toNat := rfl
      simp only [eb, hy, Go.ok_bind]
      rw [Slice.slice_ok s _ _ (by omega) (by omega) (by omega), Go.ok_bind]
      split <;> rfl
    · have hy : s.len = ParseRTP.afterPad s := by
        unfold ParseRTP.afterPad
        simp only [hP]
        rfl
      rw [if_neg hP, Go.ok_bind, Slice.slice_ok s _ _ (by omega) (by omega) (by omega), Go.ok_bind]
      rw [← hy]
      split <;> rfl
  by_cases hE : ((s.byteAt 0 >>> 4 &&& 1 == 1) && decide (s.len - ParseRTP.afterCSRC s ≥ 4)) = true
  · have hE2 := hE
    simp only [Bool.and_eq_true, decide_eq_true_eq] at hE2
    have hl : (ParseRTP.afterCSRC s + 2).toNat + 2 ≤ s.elems.length := by
      have := hE2.2; unfold Slice.len at this hb1; omega
    rw [if_pos hE, Slice.sliceFrom_ok s _ (by omega) (by omega), Go.ok_bind,
      Uint16_drop s _ _ hl, Go.ok_bind, Go.ok_bind]
    have hy : (if s.len - (ParseRTP.afterCSRC s + (4 : Int)) ≥
          (4 : Int) * ((s.byteAt ((ParseRTP.afterCSRC s + 2).toNat + 1)
            ||| s.byteAt (ParseRTP.afterCSRC s + 2).toNat <<< 8 : Nat) : Int)
        then ParseRTP.afterCSRC s + (4 : Int) +
          (4 : Int) * ((s.byteAt ((ParseRTP.afterCSRC s + 2).toNat + 1)
            ||| s.byteAt (ParseRTP.afterCSRC s + 2).toNat <<< 8 : Nat) : Int)
        else ParseRTP.afterCSRC s + (4 : Int)) = ParseRTP.afterExt s := by
      unfold ParseRTP.afterExt
      simp only [hE, if_true]
    simp only [hy]
    exact tail _
  · have hy : ParseRTP.afterCSRC s = ParseRTP.afterExt s := by
      unfold ParseRTP.afterExt
      simp only [hE]
      rfl
    rw [if_neg hE, Go.ok_bind, hy]
    exact tail _

/-! ### Claims on `ParseRTP` -/

theorem Slice.byteAt_lt (s : Slice) (i : Nat) : s.byteAt i < 256 := (s.elems.getD i 0).isLt

theorem and15_eq_mod (n : Nat) : n &&& 15 = n % 16 := Nat.and_pow_two_sub_one_eq_mod n 4

theorem shr_and_one_eq_testBit (n k : Nat) : (n >>> k &&& 1 == 1) = n.testBit k := by
  rw [Nat.and_one_is_mod, Nat.shiftRight_eq_div_pow, Nat.testBit_to_div_mod]
  by_cases h : n / 2 ^ k % 2 = 1 <;> simp [h]

theorem or_shl_eq (a b k : Nat) (hb : b < 2 ^ k) : b ||| a <<< k = 2 ^ k * a + b := by
  rw [Nat.or_comm, Nat.shiftLeft_eq, Nat.mul_comm a]
  exact (Nat.mul_add_lt_is_or hb a).symm

theorem or_shl8_eq (a b : Nat) (hb : b < 256) : b ||| a <<< 8 = 256 * a + b :=
  or_shl_eq a b 8 hb

theorem be32_eq (b0 b1 b2 b3 : Nat) (h1 : b1 < 256) (h2 : b2 < 256) (h3 : b3 < 256) :
    b3 ||| b2 <<< 8 ||| b1 <<< 16 ||| b0 <<< 24 = 16777216 * b0 + 65536 * b1 + 256 * b2 + b3 := by
  rw [or_shl_eq b2 b3 8 h3, or_shl_eq b1 _ 16 (by omega), or_shl_eq b0 _ 24 (by omega)]
  omega

theorem shr7_eq_testBit (n : Nat) (h : n < 256) : (n >>> 7 == 1) = n.testBit 7 := by
  rw [Nat.shiftRight_eq_div_pow, Nat.testBit_to_div_mod, show (2 : Nat) ^ 7 = 128 from rfl]
  by_cases h1 : n / 128 = 1
  · simp [h1]
  · have h0 : n / 128 = 0 := by omega
    simp [h0]

theorem ParseRTP.afterCSRC_fits (P : Slice) (h : 12 + 4 * declaredCSRC P ≤ P.elems.length) :
    ParseRTP.afterCSRC P = ((12 + 4 * declaredCSRC P : Nat) : Int) := by
  unfold ParseRTP.afterCSRC
  unfold declaredCSRC at *
  rw [and15_eq_mod]
  unfold Slice.len
  split <;> omega

theorem ParseRTP.afterExt_fits (P : Slice)
    (h : 12 + 4 * declaredCSRC P + declaredExtBytes P ≤ P.elems.length) :
    ParseRTP.afterExt P = ((12 + 4 * declaredCSRC P + declaredExtBytes P : Nat) : Int) := by
  have h1 := ParseRTP.afterCSRC_fits P (by omega)
  unfold ParseRTP.afterExt
  simp only [h1, shr_and_one_eq_testBit]
  unfold declaredExtBytes at *
  by_cases hx : extensionBit P = true
  · have hx2 : (P.byteAt 0).testBit 4 = true := hx
    rw [if_pos hx] at h ⊢
    have hw : (P.byteAt ((((12 + 4 * declaredCSRC P : Nat) : Int) + 2).toNat + 1) |||
        P.byteAt (((12 + 4 * declaredCSRC P : Nat) : Int) + 2).toNat <<< 8) = declaredExtWords P := by
      rw [or_shl8_eq _ _ (Slice.byteAt_lt _ _)]
      unfold declaredExtWords
      have e1 : (((12 + 4 * declaredCSRC P : Nat) : Int) + 2).toNat = 12 + 4 * declaredCSRC P + 2 := by omega
      rw [e1]
    rw [hw]
    unfold Slice.len
    simp only [hx2, Bool.true_and]
    rw [if_pos (by simp only [decide_eq_true_eq]; omega)]
    split <;> omega
  · have hx2 : (P.byteAt 0).testBit 4 = false := by
      simpa [extensionBit] using hx
    rw [if_neg hx] at h ⊢
    simp [hx2]

theorem ParseRTP.afterPad_fits (P : Slice)
    (h : 12 + 4 * declaredCSRC P + declaredExtBytes P + declaredPadding P ≤ P.elems.length) :
    ParseRTP.afterPad P = ((P.elems.length - declaredPadding P : Nat) : Int) := by
  have h2 := ParseRTP.afterExt_fits P (by omega)
  unfold ParseRTP.afterPad
  simp only [h2, shr_and_one_eq_testBit]
  unfold declaredPadding at *
  unfold Slice.len
  by_cases hp : paddingBit P = true
  · have hp2 : (P.byteAt 0).testBit 5 = true := hp
    rw [if_pos hp] at h ⊢
    have e1 : (((P.elems.length : Nat) : Int) - 1).toNat = P.elems.length - 1 := by omega
    simp only [hp2, Bool.true_and, e1]
    split
    · split <;> omega
    · rename_i hc
      simp only [decide_eq_true_eq] at hc
      omega
  · have hp2 : (P.byteAt 0).testBit 5 = false := by
      simpa [paddingBit] using hp
    rw [if_neg hp] at h ⊢
    simp [hp2]

/-- C1 (as amended): when the declared CSRC list, extension block and padding
fit in the buffer and leave at least one payload byte, `ParseRTP` returns an
`RTPInfo` whose `PayloadOffset` is `12 + 4c + (4+4e if ext)` and whose `Payload`
is `P[PayloadOffset .. len(P)-p]`. -/
theorem ParseRTP_payload (P : Slice)
    (h : 12 + 4 * declaredCSRC P + declaredExtBytes P + declaredPadding P < P.elems.length) :
    ∃ info : RTPInfo, ParseRTP P = .ok (some info) ∧
      info.PayloadOffset = ((12 + 4 * declaredCSRC P + declaredExtBytes P : Nat) : Int) ∧
      info.Payload.elems =
        (P.elems.take (P.elems.length - declaredPadding P)).drop
          (12 + 4 * declaredCSRC P + declaredExtBytes P) := by
  have h2 := ParseRTP.afterExt_fits P (by omega)
  have h3 := ParseRTP.afterPad_fits P (by omega)
  have hlen : (12 : Int) ≤ P.len := by unfold Slice.len; omega
  rw [ParseRTP_eq P hlen, if_neg (by rw [h2, h3]; omega)]
  refine ⟨_, rfl, h2, ?_⟩
  simp only [h2, h3, Int.toNat_ofNat]

/-- C1, counterexample: on a buffer that is exactly the 12-byte fixed header
the bound `12 + 4c + ext + p <= len(P)` holds, and `ParseRTP` returns nil. -/
theorem ParseRTP_payload_counterexample :
    12 + 4 * declaredCSRC zeroHeader + declaredExtBytes zeroHeader + declaredPadding zeroHeader
        ≤ zeroHeader.elems.length ∧
      ParseRTP zeroHeader = .ok none := by
  decide

/-- C1, witness: `sampleRTP` has one CSRC, a one-word extension, two bytes of
padding and six payload bytes. -/
theorem ParseRTP_payload_witness :
    12 + 4 * declaredCSRC sampleRTP + declaredExtBytes sampleRTP + declaredPadding sampleRTP
        < sampleRTP.elems.length ∧
    ∃ info : RTPInfo, ParseRTP sampleRTP = .ok (some info) ∧
      info.PayloadOffset = ((12 + 4 * declaredCSRC sampleRTP + declaredExtBytes sampleRTP : Nat) : Int) ∧
      info.Payload.elems =
        (sampleRTP.elems.take (sampleRTP.elems.length - declaredPadding sampleRTP)).drop
          (12 + 4 * declaredCSRC sampleRTP + declaredExtBytes sampleRTP) :=
  ⟨by decide, ParseRTP_payload sampleRTP (by decide)⟩

/-- The exact condition for nil: the buffer is shorter than 12 bytes, or no
payload byte remains between the positions reached. -/
theorem ParseRTP_eq_none_iff (P : Slice) :
    ParseRTP P = .ok none ↔
      P.len < 12 ∨ ParseRTP.afterPad P ≤ ParseRTP.afterExt P := by
  by_cases hlen : P.len < 12
  · have : ParseRTP P = .ok none := by
      unfold ParseRTP
      rw [if_pos (by unfold RTPFixedHeaderLength; exact hlen)]
      rfl
    simp [hlen, this]
  · rw [ParseRTP_eq P (by omega)]
    by_cases hc : ParseRTP.afterPad P - ParseRTP.afterExt P < 1
    · rw [if_pos hc]
      constructor
      · intro _; right; omega
      · intro _; rfl
    · rw [if_neg hc]
      constructor
      · intro h; cases h
      · intro h; rcases h with h | h <;> omega

/-- C2 (as amended): `ParseRTP` returns nil for every buffer shorter than 12
bytes and for every buffer in which no payload byte remains: header, CSRC list
and extension fill the buffer, or they and the padding do. -/
theorem ParseRTP_nil (P : Slice)
    (h : P.elems.length < 12 ∨
      12 + 4 * declaredCSRC P + declaredExtBytes P = P.elems.length ∨
      12 + 4 * declaredCSRC P + declaredExtBytes P + declaredPadding P = P.elems.length) :
    ParseRTP P = .ok none := by
  rw [ParseRTP_eq_none_iff]
  rcases h with h | h | h
  · left; unfold Slice.len; omega
  · right
    have h2 := ParseRTP.afterExt_fits P (by omega)
    have hlen : (12 : Int) ≤ P.len := by unfold Slice.len; omega
    have := ParseRTP.afterPad_bounds P hlen
    unfold Slice.len at this
    omega
  · right
    have h2 := ParseRTP.afterExt_fits P (by omega)
    have h3 := ParseRTP.afterPad_fits P (by omega)
    omega

/-- C2, counterexample: the declared CSRC list, the declared extension block,
or the declared padding runs past the end of the buffer, and `ParseRTP` returns
a result, not nil. -/
theorem ParseRTP_nil_counterexample :
    (csrcOverrun.elems.length < 12 + 4 * declaredCSRC csrcOverrun ∧
      ParseRTP csrcOverrun = .ok (some
        { Version := 2, Padding := false, Extension := false, CSRCCnt := 1, Marker := false,
          PayloadType := 0, SequenceNumber := 0, Timestamp := 0, SSRC := 0,
          Payload := ⟨[7], []⟩, PayloadOffset := 12 })) ∧
    (extOverrun.elems.length < 12 + 4 * declaredCSRC extOverrun + declaredExtBytes extOverrun ∧
      ParseRTP extOverrun = .ok (some
        { Version := 2, Padding := false, Extension := true, CSRCCnt := 0, Marker := false,
          PayloadType := 0, SequenceNumber := 0, Timestamp := 0, SSRC := 0,
          Payload := ⟨[7], []⟩, PayloadOffset := 16 })) ∧
    (padOverrun.elems.length < 12 + 4 * declaredCSRC padOverrun + declaredExtBytes padOverrun
        + declaredPadding padOverrun ∧
      ParseRTP padOverrun = .ok (some
        { Version := 2, Padding := true, Extension := false, CSRCCnt := 0, Marker := false,
          PayloadType := 0, SequenceNumber := 0, Timestamp := 0, SSRC := 0,
          Payload := ⟨[5], []⟩, PayloadOffset := 12 })) := by
  decide

/-- C2, witness: the 12-byte header alone. -/
theorem ParseRTP_nil_witness :
    (12 + 4 * declaredCSRC zeroHeader + declaredExtBytes zeroHeader = zeroHeader.elems.length) ∧
      ParseRTP zeroHeader = .ok none :=
  ⟨by decide, ParseRTP_nil zeroHeader (Or.inr (Or.inl (by decide)))⟩

/-- C3: on every buffer on which `ParseRTP` returns a result, the header fields
are the bit fields of bytes 0 and 1 and the big-endian numbers in bytes 2..4,
4..8 and 8..12. -/
theorem ParseRTP_fields (b : Slice) (info : RTPInfo) (h : ParseRTP b = .ok (some info)) :
    info.Version = ((b.byteAt 0 >>> 6 : Nat) : Int) ∧
    info.Padding = (b.byteAt 0).testBit 5 ∧
    info.Extension = (b.byteAt 0).testBit 4 ∧
    info.CSRCCnt = ((b.byteAt 0 &&& 0x0f : Nat) : Int) ∧
    info.Marker = (b.byteAt 1).testBit 7 ∧
    info.PayloadType = ((b.byteAt 1 &&& 0x7f : Nat) : Int) ∧
    info.SequenceNumber = ((256 * b.byteAt 2 + b.byteAt 3 : Nat) : Int) ∧
    info.Timestamp =
      ((16777216 * b.byteAt 4 + 65536 * b.byteAt 5 + 256 * b.byteAt 6 + b.byteAt 7 : Nat) : Int) ∧
    info.SSRC =
      ((16777216 * b.byteAt 8 + 65536 * b.byteAt 9 + 256 * b.byteAt 10 + b.byteAt 11 : Nat) : Int) ∧
    (0 ≤ info.SequenceNumber ∧ info.SequenceNumber < 2 ^ 16) ∧
    (0 ≤ info.Timestamp ∧ info.Timestamp < 2 ^ 32) ∧
    (0 ≤ info.SSRC ∧ info.SSRC < 2 ^ 32) := by
  have hlen : (12 : Int) ≤ b.len := by
    by_contra hc
    have hn : ParseRTP b = .ok none := (ParseRTP_eq_none_iff b).2 (Or.inl (by omega))
    rw [hn] at h
    cases h
  rw [ParseRTP_eq b hlen] at h
  split at h
  · cases h
  · have hi : _ = info := Option.some.inj (Go.ok.inj h)
    subst hi
    have l0 := b.byteAt_lt 0
    have l2 := b.byteAt_lt 2
    have l3 := b.byteAt_lt 3
    have l4 := b.byteAt_lt 4
    have l5 := b.byteAt_lt 5
    have l6 := b.byteAt_lt 6
    have l7 := b.byteAt_lt 7
    have l8 := b.byteAt_lt 8
    have l9 := b.byteAt_lt 9
    have l10 := b.byteAt_lt 10
    have l11 := b.byteAt_lt 11
    have e16 := or_shl8_eq (b.byteAt 2) (b.byteAt 3) l3
    have e32a := be32_eq (b.byteAt 4) (b.byteAt 5) (b.byteAt 6) (b.byteAt 7) l5 l6 l7
    have e32b := be32_eq (b.byteAt 8) (b.byteAt 9) (b.byteAt 10) (b.byteAt 11) l9 l10 l11
    refine ⟨rfl, shr_and_one_eq_testBit _ 5, shr_and_one_eq_testBit _ 4, rfl,
      shr7_eq_testBit _ (b.byteAt_lt 1), rfl, ?_, ?_, ?_, ?_, ?_, ?_⟩
    · show ((b.byteAt 3 ||| b.byteAt 2 <<< 8 : Nat) : Int) = _
      rw [e16]
    · show ((b.byteAt 7 ||| b.byteAt 6 <<< 8 ||| b.byteAt 5 <<< 16 ||| b.byteAt 4 <<< 24 : Nat) : Int) = _
      rw [e32a]
    · show ((b.byteAt 11 ||| b.byteAt 10 <<< 8 ||| b.byteAt 9 <<< 16 ||| b.byteAt 8 <<< 24 : Nat) : Int) = _
      rw [e32b]
    · show 0 ≤ ((b.byteAt 3 ||| b.byteAt 2 <<< 8 : Nat) : Int) ∧
        ((b.byteAt 3 ||| b.byteAt 2 <<< 8 : Nat) : Int) < 2 ^ 16
      rw [e16]
      omega
    · show 0 ≤ ((b.byteAt 7 ||| b.byteAt 6 <<< 8 ||| b.byteAt 5 <<< 16 ||| b.byteAt 4 <<< 24 : Nat) : Int) ∧
        ((b.byteAt 7 ||| b.byteAt 6 <<< 8 ||| b.byteAt 5 <<< 16 ||| b.byteAt 4 <<< 24 : Nat) : Int) < 2 ^ 32
      rw [e32a]
      omega
    · show 0 ≤ ((b.byteAt 11 ||| b.byteAt 10 <<< 8 ||| b.byteAt 9 <<< 16 ||| b.byteAt 8 <<< 24 : Nat) : Int) ∧
        ((b.byteAt 11 ||| b.byteAt 10 <<< 8 ||| b.byteAt 9 <<< 16 ||| b.byteAt 8 <<< 24 : Nat) : Int) < 2 ^ 32
      rw [e32b]
      omega

/-- C3, witness: the fields of `sampleRTP`. -/
theorem ParseRTP_fields_witness :
    ParseRTP sampleRTP = .ok (some sampleInfo) ∧
    sampleInfo.SequenceNumber = ((256 * sampleRTP.byteAt 2 + sampleRTP.byteAt 3 : Nat) : Int) ∧
    (0 ≤ sampleInfo.SequenceNumber ∧ sampleInfo.SequenceNumber < 2 ^ 16) :=
  ⟨by decide,
    (ParseRTP_fields sampleRTP sampleInfo (by decide)).2.2.2.2.2.2.1,
    (ParseRTP_fields sampleRTP sampleInfo (by decide)).2.2.2.2.2.2.2.2.2.1⟩

/-! ## pusher.go, player.go and server.go -/

/-! ### pusher.go : `isKeyframe` -/

/-- C4: for a pusher with a source and an RTP payload of at least 2 bytes,
`isKeyframe` returns true iff the video codec is `h264` up to case and, with
`t = payload[0] & 0x1F`, either `t <= 23` and `t = 5`, or `t` is 28 or 29, the
FU start bit `payload[1] & 0x80` is set and `payload[1] & 0x1F = 5`; for every
other codec it returns false. -/
theorem isKeyframe_iff (p : Pusher) (rtp : RTPInfo) (vcodec : String)
    (hv : p.VCodec = .ok vcodec) (hlen : 2 ≤ rtp.Payload.elems.length) :
    ∃ r : Bool, p.isKeyframe rtp = .ok r ∧
      (r = true ↔
        strings.EqualFold vcodec "h264" = true ∧
          ((rtp.Payload.byteAt 0 &&& 0x1F ≤ 23 ∧ rtp.Payload.byteAt 0 &&& 0x1F = 5) ∨
           ((rtp.Payload.byteAt 0 &&& 0x1F = 28 ∨ rtp.Payload.byteAt 0 &&& 0x1F = 29) ∧
             rtp.Payload.byteAt 1 &&& 0x80 ≠ 0 ∧ rtp.Payload.byteAt 1 &&& 0x1F = 5))) ∧
      (strings.EqualFold vcodec "h264" = false → r = false) := by
  have hl : (2 : Int) ≤ rtp.Payload.len := by unfold Slice.len; omega
  have i0 := Slice.index_ok rtp.Payload 0 (by omega) (by omega)
  have i1 := Slice.index_ok rtp.Payload 1 (by omega) (by omega)
  have e0 : ((rtp.Payload.elems.getD (0 : Int).toNat 0 : Byte) : Nat) = rtp.Payload.byteAt 0 := rfl
  have e1 : ((rtp.Payload.elems.getD (1 : Int).toNat 0 : Byte) : Nat) = rtp.Payload.byteAt 1 := rfl
  unfold Pusher.isKeyframe
  rw [hv, Go.ok_bind]
  by_cases hc : strings.EqualFold vcodec "h264" = true
  · rw [if_pos hc, i0, Go.ok_bind]
    simp only [e0]
    by_cases ht : rtp.Payload.byteAt 0 &&& 0x1F ≤ 23
    · rw [if_pos ht]
      refine ⟨_, rfl, ?_, fun h => by rw [hc] at h; cases h⟩
      simp only [beq_iff_eq]
      constructor
      · intro h; exact ⟨hc, Or.inl ⟨ht, h⟩⟩
      · rintro ⟨_, h | h⟩
        · exact h.2
        · omega
    · rw [if_neg ht]
      by_cases ht2 : rtp.Payload.byteAt 0 &&& 0x1F = 28 ∨ rtp.Payload.byteAt 0 &&& 0x1F = 29
      · rw [if_pos ht2, i1, Go.ok_bind]
        simp only [e1]
        by_cases hs : rtp.Payload.byteAt 1 &&& 0x80 = 0
        · rw [if_pos hs]
          refine ⟨_, rfl, ?_, fun _ => rfl⟩
          constructor
          · intro h; cases h
          · rintro ⟨_, h | h⟩
            · exact absurd h.1 ht
            · exact absurd hs h.2.1
        · rw [if_neg hs]
          refine ⟨_, rfl, ?_, fun h => by rw [hc] at h; cases h⟩
          simp only [beq_iff_eq]
          constructor
          · intro h; exact ⟨hc, Or.inr ⟨ht2, hs, h⟩⟩
          · rintro ⟨_, h | h⟩
            · exact absurd h.1 ht
            · exact h.2.2
      · rw [if_neg ht2]
        refine ⟨_, rfl, ?_, fun h => by rw [hc] at h; cases h⟩
        constructor
        · intro h; exact absurd h (by decide)
        · rintro ⟨_, h | h⟩
          · exact absurd h.1 ht
          · exact absurd h.1 ht2
  · rw [if_neg hc]
    refine ⟨_, rfl, ?_, fun _ => rfl⟩
    constructor
    · intro h; cases h
    · rintro ⟨h, _⟩; exact absurd h hc

/-- C4, witness: a fragmentation unit that starts an IDR slice, codec `h264`. -/
theorem isKeyframe_iff_witness :
    clientPusher.VCodec = .ok "h264" ∧ 2 ≤ fuStartInfo.Payload.elems.length ∧
    ∃ r : Bool, clientPusher.isKeyframe fuStartInfo = .ok r ∧
      (r = true ↔
        strings.EqualFold "h264" "h264" = true ∧
          ((fuStartInfo.Payload.byteAt 0 &&& 0x1F ≤ 23 ∧ fuStartInfo.Payload.byteAt 0 &&& 0x1F = 5) ∨
           ((fuStartInfo.Payload.byteAt 0 &&& 0x1F = 28 ∨ fuStartInfo.Payload.byteAt 0 &&& 0x1F = 29) ∧
             fuStartInfo.Payload.byteAt 1 &&& 0x80 ≠ 0 ∧ fuStartInfo.Payload.byteAt 1 &&& 0x1F = 5))) ∧
      (strings.EqualFold "h264" "h264" = false → r = false) :=
  ⟨rfl, by decide, isKeyframe_iff clientPusher fuStartInfo "h264" rfl (by decide)⟩

/-! ### player.go : the queue -/

theorem Player.QueueRTP_queue (p : Player) (pack : RTPPack) (hp : p.paused = false) :
    (p.QueueRTP (some pack)).queue =
      (if p.queueLimit > 0 ∧ ((p.queue ++ [pack]).length : Int) > p.queueLimit
        then (p.queue ++ [pack]).drop 1 else p.queue ++ [pack]) ∧
    (p.QueueRTP (some pack)).queueLimit = p.queueLimit ∧
    (p.QueueRTP (some pack)).paused = p.paused := by
  have hc : (p.paused && p.dropPacketWhenPaused) = false := by rw [hp]; rfl
  unfold Player.QueueRTP
  simp only [hc, Bool.false_eq_true, if_false]
  by_cases h : p.queueLimit > 0 ∧ ((p.queue ++ [pack]).length : Int) > p.queueLimit
  · rw [if_pos h, if_pos h]
    exact ⟨rfl, rfl, rfl⟩
  · rw [if_neg h, if_neg h]
    exact ⟨rfl, rfl, rfl⟩

theorem Player.queueAll_append (p : Player) (packs : List RTPPack) (pack : RTPPack) :
    p.queueAll (packs ++ [pack]) = (p.queueAll packs).QueueRTP (some pack) := by
  unfold Player.queueAll
  rw [List.foldl_append]
  rfl

/-- Invariant of the queue over a run of `QueueRTP` calls. -/
theorem Player.queueAll_spec (p : Player) (hq : p.queue = []) (hp : p.paused = false)
    (packs : List RTPPack) :
    (p.queueAll packs).queueLimit = p.queueLimit ∧ (p.queueAll packs).paused = false ∧
    (p.queueAll packs).queue =
      (if p.queueLimit > 0 then packs.drop (packs.length - p.queueLimit.toNat) else packs) := by
  induction packs using List.reverseRecOn with
  | nil =>
    refine ⟨rfl, hp, ?_⟩
    show p.queue = _
    rw [hq]
    split
    · simp
    · rfl
  | append_singleton packs pack ih =>
    obtain ⟨ih1, ih2, ih3⟩ := ih
    rw [Player.queueAll_append]
    obtain ⟨h1, h2, h3⟩ := Player.QueueRTP_queue (p.queueAll packs) pack ih2
    refine ⟨by rw [h2, ih1], by rw [h3, ih2], ?_⟩
    rw [h1, ih1, ih3]
    by_cases hL : p.queueLimit > 0
    · rw [if_pos hL, if_pos hL]
      simp only [hL, true_and, List.length_append, List.length_drop, List.length_singleton]
      by_cases hn : packs.length + 1 ≤ p.queueLimit.toNat
      · have e1 : packs.length - p.queueLimit.toNat = 0 := by omega
        have e2 : packs.length + 1 - p.queueLimit.toNat = 0 := by omega
        rw [e1, e2, if_neg (by omega)]
        rfl
      · have e2 : packs.length + 1 - p.queueLimit.toNat = (packs.length - p.queueLimit.toNat) + 1 := by
          omega
        rw [e2, if_pos (by omega)]
        have hk : packs.length - p.queueLimit.toNat + 1 ≤ packs.length := by omega
        have hL1 : 1 ≤ (packs.drop (packs.length - p.queueLimit.toNat)).length := by
          rw [List.length_drop]; omega
        rw [List.drop_append_of_le_length hL1, List.drop_append_of_le_length hk, List.drop_drop]
    · rw [if_neg hL, if_neg hL]
      simp only [hL, false_and, if_false]

/-! ### pusher.go : GOP cache and replay -/

theorem ParseRTP_some_bounds (s : Slice) (rtp : RTPInfo) (h : ParseRTP s = .ok (some rtp)) :
    12 ≤ rtp.PayloadOffset ∧ rtp.PayloadOffset + rtp.Payload.len ≤ s.len ∧ 1 ≤ rtp.Payload.len ∧
    rtp.Payload.elems =
      (s.elems.drop rtp.PayloadOffset.toNat).take rtp.Payload.elems.length := by
  have hlen : (12 : Int) ≤ s.len := by
    by_contra hc
    have hn : ParseRTP s = .ok none := (ParseRTP_eq_none_iff s).2 (Or.inl (by omega))
    rw [hn] at h
    cases h
  have hb2 := ParseRTP.afterExt_bounds s hlen
  have hb3 := ParseRTP.afterPad_bounds s hlen
  rw [ParseRTP_eq s hlen] at h
  split at h
  · cases h
  · rename_i hc
    have hi : _ = rtp := Option.some.inj (Go.ok.inj h)
    subst hi
    have hl : ((List.drop (ParseRTP.afterExt s).toNat
        (List.take (ParseRTP.afterPad s).toNat s.elems)).length : Int) =
        ParseRTP.afterPad s - ParseRTP.afterExt s := by
      rw [List.length_drop, List.length_take]
      unfold Slice.len at hb3
      omega
    refine ⟨hb2.1, ?_, ?_, ?_⟩
    · show ParseRTP.afterExt s + ((List.drop _ (List.take _ s.elems)).length : Int) ≤ s.len
      rw [hl]; omega
    · show 1 ≤ ((List.drop _ (List.take _ s.elems)).length : Int)
      rw [hl]; omega
    · show List.drop _ (List.take _ s.elems) =
        List.take (List.drop _ (List.take _ s.elems)).length (List.drop _ s.elems)
      have hl2 : (List.drop (ParseRTP.afterExt s).toNat
          (List.take (ParseRTP.afterPad s).toNat s.elems)).length =
          (ParseRTP.afterPad s).toNat - (ParseRTP.afterExt s).toNat := by omega
      rw [hl2, List.drop_take]

theorem keyframeInfo_congr (p q : Pusher) (hs : p.Session = q.Session)
    (hc : p.Client = q.Client) (pack : RTPPack) : p.keyframeInfo pack = q.keyframeInfo pack := by
  unfold Pusher.keyframeInfo Pusher.isKeyframe Pusher.VCodec
  rw [hs, hc]

theorem keyframeInfo_parse (p : Pusher) (pack : RTPPack) (rtp : RTPInfo)
    (h : p.keyframeInfo pack = .ok (some rtp)) : ParseRTP pack.Bytes = .ok (some rtp) := by
  unfold Pusher.keyframeInfo at h
  cases hp : ParseRTP pack.Bytes with
  | panic e => rw [hp] at h; cases h
  | ok r =>
    rw [hp, Go.ok_bind] at h
    cases r with
    | none => cases h
    | some r' =>
      simp only [] at h
      cases hk : p.isKeyframe r' with
      | panic e => rw [hk] at h; cases h
      | ok b =>
        rw [hk, Go.ok_bind] at h
        cases b with
        | false => cases h
        | true =>
          have : r' = rtp := Option.some.inj (Go.ok.inj h)
          rw [this]

theorem rewriteKeyframe_ok (p : Pusher) (c : Client) (hc : p.Client = some c)
    (hh : c.hooksSet = true) (pack : RTPPack) (rtp : RTPInfo)
    (hp : ParseRTP pack.Bytes = .ok (some rtp)) (h2 : 2 ≤ rtp.Payload.elems.length) :
    ∃ payload : List Byte, p.rewriteKeyframe pack rtp =
      .ok { pack with
        Buffer := pack.Buffer.take rtp.PayloadOffset.toNat ++ (rtp.Payload.elems.take 2 ++ payload) } := by
  obtain ⟨b1, b2, b3, b4⟩ := ParseRTP_some_bounds pack.Bytes rtp hp
  have hl : (2 : Int) ≤ rtp.Payload.len := by unfold Slice.len; omega
  have hfrom := Slice.sliceFrom_ok rtp.Payload 2 (by omega) hl
  have hto : rtp.Payload.sliceTo 2 =
      .ok ⟨rtp.Payload.elems.take 2, (rtp.Payload.elems ++ rtp.Payload.spare).drop 2⟩ := by
    unfold Slice.sliceTo
    rw [Slice.slice_ok rtp.Payload 0 2 (by omega) (by omega) hl]
    rfl
  have hhead : pack.Bytes.sliceTo rtp.PayloadOffset =
      .ok ⟨pack.Buffer.take rtp.PayloadOffset.toNat,
        (pack.Buffer ++ []).drop rtp.PayloadOffset.toNat⟩ := by
    unfold Slice.sliceTo
    have : rtp.Payload.len ≥ 0 := by unfold Slice.len; omega
    rw [Slice.slice_ok pack.Bytes 0 _ (by omega) (by omega) (by omega)]
    rfl
  unfold Pusher.rewriteKeyframe
  rw [hc]
  simp only [Go.pure_eq, Go.ok_bind, hfrom, hto, hhead]
  have hE : c.options.IsEncrypt = true → c.EncryptPack.isSome = true := by
    intro he
    unfold Client.hooksSet at hh
    rw [he] at hh
    simpa using (Bool.and_eq_true _ _ ▸ hh).1
  have hD : c.options.IsDecode = true → c.DecodePack.isSome = true := by
    intro hd
    unfold Client.hooksSet at hh
    rw [hd] at hh
    simpa using (Bool.and_eq_true _ _ ▸ hh).2
  cases hd : c.options.IsDecode with
  | true =>
    obtain ⟨f, hf⟩ := Option.isSome_iff_exists.1 (hD hd)
    cases he : c.options.IsEncrypt with
    | true =>
      obtain ⟨g, hg⟩ := Option.isSome_iff_exists.1 (hE he)
      simp only [hf, hg, if_true, Go.ok_bind]
      exact ⟨_, rfl⟩
    | false =>
      simp only [hf, if_true, Go.ok_bind, Bool.false_eq_true, if_false]
      exact ⟨_, rfl⟩
  | false =>
    cases he : c.options.IsEncrypt with
    | true =>
      obtain ⟨g, hg⟩ := Option.isSome_iff_exists.1 (hE he)
      simp only [hg, if_true, Go.ok_bind, Bool.false_eq_true, if_false]
      exact ⟨_, rfl⟩
    | false =>
      simp only [Go.ok_bind, Bool.false_eq_true, if_false]
      exact ⟨_, rfl⟩

theorem process_not_cached (p : Pusher) (pack : RTPPack)
    (h : (p.gopCacheEnable && pack.Type_ == RTP_TYPE_VIDEO) = false) :
    p.process pack = .ok (p.BroadcastRTP pack) := by
  unfold Pusher.process
  rw [h]
  rfl

theorem process_delta (p : Pusher) (pack : RTPPack) (hg : p.gopCacheEnable = true)
    (hv : pack.Type_ = RTP_TYPE_VIDEO) (hk : p.keyframeInfo pack = .ok none) :
    p.process pack =
      .ok (Pusher.BroadcastRTP { p with gopCache := p.gopCache ++ [pack] } pack) := by
  have hcond : (p.gopCacheEnable && pack.Type_ == RTP_TYPE_VIDEO) = true := by simp [hg, hv]
  unfold Pusher.process
  rw [if_pos hcond, hk]
  rfl

theorem process_key (p : Pusher) (c : Client) (hc : p.Client = some c) (hh : c.hooksSet = true)
    (pack : RTPPack) (rtp : RTPInfo) (hg : p.gopCacheEnable = true)
    (hv : pack.Type_ = RTP_TYPE_VIDEO) (hk : p.keyframeInfo pack = .ok (some rtp))
    (h2 : 2 ≤ rtp.Payload.elems.length) :
    ∃ payload : List Byte, p.process pack =
      .ok (Pusher.BroadcastRTP
        { p with gopCache := [{ pack with
            Buffer := pack.Buffer.take rtp.PayloadOffset.toNat ++
              (rtp.Payload.elems.take 2 ++ payload) }] }
        { pack with
            Buffer := pack.Buffer.take rtp.PayloadOffset.toNat ++
              (rtp.Payload.elems.take 2 ++ payload) }) := by
  obtain ⟨payload, hr⟩ := rewriteKeyframe_ok { p with gopCache := [] } c hc hh pack rtp
    (keyframeInfo_parse p pack rtp hk) h2
  refine ⟨payload, ?_⟩
  have hcond : (p.gopCacheEnable && pack.Type_ == RTP_TYPE_VIDEO) = true := by simp [hg, hv]
  unfold Pusher.process
  rw [if_pos hcond, hk]
  simp only [Go.ok_bind, Go.pure_eq, hr]
  rfl

theorem keyframeInfo_BroadcastRTP (p : Pusher) (cache : List RTPPack) (pack g : RTPPack) :
    (Pusher.BroadcastRTP { p with gopCache := cache } pack).keyframeInfo g = p.keyframeInfo g :=
  keyframeInfo_congr (Pusher.BroadcastRTP { p with gopCache := cache } pack) p rfl rfl g

theorem processAll_no_keyframe (packs : List RTPPack) :
    ∀ (p : Pusher), p.gopCacheEnable = true →
      (∀ f ∈ packs, f.Type_ = RTP_TYPE_VIDEO → p.keyframeInfo f = .ok none) →
      ∃ p' : Pusher, p.processAll packs = .ok p' ∧
        p'.gopCache = p.gopCache ++ videoPacks packs ∧
        p'.gopCacheEnable = true ∧ p'.Session = p.Session ∧ p'.Client = p.Client := by
  induction packs with
  | nil =>
    intro p hg _
    exact ⟨p, rfl, by simp [videoPacks], hg, rfl, rfl⟩
  | cons f rest ih =>
    intro p hg hk
    by_cases hv : f.Type_ = RTP_TYPE_VIDEO
    · have h1 := process_delta p f hg hv (hk f (List.mem_cons_self _ _) hv)
      obtain ⟨p', e1, e2, e3, e4, e5⟩ :=
        ih (Pusher.BroadcastRTP { p with gopCache := p.gopCache ++ [f] } f) hg
          (fun g hgm hgv => by
            rw [keyframeInfo_BroadcastRTP]
            exact hk g (List.mem_cons_of_mem _ hgm) hgv)
      refine ⟨p', ?_, ?_, e3, e4, e5⟩
      · show (p.process f >>= fun q => q.processAll rest) = _
        rw [h1, Go.ok_bind, e1]
      · rw [e2]
        show (p.gopCache ++ [f]) ++ videoPacks rest = p.gopCache ++ videoPacks (f :: rest)
        simp [videoPacks, hv]
    · have hb : (p.gopCacheEnable && f.Type_ == RTP_TYPE_VIDEO) = false := by
        simp [hv]
      have h1 := process_not_cached p f hb
      obtain ⟨p', e1, e2, e3, e4, e5⟩ :=
        ih (p.BroadcastRTP f) hg
          (fun g hgm hgv => by
            rw [keyframeInfo_congr (p.BroadcastRTP f) p rfl rfl g]
            exact hk g (List.mem_cons_of_mem _ hgm) hgv)
      refine ⟨p', ?_, ?_, e3, e4, e5⟩
      · show (p.process f >>= fun q => q.processAll rest) = _
        rw [h1, Go.ok_bind, e1]
      · rw [e2]
        show p.gopCache ++ videoPacks rest = p.gopCache ++ videoPacks (f :: rest)
        simp [videoPacks, hv]

/-- A keyframe followed by frames without a keyframe: the cache is the stored
keyframe pack and then the video frames that followed. -/
theorem processAll_keyframe (p : Pusher) (c : Client) (hc : p.Client = some c) (hh : c.hooksSet = true)
    (hg : p.gopCacheEnable = true) (K : RTPPack) (rtp : RTPInfo)
    (hv : K.Type_ = RTP_TYPE_VIDEO) (hk : p.keyframeInfo K = .ok (some rtp))
    (h2 : 2 ≤ rtp.Payload.elems.length) (post : List RTPPack)
    (hpost : ∀ f ∈ post, f.Type_ = RTP_TYPE_VIDEO → p.keyframeInfo f = .ok none) :
    ∃ (p' : Pusher) (stored : RTPPack), p.processAll (K :: post) = .ok p' ∧
      p'.gopCache = stored :: videoPacks post ∧
      stored.Type_ = RTP_TYPE_VIDEO ∧
      stored.Buffer.take (rtp.PayloadOffset.toNat + 2) = K.Buffer.take (rtp.PayloadOffset.toNat + 2) ∧
      p'.gopCacheEnable = true ∧ p'.Client = some c := by
  obtain ⟨payload, h1⟩ := process_key p c hc hh K rtp hg hv hk h2
  obtain ⟨b1, b2, b3, b4⟩ := ParseRTP_some_bounds K.Bytes rtp (keyframeInfo_parse p K rtp hk)
  obtain ⟨p', e1, e2, e3, e4, e5⟩ :=
    processAll_no_keyframe post
      (Pusher.BroadcastRTP
        { p with gopCache := [{ K with
            Buffer := K.Buffer.take rtp.PayloadOffset.toNat ++
              (rtp.Payload.elems.take 2 ++ payload) }] }
        { K with
            Buffer := K.Buffer.take rtp.PayloadOffset.toNat ++
              (rtp.Payload.elems.take 2 ++ payload) }) hg
      (fun g hgm hgv => by
        rw [keyframeInfo_BroadcastRTP]
        exact hpost g hgm hgv)
  refine ⟨p', _, ?_, e2, hv, ?_, e3, by rw [e5]; exact hc⟩
  · show (p.process K >>= fun q => q.processAll post) = _
    rw [h1, Go.ok_bind, e1]
  · show (K.Buffer.take rtp.PayloadOffset.toNat ++ (rtp.Payload.elems.take 2 ++ payload)).take
        (rtp.PayloadOffset.toNat + 2) = _
    have hlenK : rtp.PayloadOffset.toNat + 2 ≤ K.Buffer.length := by
      have hb : rtp.PayloadOffset + (rtp.Payload.elems.length : Int) ≤ (K.Buffer.length : Int) := b2
      omega
    have hpl : rtp.Payload.elems.take 2 = (K.Buffer.drop rtp.PayloadOffset.toNat).take 2 := by
      have : K.Bytes.elems = K.Buffer := rfl
      rw [b4, this, List.take_take, Nat.min_eq_left h2]
    rw [hpl, ← List.append_assoc, List.take_append_of_le_length (by
      rw [List.length_append, List.length_take, List.length_take, List.length_drop]; omega)]
    rw [List.take_of_length_le (by
      rw [List.length_append, List.length_take, List.length_take, List.length_drop]; omega)]
    rw [List.take_add]

/-- A player with an empty unbounded queue receives the GOP cache. -/
theorem AddPlayer_fresh (p : Pusher) (c : Client) (hc : p.Client = some c)
    (hg : p.gopCacheEnable = true) (pl : Player) (hq : pl.queue = []) (hl : pl.queueLimit = 0)
    (hp : pl.paused = false) :
    ∃ (p' : Pusher) (pl' : Player), p.AddPlayer pl = .ok (p', pl') ∧ pl'.queue = p.gopCache ∧
      p'.gopCache = p.gopCache := by
  obtain ⟨_, _, h3⟩ := Player.queueAll_spec pl hq hp p.gopCache
  rw [hl, if_neg (by omega)] at h3
  unfold Pusher.AddPlayer
  simp only [hg, if_true, Go.pure_eq]
  split
  · rw [hc]
    exact ⟨_, _, rfl, h3, rfl⟩
  · exact ⟨_, _, rfl, h3, rfl⟩

/-- C5, the code at the failing input: with neither hook configured, the
keyframe `keyPack` (12-byte header, 4-byte payload) is stored in the GOP cache
and broadcast as `keyPackStored`, the header and two payload bytes. -/
theorem process_keyframe_truncates :
    keyPack.Buffer = plainHeader ++ [0x65, 0x88, 0x84, 0x21] ∧
    plainClient.options.IsEncrypt = false ∧ plainClient.options.IsDecode = false ∧
    ∃ p' : Pusher, watchedPusher.process keyPack = .ok p' ∧
      p'.gopCache = [keyPackStored] ∧ p'.queueOf "a" = [keyPackStored] ∧
      keyPackStored.Buffer = plainHeader ++ [0x65, 0x88] ∧
      keyPackStored.Buffer ≠ keyPack.Buffer :=
  ⟨rfl, rfl, rfl, _, rfl, rfl, rfl, rfl, by decide⟩

/-- C6 (as amended): for a pusher with a client and GOP caching enabled, once a
keyframe `K` has been processed, whatever frames without a keyframe follow, the
GOP cache is the pack stored for `K` (a video pack that keeps the RTP header and
the first two payload bytes of `K`) followed by the video frames received after
`K`, and that stored pack is the first one `AddPlayer` enqueues on a newly
attached player. -/
theorem gopCache_after_keyframe (p : Pusher) (c : Client) (hc : p.Client = some c)
    (hh : c.hooksSet = true) (hg : p.gopCacheEnable = true) (K : RTPPack) (rtp : RTPInfo)
    (hv : K.Type_ = RTP_TYPE_VIDEO) (hk : p.keyframeInfo K = .ok (some rtp))
    (h2 : 2 ≤ rtp.Payload.elems.length) (post : List RTPPack)
    (hpost : ∀ f ∈ post, f.Type_ = RTP_TYPE_VIDEO → p.keyframeInfo f = .ok none)
    (pl : Player) (hq : pl.queue = []) (hl : pl.queueLimit = 0) (hp : pl.paused = false) :
    ∃ (p' : Pusher) (stored : RTPPack) (p'' : Pusher) (pl' : Player),
      p.processAll (K :: post) = .ok p' ∧
      p'.gopCache = stored :: videoPacks post ∧
      stored.Type_ = RTP_TYPE_VIDEO ∧
      stored.Buffer.take (rtp.PayloadOffset.toNat + 2) = K.Buffer.take (rtp.PayloadOffset.toNat + 2) ∧
      p'.AddPlayer pl = .ok (p'', pl') ∧ pl'.queue.head? = some stored := by
  obtain ⟨p', stored, e1, e2, e3, e4, e5, e6⟩ :=
    processAll_keyframe p c hc hh hg K rtp hv hk h2 post hpost
  obtain ⟨p'', pl', a1, a2, _⟩ := AddPlayer_fresh p' c e6 e5 pl hq hl hp
  exact ⟨p', stored, p'', pl', e1, e2, e3, e4, a1, by rw [a2, e2]; rfl⟩

/-- C6, counterexample: a pusher with GOP caching enabled and an empty cache
processes one video frame that is not a keyframe; the cache then holds that
frame, and it is the first frame `AddPlayer` enqueues on a new player. -/
theorem gopCache_counterexample :
    clientPusher.gopCacheEnable = true ∧ clientPusher.gopCache = [] ∧
    deltaPack.Type_ = RTP_TYPE_VIDEO ∧ clientPusher.keyframeInfo deltaPack = .ok none ∧
    ∃ (p' p'' : Pusher) (pl' : Player), clientPusher.processAll [deltaPack] = .ok p' ∧
      p'.gopCache = [deltaPack] ∧
      p'.AddPlayer (newPlayer "b") = .ok (p'', pl') ∧ pl'.queue = [deltaPack] :=
  ⟨rfl, rfl, rfl, by decide, _, _, _, rfl, rfl, rfl, rfl⟩

/-- C6, witness: a keyframe followed by a delta frame, an audio frame and a
delta frame. -/
theorem gopCache_after_keyframe_witness :
    clientPusher.keyframeInfo keyPack = .ok (some keyPackInfo) ∧
    ∃ (p' : Pusher) (stored : RTPPack) (p'' : Pusher) (pl' : Player),
      clientPusher.processAll (keyPack :: [deltaPack, audioPack, deltaPack]) = .ok p' ∧
      p'.gopCache = stored :: videoPacks [deltaPack, audioPack, deltaPack] ∧
      stored.Type_ = RTP_TYPE_VIDEO ∧
      stored.Buffer.take (keyPackInfo.PayloadOffset.toNat + 2) =
        keyPack.Buffer.take (keyPackInfo.PayloadOffset.toNat + 2) ∧
      p'.AddPlayer (newPlayer "b") = .ok (p'', pl') ∧ pl'.queue.head? = some stored :=
  ⟨by decide,
    gopCache_after_keyframe clientPusher plainClient rfl rfl rfl keyPack keyPackInfo
      rfl (by decide) (by decide) [deltaPack, audioPack, deltaPack]
      (by
        intro f hf hv
        simp only [List.mem_cons, List.mem_singleton, List.not_mem_nil, or_false] at hf
        rcases hf with rfl | rfl | rfl
        · decide
        · exact absurd hv (by decide)
        · decide)
      (newPlayer "b") rfl rfl rfl⟩

/-- C7 (as amended): after a pusher with a client and GOP caching enabled has
processed F1 (video keyframe), F2 (video, no keyframe) and F3 (audio),
`AddPlayer` on a player with an empty unbounded queue leaves that queue holding
two packs: the pack stored for F1 (a video pack that keeps the RTP header and
the first two payload bytes of F1), then F2. The audio frame F3 is not cached. -/
theorem gop_replay (p : Pusher) (c : Client) (hc : p.Client = some c) (hh : c.hooksSet = true)
    (hg : p.gopCacheEnable = true) (F1 F2 F3 : RTPPack) (rtp : RTPInfo)
    (h1v : F1.Type_ = RTP_TYPE_VIDEO) (h1k : p.keyframeInfo F1 = .ok (some rtp))
    (h1l : 2 ≤ rtp.Payload.elems.length)
    (h2v : F2.Type_ = RTP_TYPE_VIDEO) (h2k : p.keyframeInfo F2 = .ok none)
    (h3a : F3.Type_ = RTP_TYPE_AUDIO)
    (pl : Player) (hq : pl.queue = []) (hl : pl.queueLimit = 0) (hp : pl.paused = false) :
    ∃ (p' : Pusher) (stored : RTPPack) (p'' : Pusher) (pl' : Player),
      p.processAll [F1, F2, F3] = .ok p' ∧
      p'.AddPlayer pl = .ok (p'', pl') ∧
      pl'.queue = [stored, F2] ∧
      stored.Type_ = RTP_TYPE_VIDEO ∧
      stored.Buffer.take (rtp.PayloadOffset.toNat + 2) = F1.Buffer.take (rtp.PayloadOffset.toNat + 2) := by
  obtain ⟨p', stored, e1, e2, e3, e4, e5, e6⟩ :=
    processAll_keyframe p c hc hh hg F1 rtp h1v h1k h1l [F2, F3]
      (by
        intro f hf hv
        simp only [List.mem_cons, List.mem_singleton, List.not_mem_nil, or_false] at hf
        rcases hf with rfl | rfl
        · exact h2k
        · rw [h3a] at hv; cases hv)
  obtain ⟨p'', pl', a1, a2, _⟩ := AddPlayer_fresh p' c e6 e5 pl hq hl hp
  refine ⟨p', stored, p'', pl', e1, a1, ?_, e3, e4⟩
  rw [a2, e2]
  simp [videoPacks, h2v, h3a]

/-- C7, counterexample: after the keyframe `keyPack`, the delta frame
`deltaPack` and the audio frame `audioPack`, a new player's queue holds two
packs, not `[F1, F2, F3]`: the audio frame is absent. -/
theorem gop_replay_counterexample :
    clientPusher.gopCacheEnable = true ∧
    clientPusher.keyframeInfo keyPack = .ok (some keyPackInfo) ∧
    clientPusher.keyframeInfo deltaPack = .ok none ∧
    audioPack.Type_ = RTP_TYPE_AUDIO ∧
    ∃ (p' p'' : Pusher) (pl' : Player),
      clientPusher.processAll [keyPack, deltaPack, audioPack] = .ok p' ∧
      p'.AddPlayer (newPlayer "b") = .ok (p'', pl') ∧
      pl'.queue = [keyPackStored, deltaPack] ∧
      pl'.queue ≠ [keyPack, deltaPack, audioPack] :=
  ⟨rfl, by decide, by decide, rfl, _, _, _, rfl, rfl, rfl, by decide⟩

/-- C7, witness: `keyPack`, `deltaPack`, `audioPack` on `clientPusher`. -/
theorem gop_replay_witness :
    clientPusher.keyframeInfo keyPack = .ok (some keyPackInfo) ∧
    clientPusher.keyframeInfo deltaPack = .ok none ∧
    ∃ (p' : Pusher) (stored : RTPPack) (p'' : Pusher) (pl' : Player),
      clientPusher.processAll [keyPack, deltaPack, audioPack] = .ok p' ∧
      p'.AddPlayer (newPlayer "b") = .ok (p'', pl') ∧
      pl'.queue = [stored, deltaPack] ∧
      stored.Type_ = RTP_TYPE_VIDEO ∧
      stored.Buffer.take (keyPackInfo.PayloadOffset.toNat + 2) =
        keyPack.Buffer.take (keyPackInfo.PayloadOffset.toNat + 2) :=
  ⟨by decide, by decide,
    gop_replay clientPusher plainClient rfl rfl rfl keyPack deltaPack audioPack
      keyPackInfo rfl (by decide) (by decide) rfl (by decide) rfl (newPlayer "b") rfl rfl rfl⟩

/-! ### player.go : claim on the queue -/

/-- C8: for a player with queue limit `L`, an empty queue and not paused, after
`n` calls of `QueueRTP` with non-nil packs: if `L > 0` the queue holds the most
recent `min(n, L)` packs in enqueue order, so its length is at most `L`; if
`L = 0` it holds all `n` packs in enqueue order. A nil pack leaves the player
unchanged. -/
theorem QueueRTP_bounded (p : Player) (packs : List RTPPack) (hq : p.queue = [])
    (hp : p.paused = false) :
    (0 < p.queueLimit →
      (p.queueAll packs).queue =
        packs.drop (packs.length - min packs.length p.queueLimit.toNat) ∧
      (p.queueAll packs).queue.length = min packs.length p.queueLimit.toNat ∧
      ((p.queueAll packs).queue.length : Int) ≤ p.queueLimit) ∧
    (p.queueLimit = 0 → (p.queueAll packs).queue = packs) ∧
    (∀ q : Player, q.QueueRTP none = q) := by
  obtain ⟨_, _, h3⟩ := Player.queueAll_spec p hq hp packs
  refine ⟨?_, ?_, fun q => rfl⟩
  · intro hL
    rw [if_pos hL] at h3
    have e : packs.length - min packs.length p.queueLimit.toNat =
        packs.length - p.queueLimit.toNat := by omega
    rw [e, h3, List.length_drop]
    refine ⟨rfl, by omega, by omega⟩
  · intro hL
    rw [hL, if_neg (by omega)] at h3
    exact h3

/-- C8, witness: three packs into a queue of limit 2. -/
theorem QueueRTP_bounded_witness :
    boundedPlayer.queue = [] ∧ boundedPlayer.paused = false ∧
    (boundedPlayer.queueAll [keyPack, deltaPack, audioPack]).queue = [deltaPack, audioPack] ∧
    ((0 : Int) < boundedPlayer.queueLimit →
      (boundedPlayer.queueAll [keyPack, deltaPack, audioPack]).queue =
        [keyPack, deltaPack, audioPack].drop
          ([keyPack, deltaPack, audioPack].length -
            min [keyPack, deltaPack, audioPack].length boundedPlayer.queueLimit.toNat) ∧
      (boundedPlayer.queueAll [keyPack, deltaPack, audioPack]).queue.length =
        min [keyPack, deltaPack, audioPack].length boundedPlayer.queueLimit.toNat ∧
      (((boundedPlayer.queueAll [keyPack, deltaPack, audioPack]).queue.length : Nat) : Int) ≤
        boundedPlayer.queueLimit) :=
  ⟨rfl, rfl, by decide,
    (QueueRTP_bounded boundedPlayer [keyPack, deltaPack, audioPack] rfl rfl).1⟩

/-! ### server.go : the registry -/

theorem GoMap.get_set {V : Type} (m : GoMap V) (k : String) (v : V) (k' : String) :
    (m.set k v).get k' = if k' = k then some v else m.get k' := by
  induction m with
  | nil =>
    by_cases h : k' = k
    · simp [GoMap.set, GoMap.get, h]
    · have h' : ¬ k = k' := fun e => h e.symm
      simp [GoMap.set, GoMap.get, h, h']
  | cons e rest ih =>
    obtain ⟨k0, v0⟩ := e
    by_cases h0 : k0 = k
    · by_cases h : k' = k
      · simp [GoMap.set, GoMap.get, h0, h]
      · have h' : ¬ k = k' := fun e => h e.symm
        simp [GoMap.set, GoMap.get, h0, h, h']
    · by_cases h : k' = k
      · subst h
        simp only [if_true] at ih
        simp [GoMap.set, GoMap.get, h0, ih]
      · by_cases h1 : k0 = k'
        · simp [GoMap.set, GoMap.get, h0, h, h1]
        · simp [GoMap.set, GoMap.get, h0, h, h1, ih]

theorem GoMap.get_delete {V : Type} (m : GoMap V) (k : String) (k' : String) :
    (m.delete k).get k' = if k' = k then none else m.get k' := by
  induction m with
  | nil => simp [GoMap.delete, GoMap.get]
  | cons e rest ih =>
    obtain ⟨k0, v0⟩ := e
    by_cases h0 : k0 = k
    · by_cases h : k' = k
      · subst h
        simp only [if_true] at ih
        simp [GoMap.delete, GoMap.get, h0, ih]
      · have h' : ¬ k = k' := fun e => h e.symm
        simp [GoMap.delete, GoMap.get, h0, h, h', ih]
    · by_cases h : k' = k
      · subst h
        simp only [if_true] at ih
        simp [GoMap.delete, GoMap.get, h0, ih]
      · by_cases h1 : k0 = k'
        · simp [GoMap.delete, GoMap.get, h0, h, h1]
        · simp [GoMap.delete, GoMap.get, h0, h, h1, ih]

/-- A server whose lock is free is the server with its lock released. -/
theorem Server.unlock_free (s : Server) (h : s.pushersLock = false) :
    ({ s with pushersLock := false } : Server) = s := by
  cases s
  simp only at h
  subst h
  rfl

/-- C9: `AddPusher` never returns true. For every server and every pusher `p`
that has a path: when the lock is free and no pusher is registered at
`p.Path()`, the call stores `p` under its path, releases the lock and then
waits for ever to send on `addPusherCh`, so the caller is never told that the
pusher was added; when the lock is free and a pusher is registered there, the
call returns false with the registry unchanged and the lock still held
(server.go:131 returns without `Unlock`); when the lock is held the call waits
for ever and changes nothing. -/
theorem AddPusher_never_true (s : Server) (p : Pusher) (path : String) (hp : p.Path = .ok path) :
    (s.pushersLock = false → s.pushers.get path = none →
      Server.AddPusher p s =
        (.panic .blocked, { s with pushers := s.pushers.set path p, pushersLock := false })) ∧
    (s.pushersLock = false → ∀ q : Pusher, s.pushers.get path = some q →
      Server.AddPusher p s = (.ok false, { s with pushersLock := true })) ∧
    (s.pushersLock = true → Server.AddPusher p s = (.panic .blocked, s)) ∧
    (Server.AddPusher p s).1 ≠ .ok true := by
  have h1 : s.pushersLock = false → s.pushers.get path = none →
      Server.AddPusher p s =
        (.panic .blocked, { s with pushers := s.pushers.set path p, pushersLock := false }) := by
    intro hl hn
    simp [Server.AddPusher, Server.Lock, Server.Unlock, chanSend, Act.get, Act.read, Act.modify, Act.panic,
      bind, Act.bind, hl, hp, hn]
  have h2 : s.pushersLock = false → ∀ q : Pusher, s.pushers.get path = some q →
      Server.AddPusher p s = (.ok false, { s with pushersLock := true }) := by
    intro hl q hg
    simp [Server.AddPusher, Server.Lock, Act.get, Act.read, bind, Act.bind, hl, hp, hg, pure]
  have h3 : s.pushersLock = true → Server.AddPusher p s = (.panic .blocked, s) := by
    intro hl
    simp [Server.AddPusher, Server.Lock, bind, Act.bind, hl]
  refine ⟨h1, h2, h3, ?_⟩
  cases hl : s.pushersLock with
  | true => rw [h3 hl]; simp
  | false =>
    cases hg : s.pushers.get path with
    | none => rw [h1 hl hg]; simp
    | some q => rw [h2 hl q hg]; simp

/-- C9, witness: on the server that holds the pusher `s1` at `/cam`, a pusher
for the vacant path `/door` is stored and the call blocks; a second pusher for
`/cam` is refused and the lock stays held; after that a pusher for `/door`
blocks at the lock. -/
theorem AddPusher_never_true_witness :
    ((sessionPusher "s2" "/door").Path = .ok "/door" ∧ (sessionPusher "s3" "/cam").Path = .ok "/cam" ∧
      sessionServer.pushersLock = false ∧ sessionServer.pushers.get "/door" = none ∧
      sessionServer.pushers.get "/cam" = some (sessionPusher "s1" "/cam")) ∧
    Server.AddPusher (sessionPusher "s2" "/door") sessionServer =
      (.panic .blocked,
        { sessionServer with
          pushers := [("/cam", sessionPusher "s1" "/cam"), ("/door", sessionPusher "s2" "/door")],
          pushersLock := false }) ∧
    Server.AddPusher (sessionPusher "s3" "/cam") sessionServer =
      (.ok false, { sessionServer with pushersLock := true }) ∧
    Server.AddPusher (sessionPusher "s2" "/door") { sessionServer with pushersLock := true } =
      (.panic .blocked, { sessionServer with pushersLock := true }) :=
  ⟨⟨rfl, rfl, rfl, rfl, rfl⟩,
   (AddPusher_never_true sessionServer (sessionPusher "s2" "/door") "/door" rfl).1 rfl rfl,
   (AddPusher_never_true sessionServer (sessionPusher "s3" "/cam") "/cam" rfl).2.1 rfl _ rfl,
   (AddPusher_never_true { sessionServer with pushersLock := true } (sessionPusher "s2" "/door") "/door"
      rfl).2.2.1 rfl⟩

/-- For a pusher `p'` with a session, on a server whose lock is free:
`RemovePusher(p')` changes nothing and returns when no pusher is registered at
`p'.Path()` or the registered pusher has another ID; when the registered pusher
has the ID of `p'` it deletes the entry, releases the lock and then waits for
ever to send on `removePusherCh`. -/
theorem RemovePusher_session (s : Server) (p' : Pusher) (path id : String)
    (hp : p'.Path = .ok path) (hid : p'.ID = .ok id) (hl : s.pushersLock = false) :
    (s.pushers.get path = none → Server.RemovePusher p' s = (.ok (), s)) ∧
    (∀ (q : Pusher) (qid : String), s.pushers.get path = some q → q.ID = .ok qid → qid ≠ id →
      Server.RemovePusher p' s = (.ok (), s)) ∧
    (∀ q : Pusher, s.pushers.get path = some q → q.ID = .ok id →
      Server.RemovePusher p' s = (.panic .blocked, { s with pushers := s.pushers.delete path })) := by
  refine ⟨fun hn => ?_, fun q qid hg hq hne => ?_, fun q hg hq => ?_⟩
  · simp [Server.RemovePusher, Server.Lock, Server.Unlock, Act.get, Act.read, Act.modify, bind, Act.bind, hl,
      hp, hn, pure, Server.unlock_free s hl]
  · have hne' : ¬ id = qid := fun e => hne e.symm
    simp [Server.RemovePusher, Server.Lock, Server.Unlock, Act.get, Act.read, Act.modify, bind, Act.bind, hl,
      hp, hg, hid, hq, hne', pure, Server.unlock_free s hl]
  · simp [Server.RemovePusher, Server.Lock, Server.Unlock, chanSend, Act.get, Act.read, Act.modify, Act.panic,
      bind, Act.bind, hl, hp, hg, hid, hq, pure]

/-- C10, the code at the failing input: `clientPusher` is registered at its
path `/live`; `RemovePusher(clientPusher)` takes the lock and reads
`pusher.ID`, that is `pusher.Session.ID` with a nil `Session`: it panics, the
entry is not deleted and the lock stays held. -/
theorem RemovePusher_client_panics :
    clientPusher.Path = .ok "/live" ∧
    Server.GetPusher "/live" clientServer = (.ok (some clientPusher), clientServer) ∧
    clientPusher.ID = .panic .nilDereference ∧
    Server.RemovePusher clientPusher clientServer =
      (.panic .nilDereference, { clientServer with pushersLock := true }) :=
  ⟨rfl, rfl, rfl, rfl⟩

/-! ### The codec test of `isKeyframe` -/

theorem toLower_cases (c : Char) :
    c.toLower = c ∨ (65 ≤ c.toNat ∧ c.toNat ≤ 90 ∧ c.toLower.toNat = c.toNat + 32) := by
  unfold Char.toLower
  simp only []
  split
  · right
    rename_i h
    refine ⟨h.1, h.2, ?_⟩
    have hv : (c.toNat + 32).isValidChar := by
      left; omega
    unfold Char.ofNat
    rw [dif_pos hv]
    rfl
  · left; rfl

theorem toLower_eq_of_not_upper (c d : Char) (hd : d.toNat < 97 ∨ 122 < d.toNat)
    (h : c.toLower = d) : c = d := by
  rcases toLower_cases c with h1 | ⟨h1, h2, h3⟩
  · rw [← h1]; exact h
  · rw [h] at h3; omega

theorem toNat_inj (c d : Char) (h : c.toNat = d.toNat) : c = d := by
  rw [← Char.ofNat_toNat c, ← Char.ofNat_toNat d, h]

theorem toLower_eq_h (c : Char) (h : c.toLower = 'h') : c = 'h' ∨ c = 'H' := by
  rcases toLower_cases c with h1 | ⟨h1, h2, h3⟩
  · left; rw [← h1]; exact h
  · right
    rw [h] at h3
    apply toNat_inj
    have : ('h' : Char).toNat = 104 := rfl
    have : ('H' : Char).toNat = 72 := rfl
    omega

/-- The codec test of `isKeyframe` accepts the two spellings `h264` and `H264`. -/
theorem EqualFold_h264 (s : String) :
    strings.EqualFold s "h264" = true ↔ s = "h264" ∨ s = "H264" := by
  have hR : ("h264" : String).toList.map Char.toLower = ['h', '2', '6', '4'] := by decide
  unfold strings.EqualFold
  rw [hR, beq_iff_eq]
  constructor
  · intro h
    obtain ⟨data⟩ := s
    change data.map Char.toLower = _ at h
    rcases data with _ | ⟨a, _ | ⟨b, _ | ⟨c, _ | ⟨d, _ | ⟨e, t⟩⟩⟩⟩⟩
    · exact absurd (congrArg List.length h) (by simp)
    · exact absurd (congrArg List.length h) (by simp)
    · exact absurd (congrArg List.length h) (by simp)
    · exact absurd (congrArg List.length h) (by simp)
    · simp only [List.map, List.cons.injEq, and_true] at h
      obtain ⟨ha, hb, hc, hd⟩ := h
      have hb' := toLower_eq_of_not_upper b '2' (by decide) hb
      have hc' := toLower_eq_of_not_upper c '6' (by decide) hc
      have hd' := toLower_eq_of_not_upper d '4' (by decide) hd
      subst hb' hc' hd'
      rcases toLower_eq_h a ha with rfl | rfl
      · left; rfl
      · right; rfl
    · exact absurd (congrArg List.length h) (by simp)
  · rintro (rfl | rfl) <;> decide

/-! ## headers : `AddAuthorization`, `CheckAuth`, `NewSender` -/

/-- C18: for a Digest sender with realm and nonce and a request with method `m`
and URL text `u`, `AddAuthorization` builds the digest values username = user,
realm, nonce, uri = `u` and response =
`Md5Hex(Md5Hex(user:realm:pass) + ":" + nonce + ":" + Md5Hex(m:u))` and stores
their header under `Authorization`; for `u`, `p`, `r`, `n`, `DESCRIBE`,
`rtsp://h/s` the response is
`Md5Hex(Md5Hex("u:r:p") + ":n:" + Md5Hex("DESCRIBE:rtsp://h/s"))`. -/
theorem AddAuthorization_digest (lib : Lib) :
    (∀ (se : Sender) (req : Request) (u : URL) (realm nonce : String),
      se.method = AuthDigest → se.auth.Realm = some realm → se.auth.Nonce = some nonce →
      req.URL = some u →
      se.authorization lib req = .ok
        { Method := AuthDigest, BasicUser := "", BasicPass := "",
          DigestValues := digestValues lib se.user se.pass realm nonce req.Method (lib.urlString u) } ∧
      se.AddAuthorization lib req = .ok
        { Method := req.Method, URL := req.URL, Body := req.Body,
          Header := req.Header.set "Authorization" (Authenticate.Write
            (digestValues lib se.user se.pass realm nonce req.Method (lib.urlString u))) }) ∧
    (digestValues lib "u" "p" "r" "n" "DESCRIBE" "rtsp://h/s").Response =
      some (lib.Md5Hex (lib.Md5Hex "u:r:p" ++ ":n:" ++ lib.Md5Hex "DESCRIBE:rtsp://h/s")) := by
  refine ⟨?_, ?_⟩
  · intro se req u realm nonce hm hr hn hu
    have h1 : se.authorization lib req = .ok
        { Method := AuthDigest, BasicUser := "", BasicPass := "",
          DigestValues := digestValues lib se.user se.pass realm nonce req.Method (lib.urlString u) } := by
      unfold Sender.authorization Request.urlString
      rw [hu, hm, hr, hn]
      rfl
    refine ⟨h1, ?_⟩
    unfold Sender.AddAuthorization
    rw [h1]
    rfl
  · have e1 : "u" ++ ":" ++ "r" ++ ":" ++ "p" = "u:r:p" := by decide
    have e2 : "DESCRIBE" ++ ":" ++ "rtsp://h/s" = "DESCRIBE:rtsp://h/s" := by decide
    have e3 : ∀ a b : String, a ++ ":" ++ "n" ++ ":" ++ b = a ++ ":n:" ++ b := by
      intro a b
      apply String.ext
      simp [String.append_assoc]
    show some _ = some _
    rw [e1, e2, e3]

/-- C18, witness: user `u`, password `p`, realm `r`, nonce `n`, `DESCRIBE` on
`rtsp://h/s`. -/
theorem AddAuthorization_digest_witness :
    sampleSender.method = AuthDigest ∧ describeRequest.URL = some { Path := "/s" } ∧
    sampleSender.authorization sampleLib describeRequest = .ok
      { Method := AuthDigest, BasicUser := "", BasicPass := "",
        DigestValues := digestValues sampleLib "u" "p" "r" "n" "DESCRIBE" "rtsp://h/s" } :=
  ⟨rfl, rfl, ((AddAuthorization_digest sampleLib).1 sampleSender describeRequest { Path := "/s" }
    "r" "n" rfl rfl rfl rfl).1⟩

theorem String.append_cancel_left (a b c : String) (h : a ++ b = a ++ c) : b = c := by
  have h1 := congrArg String.data h
  simp only [String.data_append] at h1
  exact String.ext (List.append_cancel_left h1)

theorem String.append_cancel_right (a b c : String) (h : a ++ c = b ++ c) : a = b := by
  have h1 := congrArg String.data h
  simp only [String.data_append] at h1
  exact String.ext (List.append_cancel_right h1)

/-- What `Sender.CheckAuth` computes for a sender that holds the digest values
generated for method `m`: it hashes `string(se.method)`, the one-rune string of
the sender's `AuthMethod`, where `AddAuthorization` hashed `m`. -/
theorem CheckAuth_generated (lib : Lib) (user pass realm nonce m : String) (u : URL) :
    Sender.CheckAuth lib
        { user := user, pass := pass, method := AuthDigest,
          auth := digestValues lib user pass realm nonce m (lib.urlString u) } (some u) =
      .ok (if lib.Md5Hex (lib.Md5Hex (user ++ ":" ++ realm ++ ":" ++ pass) ++ ":" ++ nonce ++ ":" ++
              lib.Md5Hex (AuthDigest.toString ++ ":" ++ lib.urlString u)) ≠
            lib.Md5Hex (lib.Md5Hex (user ++ ":" ++ realm ++ ":" ++ pass) ++ ":" ++ nonce ++ ":" ++
              lib.Md5Hex (m ++ ":" ++ lib.urlString u))
          then .error " response not equal " else .ok ()) := by
  unfold Sender.CheckAuth digestValues derefString
  simp only [Go.pure_eq, Go.ok_bind]
  split <;> rfl

/-- C19, the code on the generated fields: for every hash without collisions
and every request method other than the one-rune string `string(AuthDigest)`,
the sender rebuilt from the fields that `AddAuthorization` generated does not
pass `CheckAuth`. -/
theorem CheckAuth_rejects_generated (lib : Lib)
    (hinj : ∀ a b : String, lib.Md5Hex a = lib.Md5Hex b → a = b)
    (user pass realm nonce m : String) (u : URL) (hm : m ≠ AuthDigest.toString) :
    Sender.CheckAuth lib
        { user := user, pass := pass, method := AuthDigest,
          auth := digestValues lib user pass realm nonce m (lib.urlString u) } (some u) =
      .ok (.error " response not equal ") := by
  rw [CheckAuth_generated, if_pos]
  intro h
  have h1 := String.append_cancel_left _ _ _ (hinj _ _ h)
  have h2 := String.append_cancel_right _ _ _ (hinj _ _ h1)
  have h3 := String.append_cancel_right _ _ _ h2
  exact hm h3.symm

/-- C19, witness: the hash of `sampleLib` has no collisions, and the response
generated for `DESCRIBE rtsp://h/s` with `u`, `p`, `r`, `n` is rejected. -/
theorem CheckAuth_rejects_generated_witness :
    ("DESCRIBE" : String) ≠ AuthDigest.toString ∧
    Sender.CheckAuth sampleLib
        { user := "u", pass := "p", method := AuthDigest,
          auth := digestValues sampleLib "u" "p" "r" "n" "DESCRIBE"
            (sampleLib.urlString { Path := "/s" }) } (some { Path := "/s" }) =
      .ok (.error " response not equal ") :=
  ⟨by decide,
    CheckAuth_rejects_generated sampleLib
      (fun a b h => String.append_cancel_right _ _ _ (String.append_cancel_left "md5(" _ _ h))
      "u" "p" "r" "n" "DESCRIBE" { Path := "/s" } (by decide)⟩

theorem HasPrefix_ne_empty (x start : String) (hs : start ≠ "")
    (h : strings.HasPrefix x start = true) : x ≠ "" := by
  intro hx
  subst hx
  unfold strings.HasPrefix at h
  have : start.toList ≠ [] := by
    intro e
    apply hs
    exact String.ext e
  cases hl : start.toList with
  | nil => exact this hl
  | cons a t => rw [hl] at h; simp [List.isPrefixOf] at h

theorem firstStartingWith_none (start : String) (v : HeaderValue)
    (h : ∀ x ∈ v, strings.HasPrefix x start = false) : firstStartingWith start v = "" := by
  induction v with
  | nil => rfl
  | cons a t ih =>
    unfold firstStartingWith
    rw [h a (List.mem_cons_self _ _)]
    exact ih (fun x hx => h x (List.mem_cons_of_mem _ hx))

theorem firstStartingWith_first (start : String) (pre : HeaderValue) (x : String)
    (post : HeaderValue) (h : ∀ y ∈ pre, strings.HasPrefix y start = false)
    (hx : strings.HasPrefix x start = true) :
    firstStartingWith start (pre ++ x :: post) = x := by
  induction pre with
  | nil =>
    show firstStartingWith start (x :: post) = x
    unfold firstStartingWith
    rw [hx]
    rfl
  | cons a t ih =>
    show firstStartingWith start (a :: (t ++ x :: post)) = x
    unfold firstStartingWith
    rw [h a (List.mem_cons_self _ _)]
    exact ih (fun y hy => h y (List.mem_cons_of_mem _ hy))

theorem fieldFrom_none (kvs : GoMap String) (k : String) : fieldFrom kvs k none = kvs.get k := by
  unfold fieldFrom
  cases kvs.get k <;> rfl

/-- `Authenticate.Read` on a zero value and a single text `word rest`. -/
theorem Authenticate.Read_zero (lib : Lib) (v0 word rest : String) (method : AuthMethod)
    (hsplit : splitAtSpace v0 = some (word, rest)) (hw : word = method.word) :
    Authenticate.Read lib Authenticate.zero [v0] =
      match lib.KeyValParse rest ',' with
      | .error e => .error e
      | .ok kvs => .ok (authFrom method kvs) := by
  unfold Authenticate.Read
  simp only [hsplit]
  cases method with
  | AuthBasic =>
    simp only [hw, AuthMethod.word, if_true]
    cases lib.KeyValParse rest ',' with
    | error e => rfl
    | ok kvs => simp [authFrom, Authenticate.zero, fieldFrom_none]
  | AuthDigest =>
    have : ¬ ("Digest" = "Basic") := by decide
    simp only [hw, AuthMethod.word, this, if_false, if_true]
    cases lib.KeyValParse rest ',' with
    | error e => rfl
    | ok kvs => simp [authFrom, Authenticate.zero, fieldFrom_none]

/-- C20: when the list holds a value beginning with `Digest`, `NewSender` builds
a Digest sender from the first such value, wherever Basic values sit; with no
such value it builds a Basic sender from the first value beginning with
`Basic`; when no value begins with `Digest` or `Basic` the result is the error
`no authentication methods available`. The value chosen is read by
`Authenticate.Read`: for a value `word rest` whose word is the name of the
method, the pairs that `KeyValParse` finds in `rest` decide. Without the key
`realm` the result is the error `realm is missing`; for Digest, with `realm`
and without the key `nonce` it is the error `nonce is missing`; otherwise it is
the sender with the given user and password, whose challenge holds under each
field the value of its key. An error of `KeyValParse` is returned as it is; a
chosen value without a space and a value whose word is longer than the name of
the method are the errors of `Authenticate.Read`, with the text after them. -/
theorem NewSender_choice (lib : Lib) (v : HeaderValue) (user pass : String) :
    (∀ (pre : HeaderValue) (vD : String) (post : HeaderValue), v = pre ++ vD :: post →
      (∀ x ∈ pre, strings.HasPrefix x "Digest" = false) → strings.HasPrefix vD "Digest" = true →
      NewSender lib v user pass = senderFrom lib AuthDigest vD user pass) ∧
    ((∀ x ∈ v, strings.HasPrefix x "Digest" = false) →
      ∀ (pre : HeaderValue) (vB : String) (post : HeaderValue), v = pre ++ vB :: post →
      (∀ x ∈ pre, strings.HasPrefix x "Basic" = false) → strings.HasPrefix vB "Basic" = true →
      NewSender lib v user pass = senderFrom lib AuthBasic vB user pass) ∧
    ((∀ x ∈ v, strings.HasPrefix x "Digest" = false ∧ strings.HasPrefix x "Basic" = false) →
      NewSender lib v user pass = .error "no authentication methods available") ∧
    (∀ (method : AuthMethod) (v0 word rest : String), splitAtSpace v0 = some (word, rest) →
      word = method.word →
      (∀ kvs : GoMap String, lib.KeyValParse rest ',' = .ok kvs →
        (kvs.get "realm" = none → senderFrom lib method v0 user pass = .error "realm is missing") ∧
        (kvs.get "realm" ≠ none → kvs.get "nonce" = none → method = AuthDigest →
          senderFrom lib method v0 user pass = .error "nonce is missing") ∧
        (kvs.get "realm" ≠ none → (method = AuthDigest → kvs.get "nonce" ≠ none) →
          senderFrom lib method v0 user pass =
            .ok { user := user, pass := pass, method := method, auth := authFrom method kvs })) ∧
      (∀ e : String, lib.KeyValParse rest ',' = .error e →
        senderFrom lib method v0 user pass = .error e)) ∧
    (∀ (method : AuthMethod) (v0 : String), splitAtSpace v0 = none →
      senderFrom lib method v0 user pass =
        .error ("unable to split between method and keys (" ++ v0 ++ ")")) ∧
    (∀ (method : AuthMethod) (v0 word rest : String), splitAtSpace v0 = some (word, rest) →
      word ≠ "Basic" → word ≠ "Digest" →
      senderFrom lib method v0 user pass = .error ("invalid method (" ++ word ++ ")")) := by
  refine ⟨?_, ?_, ?_, ?_, ?_, ?_⟩
  · intro pre vD post hv hpre hD
    have hf := firstStartingWith_first "Digest" pre vD post hpre hD
    have hne := HasPrefix_ne_empty vD "Digest" (by decide) hD
    unfold NewSender senderFrom
    rw [hv, hf, if_pos hne]
    cases Authenticate.Read lib Authenticate.zero [vD] with
    | error e => rfl
    | ok auth =>
      by_cases hr : auth.Realm = none
      · simp [hr]
      · by_cases hn : auth.Nonce = none
        · simp [hr, hn]
        · simp [hr, hn]
  · intro hno pre vB post hv hpre hB
    have hd := firstStartingWith_none "Digest" v hno
    have hf := firstStartingWith_first "Basic" pre vB post hpre hB
    have hne := HasPrefix_ne_empty vB "Basic" (by decide) hB
    unfold NewSender senderFrom
    rw [hd, if_neg (by simp), hv, hf, if_pos hne]
    cases Authenticate.Read lib Authenticate.zero [vB] with
    | error e => rfl
    | ok auth =>
      by_cases hr : auth.Realm = none
      · simp [hr]
      · simp [hr]
  · intro hno
    have hd := firstStartingWith_none "Digest" v (fun x hx => (hno x hx).1)
    have hb := firstStartingWith_none "Basic" v (fun x hx => (hno x hx).2)
    unfold NewSender
    rw [hd, hb, if_neg (by simp), if_neg (by simp)]
  · intro method v0 word rest hsplit hw
    have hread := Authenticate.Read_zero lib v0 word rest method hsplit hw
    refine ⟨fun kvs hk => ?_, fun e he => ?_⟩
    · rw [hk] at hread
      unfold senderFrom
      rw [hread]
      refine ⟨?_, ?_, ?_⟩
      · intro h
        simp [authFrom, h]
      · intro h1 h2 hm
        simp [authFrom, h1, h2, hm]
      · intro h1 h2
        by_cases hm : method = AuthDigest
        · simp [authFrom, h1, h2 hm]
        · simp [authFrom, h1, hm]
    · rw [he] at hread
      unfold senderFrom
      rw [hread]
  · intro method v0 hsplit
    unfold senderFrom Authenticate.Read
    simp only [hsplit]
  · intro method v0 word rest hsplit h1 h2
    unfold senderFrom Authenticate.Read
    simp only [hsplit, h1, h2, if_false]

/-- C20, witness: the Digest value in the middle of `mixedChallenges` is chosen
and gives a Digest sender for realm `r` and nonce `n`; a Digest value without
realm and one without nonce are errors; a Basic value alone gives a Basic
sender; a `Bearer` value gives the error of `NewSender`, and the value `Digest`
alone the error of `Authenticate.Read`. -/
theorem NewSender_choice_witness :
    NewSender challengeLib mixedChallenges "u" "p" =
      .ok { user := "u", pass := "p", method := AuthDigest,
            auth := { Authenticate.zero with
              Method := AuthDigest, Realm := some "r", Nonce := some "n" } } ∧
    NewSender challengeLib ["Digest nonce=\"n\""] "u" "p" = .error "realm is missing" ∧
    NewSender challengeLib ["Digest realm=\"r\""] "u" "p" = .error "nonce is missing" ∧
    NewSender challengeLib ["Basic realm=\"r\""] "u" "p" =
      .ok { user := "u", pass := "p", method := AuthBasic,
            auth := { Authenticate.zero with Method := AuthBasic, Realm := some "r" } } ∧
    NewSender challengeLib ["Bearer x"] "u" "p" = .error "no authentication methods available" ∧
    NewSender challengeLib ["Digest"] "u" "p" = .error "unable to split between method and keys (Digest)" := by
  have hD := NewSender_choice challengeLib mixedChallenges "u" "p"
  have hR := NewSender_choice challengeLib ["Digest nonce=\"n\""] "u" "p"
  have hN := NewSender_choice challengeLib ["Digest realm=\"r\""] "u" "p"
  have hB := NewSender_choice challengeLib ["Basic realm=\"r\""] "u" "p"
  have hX := NewSender_choice challengeLib ["Bearer x"] "u" "p"
  have hS := NewSender_choice challengeLib ["Digest"] "u" "p"
  refine ⟨?_, ?_, ?_, ?_, ?_, ?_⟩
  · rw [hD.1 ["Basic realm=\"r\""] "Digest realm=\"r\", nonce=\"n\"" ["Basic realm=\"q\""] rfl
      (by intro x hx; simp only [List.mem_singleton] at hx; subst hx; decide) (by decide)]
    exact ((hD.2.2.2.1 AuthDigest "Digest realm=\"r\", nonce=\"n\"" "Digest" "realm=\"r\", nonce=\"n\""
      (by decide) rfl).1 [("realm", "r"), ("nonce", "n")] rfl).2.2 (by decide) (fun _ => by decide)
  · rw [hR.1 [] "Digest nonce=\"n\"" [] rfl (by intro x hx; cases hx) (by decide)]
    exact ((hR.2.2.2.1 AuthDigest "Digest nonce=\"n\"" "Digest" "nonce=\"n\""
      (by decide) rfl).1 [("nonce", "n")] rfl).1 (by decide)
  · rw [hN.1 [] "Digest realm=\"r\"" [] rfl (by intro x hx; cases hx) (by decide)]
    exact ((hN.2.2.2.1 AuthDigest "Digest realm=\"r\"" "Digest" "realm=\"r\""
      (by decide) rfl).1 [("realm", "r")] rfl).2.1 (by decide) (by decide) rfl
  · rw [hB.2.1 (by intro x hx; simp only [List.mem_singleton] at hx; subst hx; decide)
      [] "Basic realm=\"r\"" [] rfl (by intro x hx; cases hx) (by decide)]
    exact ((hB.2.2.2.1 AuthBasic "Basic realm=\"r\"" "Basic" "realm=\"r\""
      (by decide) rfl).1 [("realm", "r")] rfl).2.2 (by decide) (fun h => by cases h)
  · exact hX.2.2.1 (by intro x hx; simp only [List.mem_singleton] at hx; subst hx; exact ⟨by decide, by decide⟩)
  · rw [hS.1 [] "Digest" [] rfl (by intro x hx; cases hx) (by decide)]
    exact hS.2.2.2.2.1 AuthDigest "Digest" (by decide)

/-! ## The control path -/

/-! ### Running `Act` code -/

@[simp] theorem Act.pure_run {σ α : Type} (a : α) (st : σ) : (pure a : Act σ α) st = (.ok a, st) := rfl

@[simp] theorem Act.bind_run {σ α β : Type} (x : Act σ α) (f : α → Act σ β) (st : σ) :
    (x >>= f) st = match x st with
      | (.ok a, st') => f a st'
      | (.panic p, st') => (.panic p, st') := rfl

@[simp] theorem Act.panic_run {σ α : Type} (p : GoPanic) (st : σ) : (Act.panic p : Act σ α) st = (.panic p, st) := rfl

@[simp] theorem Act.read_run {σ α : Type} (f : σ → Go α) (st : σ) : Act.read f st = (f st, st) := rfl

@[simp] theorem Act.modify_run {σ : Type} (f : σ → σ) (st : σ) : Act.modify f st = (.ok (), f st) := rfl

@[simp] theorem Act.onWorld_run {α : Type} (x : Act Heap.World α) (st : Heap.Handler) :
    Act.onWorld x st = ((x st.world).1, { st with world := (x st.world).2 }) := rfl

@[simp] theorem Heap.nonNil_some {σ α : Type} (a : α) (st : σ) : (Heap.nonNil (some a) : Act σ α) st = (.ok a, st) := rfl

@[simp] theorem Heap.nonNil_none {σ α : Type} (st : σ) : (Heap.nonNil (none : Option α) : Act σ α) st = (.panic .nilDereference, st) := rfl

theorem Heap.session_run (w : Heap.World) (p : Ptr) (o : Heap.Session) (h : w.sessions.get p = some o) :
    Heap.session p w = (.ok o, w) := by
  simp [Heap.session, h]

theorem Heap.pusher_run (w : Heap.World) (p : Ptr) (o : Heap.Pusher) (h : w.pushers.get p = some o) :
    Heap.pusher p w = (.ok o, w) := by
  simp [Heap.pusher, h]

theorem Heap.server_run (w : Heap.World) (p : Ptr) (o : Heap.Server) (h : w.servers.get p = some o) :
    Heap.server p w = (.ok o, w) := by
  simp [Heap.server, h]

theorem Heap.player_run (w : Heap.World) (p : Ptr) (o : Heap.Player) (h : w.players.get p = some o) :
    Heap.player p w = (.ok o, w) := by
  simp [Heap.player, h]

theorem Heap.setSession_run (w : Heap.World) (p : Ptr) (o : Heap.Session) (f : Heap.Session → Heap.Session)
    (h : w.sessions.get p = some o) :
    Heap.setSession p f w = (.ok (), { w with sessions := w.sessions.set p (f o) }) := by
  simp [Heap.setSession, Heap.session, h]

theorem Heap.setPusher_run (w : Heap.World) (p : Ptr) (o : Heap.Pusher) (f : Heap.Pusher → Heap.Pusher)
    (h : w.pushers.get p = some o) :
    Heap.setPusher p f w = (.ok (), { w with pushers := w.pushers.set p (f o) }) := by
  simp [Heap.setPusher, Heap.pusher, h]

theorem Heap.setServer_run (w : Heap.World) (p : Ptr) (o : Heap.Server) (f : Heap.Server → Heap.Server)
    (h : w.servers.get p = some o) :
    Heap.setServer p f w = (.ok (), { w with servers := w.servers.set p (f o) }) := by
  simp [Heap.setServer, Heap.server, h]

theorem Heap.setPlayer_run (w : Heap.World) (p : Ptr) (o : Heap.Player) (f : Heap.Player → Heap.Player)
    (h : w.players.get p = some o) :
    Heap.setPlayer p f w = (.ok (), { w with players := w.players.set p (f o) }) := by
  simp [Heap.setPlayer, Heap.player, h]

/-! ### Code that leaves a response header alone -/

theorem Heap.leaves_pure (key : String) {α : Type} (a : α) : Heap.LeavesHeader key (pure a : Act Heap.Handler α) :=
  fun _ => ⟨rfl, rfl⟩

theorem Heap.leaves_panic (key : String) {α : Type} (p : GoPanic) :
    Heap.LeavesHeader key (Act.panic p : Act Heap.Handler α) :=
  fun _ => ⟨rfl, rfl⟩

theorem Heap.leaves_read (key : String) {α : Type} (f : Heap.Handler → Go α) :
    Heap.LeavesHeader key (Act.read f) :=
  fun _ => ⟨rfl, rfl⟩

theorem Heap.leaves_nonNil (key : String) {α : Type} (p : Option α) :
    Heap.LeavesHeader key (Heap.nonNil p : Act Heap.Handler α) := by
  cases p
  · exact fun _ => ⟨rfl, rfl⟩
  · exact fun _ => ⟨rfl, rfl⟩

theorem Heap.leaves_onWorld (key : String) {α : Type} (x : Act Heap.World α) :
    Heap.LeavesHeader key (Act.onWorld x) :=
  fun _ => ⟨rfl, rfl⟩

theorem Heap.leaves_bind (key : String) {α β : Type} (x : Act Heap.Handler α) (f : α → Act Heap.Handler β)
    (hx : Heap.LeavesHeader key x) (hf : ∀ a, Heap.LeavesHeader key (f a)) :
    Heap.LeavesHeader key (x >>= f) := by
  intro st
  have h1 := hx st
  show (Act.bind x f st).2.out = st.out ∧ (Act.bind x f st).2.res.Header.get key = st.res.Header.get key
  unfold Act.bind
  rcases hxs : x st with ⟨r, st'⟩
  rw [hxs] at h1
  cases r with
  | ok a =>
    have h2 := hf a st'
    exact ⟨h2.1.trans h1.1, h2.2.trans h1.2⟩
  | panic p => exact h1

theorem Heap.leaves_setStatus (key : String) (code : Int) : Heap.LeavesHeader key (Heap.setStatus code) :=
  fun _ => ⟨rfl, rfl⟩

theorem Heap.leaves_setBody (key : String) (body : String) : Heap.LeavesHeader key (Heap.setBody body) :=
  fun _ => ⟨rfl, rfl⟩

theorem Heap.leaves_setStatusMessage (key : String) (msg : String) :
    Heap.LeavesHeader key (Heap.setStatusMessage msg) :=
  fun _ => ⟨rfl, rfl⟩

theorem Heap.leaves_setHeader (key k : String) (v : HeaderValue) (h : key ≠ k) :
    Heap.LeavesHeader key (Heap.setHeader k v) := by
  intro st
  refine ⟨rfl, ?_⟩
  show (st.res.Header.set k v).get key = _
  rw [GoMap.get_set, if_neg h]

theorem Heap.leaves_ite (key : String) {α : Type} (c : Prop) [Decidable c] (x y : Act Heap.Handler α)
    (hx : Heap.LeavesHeader key x) (hy : Heap.LeavesHeader key y) :
    Heap.LeavesHeader key (if c then x else y) := by
  split
  · exact hx
  · exact hy

set_option maxRecDepth 100000 in
theorem Heap.play_leaves (key : String) (h : key ≠ "Range") (s : Ptr) (req : Request) :
    Heap.LeavesHeader key (Heap.Session.play s req) := by
  unfold Heap.Session.play
  repeat (first
    | with_reducible exact Heap.leaves_onWorld _ _
    | with_reducible exact Heap.leaves_setStatus _ _
    | with_reducible exact Heap.leaves_setBody _ _
    | with_reducible exact Heap.leaves_setStatusMessage _ _
    | with_reducible exact Heap.leaves_read _ _
    | with_reducible exact Heap.leaves_panic _ _
    | with_reducible exact Heap.leaves_nonNil _ _
    | with_reducible exact Heap.leaves_pure _ _
    | with_reducible exact Heap.leaves_setHeader _ _ _ (by assumption)
    | with_reducible refine Heap.leaves_ite _ _ _ _ ?_ ?_
    | with_reducible refine Heap.leaves_bind _ _ _ ?_ (fun _ => ?_)
    | dsimp only
    | split)

set_option maxRecDepth 100000 in
theorem Heap.record_leaves (key : String) (s : Ptr) :
    Heap.LeavesHeader key (Heap.Session.record s) := by
  unfold Heap.Session.record
  repeat (first
    | with_reducible exact Heap.leaves_onWorld _ _
    | with_reducible exact Heap.leaves_setStatus _ _
    | with_reducible exact Heap.leaves_setBody _ _
    | with_reducible exact Heap.leaves_setStatusMessage _ _
    | with_reducible exact Heap.leaves_read _ _
    | with_reducible exact Heap.leaves_panic _ _
    | with_reducible exact Heap.leaves_nonNil _ _
    | with_reducible exact Heap.leaves_pure _ _
    | with_reducible exact Heap.leaves_setHeader _ _ _ (by assumption)
    | with_reducible refine Heap.leaves_ite _ _ _ _ ?_ ?_
    | with_reducible refine Heap.leaves_bind _ _ _ ?_ (fun _ => ?_)
    | dsimp only
    | split)

set_option maxRecDepth 100000 in
theorem Heap.pause_leaves (key : String) (s : Ptr) :
    Heap.LeavesHeader key (Heap.Session.pause s) := by
  unfold Heap.Session.pause
  repeat (first
    | with_reducible exact Heap.leaves_onWorld _ _
    | with_reducible exact Heap.leaves_setStatus _ _
    | with_reducible exact Heap.leaves_setBody _ _
    | with_reducible exact Heap.leaves_setStatusMessage _ _
    | with_reducible exact Heap.leaves_read _ _
    | with_reducible exact Heap.leaves_panic _ _
    | with_reducible exact Heap.leaves_nonNil _ _
    | with_reducible exact Heap.leaves_pure _ _
    | with_reducible exact Heap.leaves_setHeader _ _ _ (by assumption)
    | with_reducible refine Heap.leaves_ite _ _ _ _ ?_ ?_
    | with_reducible refine Heap.leaves_bind _ _ _ ?_ (fun _ => ?_)
    | dsimp only
    | split)

set_option maxRecDepth 100000 in
theorem Heap.announce_leaves (key : String) (lib : Lib) (fresh s : Ptr) (req : Request) :
    Heap.LeavesHeader key (Heap.Session.announce lib fresh s req) := by
  unfold Heap.Session.announce
  repeat (first
    | with_reducible exact Heap.leaves_onWorld _ _
    | with_reducible exact Heap.leaves_setStatus _ _
    | with_reducible exact Heap.leaves_setBody _ _
    | with_reducible exact Heap.leaves_setStatusMessage _ _
    | with_reducible exact Heap.leaves_read _ _
    | with_reducible exact Heap.leaves_panic _ _
    | with_reducible exact Heap.leaves_nonNil _ _
    | with_reducible exact Heap.leaves_pure _ _
    | with_reducible exact Heap.leaves_setHeader _ _ _ (by assumption)
    | with_reducible refine Heap.leaves_ite _ _ _ _ ?_ ?_
    | with_reducible refine Heap.leaves_bind _ _ _ ?_ (fun _ => ?_)
    | dsimp only
    | split)

set_option maxRecDepth 100000 in
theorem Heap.describe_leaves (key : String) (fresh s : Ptr) (req : Request) :
    Heap.LeavesHeader key (Heap.Session.describe fresh s req) := by
  unfold Heap.Session.describe
  repeat (first
    | with_reducible exact Heap.leaves_onWorld _ _
    | with_reducible exact Heap.leaves_setStatus _ _
    | with_reducible exact Heap.leaves_setBody _ _
    | with_reducible exact Heap.leaves_setStatusMessage _ _
    | with_reducible exact Heap.leaves_read _ _
    | with_reducible exact Heap.leaves_panic _ _
    | with_reducible exact Heap.leaves_nonNil _ _
    | with_reducible exact Heap.leaves_pure _ _
    | with_reducible exact Heap.leaves_setHeader _ _ _ (by assumption)
    | with_reducible refine Heap.leaves_ite _ _ _ _ ?_ ?_
    | with_reducible refine Heap.leaves_bind _ _ _ ?_ (fun _ => ?_)
    | dsimp only
    | split)

set_option maxRecDepth 100000 in
theorem Heap.matchAt_leaves (key : String) (tcpMatch : List String) (i : Nat) :
    Heap.LeavesHeader key (matchAt tcpMatch i) := by
  unfold matchAt
  repeat (first
    | with_reducible exact Heap.leaves_onWorld _ _
    | with_reducible exact Heap.leaves_setStatus _ _
    | with_reducible exact Heap.leaves_setBody _ _
    | with_reducible exact Heap.leaves_setStatusMessage _ _
    | with_reducible exact Heap.leaves_read _ _
    | with_reducible exact Heap.leaves_panic _ _
    | with_reducible exact Heap.leaves_nonNil _ _
    | with_reducible exact Heap.leaves_pure _ _
    | with_reducible exact Heap.leaves_setHeader _ _ _ (by assumption)
    | with_reducible refine Heap.leaves_ite _ _ _ _ ?_ ?_
    | with_reducible refine Heap.leaves_bind _ _ _ ?_ (fun _ => ?_)
    | dsimp only
    | split)

set_option maxRecDepth 100000 in
theorem Heap.setup_leaves (key : String) (h : key ≠ "Transport") (lib : Lib) (s : Ptr) (req : Request) :
    Heap.LeavesHeader key (Heap.Session.setup lib s req) := by
  unfold Heap.Session.setup
  repeat (first
    | with_reducible exact Heap.leaves_onWorld _ _
    | with_reducible exact Heap.leaves_setStatus _ _
    | with_reducible exact Heap.leaves_setBody _ _
    | with_reducible exact Heap.leaves_setStatusMessage _ _
    | with_reducible exact Heap.leaves_read _ _
    | with_reducible exact Heap.leaves_panic _ _
    | with_reducible exact Heap.leaves_nonNil _ _
    | with_reducible exact Heap.leaves_pure _ _
    | with_reducible exact Heap.matchAt_leaves _ _ _
    | with_reducible exact Heap.leaves_setHeader _ _ _ (by assumption)
    | with_reducible refine Heap.leaves_ite _ _ _ _ ?_ ?_
    | with_reducible refine Heap.leaves_bind _ _ _ ?_ (fun _ => ?_)
    | dsimp only
    | split)

set_option maxRecDepth 100000 in
theorem Heap.CheckAuth_leaves (key : String) (h : key ≠ "WWW-Authenticate") (lib : Lib) (nonce : String) (req : Request) :
    Heap.LeavesHeader key (Heap.Session.CheckAuth lib nonce req) := by
  unfold Heap.Session.CheckAuth
  repeat (first
    | with_reducible exact Heap.leaves_onWorld _ _
    | with_reducible exact Heap.leaves_setStatus _ _
    | with_reducible exact Heap.leaves_setBody _ _
    | with_reducible exact Heap.leaves_setStatusMessage _ _
    | with_reducible exact Heap.leaves_read _ _
    | with_reducible exact Heap.leaves_panic _ _
    | with_reducible exact Heap.leaves_nonNil _ _
    | with_reducible exact Heap.leaves_pure _ _
    | with_reducible exact Heap.leaves_setHeader _ _ _ (by assumption)
    | with_reducible refine Heap.leaves_ite _ _ _ _ ?_ ?_
    | with_reducible refine Heap.leaves_bind _ _ _ ?_ (fun _ => ?_)
    | dsimp only
    | split)

set_option maxRecDepth 100000 in
theorem Heap.authFails_leaves (key : String) (h : key ≠ "WWW-Authenticate") (lib : Lib) (nonce : String) (s : Ptr) (req : Request) :
    Heap.LeavesHeader key (Heap.Session.authFails lib nonce s req) := by
  unfold Heap.Session.authFails
  repeat (first
    | with_reducible exact Heap.leaves_onWorld _ _
    | with_reducible exact Heap.leaves_setStatus _ _
    | with_reducible exact Heap.leaves_setBody _ _
    | with_reducible exact Heap.leaves_setStatusMessage _ _
    | with_reducible exact Heap.leaves_read _ _
    | with_reducible exact Heap.leaves_panic _ _
    | with_reducible exact Heap.leaves_nonNil _ _
    | with_reducible exact Heap.leaves_pure _ _
    | with_reducible exact Heap.CheckAuth_leaves _ (by assumption) _ _ _
    | with_reducible exact Heap.leaves_setHeader _ _ _ (by assumption)
    | with_reducible refine Heap.leaves_ite _ _ _ _ ?_ ?_
    | with_reducible refine Heap.leaves_bind _ _ _ ?_ (fun _ => ?_)
    | dsimp only
    | split)

theorem Heap.dispatch_leaves (key : String) (h1 : key ≠ "Public") (h2 : key ≠ "Transport") (h3 : key ≠ "Range")
    (lib : Lib) (fresh s : Ptr) (req : Request) :
    Heap.LeavesHeader key (Heap.Session.dispatch lib fresh s req) := by
  unfold Heap.Session.dispatch
  repeat (first
    | exact Heap.leaves_setHeader _ _ _ h1
    | exact Heap.announce_leaves _ _ _ _ _
    | exact Heap.describe_leaves _ _ _ _
    | exact Heap.setup_leaves _ h2 _ _ _
    | exact Heap.play_leaves _ h3 _ _
    | exact Heap.record_leaves _ _
    | exact Heap.pause_leaves _ _
    | exact Heap.leaves_pure _ _
    | refine Heap.leaves_ite _ _ _ _ ?_ ?_)

/-! ### `RebindSession` -/

/-- `RebindSession` on a client-backed pusher returns false and changes nothing. -/
theorem Heap.RebindSession_client (w : Heap.World) (p n : Ptr) (po : Heap.Pusher) (no : Heap.Session)
    (c : Client) (hp : w.pushers.get p = some po) (hn : w.sessions.get n = some no)
    (hc : po.Client = some c) :
    Heap.Pusher.RebindSession p (some n) w = (.ok false, w) := by
  simp [Heap.Pusher.RebindSession, Heap.pusher, hp, hc, Heap.session, hn, Client.Println]

/-- C11: `RebindSession` on a registered session-backed pusher never returns
true. For every session-backed pusher `p` and every new session `n` (not
stopped, without stop handles of its own, announced on the server `srv` for the
path at which `p` is registered), `RebindSession(n)` makes `n` the source
session of `p` and empties the GOP cache, and then stops `n`: the test
`p.Session != nil` after `bindSession` finds the new session. `Stop` runs the
handle just appended, which empties the subscriber set, starts the goroutine
that stops the old subscribers, and calls `RemovePusher`. With the lock free
`RemovePusher` deletes `p` from the registry and then waits for ever to send on
`removePusherCh`; with the lock held it waits for ever at the lock, which is
what happens when `TryAttachToPusher` makes the call, for it holds the lock
itself. In both cases the call does not return, `n` is left stopped with its
connection open, and the subscriber set is empty. For a client-backed pusher
`RebindSession` returns false and changes nothing. -/
theorem RebindSession_blocks (w : Heap.World) (p n : Ptr) (po : Heap.Pusher) (no : Heap.Session)
    (hp : w.pushers.get p = some po) (hn : w.sessions.get n = some no) :
    (∀ (srv : Ptr) (sv : Heap.Server) (u : URL), po.Client = none →
      no.Stopped = false → no.StopHandles = [] → no.URL = some u → no.options.Server = some srv →
      w.servers.get srv = some sv → sv.pushers.get u.Path = some p →
        (Heap.Pusher.RebindSession p (some n) w).1 = .panic .blocked ∧
        (Heap.Pusher.RebindSession p (some n) w).2.sessions.get n =
          some { no with StopHandles := [.releasePusher p n], Pusher := some p, Stopped := true } ∧
        (Heap.Pusher.RebindSession p (some n) w).2.pushers.get p =
          some { po with Session := some n, gopCache := [], players := [] } ∧
        (Heap.Pusher.RebindSession p (some n) w).2.goroutines =
          w.goroutines ++ [.stopPlayers po.players] ∧
        (sv.pushersLock = false →
          (Heap.Pusher.RebindSession p (some n) w).2.servers.get srv =
            some { sv with pushers := sv.pushers.delete u.Path }) ∧
        (sv.pushersLock = true →
          (Heap.Pusher.RebindSession p (some n) w).2.servers.get srv = some sv) ∧
        (sv.pushersLock = false →
          (Heap.Server.TryAttachToPusher (some srv) (some n) w).1 = .panic .blocked ∧
          (Heap.Server.TryAttachToPusher (some srv) (some n) w).2.servers.get srv =
            some { sv with pushersLock := true })) ∧
    (∀ c : Client, po.Client = some c → Heap.Pusher.RebindSession p (some n) w = (.ok false, w)) := by
  refine ⟨fun srv sv u hc hstop hh hu hsrv hsv hreg => ?_, fun c hc => Heap.RebindSession_client w p n po no c hp hn hc⟩
  cases hl : sv.pushersLock
  · have hfree : ({ sv with pushers := sv.pushers.delete u.Path, pushersLock := false } : Heap.Server) =
        { sv with pushers := sv.pushers.delete u.Path } := by
      cases sv
      simp only at hl
      subst hl
      rfl
    simp [Heap.Pusher.RebindSession, Heap.pusher, hp, hc, Heap.Pusher.bindSession,
      Heap.setPusher, Heap.setSession, Heap.session, hn, GoMap.get_set, Heap.Session.Stop, hstop, hh,
      Heap.Session.runStopHandles, StopHandle.run, Heap.Pusher.ClearPlayer, Heap.Pusher.Server,
      Heap.Pusher.field, hsrv, Heap.Server.RemovePusher, Heap.server, hsv, Heap.Pusher.Path, hu, hreg,
      Heap.Pusher.ID, Heap.setServer, GoMap.get_delete, Heap.Server.Lock, Heap.Server.Unlock, chanSend, hl,
      Heap.Server.TryAttachToPusher, hfree]
  · simp [Heap.Pusher.RebindSession, Heap.pusher, hp, hc, Heap.Pusher.bindSession,
      Heap.setPusher, Heap.setSession, Heap.session, hn, GoMap.get_set, Heap.Session.Stop, hstop, hh,
      Heap.Session.runStopHandles, StopHandle.run, Heap.Pusher.ClearPlayer, Heap.Pusher.Server,
      Heap.Pusher.field, hsrv, Heap.Server.RemovePusher, Heap.server, hsv, Heap.Pusher.Path, hu, hreg,
      Heap.Pusher.ID, Heap.setServer, GoMap.get_delete, Heap.Server.Lock, Heap.Server.Unlock, chanSend, hl]

/-- C11, witness: on the sample relay, rebinding the pusher `P` (two players,
two cached packs, registered at `/live`) to the session `new` blocks, with
`new` stopped, the subscriber set empty and `P` out of the registry; the
goroutine that was started stops the sessions `a` and `b` of the players when it
runs; `TryAttachToPusher` blocks at the lock it holds; on the relay with the
client-backed pusher `C` the call returns false and nothing changes. -/
theorem RebindSession_blocks_witness :
    ((Heap.liveWorld.pushers.get "P").map (·.players) = some [("a", "pa"), ("b", "pb")] ∧
      (Heap.liveWorld.sessions.get "new").map (·.Stopped) = some false ∧
      (Heap.liveWorld.servers.get "srv").map (·.pushers.get "/live") = some (some "P")) ∧
    ((Heap.Pusher.RebindSession "P" (some "new") Heap.liveWorld).1 = .panic .blocked ∧
      (Heap.Pusher.RebindSession "P" (some "new") Heap.liveWorld).2.sessions.get "new" =
        some { Heap.newSession with
          StopHandles := [.releasePusher "P" "new"], Pusher := some "P", Stopped := true } ∧
      (Heap.Pusher.RebindSession "P" (some "new") Heap.liveWorld).2.pushers.get "P" =
        some { Session := some "new", Client := none, players := [], gopCacheEnable := true,
               gopCache := [], queue := [] } ∧
      (Heap.Pusher.RebindSession "P" (some "new") Heap.liveWorld).2.goroutines =
        [.stopPlayers [("a", "pa"), ("b", "pb")]] ∧
      (Heap.Pusher.RebindSession "P" (some "new") Heap.liveWorld).2.servers.get "srv" =
        some { TCPPort := 554, Stopped := false, pushers := [] }) ∧
    ((Heap.Server.TryAttachToPusher (some "srv") (some "new") Heap.liveWorld).1 = .panic .blocked ∧
      (Heap.Server.TryAttachToPusher (some "srv") (some "new") Heap.liveWorld).2.servers.get "srv" =
        some { TCPPort := 554, Stopped := false, pushers := [("/live", "P")], pushersLock := true }) ∧
    (((Goroutine.run (.stopPlayers [("a", "pa"), ("b", "pb")])
        (Heap.Pusher.RebindSession "P" (some "new") Heap.liveWorld).2).2.sessions.get "a").map
          (·.Stopped) = some true ∧
      ((Goroutine.run (.stopPlayers [("a", "pa"), ("b", "pb")])
        (Heap.Pusher.RebindSession "P" (some "new") Heap.liveWorld).2).2.sessions.get "b").map
          (·.Stopped) = some true) ∧
    Heap.Pusher.RebindSession "C" (some "new") Heap.clientWorld = (.ok false, Heap.clientWorld) := by
  have h := (RebindSession_blocks Heap.liveWorld "P" "new"
      { Session := some "old", Client := none, players := [("a", "pa"), ("b", "pb")],
        gopCacheEnable := true, gopCache := [keyPack, deltaPack], queue := [] }
      Heap.newSession rfl rfl).1 "srv" { TCPPort := 554, Stopped := false, pushers := [("/live", "P")] }
      { Path := "/live" } rfl rfl rfl rfl rfl rfl rfl
  have hc := (RebindSession_blocks Heap.clientWorld "C" "new"
      { Session := none, Client := some plainClient, players := [], gopCacheEnable := true,
        gopCache := [keyPack], queue := [] }
      { Heap.newSession with closeOld := true } rfl rfl).2 plainClient rfl
  exact ⟨⟨rfl, rfl, rfl⟩, ⟨h.1, h.2.1, h.2.2.1, h.2.2.2.1, h.2.2.2.2.1 rfl⟩, h.2.2.2.2.2.2 rfl,
    ⟨rfl, rfl⟩, hc⟩

/-! ### Code that does not block -/

theorem Heap.nb_pure {σ α : Type} (a : α) : Heap.NeverBlocks (pure a : Act σ α) := by
  intro st h
  cases h

theorem Heap.nb_nil {σ α : Type} : Heap.NeverBlocks (Act.panic .nilDereference : Act σ α) := by
  intro st h
  cases h

theorem Heap.nb_index {σ α : Type} : Heap.NeverBlocks (Act.panic .indexOutOfRange : Act σ α) := by
  intro st h
  cases h

theorem Heap.nb_modify {σ : Type} (f : σ → σ) : Heap.NeverBlocks (Act.modify f) := by
  intro st h
  cases h

theorem Heap.nb_nonNil {σ α : Type} (p : Option α) : Heap.NeverBlocks (Heap.nonNil p : Act σ α) := by
  cases p
  · exact Heap.nb_nil
  · exact Heap.nb_pure _

theorem Heap.nb_bind {σ α β : Type} (x : Act σ α) (f : α → Act σ β)
    (hx : Heap.NeverBlocks x) (hf : ∀ a, Heap.NeverBlocks (f a)) : Heap.NeverBlocks (x >>= f) := by
  intro st
  have h1 := hx st
  show (Act.bind x f st).1 ≠ _
  unfold Act.bind
  rcases hxs : x st with ⟨r, st'⟩
  rw [hxs] at h1
  cases r with
  | ok a => exact hf a st'
  | panic p => simpa using h1

theorem Heap.nb_read {σ α : Type} (f : σ → Go α) (h : ∀ st, f st ≠ .panic .blocked) :
    Heap.NeverBlocks (Act.read f) :=
  fun st => h st

theorem Heap.nb_ite {σ α : Type} (c : Prop) [Decidable c] (x y : Act σ α)
    (hx : Heap.NeverBlocks x) (hy : Heap.NeverBlocks y) : Heap.NeverBlocks (if c then x else y) := by
  split
  · exact hx
  · exact hy

theorem Heap.nb_onWorld {α : Type} (x : Act Heap.World α) (hx : Heap.NeverBlocks x) :
    Heap.NeverBlocks (Act.onWorld x) :=
  fun st => hx st.world

theorem Heap.nb_session (p : Ptr) : Heap.NeverBlocks (Heap.session p) := by
  intro w
  unfold Heap.session
  simp only [Act.read_run]
  split <;> simp

theorem Heap.nb_player (p : Ptr) : Heap.NeverBlocks (Heap.player p) := by
  intro w
  unfold Heap.player
  simp only [Act.read_run]
  split <;> simp

theorem Heap.nb_setSession (p : Ptr) (f : Heap.Session → Heap.Session) :
    Heap.NeverBlocks (Heap.setSession p f) :=
  Heap.nb_bind _ _ (Heap.nb_session p) (fun _ => Heap.nb_modify _)

theorem Heap.nb_setPlayer (p : Ptr) (f : Heap.Player → Heap.Player) :
    Heap.NeverBlocks (Heap.setPlayer p f) :=
  Heap.nb_bind _ _ (Heap.nb_player p) (fun _ => Heap.nb_modify _)

theorem Heap.nb_setStatus (code : Int) : Heap.NeverBlocks (Heap.setStatus code) := Heap.nb_modify _

theorem Heap.nb_setHeader (k : String) (v : HeaderValue) : Heap.NeverBlocks (Heap.setHeader k v) :=
  Heap.nb_modify _

theorem Heap.nb_setStatusMessage (msg : String) : Heap.NeverBlocks (Heap.setStatusMessage msg) :=
  Heap.nb_modify _

theorem Sender.CheckAuth_returns (lib : Lib) (se : Sender) (url : Option URL) :
    se.CheckAuth lib url ≠ .panic .blocked := by
  unfold Sender.CheckAuth derefString
  cases url <;> cases se.auth.Realm <;> cases se.auth.Nonce <;> cases se.auth.Response <;>
    simp [bind, Go.bind, pure]
  split <;> simp

set_option maxRecDepth 100000 in
theorem Heap.nb_Pause (player : Option Ptr) (b : Bool) : Heap.NeverBlocks (Heap.Player.Pause player b) := by
  unfold Heap.Player.Pause Heap.Session.String_
  repeat (first
    | with_reducible exact Heap.nb_pure _
    | with_reducible exact Heap.nb_nil
    | with_reducible exact Heap.nb_nonNil _
    | with_reducible exact Heap.nb_session _
    | with_reducible exact Heap.nb_player _
    | with_reducible exact Heap.nb_setPlayer _ _
    | with_reducible refine Heap.nb_ite _ _ _ ?_ ?_
    | with_reducible refine Heap.nb_bind _ _ ?_ (fun _ => ?_)
    | dsimp only
    | split)

set_option maxRecDepth 100000 in
theorem Heap.nb_CheckAuth (lib : Lib) (nonce : String) (req : Request) :
    Heap.NeverBlocks (Heap.Session.CheckAuth lib nonce req) := by
  unfold Heap.Session.CheckAuth
  repeat (first
    | with_reducible exact Heap.nb_pure _
    | with_reducible exact Heap.nb_nonNil _
    | with_reducible exact Heap.nb_setStatus _
    | with_reducible exact Heap.nb_setHeader _ _
    | with_reducible exact Heap.nb_read _ (fun _ => Sender.CheckAuth_returns _ _ _)
    | with_reducible refine Heap.nb_ite _ _ _ ?_ ?_
    | with_reducible refine Heap.nb_bind _ _ ?_ (fun _ => ?_)
    | dsimp only
    | split)

set_option maxRecDepth 100000 in
theorem Heap.nb_authFails (lib : Lib) (nonce : String) (s : Ptr) (req : Request) :
    Heap.NeverBlocks (Heap.Session.authFails lib nonce s req) := by
  unfold Heap.Session.authFails
  repeat (first
    | with_reducible exact Heap.nb_pure _
    | with_reducible exact Heap.nb_CheckAuth _ _ _
    | with_reducible exact Heap.nb_onWorld _ (Heap.nb_session _)
    | with_reducible refine Heap.nb_ite _ _ _ ?_ ?_
    | with_reducible refine Heap.nb_bind _ _ ?_ (fun _ => ?_)
    | dsimp only
    | split)

set_option maxRecDepth 100000 in
theorem Heap.nb_setup (lib : Lib) (s : Ptr) (req : Request) :
    Heap.NeverBlocks (Heap.Session.setup lib s req) := by
  unfold Heap.Session.setup matchAt
  repeat (first
    | with_reducible exact Heap.nb_pure _
    | with_reducible exact Heap.nb_index
    | with_reducible exact Heap.nb_nonNil _
    | with_reducible exact Heap.nb_setStatus _
    | with_reducible exact Heap.nb_setHeader _ _
    | with_reducible exact Heap.nb_setStatusMessage _
    | with_reducible exact Heap.nb_onWorld _ (Heap.nb_session _)
    | with_reducible exact Heap.nb_onWorld _ (Heap.nb_setSession _ _)
    | with_reducible refine Heap.nb_ite _ _ _ ?_ ?_
    | with_reducible refine Heap.nb_bind _ _ ?_ (fun _ => ?_)
    | dsimp only
    | split)

set_option maxRecDepth 100000 in
/-- Of the handlers of `handleRequest`, only those of ANNOUNCE and DESCRIBE,
which go to the registry, can block. -/
theorem Heap.nb_dispatch (lib : Lib) (fresh s : Ptr) (req : Request)
    (h1 : req.Method ≠ "ANNOUNCE") (h2 : req.Method ≠ "DESCRIBE") :
    Heap.NeverBlocks (Heap.Session.dispatch lib fresh s req) := by
  unfold Heap.Session.dispatch Heap.Session.play Heap.Session.record Heap.Session.pause
  rw [if_neg h1, if_neg h2]
  repeat (first
    | with_reducible exact Heap.nb_pure _
    | with_reducible exact Heap.nb_setup _ _ _
    | with_reducible exact Heap.nb_setStatus _
    | with_reducible exact Heap.nb_setHeader _ _
    | with_reducible exact Heap.nb_onWorld _ (Heap.nb_session _)
    | with_reducible exact Heap.nb_onWorld _ (Heap.nb_Pause _ _)
    | with_reducible refine Heap.nb_ite _ _ _ ?_ ?_
    | with_reducible refine Heap.nb_bind _ _ ?_ (fun _ => ?_)
    | dsimp only
    | split)

set_option maxRecDepth 100000 in
theorem Heap.nb_handleBody (lib : Lib) (fresh : Ptr) (nonce : String) (s : Ptr) (req : Request)
    (h1 : req.Method ≠ "ANNOUNCE") (h2 : req.Method ≠ "DESCRIBE") :
    Heap.NeverBlocks (Heap.Session.handleBody lib fresh nonce s (some req)) := by
  have e : Heap.Session.handleBody lib fresh nonce s (some req) =
      (do
        Heap.setHeader "CSeq" (req.Header.values "CSeq")
        let so ← Act.onWorld (Heap.session s)
        Heap.setHeader "Session" [so.ID]
        if ← Heap.Session.authFails lib nonce s req then pure ()
        else Heap.Session.dispatch lib fresh s req : Act Heap.Handler Unit) := rfl
  rw [e]
  repeat (first
    | with_reducible exact Heap.nb_pure _
    | with_reducible exact Heap.nb_nonNil _
    | with_reducible exact Heap.nb_setHeader _ _
    | with_reducible exact Heap.nb_authFails _ _ _ _
    | with_reducible exact Heap.nb_dispatch _ _ _ _ h1 h2
    | with_reducible exact Heap.nb_onWorld _ (Heap.nb_session _)
    | with_reducible refine Heap.nb_ite _ _ _ ?_ ?_
    | with_reducible refine Heap.nb_bind _ _ ?_ (fun _ => ?_)
    | dsimp only
    | split)

/-! ### `handleRequest` : the response -/

set_option maxRecDepth 100000 in
theorem Heap.startPlaying_leaves (key : String) (s : Ptr) (req : Option Request) :
    Heap.LeavesHeader key (Heap.Session.startPlaying s req) := by
  unfold Heap.Session.startPlaying
  repeat (first
    | with_reducible exact Heap.leaves_onWorld _ _
    | with_reducible exact Heap.leaves_nonNil _ _
    | with_reducible exact Heap.leaves_pure _ _
    | with_reducible refine Heap.leaves_ite _ _ _ _ ?_ ?_
    | with_reducible refine Heap.leaves_bind _ _ _ ?_ (fun _ => ?_)
    | dsimp only
    | split)

/-- The deferred function writes one response: `res`, with status 500 if the
body panicked. -/
theorem Heap.handleDeferred_out (s : Ptr) (req : Option Request) (recovered : Bool) (st : Heap.Handler) :
    (Heap.Session.handleDeferred s req recovered st).2.out =
      st.out ++ [(if recovered then { st.res with StatusCode := StatusInternalServerError }
        else st.res).withContentLength] := by
  unfold Heap.Session.handleDeferred
  cases recovered
  · simp only [Bool.false_eq_true, if_false, Act.bind_run, Act.pure_run, Heap.writeResponse, Act.modify_run]
    exact (Heap.startPlaying_leaves "CSeq" s req _).1
  · simp only [if_true, Act.bind_run, Heap.setStatus, Heap.writeResponse, Act.modify_run]
    exact (Heap.startPlaying_leaves "CSeq" s req _).1

/-- `Content-Length` is the only header that `Response.Write` touches. -/
theorem Response.withContentLength_get (r : Response) (key : String) (h : key ≠ "Content-Length") :
    r.withContentLength.Header.get key = r.Header.get key := by
  unfold Response.withContentLength
  split
  · rfl
  · show (r.Header.set "Content-Length" _).get key = _
    rw [GoMap.get_set, if_neg h]

/-- The deferred function leaves every header of `res` but `Content-Length` as
the body left it. -/
theorem Heap.handleDeferred_headers (s : Ptr) (req : Option Request) (recovered : Bool) (st : Heap.Handler)
    (key : String) (h : key ≠ "Content-Length") :
    (Heap.Session.handleDeferred s req recovered st).2.res.Header.get key = st.res.Header.get key := by
  unfold Heap.Session.handleDeferred
  cases recovered
  · simp only [Bool.false_eq_true, if_false, Act.bind_run, Act.pure_run, Heap.writeResponse, Act.modify_run]
    rw [(Heap.startPlaying_leaves key s req _).2]
    exact Response.withContentLength_get _ _ h
  · simp only [if_true, Act.bind_run, Heap.setStatus, Heap.writeResponse, Act.modify_run]
    rw [(Heap.startPlaying_leaves key s req _).2]
    exact Response.withContentLength_get _ _ h

/-- The body of `handleRequest` on a parsed request: it writes nothing, and it
leaves in `res` the header `CSeq` of the request and the header `Session` with
the ID of the session, whether it returns, panics or blocks. -/
theorem Heap.handleBody_headers (lib : Lib) (fresh : Ptr) (nonce : String) (s : Ptr) (req : Request)
    (st : Heap.Handler) (so : Heap.Session) (hs : st.world.sessions.get s = some so) :
    (Heap.Session.handleBody lib fresh nonce s (some req) st).2.out = st.out ∧
    (Heap.Session.handleBody lib fresh nonce s (some req) st).2.res.Header.get "CSeq" =
      some (req.Header.values "CSeq") ∧
    (Heap.Session.handleBody lib fresh nonce s (some req) st).2.res.Header.get "Session" = some [so.ID] := by
  have hrest : ∀ key : String, key ≠ "WWW-Authenticate" → key ≠ "Public" → key ≠ "Transport" → key ≠ "Range" →
      Heap.LeavesHeader key (do
        if ← Heap.Session.authFails lib nonce s req then pure ()
        else Heap.Session.dispatch lib fresh s req : Act Heap.Handler Unit) := by
    intro key h0 h1 h2 h3
    refine Heap.leaves_bind _ _ _ (Heap.authFails_leaves _ h0 _ _ _ _) (fun b => ?_)
    exact Heap.leaves_ite _ _ _ _ (Heap.leaves_pure _ _) (Heap.dispatch_leaves _ h1 h2 h3 _ _ _ _)
  have e : Heap.Session.handleBody lib fresh nonce s (some req) st =
      (do
        if ← Heap.Session.authFails lib nonce s req then pure ()
        else Heap.Session.dispatch lib fresh s req : Act Heap.Handler Unit)
      { st with res := { st.res with
          Header := (st.res.Header.set "CSeq" (req.Header.values "CSeq")).set "Session" [so.ID] } } := by
    unfold Heap.Session.handleBody
    simp only [Act.bind_run, Heap.nonNil_some, Heap.setHeader, Act.modify_run, Act.onWorld_run,
      Heap.session_run _ _ _ hs]
  rw [e]
  refine ⟨?_, ?_, ?_⟩
  · exact ((hrest "CSeq" (by decide) (by decide) (by decide) (by decide)) _).1
  · rw [((hrest "CSeq" (by decide) (by decide) (by decide) (by decide)) _).2]
    simp [GoMap.get_set]
  · rw [((hrest "Session" (by decide) (by decide) (by decide) (by decide)) _).2]
    simp [GoMap.get_set]

/-- The responses that `handleRequest` writes for a parsed request: none when
the body blocks, and else one, the `res` that the body left, with status 500 if
the body panicked. -/
theorem Heap.handleRequest_out (lib : Lib) (fresh : Ptr) (nonce : String) (s : Ptr) (req : Request)
    (w : Heap.World) (so : Heap.Session) (hs : w.sessions.get s = some so) :
    (Heap.Session.handleRequest lib fresh nonce s (some req) w).2.out =
      if (Heap.Session.handleBody lib fresh nonce s (some req) (Heap.Handler.start w)).1 = .panic .blocked
      then []
      else
        [(if (Heap.Session.handleBody lib fresh nonce s (some req) (Heap.Handler.start w)).1.panicked = true
          then { (Heap.Session.handleBody lib fresh nonce s (some req) (Heap.Handler.start w)).2.res with
            StatusCode := StatusInternalServerError }
          else (Heap.Session.handleBody lib fresh nonce s (some req)
            (Heap.Handler.start w)).2.res).withContentLength] := by
  have hb := Heap.handleBody_headers lib fresh nonce s req (Heap.Handler.start w) so hs
  unfold Heap.Session.handleRequest
  split
  · exact hb.1
  · rw [Heap.handleDeferred_out, hb.1]
    rfl

/-- C14: for every parsed request and every state of the world in which the
session exists, the response `res` that `handleRequest` builds has the header
`CSeq` with the values of the request's `CSeq` and the header `Session` with
the single value `s.ID`, whatever the method, the status, and whether the body
of the handler returned, panicked or blocked; so has every response that is
written. One response is written when the body returns or panics, and none
when it blocks, which only the handlers of ANNOUNCE and DESCRIBE can do. -/
theorem handleRequest_echoes_CSeq_Session (lib : Lib) (fresh : Ptr) (nonce : String) (s : Ptr)
    (req : Request) (w : Heap.World) (so : Heap.Session) (hs : w.sessions.get s = some so) :
    ((Heap.Session.handleRequest lib fresh nonce s (some req) w).2.res.Header.get "CSeq" =
        some (req.Header.values "CSeq") ∧
      (Heap.Session.handleRequest lib fresh nonce s (some req) w).2.res.Header.get "Session" =
        some [so.ID]) ∧
    (∀ r ∈ (Heap.Session.handleRequest lib fresh nonce s (some req) w).2.out,
      r.Header.get "CSeq" = some (req.Header.values "CSeq") ∧ r.Header.get "Session" = some [so.ID]) ∧
    ((Heap.Session.handleBody lib fresh nonce s (some req) (Heap.Handler.start w)).1 ≠ .panic .blocked →
      ∃ r : Response, (Heap.Session.handleRequest lib fresh nonce s (some req) w).2.out = [r]) ∧
    ((Heap.Session.handleBody lib fresh nonce s (some req) (Heap.Handler.start w)).1 = .panic .blocked →
      (Heap.Session.handleRequest lib fresh nonce s (some req) w).2.out = []) ∧
    (req.Method ≠ "ANNOUNCE" → req.Method ≠ "DESCRIBE" →
      (Heap.Session.handleBody lib fresh nonce s (some req) (Heap.Handler.start w)).1 ≠ .panic .blocked) := by
  have hb := Heap.handleBody_headers lib fresh nonce s req (Heap.Handler.start w) so hs
  obtain ⟨_, h2, h3⟩ := hb
  have hout := Heap.handleRequest_out lib fresh nonce s req w so hs
  refine ⟨?_, ?_, ?_, ?_, ?_⟩
  · unfold Heap.Session.handleRequest
    split
    · exact ⟨h2, h3⟩
    · rw [Heap.handleDeferred_headers _ _ _ _ _ (by decide), Heap.handleDeferred_headers _ _ _ _ _ (by decide)]
      exact ⟨h2, h3⟩
  · intro r hr
    rw [hout] at hr
    split at hr
    · cases hr
    · simp only [List.mem_singleton] at hr
      subst hr
      rw [Response.withContentLength_get _ _ (by decide), Response.withContentLength_get _ _ (by decide)]
      split
      · exact ⟨h2, h3⟩
      · exact ⟨h2, h3⟩
  · intro hnb
    rw [hout, if_neg hnb]
    exact ⟨_, rfl⟩
  · intro hblk
    rw [hout, if_pos hblk]
  · intro h1 h2
    exact Heap.nb_handleBody lib fresh nonce s req h1 h2 _

/-- C14, witness: a PLAY with `CSeq: 2` on the session `new` of the sample
relay: one response is written, with the two headers. -/
theorem handleRequest_echoes_CSeq_Session_witness :
    Heap.liveWorld.sessions.get "new" = some Heap.newSession ∧
    (∃ r : Response,
      (Heap.Session.handleRequest sampleLib "p1" "x" "new" (some (requestFor "PLAY" "/live"))
        Heap.liveWorld).2.out = [r]) ∧
    ∀ r ∈ (Heap.Session.handleRequest sampleLib "p1" "x" "new" (some (requestFor "PLAY" "/live"))
        Heap.liveWorld).2.out,
      r.Header.get "CSeq" = some ["2"] ∧ r.Header.get "Session" = some ["new"] := by
  have h := handleRequest_echoes_CSeq_Session sampleLib "p1" "x" "new" (requestFor "PLAY" "/live")
    Heap.liveWorld Heap.newSession rfl
  exact ⟨rfl, h.2.2.1 (h.2.2.2.2 (by decide) (by decide)), h.2.1⟩

@[simp] theorem Response.withContentLength_StatusCode (r : Response) :
    r.withContentLength.StatusCode = r.StatusCode := by
  unfold Response.withContentLength
  split <;> rfl

@[simp] theorem Response.withContentLength_Body (r : Response) :
    r.withContentLength.Body = r.Body := by
  unfold Response.withContentLength
  split <;> rfl

/-- What it takes for `Pusher.SDPRaw` to return: the pusher exists and has a
session that exists, or no session and a client. -/
theorem Heap.SDPRaw_ok (w : Heap.World) (p : Ptr) (sdp : String)
    (h : (Heap.Pusher.SDPRaw (some p) w).1 = .ok sdp) :
    ∃ po : Heap.Pusher, w.pushers.get p = some po ∧
      ((∃ ps pso, po.Session = some ps ∧ w.sessions.get ps = some pso ∧ pso.SDPRaw = sdp) ∨
       (∃ c, po.Session = none ∧ po.Client = some c ∧ c.SDPRaw = sdp)) := by
  unfold Heap.Pusher.SDPRaw Heap.Pusher.field at h
  simp only [Act.bind_run, Heap.nonNil_some, Heap.pusher, Act.read_run] at h
  cases hp : w.pushers.get p with
  | none => simp [hp] at h
  | some po =>
    refine ⟨po, rfl, ?_⟩
    simp only [hp] at h
    cases hps : po.Session with
    | some ps =>
      simp only [hps, Act.bind_run, Heap.session, Act.read_run] at h
      cases hpso : w.sessions.get ps with
      | none => simp [hpso] at h
      | some pso =>
        simp only [hpso, Go.ok.injEq] at h
        exact Or.inl ⟨ps, pso, rfl, hpso, h⟩
    | none =>
      simp only [hps] at h
      cases hc : po.Client with
      | none => simp [hc] at h
      | some c =>
        simp only [hc, Act.pure_run, Go.ok.injEq] at h
        exact Or.inr ⟨c, rfl, rfl, h⟩

theorem Heap.describe_found (lib : Lib) (fresh : Ptr) (nonce : String) (s : Ptr) (w : Heap.World)
    (so : Heap.Session) (hs : w.sessions.get s = some so) (hauth : so.authorization = false)
    (req : Request) (srv : Ptr) (sv : Heap.Server) (u : URL)
    (hm : req.Method = "DESCRIBE") (hu : req.URL = some u)
    (hsrv : so.options.Server = some srv) (hsv : w.servers.get srv = some sv)
    (hlock : sv.pushersLock = false)
    (p : Ptr) (sdp : String) (hreg : sv.pushers.get u.Path = some p)
    (hsdp : (Heap.Pusher.SDPRaw (some p) w).1 = .ok sdp) :
    (Heap.Session.handleRequest lib fresh nonce s (some req) w).2.out.map
      (fun r => (r.StatusCode, r.Body, r.Header.get "WWW-Authenticate")) = [(StatusOK, sdp, none)] := by
  obtain ⟨po, hpo, hcase⟩ := Heap.SDPRaw_ok w p sdp hsdp
  rcases hcase with ⟨ps, pso, hps, hpso, hraw⟩ | ⟨c, hps, hc, hraw⟩
  · by_cases hsame : ps = s
    · subst hsame
      have hpso' : pso = so := by rw [hs] at hpso; exact (Option.some.inj hpso).symm
      subst hpso'
      simp [Heap.Session.handleRequest, Heap.Handler.start, Go.panicked, Heap.Session.handleBody, Heap.setHeader, Heap.session, hs, hauth,
        GoMap.get_set, Heap.Session.authFails, hm, Heap.Session.dispatch, Heap.Session.describe,
        Heap.setSession, hu, Heap.Server.GetPusher, Heap.Server.RLock, hlock, hsrv, Heap.server, hsv, hreg, Heap.setStatus,
        Heap.Session.handleDeferred, Heap.writeResponse, Heap.Session.startPlaying, Heap.NewPlayer,
        Heap.Pusher.AControl, Heap.Pusher.ACodec, Heap.Pusher.VControl, Heap.Pusher.VCodec,
        Heap.Pusher.SDPRaw, Heap.Pusher.field, Heap.pusher, hpo, hps, Heap.setBody, hraw,
        Response.withContentLength_get, GoMap.get]
    · simp [Heap.Session.handleRequest, Heap.Handler.start, Go.panicked, Heap.Session.handleBody, Heap.setHeader, Heap.session, hs, hauth,
        GoMap.get_set, Heap.Session.authFails, hm, Heap.Session.dispatch, Heap.Session.describe,
        Heap.setSession, hu, Heap.Server.GetPusher, Heap.Server.RLock, hlock, hsrv, Heap.server, hsv, hreg, Heap.setStatus,
        Heap.Session.handleDeferred, Heap.writeResponse, Heap.Session.startPlaying, Heap.NewPlayer,
        Heap.Pusher.AControl, Heap.Pusher.ACodec, Heap.Pusher.VControl, Heap.Pusher.VCodec,
        Heap.Pusher.SDPRaw, Heap.Pusher.field, Heap.pusher, hpo, hps, Heap.setBody, hraw, hsame, hpso,
        Response.withContentLength_get, GoMap.get]
  · simp [Heap.Session.handleRequest, Heap.Handler.start, Go.panicked, Heap.Session.handleBody, Heap.setHeader, Heap.session, hs, hauth,
      GoMap.get_set, Heap.Session.authFails, hm, Heap.Session.dispatch, Heap.Session.describe,
      Heap.setSession, hu, Heap.Server.GetPusher, Heap.Server.RLock, hlock, hsrv, Heap.server, hsv, hreg, Heap.setStatus,
      Heap.Session.handleDeferred, Heap.writeResponse, Heap.Session.startPlaying, Heap.NewPlayer,
      Heap.Pusher.AControl, Heap.Pusher.ACodec, Heap.Pusher.VControl, Heap.Pusher.VCodec,
      Heap.Pusher.SDPRaw, Heap.Pusher.field, Heap.pusher, hpo, hps, hc, Heap.setBody, hraw,
      Response.withContentLength_get, GoMap.get]

theorem Heap.describe_none (lib : Lib) (fresh : Ptr) (nonce : String) (s : Ptr) (w : Heap.World)
    (so : Heap.Session) (hs : w.sessions.get s = some so) (hauth : so.authorization = false)
    (req : Request) (srv : Ptr) (sv : Heap.Server) (u : URL)
    (hm : req.Method = "DESCRIBE") (hu : req.URL = some u)
    (hsrv : so.options.Server = some srv) (hsv : w.servers.get srv = some sv)
    (hlock : sv.pushersLock = false) (hnone : sv.pushers.get u.Path = none) :
    (Heap.Session.handleRequest lib fresh nonce s (some req) w).2.out.map Response.StatusCode =
        [StatusNotFound] := by
  simp [Heap.Session.handleRequest, Heap.Handler.start, Go.panicked, Heap.Session.handleBody, Heap.setHeader, Heap.session, hs, hauth,
    GoMap.get_set, Heap.Session.authFails, hm, Heap.Session.dispatch, Heap.setStatus,
    Heap.Session.handleDeferred, Heap.writeResponse, Heap.Session.startPlaying, Heap.Session.describe, Heap.setSession,
    hu, Heap.Server.GetPusher, Heap.Server.RLock, hlock, hsrv, Heap.server, hsv, hnone]

/-- DESCRIBE while `pushersLock` is held: `GetPusher` waits at `RLock`, the
handler does not come back and nothing is written. -/
theorem Heap.describe_blocked (lib : Lib) (fresh : Ptr) (nonce : String) (s : Ptr) (w : Heap.World)
    (so : Heap.Session) (hs : w.sessions.get s = some so) (hauth : so.authorization = false)
    (req : Request) (srv : Ptr) (sv : Heap.Server) (u : URL)
    (hm : req.Method = "DESCRIBE") (hu : req.URL = some u)
    (hsrv : so.options.Server = some srv) (hsv : w.servers.get srv = some sv)
    (hlock : sv.pushersLock = true) :
    (Heap.Session.handleRequest lib fresh nonce s (some req) w).1 = .panic .blocked ∧
    (Heap.Session.handleRequest lib fresh nonce s (some req) w).2.out = [] := by
  simp [Heap.Session.handleRequest, Heap.Handler.start, Go.panicked, Heap.Session.handleBody, Heap.setHeader, Heap.session, hs, hauth,
    GoMap.get_set, Heap.Session.authFails, hm, Heap.Session.dispatch, Heap.setStatus,
    Heap.Session.handleDeferred, Heap.writeResponse, Heap.Session.startPlaying, Heap.Session.describe, Heap.setSession,
    hu, Heap.Server.GetPusher, Heap.Server.RLock, hlock, hsrv, Heap.server, hsv]

theorem Heap.play_record_unbound (lib : Lib) (fresh : Ptr) (nonce : String) (s : Ptr) (w : Heap.World)
    (so : Heap.Session) (hs : w.sessions.get s = some so) (hauth : so.authorization = false)
    (req : Request) (hm : req.Method = "PLAY" ∨ req.Method = "RECORD") (hp : so.Pusher = none) :
    (Heap.Session.handleRequest lib fresh nonce s (some req) w).2.out.map Response.StatusCode =
        [StatusInternalServerError] := by
  rw [Heap.handleRequest_out lib fresh nonce s req w so hs]
  rcases hm with hm | hm
  · simp [Heap.Session.handleBody, Heap.Handler.start, Heap.setHeader, Heap.session, hs, hauth,
      Heap.Session.authFails, hm, Heap.Session.dispatch, Heap.Session.play, hp, Heap.setStatus, Go.panicked]
  · simp [Heap.Session.handleBody, Heap.Handler.start, Heap.setHeader, Heap.session, hs, hauth,
      Heap.Session.authFails, hm, Heap.Session.dispatch, Heap.Session.record, hp, Heap.setStatus, Go.panicked]

theorem Heap.pause_no_player (lib : Lib) (fresh : Ptr) (nonce : String) (s : Ptr) (w : Heap.World)
    (so : Heap.Session) (hs : w.sessions.get s = some so) (hauth : so.authorization = false)
    (req : Request) (hm : req.Method = "PAUSE") (hp : so.Player = none) :
    (Heap.Session.handleRequest lib fresh nonce s (some req) w).2.out.map Response.StatusCode =
        [StatusInternalServerError] := by
  simp [Heap.Session.handleRequest, Heap.Handler.start, Go.panicked, Heap.Session.handleBody, Heap.setHeader, Heap.session, hs, hauth,
    GoMap.get_set, Heap.Session.authFails, hm, Heap.Session.dispatch, Heap.setStatus,
    Heap.Session.handleDeferred, Heap.writeResponse, Heap.Session.startPlaying, Heap.Session.pause, hp]

theorem Heap.pause_player (lib : Lib) (fresh : Ptr) (nonce : String) (s : Ptr) (w : Heap.World)
    (so : Heap.Session) (hs : w.sessions.get s = some so) (hauth : so.authorization = false)
    (req : Request) (hm : req.Method = "PAUSE")
    (pl ps : Ptr) (plo : Heap.Player) (pso : Heap.Session) (u : URL)
    (hp : so.Player = some pl) (hpl : w.players.get pl = some plo) (hps : plo.Session = some ps)
    (hpso : w.sessions.get ps = some pso) (hu : pso.URL = some u) (hconn : pso.options.conn = true) :
    (Heap.Session.handleRequest lib fresh nonce s (some req) w).2.out.map Response.StatusCode = [StatusOK] ∧
    ((Heap.Session.handleRequest lib fresh nonce s (some req) w).2.world.players.get pl).map (·.paused)
      = some true := by
  simp [Heap.Session.handleRequest, Heap.Handler.start, Go.panicked, Heap.Session.handleBody, Heap.setHeader, Heap.session, hs, hauth,
    GoMap.get_set, Heap.Session.authFails, hm, Heap.Session.dispatch, Heap.setStatus,
    Heap.Session.handleDeferred, Heap.writeResponse, Heap.Session.startPlaying, Heap.Session.pause, hp, Heap.Player.Pause, Heap.player, hpl, hps, Heap.Session.String_, hpso,
    hu, hconn, Heap.setPlayer]

/-! ### `handleRequest` : ANNOUNCE -/

set_option maxHeartbeats 1000000 in
/-- ANNOUNCE on an occupied path by a session whose `closeOld` is unset, with
the lock free: the new pusher is refused by `AddPusher`, the answer is 406, the
registry and the registered pusher are as before, the other sessions are
untouched, and the lock stays held. -/
theorem Heap.announce_occupied (lib : Lib) (fresh : Ptr) (nonce : String) (s : Ptr) (w : Heap.World)
    (so : Heap.Session) (req : Request) (srv p : Ptr) (sv : Heap.Server) (u : URL) (m : GoMap SDPInfo)
    (hs : w.sessions.get s = some so) (hauth : so.authorization = false) (hclose : so.closeOld = false)
    (hm : req.Method = "ANNOUNCE") (hu : req.URL = some u) (hsdp : lib.ParseSDP req.Body = .ok m)
    (hsrv : so.options.Server = some srv) (hsv : w.servers.get srv = some sv)
    (hlock : sv.pushersLock = false)
    (hreg : sv.pushers.get u.Path = some p) (hfresh : fresh ≠ p) :
    (Heap.Session.handleRequest lib fresh nonce s (some req) w).1 = .ok () ∧
    (Heap.Session.handleRequest lib fresh nonce s (some req) w).2.out.map Response.StatusCode
      = [StatusNotAcceptable] ∧
    (Heap.Session.handleRequest lib fresh nonce s (some req) w).2.world.servers.get srv =
      some { sv with pushersLock := true } ∧
    (Heap.Session.handleRequest lib fresh nonce s (some req) w).2.world.pushers.get p = w.pushers.get p ∧
    (∀ s2 : Ptr, s2 ≠ s →
      (Heap.Session.handleRequest lib fresh nonce s (some req) w).2.world.sessions.get s2
        = w.sessions.get s2) := by
  have hp : p ≠ fresh := fun e => hfresh e.symm
  have h4 : (Heap.Session.handleRequest lib fresh nonce s (some req) w).1 = .ok () ∧
      (Heap.Session.handleRequest lib fresh nonce s (some req) w).2.out.map Response.StatusCode
        = [StatusNotAcceptable] ∧
      (Heap.Session.handleRequest lib fresh nonce s (some req) w).2.world.servers.get srv =
        some { sv with pushersLock := true } ∧
      (Heap.Session.handleRequest lib fresh nonce s (some req) w).2.world.pushers.get p = w.pushers.get p := by
    cases ha : m.get "audio" <;> cases hv : m.get "video" <;>
    simp [Heap.Session.handleRequest, Heap.Handler.start, Go.panicked, Heap.Session.handleBody,
      Heap.setHeader, Heap.session, hs, hauth, hclose, GoMap.get_set, Heap.Session.authFails, hm,
      Heap.Session.dispatch, Heap.Session.announce, Heap.setSession, hsdp, ha, hv, Heap.NewPusher,
      Heap.Pusher.bindSession, Heap.setPusher, Heap.pusher, Heap.Server.AddPusher, hsrv, Heap.server, hsv,
      Heap.Pusher.Path, Heap.Pusher.field, hu, hreg, Heap.setStatus, Heap.Session.handleDeferred,
      Heap.writeResponse, Heap.Session.startPlaying, hp, hfresh, Heap.Server.Lock, hlock, Heap.setServer]
  refine ⟨h4.1, h4.2.1, h4.2.2.1, h4.2.2.2, fun s2 hne => ?_⟩
  cases ha : m.get "audio" <;> cases hv : m.get "video" <;>
  simp [Heap.Session.handleRequest, Heap.Handler.start, Go.panicked, Heap.Session.handleBody,
    Heap.setHeader, Heap.session, hs, hauth, hclose, GoMap.get_set, Heap.Session.authFails, hm,
    Heap.Session.dispatch, Heap.Session.announce, Heap.setSession, hsdp, ha, hv, Heap.NewPusher,
    Heap.Pusher.bindSession, Heap.setPusher, Heap.pusher, Heap.Server.AddPusher, hsrv, Heap.server, hsv,
    Heap.Pusher.Path, Heap.Pusher.field, hu, hreg, Heap.setStatus, Heap.Session.handleDeferred,
    Heap.writeResponse, Heap.Session.startPlaying, hp, hfresh, Heap.Server.Lock, hlock, Heap.setServer, hne]

/-- ANNOUNCE on a vacant path by a session whose `closeOld` is unset, with the
lock free: `AddPusher` stores the new pusher and then waits for ever to send on
`addPusherCh`; the handler does not come back and nothing is written. -/
theorem Heap.announce_vacant (lib : Lib) (fresh : Ptr) (nonce : String) (s : Ptr) (w : Heap.World)
    (so : Heap.Session) (req : Request) (srv : Ptr) (sv : Heap.Server) (u : URL) (m : GoMap SDPInfo)
    (hs : w.sessions.get s = some so) (hauth : so.authorization = false) (hclose : so.closeOld = false)
    (hm : req.Method = "ANNOUNCE") (hu : req.URL = some u) (hsdp : lib.ParseSDP req.Body = .ok m)
    (hsrv : so.options.Server = some srv) (hsv : w.servers.get srv = some sv)
    (hlock : sv.pushersLock = false) (hnone : sv.pushers.get u.Path = none) :
    (Heap.Session.handleRequest lib fresh nonce s (some req) w).1 = .panic .blocked ∧
    (Heap.Session.handleRequest lib fresh nonce s (some req) w).2.out = [] ∧
    (Heap.Session.handleRequest lib fresh nonce s (some req) w).2.world.servers.get srv =
      some { sv with pushers := sv.pushers.set u.Path fresh, pushersLock := false } := by
  cases ha : m.get "audio" <;> cases hv : m.get "video" <;>
  simp [Heap.Session.handleRequest, Heap.Handler.start, Go.panicked, Heap.Session.handleBody,
    Heap.setHeader, Heap.session, hs, hauth, hclose, GoMap.get_set, Heap.Session.authFails, hm,
    Heap.Session.dispatch, Heap.Session.announce, Heap.setSession, hsdp, ha, hv, Heap.NewPusher,
    Heap.Pusher.bindSession, Heap.setPusher, Heap.pusher, Heap.Server.AddPusher, hsrv, Heap.server, hsv,
    Heap.Pusher.Path, Heap.Pusher.field, hu, hnone, Heap.setStatus, Heap.Session.handleDeferred,
    Heap.writeResponse, Heap.Session.startPlaying, Heap.Server.Lock, Heap.Server.Unlock, chanSend, hlock,
    Heap.setServer]

/-- ANNOUNCE by a session whose `closeOld` is unset while the lock is held:
`AddPusher` waits at the lock; the handler does not come back and nothing is
written. -/
theorem Heap.announce_locked (lib : Lib) (fresh : Ptr) (nonce : String) (s : Ptr) (w : Heap.World)
    (so : Heap.Session) (req : Request) (srv : Ptr) (sv : Heap.Server) (u : URL) (m : GoMap SDPInfo)
    (hs : w.sessions.get s = some so) (hauth : so.authorization = false) (hclose : so.closeOld = false)
    (hm : req.Method = "ANNOUNCE") (hu : req.URL = some u) (hsdp : lib.ParseSDP req.Body = .ok m)
    (hsrv : so.options.Server = some srv) (hsv : w.servers.get srv = some sv)
    (hlock : sv.pushersLock = true) :
    (Heap.Session.handleRequest lib fresh nonce s (some req) w).1 = .panic .blocked ∧
    (Heap.Session.handleRequest lib fresh nonce s (some req) w).2.out = [] := by
  cases ha : m.get "audio" <;> cases hv : m.get "video" <;>
  simp [Heap.Session.handleRequest, Heap.Handler.start, Go.panicked, Heap.Session.handleBody,
    Heap.setHeader, Heap.session, hs, hauth, hclose, GoMap.get_set, Heap.Session.authFails, hm,
    Heap.Session.dispatch, Heap.Session.announce, Heap.setSession, hsdp, ha, hv, Heap.NewPusher,
    Heap.Pusher.bindSession, Heap.setPusher, Heap.pusher, Heap.Server.AddPusher, hsrv, Heap.server, hsv,
    Heap.Pusher.Path, Heap.Pusher.field, hu, Heap.setStatus, Heap.Session.handleDeferred,
    Heap.writeResponse, Heap.Session.startPlaying, Heap.Server.Lock, hlock, Heap.setServer]

/-- C15: state errors surface as status codes, while the lock of the registry
is free. For a session `s` that does not demand authorization: DESCRIBE for a
path with no registered pusher is answered 404, and for a path with a
registered pusher whose `SDPRaw()` returns it is answered 200 with that SDP as
body (so the answer is 404 exactly when no pusher is registered); PLAY and
RECORD are answered 500 when `s.Pusher` is nil; PAUSE is answered 500 when
`s.Player` is nil, and otherwise, for a player that `NewPlayer` made for a
session that is connected, it is answered 200 and the player is marked paused.
While the lock is held, DESCRIBE is not answered at all: `GetPusher` waits at
`RLock` and the handler does not come back. The lock is held for good as soon
as one ANNOUNCE has been refused with 406, by any session `s2`: `AddPusher`
returns false without releasing it. -/
theorem handleRequest_state_errors (lib : Lib) (fresh : Ptr) (nonce : String) (s : Ptr) (w : Heap.World)
    (so : Heap.Session) (hs : w.sessions.get s = some so) (hauth : so.authorization = false) :
    (∀ (req : Request) (srv : Ptr) (sv : Heap.Server) (u : URL),
      req.Method = "DESCRIBE" → req.URL = some u → so.options.Server = some srv →
      w.servers.get srv = some sv →
        (sv.pushersLock = false →
          (sv.pushers.get u.Path = none →
            (Heap.Session.handleRequest lib fresh nonce s (some req) w).2.out.map Response.StatusCode =
              [StatusNotFound]) ∧
          (∀ (p : Ptr) (sdp : String), sv.pushers.get u.Path = some p →
            (Heap.Pusher.SDPRaw (some p) w).1 = .ok sdp →
            (Heap.Session.handleRequest lib fresh nonce s (some req) w).2.out.map
              (fun r => (r.StatusCode, r.Body)) = [(StatusOK, sdp)])) ∧
        (sv.pushersLock = true →
          (Heap.Session.handleRequest lib fresh nonce s (some req) w).1 = .panic .blocked ∧
          (Heap.Session.handleRequest lib fresh nonce s (some req) w).2.out = [])) ∧
    (∀ (fresh2 s2 : Ptr) (so2 : Heap.Session) (announce describe : Request) (srv p : Ptr)
      (sv : Heap.Server) (u u2 : URL) (m : GoMap SDPInfo),
      s2 ≠ s → w.sessions.get s2 = some so2 → so2.authorization = false → so2.closeOld = false →
      announce.Method = "ANNOUNCE" → announce.URL = some u → lib.ParseSDP announce.Body = .ok m →
      so2.options.Server = some srv → w.servers.get srv = some sv → sv.pushersLock = false →
      sv.pushers.get u.Path = some p → fresh2 ≠ p →
      describe.Method = "DESCRIBE" → describe.URL = some u2 → so.options.Server = some srv →
        (Heap.Session.handleRequest lib fresh2 nonce s2 (some announce) w).2.out.map Response.StatusCode =
          [StatusNotAcceptable] ∧
        (Heap.Session.handleRequest lib fresh nonce s (some describe)
          (Heap.Session.handleRequest lib fresh2 nonce s2 (some announce) w).2.world).1 = .panic .blocked ∧
        (Heap.Session.handleRequest lib fresh nonce s (some describe)
          (Heap.Session.handleRequest lib fresh2 nonce s2 (some announce) w).2.world).2.out = []) ∧
    (∀ req : Request, req.Method = "PLAY" ∨ req.Method = "RECORD" → so.Pusher = none →
      (Heap.Session.handleRequest lib fresh nonce s (some req) w).2.out.map Response.StatusCode =
        [StatusInternalServerError]) ∧
    (∀ req : Request, req.Method = "PAUSE" →
      (so.Player = none →
        (Heap.Session.handleRequest lib fresh nonce s (some req) w).2.out.map Response.StatusCode =
          [StatusInternalServerError]) ∧
      (∀ (pl ps : Ptr) (plo : Heap.Player) (pso : Heap.Session) (u : URL),
        so.Player = some pl → w.players.get pl = some plo → plo.Session = some ps →
        w.sessions.get ps = some pso → pso.URL = some u → pso.options.conn = true →
        (Heap.Session.handleRequest lib fresh nonce s (some req) w).2.out.map Response.StatusCode =
          [StatusOK] ∧
        ((Heap.Session.handleRequest lib fresh nonce s (some req) w).2.world.players.get pl).map (·.paused)
          = some true)) := by
  refine ⟨fun req srv sv u hm hu hsrv hsv =>
      ⟨fun hlock => ⟨fun hnone => ?_, fun p sdp hreg hsdp => ?_⟩, fun hlock => ?_⟩,
    fun fresh2 s2 so2 announce describe srv p sv u u2 m hne hs2 hauth2 hclose2 ha hu hsdp hsrv2 hsv hlock
      hreg hfresh hd hu2 hsrv => ?_,
    fun req hm hp => ?_, fun req hm => ⟨fun hp => ?_, fun pl ps plo pso u hp hpl hps hpso hu hconn => ?_⟩⟩
  · exact Heap.describe_none lib fresh nonce s w so hs hauth req srv sv u hm hu hsrv hsv hlock hnone
  · have h := Heap.describe_found lib fresh nonce s w so hs hauth req srv sv u hm hu hsrv hsv hlock p sdp
      hreg hsdp
    have h2 := congrArg (List.map (fun t : Int × String × Option HeaderValue => (t.1, t.2.1))) h
    simpa [List.map_map, Function.comp] using h2
  · exact Heap.describe_blocked lib fresh nonce s w so hs hauth req srv sv u hm hu hsrv hsv hlock
  · have h1 := Heap.announce_occupied lib fresh2 nonce s2 w so2 announce srv p sv u m hs2 hauth2 hclose2 ha hu
      hsdp hsrv2 hsv hlock hreg hfresh
    have hs' : (Heap.Session.handleRequest lib fresh2 nonce s2 (some announce) w).2.world.sessions.get s
        = some so := by
      rw [h1.2.2.2.2 s (fun e => hne e.symm)]
      exact hs
    exact ⟨h1.2.1, Heap.describe_blocked lib fresh nonce s _ so hs' hauth describe srv
      { sv with pushersLock := true } u2 hd hu2 hsrv h1.2.2.1 rfl⟩
  · exact Heap.play_record_unbound lib fresh nonce s w so hs hauth req hm hp
  · exact Heap.pause_no_player lib fresh nonce s w so hs hauth req hm hp
  · exact Heap.pause_player lib fresh nonce s w so hs hauth req hm pl ps plo pso u hp hpl hps hpso hu hconn

/-- C15, witness: on the sample relay, the session `new` (no pusher, no player)
gets 404 for DESCRIBE of `/none`, 200 with the SDP `v=0` for DESCRIBE of
`/live`, and 500 for PLAY and for PAUSE; the viewer `a` gets 200 for PAUSE and
its player is paused. After the ANNOUNCE of session `new` for `/live` has been
refused with 406, the DESCRIBE of the viewer `a` blocks and gets no answer. -/
theorem handleRequest_state_errors_witness :
    (Heap.liveWorld.sessions.get "new" = some Heap.newSession ∧ Heap.newSession.authorization = false ∧
      Heap.liveWorld.sessions.get "a" = some (Heap.viewer "a" "pa") ∧
      (Heap.viewer "a" "pa").authorization = false) ∧
    (Heap.Session.handleRequest sampleLib "p1" "x" "new" (some (requestFor "DESCRIBE" "/none"))
      Heap.liveWorld).2.out.map Response.StatusCode = [StatusNotFound] ∧
    (Heap.Session.handleRequest sampleLib "p1" "x" "new" (some (requestFor "DESCRIBE" "/live"))
      Heap.liveWorld).2.out.map (fun r => (r.StatusCode, r.Body)) = [(StatusOK, "v=0")] ∧
    (Heap.Session.handleRequest sampleLib "p1" "x" "new" (some (requestFor "PLAY" "/live"))
      Heap.liveWorld).2.out.map Response.StatusCode = [StatusInternalServerError] ∧
    (Heap.Session.handleRequest sampleLib "p1" "x" "new" (some (requestFor "PAUSE" "/live"))
      Heap.liveWorld).2.out.map Response.StatusCode = [StatusInternalServerError] ∧
    (Heap.Session.handleRequest sampleLib "p1" "x" "a" (some (requestFor "PAUSE" "/live"))
      Heap.liveWorld).2.out.map Response.StatusCode = [StatusOK] ∧
    ((Heap.Session.handleRequest sampleLib "p1" "x" "a" (some (requestFor "PAUSE" "/live"))
      Heap.liveWorld).2.world.players.get "pa").map (·.paused) = some true ∧
    ((Heap.Session.handleRequest sampleLib "P2" "x" "new" (some (requestFor "ANNOUNCE" "/live"))
        Heap.liveWorld).2.out.map Response.StatusCode = [StatusNotAcceptable] ∧
      (Heap.Session.handleRequest sampleLib "p1" "x" "a" (some (requestFor "DESCRIBE" "/live"))
        (Heap.Session.handleRequest sampleLib "P2" "x" "new" (some (requestFor "ANNOUNCE" "/live"))
          Heap.liveWorld).2.world).1 = .panic .blocked ∧
      (Heap.Session.handleRequest sampleLib "p1" "x" "a" (some (requestFor "DESCRIBE" "/live"))
        (Heap.Session.handleRequest sampleLib "P2" "x" "new" (some (requestFor "ANNOUNCE" "/live"))
          Heap.liveWorld).2.world).2.out = []) := by
  have hp := ((handleRequest_state_errors sampleLib "p1" "x" "a" Heap.liveWorld (Heap.viewer "a" "pa") rfl
      rfl).2.2.2 (requestFor "PAUSE" "/live") rfl).2 "pa" "a" (Heap.viewerPlayer "a") (Heap.viewer "a" "pa")
      { Path := "/live" } rfl rfl rfl rfl rfl rfl
  exact ⟨⟨rfl, rfl, rfl, rfl⟩,
   (((handleRequest_state_errors sampleLib "p1" "x" "new" Heap.liveWorld Heap.newSession rfl rfl).1
      (requestFor "DESCRIBE" "/none") "srv" { TCPPort := 554, Stopped := false, pushers := [("/live", "P")] }
      { Path := "/none" } rfl rfl rfl rfl).1 rfl).1 rfl,
   (((handleRequest_state_errors sampleLib "p1" "x" "new" Heap.liveWorld Heap.newSession rfl rfl).1
      (requestFor "DESCRIBE" "/live") "srv" { TCPPort := 554, Stopped := false, pushers := [("/live", "P")] }
      { Path := "/live" } rfl rfl rfl rfl).1 rfl).2 "P" "v=0" rfl rfl,
   (handleRequest_state_errors sampleLib "p1" "x" "new" Heap.liveWorld Heap.newSession rfl rfl).2.2.1
      (requestFor "PLAY" "/live") (Or.inl rfl) rfl,
   ((handleRequest_state_errors sampleLib "p1" "x" "new" Heap.liveWorld Heap.newSession rfl rfl).2.2.2
      (requestFor "PAUSE" "/live") rfl).1 rfl,
   hp.1, hp.2,
   (handleRequest_state_errors sampleLib "p1" "x" "a" Heap.liveWorld (Heap.viewer "a" "pa") rfl rfl).2.1
      "P2" "new" Heap.newSession (requestFor "ANNOUNCE" "/live") (requestFor "DESCRIBE" "/live") "srv" "P"
      { TCPPort := 554, Stopped := false, pushers := [("/live", "P")] } { Path := "/live" }
      { Path := "/live" } [] (by decide) rfl rfl rfl rfl rfl rfl rfl rfl rfl rfl (by decide) rfl rfl rfl⟩

/-- C12: `NewSession` never copies `CloseOld` into `s.closeOld`. For every
options value (so also with `CloseOld = true`) the session that `NewSession`
builds has `closeOld = false`, and its ANNOUNCE on a path occupied by a pusher
`p` goes to `NewPusher` and `AddPusher`. With the lock of the registry free
the handler returns, the answer is 406 Not Acceptable, the registry of the
server is unchanged (its lock is left held) and `p` is left as it was, not
rebound. With the lock held `AddPusher` waits at the lock and the request is
not answered. In no case is the answer 200. -/
theorem announce_NewSession_rejected (lib : Lib) (w : Heap.World) (options : SessionOptions) (id : String)
    (sp fresh : Ptr) (nonce : String) (req : Request) (srv p : Ptr) (sv : Heap.Server) (u : URL)
    (m : GoMap SDPInfo)
    (hm : req.Method = "ANNOUNCE") (hu : req.URL = some u) (hsdp : lib.ParseSDP req.Body = .ok m)
    (hsrv : options.Server = some srv) (hsv : w.servers.get srv = some sv)
    (hreg : sv.pushers.get u.Path = some p) (hfresh : fresh ≠ p) :
    (Heap.NewSession.value options id).closeOld = false ∧
    (sv.pushersLock = false →
      (Heap.Session.handleRequest lib fresh nonce sp (some req) (Heap.NewSession sp options id w).2).1 = .ok () ∧
      (Heap.Session.handleRequest lib fresh nonce sp (some req) (Heap.NewSession sp options id w).2).2.out.map
        Response.StatusCode = [StatusNotAcceptable] ∧
      ((Heap.Session.handleRequest lib fresh nonce sp (some req)
        (Heap.NewSession sp options id w).2).2.world.servers.get srv).map (·.pushers) = some sv.pushers ∧
      (Heap.Session.handleRequest lib fresh nonce sp (some req)
        (Heap.NewSession sp options id w).2).2.world.servers.get srv = some { sv with pushersLock := true } ∧
      (Heap.Session.handleRequest lib fresh nonce sp (some req)
        (Heap.NewSession sp options id w).2).2.world.pushers.get p = w.pushers.get p) ∧
    (sv.pushersLock = true →
      (Heap.Session.handleRequest lib fresh nonce sp (some req) (Heap.NewSession sp options id w).2).1
        = .panic .blocked ∧
      (Heap.Session.handleRequest lib fresh nonce sp (some req) (Heap.NewSession sp options id w).2).2.out
        = []) := by
  have hw : (Heap.NewSession sp options id w).2 =
      { w with sessions := w.sessions.set sp (Heap.NewSession.value options id) } := rfl
  have hs : (Heap.NewSession sp options id w).2.sessions.get sp = some (Heap.NewSession.value options id) := by
    rw [hw]
    simp [GoMap.get_set]
  refine ⟨rfl, fun hlock => ?_, fun hlock => ?_⟩
  · have h := Heap.announce_occupied lib fresh nonce sp (Heap.NewSession sp options id w).2
      (Heap.NewSession.value options id) req srv p sv u m hs rfl rfl hm hu hsdp hsrv hsv hlock hreg hfresh
    refine ⟨h.1, h.2.1, ?_, h.2.2.1, h.2.2.2.1⟩
    rw [h.2.2.1]
    rfl
  · exact Heap.announce_locked lib fresh nonce sp (Heap.NewSession sp options id w).2
      (Heap.NewSession.value options id) req srv sv u m hs rfl rfl hm hu hsdp hsrv hsv hlock

/-- C12, witness: on the sample relay a session made by `NewSession` with the
options of `Server.Start` (`CloseOld = true`) announces `/live`, which the
pusher `P` holds. -/
theorem announce_NewSession_rejected_witness :
    Heap.relayOptions.CloseOld = true ∧
    (Heap.NewSession.value Heap.relayOptions "n2").closeOld = false ∧
    (Heap.Session.handleRequest sampleLib "P2" "x" "n2" (some (requestFor "ANNOUNCE" "/live"))
      (Heap.NewSession "n2" Heap.relayOptions "n2" Heap.liveWorld).2).1 = .ok () ∧
    (Heap.Session.handleRequest sampleLib "P2" "x" "n2" (some (requestFor "ANNOUNCE" "/live"))
      (Heap.NewSession "n2" Heap.relayOptions "n2" Heap.liveWorld).2).2.out.map
      Response.StatusCode = [StatusNotAcceptable] ∧
    ((Heap.Session.handleRequest sampleLib "P2" "x" "n2" (some (requestFor "ANNOUNCE" "/live"))
      (Heap.NewSession "n2" Heap.relayOptions "n2" Heap.liveWorld).2).2.world.servers.get "srv").map
      (·.pushers) = some [("/live", "P")] ∧
    (Heap.Session.handleRequest sampleLib "P2" "x" "n2" (some (requestFor "ANNOUNCE" "/live"))
      (Heap.NewSession "n2" Heap.relayOptions "n2" Heap.liveWorld).2).2.world.servers.get "srv"
      = some { TCPPort := 554, Stopped := false, pushers := [("/live", "P")], pushersLock := true } ∧
    (Heap.Session.handleRequest sampleLib "P2" "x" "n2" (some (requestFor "ANNOUNCE" "/live"))
      (Heap.NewSession "n2" Heap.relayOptions "n2" Heap.liveWorld).2).2.world.pushers.get "P"
      = Heap.liveWorld.pushers.get "P" :=
  ⟨rfl,
   (announce_NewSession_rejected sampleLib Heap.liveWorld Heap.relayOptions "n2" "n2" "P2" "x"
    (requestFor "ANNOUNCE" "/live") "srv" "P"
    { TCPPort := 554, Stopped := false, pushers := [("/live", "P")] } { Path := "/live" } []
    rfl rfl rfl rfl rfl rfl (by decide)).1,
   (announce_NewSession_rejected sampleLib Heap.liveWorld Heap.relayOptions "n2" "n2" "P2" "x"
    (requestFor "ANNOUNCE" "/live") "srv" "P"
    { TCPPort := 554, Stopped := false, pushers := [("/live", "P")] } { Path := "/live" } []
    rfl rfl rfl rfl rfl rfl (by decide)).2.1 rfl⟩

/-- C13: every ANNOUNCE that the registry rejects is answered 406. A session
that `NewSession` has built has `closeOld` unset, whatever its options say, so
its ANNOUNCE goes to `AddPusher`; `TryAttachToPusher` is not called. For such
a session that does not demand authorization: when the lock of the registry is
free and the path is occupied, by a session-backed or a client-backed pusher,
`AddPusher` returns false and the handler returns with the answer 406. In the
other cases the registry does not reject and nothing is answered: on a vacant
path `AddPusher` stores the pusher and blocks on `addPusherCh`, and with the
lock held it blocks at the lock. -/
theorem announce_rejection_status (lib : Lib) (fresh : Ptr) (nonce : String) (s : Ptr) (w : Heap.World)
    (so : Heap.Session) (req : Request) (srv : Ptr) (sv : Heap.Server) (u : URL) (m : GoMap SDPInfo)
    (hs : w.sessions.get s = some so) (hauth : so.authorization = false) (hclose : so.closeOld = false)
    (hm : req.Method = "ANNOUNCE") (hu : req.URL = some u) (hsdp : lib.ParseSDP req.Body = .ok m)
    (hsrv : so.options.Server = some srv) (hsv : w.servers.get srv = some sv) :
    (∀ (options : SessionOptions) (id : String), (Heap.NewSession.value options id).closeOld = false) ∧
    (sv.pushersLock = false → ∀ p : Ptr, sv.pushers.get u.Path = some p → fresh ≠ p →
      (Heap.Session.handleRequest lib fresh nonce s (some req) w).1 = .ok () ∧
      (Heap.Session.handleRequest lib fresh nonce s (some req) w).2.out.map Response.StatusCode
        = [StatusNotAcceptable]) ∧
    (sv.pushersLock = false → sv.pushers.get u.Path = none →
      (Heap.Session.handleRequest lib fresh nonce s (some req) w).1 = .panic .blocked ∧
      (Heap.Session.handleRequest lib fresh nonce s (some req) w).2.out = []) ∧
    (sv.pushersLock = true →
      (Heap.Session.handleRequest lib fresh nonce s (some req) w).1 = .panic .blocked ∧
      (Heap.Session.handleRequest lib fresh nonce s (some req) w).2.out = []) := by
  refine ⟨fun _ _ => rfl, fun hlock p hreg hfresh => ?_, fun hlock hnone => ?_, fun hlock => ?_⟩
  · have h := Heap.announce_occupied lib fresh nonce s w so req srv p sv u m hs hauth hclose hm hu hsdp hsrv
      hsv hlock hreg hfresh
    exact ⟨h.1, h.2.1⟩
  · have h := Heap.announce_vacant lib fresh nonce s w so req srv sv u m hs hauth hclose hm hu hsdp hsrv
      hsv hlock hnone
    exact ⟨h.1, h.2.1⟩
  · exact Heap.announce_locked lib fresh nonce s w so req srv sv u m hs hauth hclose hm hu hsdp hsrv hsv hlock

/-- C13, witness: on the sample relay the ANNOUNCE of the session `new` for
`/live`, held by the session-backed pusher `P`, is answered 406, and so is its
ANNOUNCE on the relay whose `/live` is held by the client-backed pusher `C`;
an ANNOUNCE for the vacant path `/door` is not answered. -/
theorem announce_rejection_status_witness :
    ((Heap.liveWorld.sessions.get "new").map (·.closeOld) = some false ∧
      (Heap.liveWorld.pushers.get "P").map (·.Client.isSome) = some false ∧
      (Heap.clientWorld.pushers.get "C").map (·.Client.isSome) = some true) ∧
    ((Heap.Session.handleRequest sampleLib "P2" "x" "new" (some (requestFor "ANNOUNCE" "/live"))
        Heap.liveWorld).1 = .ok () ∧
      (Heap.Session.handleRequest sampleLib "P2" "x" "new" (some (requestFor "ANNOUNCE" "/live"))
        Heap.liveWorld).2.out.map Response.StatusCode = [StatusNotAcceptable]) ∧
    ((Heap.Session.handleRequest sampleLib "P2" "x" "new" (some (requestFor "ANNOUNCE" "/live"))
        (Heap.NewSession "new" Heap.relayOptions "new" Heap.clientWorld).2).1 = .ok () ∧
      (Heap.Session.handleRequest sampleLib "P2" "x" "new" (some (requestFor "ANNOUNCE" "/live"))
        (Heap.NewSession "new" Heap.relayOptions "new" Heap.clientWorld).2).2.out.map Response.StatusCode
        = [StatusNotAcceptable]) ∧
    ((Heap.Session.handleRequest sampleLib "P2" "x" "new" (some (requestFor "ANNOUNCE" "/door"))
        Heap.liveWorld).1 = .panic .blocked ∧
      (Heap.Session.handleRequest sampleLib "P2" "x" "new" (some (requestFor "ANNOUNCE" "/door"))
        Heap.liveWorld).2.out = []) :=
  ⟨⟨rfl, rfl, rfl⟩,
   (announce_rejection_status sampleLib "P2" "x" "new" Heap.liveWorld Heap.newSession
      (requestFor "ANNOUNCE" "/live") "srv"
      { TCPPort := 554, Stopped := false, pushers := [("/live", "P")] } { Path := "/live" } []
      rfl rfl rfl rfl rfl rfl rfl rfl).2.1 rfl "P" rfl (by decide),
   (announce_rejection_status sampleLib "P2" "x" "new" (Heap.NewSession "new" Heap.relayOptions "new" Heap.clientWorld).2
      (Heap.NewSession.value Heap.relayOptions "new")
      (requestFor "ANNOUNCE" "/live") "srv"
      { TCPPort := 554, Stopped := false, pushers := [("/live", "C")] } { Path := "/live" } []
      rfl rfl rfl rfl rfl rfl rfl rfl).2.1 rfl "C" rfl (by decide),
   (announce_rejection_status sampleLib "P2" "x" "new" Heap.liveWorld Heap.newSession
      (requestFor "ANNOUNCE" "/door") "srv"
      { TCPPort := 554, Stopped := false, pushers := [("/live", "P")] } { Path := "/door" } []
      rfl rfl rfl rfl rfl rfl rfl rfl).2.2.1 rfl rfl⟩

/-! ### `handleRequest` : panics that escape -/

/-- A DESCRIBE for a path without pusher leaves the session a player without
pusher. -/
theorem Heap.describe_none_world (lib : Lib) (fresh : Ptr) (nonce : String) (s : Ptr) (w : Heap.World)
    (so : Heap.Session) (hs : w.sessions.get s = some so) (hauth : so.authorization = false)
    (req : Request) (srv : Ptr) (sv : Heap.Server) (u : URL)
    (hm : req.Method = "DESCRIBE") (hu : req.URL = some u)
    (hsrv : so.options.Server = some srv) (hsv : w.servers.get srv = some sv)
    (hlock : sv.pushersLock = false) (hnone : sv.pushers.get u.Path = none) :
    (Heap.Session.handleRequest lib fresh nonce s (some req) w).1 = .ok () ∧
    (Heap.Session.handleRequest lib fresh nonce s (some req) w).2.world.sessions.get s =
      some { so with Type_ := SESSION_TYPE_PLAYER, URL := some u } := by
  simp [Heap.Session.handleRequest, Heap.Handler.start, Go.panicked, Heap.Session.handleBody, Heap.setHeader,
    Heap.session, hs, hauth, GoMap.get_set, Heap.Session.authFails, hm, Heap.Session.dispatch,
    Heap.setStatus, Heap.Session.handleDeferred, Heap.writeResponse, Heap.Session.startPlaying,
    Heap.Session.describe, Heap.setSession, hu, Heap.Server.GetPusher, Heap.Server.RLock, hlock, hsrv,
    Heap.server, hsv, hnone]

/-- PLAY on a player session without pusher: 500 is written, and then the
deferred function calls `s.Pusher.HasPlayer` on the nil pusher. -/
theorem Heap.play_unbound_escapes (lib : Lib) (fresh : Ptr) (nonce : String) (s : Ptr) (w : Heap.World)
    (so : Heap.Session) (hs : w.sessions.get s = some so) (hauth : so.authorization = false)
    (req : Request) (hm : req.Method = "PLAY") (ht : so.Type_ = SESSION_TYPE_PLAYER)
    (hp : so.Pusher = none) :
    (Heap.Session.handleRequest lib fresh nonce s (some req) w).1 = .panic .nilDereference ∧
    (Heap.Session.handleRequest lib fresh nonce s (some req) w).2.out.map Response.StatusCode =
      [StatusInternalServerError] := by
  simp [Heap.Session.handleRequest, Heap.Handler.start, Go.panicked, Heap.Session.handleBody, Heap.setHeader,
    Heap.session, hs, hauth, Heap.Session.authFails, hm, Heap.Session.dispatch,
    Heap.setStatus, Heap.Session.handleDeferred, Heap.writeResponse, Heap.Session.startPlaying,
    Heap.Session.play, hp, ht, Heap.Pusher.HasPlayer]

/-- C16: two requests after which `handleRequest` does not return normally. A
request that failed to parse (`Request.Read` returned nil), in any state: the
body panics at `req.Header`, the deferred function recovers and writes 500,
and then its own `switch req.Method` dereferences the nil request again, with
no `recover` left. And a PLAY that follows a DESCRIBE answered 404 (the lock of
the registry being free), on a session without pusher: the DESCRIBE has made
the session a player, the PLAY is answered 500, and then the deferred function
calls `HasPlayer` on the nil `s.Pusher`. In both cases one response with status
500 is written and the panic leaves `handleRequest`. While the lock of the
registry is held the DESCRIBE itself does not return and writes no response. -/
theorem handleRequest_panic_escapes (lib : Lib) (fresh : Ptr) (nonce : String) (s : Ptr) (w : Heap.World)
    (so : Heap.Session) (describe play : Request) (srv : Ptr) (sv : Heap.Server) (u : URL)
    (hs : w.sessions.get s = some so) (hauth : so.authorization = false) (hp : so.Pusher = none)
    (hd : describe.Method = "DESCRIBE") (hu : describe.URL = some u) (hm : play.Method = "PLAY")
    (hsrv : so.options.Server = some srv) (hsv : w.servers.get srv = some sv)
    (hnone : sv.pushers.get u.Path = none) :
    ((Heap.Session.handleRequest lib fresh nonce s none w).1 = .panic .nilDereference ∧
      (Heap.Session.handleRequest lib fresh nonce s none w).2.out.map Response.StatusCode =
        [StatusInternalServerError]) ∧
    (sv.pushersLock = false →
      (Heap.Session.handleRequest lib fresh nonce s (some describe) w).1 = .ok () ∧
      (Heap.Session.handleRequest lib fresh nonce s (some describe) w).2.out.map Response.StatusCode =
        [StatusNotFound] ∧
      (Heap.Session.handleRequest lib fresh nonce s (some play)
        (Heap.Session.handleRequest lib fresh nonce s (some describe) w).2.world).1
        = .panic .nilDereference ∧
      (Heap.Session.handleRequest lib fresh nonce s (some play)
        (Heap.Session.handleRequest lib fresh nonce s (some describe) w).2.world).2.out.map
        Response.StatusCode = [StatusInternalServerError]) ∧
    (sv.pushersLock = true →
      (Heap.Session.handleRequest lib fresh nonce s (some describe) w).1 = .panic .blocked ∧
      (Heap.Session.handleRequest lib fresh nonce s (some describe) w).2.out = []) := by
  refine ⟨⟨rfl, rfl⟩, fun hlock => ?_, fun hlock => ?_⟩
  · have h1 := Heap.describe_none_world lib fresh nonce s w so hs hauth describe srv sv u hd hu hsrv hsv
      hlock hnone
    have h2 := Heap.describe_none lib fresh nonce s w so hs hauth describe srv sv u hd hu hsrv hsv hlock
      hnone
    have h3 := Heap.play_unbound_escapes lib fresh nonce s
      (Heap.Session.handleRequest lib fresh nonce s (some describe) w).2.world
      { so with Type_ := SESSION_TYPE_PLAYER, URL := some u } h1.2 hauth play hm rfl hp
    exact ⟨h1.1, h2, h3⟩
  · exact Heap.describe_blocked lib fresh nonce s w so hs hauth describe srv sv u hd hu hsrv hsv hlock

/-- C16, witness: the session `new` of the sample relay, the nil request, and
DESCRIBE of `/none` followed by PLAY. -/
theorem handleRequest_panic_escapes_witness :
    (Heap.liveWorld.sessions.get "new" = some Heap.newSession ∧ Heap.newSession.Pusher = none) ∧
    ((Heap.Session.handleRequest sampleLib "p1" "x" "new" none Heap.liveWorld).1 = .panic .nilDereference ∧
      (Heap.Session.handleRequest sampleLib "p1" "x" "new" none Heap.liveWorld).2.out.map
        Response.StatusCode = [StatusInternalServerError]) ∧
    ((Heap.Session.handleRequest sampleLib "p1" "x" "new" (some (requestFor "DESCRIBE" "/none"))
        Heap.liveWorld).1 = .ok () ∧
      (Heap.Session.handleRequest sampleLib "p1" "x" "new" (some (requestFor "DESCRIBE" "/none"))
        Heap.liveWorld).2.out.map Response.StatusCode = [StatusNotFound] ∧
      (Heap.Session.handleRequest sampleLib "p1" "x" "new" (some (requestFor "PLAY" "/none"))
        (Heap.Session.handleRequest sampleLib "p1" "x" "new" (some (requestFor "DESCRIBE" "/none"))
          Heap.liveWorld).2.world).1 = .panic .nilDereference ∧
      (Heap.Session.handleRequest sampleLib "p1" "x" "new" (some (requestFor "PLAY" "/none"))
        (Heap.Session.handleRequest sampleLib "p1" "x" "new" (some (requestFor "DESCRIBE" "/none"))
          Heap.liveWorld).2.world).2.out.map Response.StatusCode = [StatusInternalServerError]) :=
  ⟨⟨rfl, rfl⟩,
   (handleRequest_panic_escapes sampleLib "p1" "x" "new" Heap.liveWorld Heap.newSession
    (requestFor "DESCRIBE" "/none") (requestFor "PLAY" "/none") "srv"
    { TCPPort := 554, Stopped := false, pushers := [("/live", "P")] } { Path := "/none" }
    rfl rfl rfl rfl rfl rfl rfl rfl rfl).1,
   (handleRequest_panic_escapes sampleLib "p1" "x" "new" Heap.liveWorld Heap.newSession
    (requestFor "DESCRIBE" "/none") (requestFor "PLAY" "/none") "srv"
    { TCPPort := 554, Stopped := false, pushers := [("/live", "P")] } { Path := "/none" }
    rfl rfl rfl rfl rfl rfl rfl rfl rfl).2.1 rfl⟩

/-! ### `handleRequest` : authorization -/

/-- What the guard of session.go:296-304 would do with a request that is not
OPTIONS if the field `authorization` of the session were set, which no code
does. Without an `Authorization` header nothing is checked: the guard lets the
request through with `res` untouched and the body of `handleRequest` is the
handler of the method. With a header from which `NewSender` cannot build a
sender, `CheckAuth` returns the error before it has set a status: the handler
is not run, but the answer is 200 and carries no `WWW-Authenticate`. Only a
sender whose `CheckAuth` reports a mismatch gives 401 with the Digest
challenge, the handler not being run. -/
theorem Heap.guard_when_set (lib : Lib) (fresh : Ptr) (nonce : String) (s : Ptr) (w : Heap.World)
    (so : Heap.Session) (req : Request)
    (hs : w.sessions.get s = some so) (hauth : so.authorization = true) (hm : req.Method ≠ "OPTIONS") :
    (req.Header.get "Authorization" = none →
      (∀ st : Heap.Handler, st.world.sessions.get s = some so →
        Heap.Session.authFails lib nonce s req st = (.ok false, st)) ∧
      Heap.Session.handleBody lib fresh nonce s (some req) (Heap.Handler.start w) =
        Heap.Session.dispatch lib fresh s req
          { world := w,
            res := { StatusCode := StatusOK, StatusMessage := "",
                     Header := [("CSeq", req.Header.values "CSeq"), ("Session", [so.ID])], Body := "" },
            out := [] }) ∧
    (∀ (v : HeaderValue) (u : URL) (e : String), req.Header.get "Authorization" = some v →
      req.URL = some u → (∀ user pass : String, NewSender lib v user pass = .error e) →
        (Heap.Session.handleRequest lib fresh nonce s (some req) w).2.out.map
          (fun r => (r.StatusCode, r.Header.get "WWW-Authenticate")) = [(StatusOK, none)] ∧
        (Heap.Session.handleBody lib fresh nonce s (some req) (Heap.Handler.start w)).2.world = w) ∧
    (∀ (v : HeaderValue) (u : URL) (ui : Userinfo) (sender : Sender) (e : String),
      req.Header.get "Authorization" = some v → req.URL = some u → u.User = some ui →
      NewSender lib v ui.username ui.password = .ok sender →
      sender.CheckAuth lib (some u) = .ok (.error e) →
        (Heap.Session.handleRequest lib fresh nonce s (some req) w).2.out.map
          (fun r => (r.StatusCode, r.Header.get "WWW-Authenticate"))
          = [(StatusUnauthorized, some [digestChallenge nonce])] ∧
        (Heap.Session.handleBody lib fresh nonce s (some req) (Heap.Handler.start w)).2.world = w) := by
  refine ⟨fun hnone => ⟨fun st hst => ?_, ?_⟩, fun v u e hv hu hns => ?_,
    fun v u ui sender e hv hu hui hns hck => ?_⟩
  · simp [Heap.Session.authFails, hm, Heap.session, hst, hauth, hnone]
  · simp [Heap.Session.handleBody, Heap.Handler.start, Heap.setHeader, Heap.session, hs,
      Heap.Session.authFails, hm, hauth, hnone, GoMap.set]
  · rw [Heap.handleRequest_out lib fresh nonce s req w so hs]
    simp [Heap.Handler.start, Go.panicked, Heap.Session.handleBody,
      Heap.setHeader, Heap.session, hs, Heap.Session.authFails, hm, hauth, hv, Heap.Session.CheckAuth, hu,
      hns, GoMap.get_set, Header.values, Response.withContentLength, GoMap.get]
  · rw [Heap.handleRequest_out lib fresh nonce s req w so hs]
    simp [Heap.Handler.start, Go.panicked, Heap.Session.handleBody,
      Heap.setHeader, Heap.session, hs, Heap.Session.authFails, hm, hauth, hv, Heap.Session.CheckAuth, hu,
      hui, hns, hck, Heap.setStatus, GoMap.get_set, Header.values, Response.withContentLength]

/-- C17: no session is marked authorization-required. `NewSession` stores the
options but never copies `Authorization` into `s.authorization`, so for every
options value (also with `Authorization = true`) the session it builds has the
field unset. For such a session and every request that is not OPTIONS, with or
without an `Authorization` header and whatever the header holds, the guard
checks nothing and touches neither `res` nor the world, and the body of
`handleRequest` is the handler of the method. So a DESCRIBE for a registered
stream, the lock of the registry being free, is answered 200 with the SDP and
without `WWW-Authenticate`. -/
theorem authorization_option_dropped (lib : Lib) (w : Heap.World) (options : SessionOptions) (id : String)
    (sp fresh : Ptr) (nonce : String) (req : Request) (hm : req.Method ≠ "OPTIONS") :
    (Heap.NewSession.value options id).authorization = false ∧
    (∀ st : Heap.Handler, st.world.sessions.get sp = some (Heap.NewSession.value options id) →
      Heap.Session.authFails lib nonce sp req st = (.ok false, st)) ∧
    Heap.Session.handleBody lib fresh nonce sp (some req)
        (Heap.Handler.start (Heap.NewSession sp options id w).2) =
      Heap.Session.dispatch lib fresh sp req
        { world := (Heap.NewSession sp options id w).2,
          res := { StatusCode := StatusOK, StatusMessage := "",
                   Header := [("CSeq", req.Header.values "CSeq"), ("Session", [id])], Body := "" },
          out := [] } ∧
    (∀ (srv p : Ptr) (sv : Heap.Server) (u : URL) (sdp : String),
      req.Method = "DESCRIBE" → req.URL = some u → options.Server = some srv →
      w.servers.get srv = some sv → sv.pushersLock = false → sv.pushers.get u.Path = some p →
      (Heap.Pusher.SDPRaw (some p) (Heap.NewSession sp options id w).2).1 = .ok sdp →
      (Heap.Session.handleRequest lib fresh nonce sp (some req) (Heap.NewSession sp options id w).2).2.out.map
        (fun r => (r.StatusCode, r.Body, r.Header.get "WWW-Authenticate")) = [(StatusOK, sdp, none)]) := by
  have hw : (Heap.NewSession sp options id w).2 =
      { w with sessions := w.sessions.set sp (Heap.NewSession.value options id) } := rfl
  have hs : (Heap.NewSession sp options id w).2.sessions.get sp = some (Heap.NewSession.value options id) := by
    rw [hw]
    simp [GoMap.get_set]
  have hauth : (Heap.NewSession.value options id).authorization = false := rfl
  refine ⟨rfl, fun st hst => ?_, ?_, fun srv p sv u sdp hd hu hsrv hsv hlock hreg hsdp => ?_⟩
  · simp [Heap.Session.authFails, hm, Heap.session, hst, hauth]
  · simp [Heap.Session.handleBody, Heap.Handler.start, Heap.setHeader, Heap.session, hs,
      Heap.Session.authFails, hm, hauth, GoMap.set, Heap.NewSession.value]
  · exact Heap.describe_found lib fresh nonce sp _ _ hs rfl req srv sv u hd hu hsrv hsv hlock p sdp hreg hsdp

/-- C17, witness: on the sample relay a session made by `NewSession` with
`Authorization = true` sends DESCRIBE for `/live`, once without an
`Authorization` header and once with the header `Bearer x`: both are answered
200 with the SDP and no challenge. -/
theorem authorization_option_dropped_witness :
    Heap.authOptions.Authorization = true ∧
    (Heap.NewSession.value Heap.authOptions "g2").authorization = false ∧
    (Heap.Session.handleRequest sampleLib "pg" "x" "g2" (some (requestFor "DESCRIBE" "/live"))
      (Heap.NewSession "g2" Heap.authOptions "g2" Heap.liveWorld).2).2.out.map
      (fun r => (r.StatusCode, r.Body, r.Header.get "WWW-Authenticate")) = [(StatusOK, "v=0", none)] ∧
    (Heap.Session.handleRequest sampleLib "pg" "x" "g2" (some (bearerRequest "DESCRIBE" "/live"))
      (Heap.NewSession "g2" Heap.authOptions "g2" Heap.liveWorld).2).2.out.map
      (fun r => (r.StatusCode, r.Body, r.Header.get "WWW-Authenticate")) = [(StatusOK, "v=0", none)] :=
  ⟨rfl, rfl,
   (authorization_option_dropped sampleLib Heap.liveWorld Heap.authOptions
      "g2" "g2" "pg" "x" (requestFor "DESCRIBE" "/live") (by decide)).2.2.2 "srv" "P"
      { TCPPort := 554, Stopped := false, pushers := [("/live", "P")] } { Path := "/live" } "v=0"
      rfl rfl rfl rfl rfl rfl rfl,
   (authorization_option_dropped sampleLib Heap.liveWorld Heap.authOptions
      "g2" "g2" "pg" "x" (bearerRequest "DESCRIBE" "/live") (by decide)).2.2.2 "srv" "P"
      { TCPPort := 554, Stopped := false, pushers := [("/live", "P")] } { Path := "/live" } "v=0"
      rfl rfl rfl rfl rfl rfl rfl⟩

/-! ## session.go : the read loop of `Session.Start` -/

theorem Uint16_pair (hi lo : Byte) : BigEndian.Uint16 ⟨[hi, lo], []⟩ = .ok (256 * hi.val + lo.val) := by
  have h : lo.val ||| (hi.val <<< 8) = 256 * hi.val + lo.val := by
    have h2 := Nat.mul_add_lt_is_or (show lo.val < 2 ^ 8 from lo.isLt) hi.val
    rw [Nat.lor_comm, Nat.shiftLeft_eq, Nat.mul_comm, ← h2]
  simp only [BigEndian.Uint16, Slice.index]
  simp [h, bind, Go.bind, pure]

theorem io.ReadFull_append (xs rest : List Byte) : io.ReadFull (xs ++ rest) xs.length = some (xs, rest) := by
  simp [io.ReadFull]

theorem Heap.Session.channelsDistinct_iff (so : Heap.Session) :
    so.channelsDistinct ↔
      (so.aRtpPort = so.aRtcpPort → so.aRtpPort = -1) ∧ (so.aRtpPort = so.vRtpPort → so.aRtpPort = -1) ∧
      (so.aRtpPort = so.vRtcpPort → so.aRtpPort = -1) ∧ (so.aRtcpPort = so.vRtpPort → so.aRtcpPort = -1) ∧
      (so.aRtcpPort = so.vRtcpPort → so.aRtcpPort = -1) ∧ (so.vRtpPort = so.vRtcpPort → so.vRtpPort = -1) := by
  unfold Heap.Session.channelsDistinct Heap.Session.boundChannels
  by_cases h1 : so.aRtpPort = -1 <;> by_cases h2 : so.aRtcpPort = -1 <;>
    by_cases h3 : so.vRtpPort = -1 <;> by_cases h4 : so.vRtcpPort = -1 <;>
    simp [List.filter, h1, h2, h3, h4] <;> omega

/-- C29: one turn of the read loop of `Session.Start` on an interleaved frame.
For a session whose bound channels are pairwise distinct and the bytes `0x24`,
`channel`, `len_hi`, `len_lo`, then `256 * len_hi + len_lo` bytes of payload,
then whatever follows: the turn hands every RTP handler one pack that holds
exactly the payload, of type AUDIO, AUDIO-CONTROL, VIDEO or VIDEO-CONTROL
according to which of `aRtpPort`, `aRtcpPort`, `vRtpPort`, `vRtcpPort` is the
channel, and goes on with the bytes after the payload, so that it has consumed
`4 + len` bytes; a channel equal to none of the four calls no handler and
consumes the same bytes. -/
theorem startStep_interleaved {σ : Type} (so : Heap.Session) (handles : List (RTPPack → Act σ Unit))
    (channel hi lo : Byte) (payload rest : List Byte)
    (hlen : payload.length = 256 * hi.val + lo.val) (hd : so.channelsDistinct) :
    ((0x24 : Byte) :: channel :: hi :: lo :: (payload ++ rest)).drop (4 + payload.length) = rest ∧
    ((channel.val : Int) = so.aRtpPort →
      so.startStep handles ((0x24 : Byte) :: channel :: hi :: lo :: (payload ++ rest)) =
        delivers handles { Type_ := RTP_TYPE_AUDIO, Buffer := payload } rest) ∧
    ((channel.val : Int) = so.aRtcpPort →
      so.startStep handles ((0x24 : Byte) :: channel :: hi :: lo :: (payload ++ rest)) =
        delivers handles { Type_ := RTP_TYPE_AUDIOCONTROL, Buffer := payload } rest) ∧
    ((channel.val : Int) = so.vRtpPort →
      so.startStep handles ((0x24 : Byte) :: channel :: hi :: lo :: (payload ++ rest)) =
        delivers handles { Type_ := RTP_TYPE_VIDEO, Buffer := payload } rest) ∧
    ((channel.val : Int) = so.vRtcpPort →
      so.startStep handles ((0x24 : Byte) :: channel :: hi :: lo :: (payload ++ rest)) =
        delivers handles { Type_ := RTP_TYPE_VIDEOCONTROL, Buffer := payload } rest) ∧
    ((channel.val : Int) ≠ so.aRtpPort → (channel.val : Int) ≠ so.aRtcpPort →
      (channel.val : Int) ≠ so.vRtpPort → (channel.val : Int) ≠ so.vRtcpPort →
      so.startStep handles ((0x24 : Byte) :: channel :: hi :: lo :: (payload ++ rest)) =
        pure (.next rest)) := by
  have hc : (channel.val : Int) ≠ -1 := by omega
  have hstep : so.startStep handles ((0x24 : Byte) :: channel :: hi :: lo :: (payload ++ rest)) =
      (if (channel.val : Int) = so.aRtpPort then
        delivers handles { Type_ := RTP_TYPE_AUDIO, Buffer := payload } rest
      else if (channel.val : Int) = so.aRtcpPort then
        delivers handles { Type_ := RTP_TYPE_AUDIOCONTROL, Buffer := payload } rest
      else if (channel.val : Int) = so.vRtpPort then
        delivers handles { Type_ := RTP_TYPE_VIDEO, Buffer := payload } rest
      else if (channel.val : Int) = so.vRtcpPort then
        delivers handles { Type_ := RTP_TYPE_VIDEOCONTROL, Buffer := payload } rest
      else pure (.next rest)) := by
    have h4 : io.ReadFull (payload ++ rest) (256 * hi.val + lo.val) = some (payload, rest) := by
      rw [← hlen]; exact io.ReadFull_append payload rest
    have h1 : ∀ (a : Byte) (l : List Byte), io.ReadFull (a :: l) 1 = some ([a], l) := fun a l =>
      io.ReadFull_append [a] l
    have h2 : ∀ (a b : Byte) (l : List Byte), io.ReadFull (a :: b :: l) 2 = some ([a, b], l) := fun a b l =>
      io.ReadFull_append [a, b] l
    have h24 : ((0x24 : Byte).val = 0x24) := by decide
    funext st
    simp only [Heap.Session.startStep, h1, h2, h4, Uint16_pair, delivers]
    simp [Slice.index, h24]
    rw [h4]
  obtain ⟨d1, d2, d3, d4, d5, d6⟩ := (Heap.Session.channelsDistinct_iff so).1 hd
  refine ⟨?_, fun h => ?_, fun h => ?_, fun h => ?_, fun h => ?_, fun ha hb hc hd => ?_⟩
  · rw [Nat.add_comm]
    simp [List.drop_succ_cons]
  · rw [hstep, if_pos h]
  · have h0 : (channel.val : Int) ≠ so.aRtpPort := by omega
    rw [hstep, if_neg h0, if_pos h]
  · have h0 : (channel.val : Int) ≠ so.aRtpPort := by omega
    have h1 : (channel.val : Int) ≠ so.aRtcpPort := by omega
    rw [hstep, if_neg h0, if_neg h1, if_pos h]
  · have h0 : (channel.val : Int) ≠ so.aRtpPort := by omega
    have h1 : (channel.val : Int) ≠ so.aRtcpPort := by omega
    have h2 : (channel.val : Int) ≠ so.vRtpPort := by omega
    rw [hstep, if_neg h0, if_neg h1, if_neg h2, if_pos h]
  · rw [hstep, if_neg ha, if_neg hb, if_neg hc, if_neg hd]

/-- C29, witness: the session of the example, with audio on channels 2 and 3
and video on 0 and 1, and a handler that records its packs. The bytes
`24 00 00 05 41 42 43 44 45` give the VIDEO pack `41 42 43 44 45`, and the
bytes `24 02 00 03 58 59 5A` that follow give the AUDIO pack `58 59 5A`. -/
theorem startStep_interleaved_witness :
    Heap.interleavedSession.channelsDistinct ∧
    (Heap.interleavedSession.startStep [recordPack]
        [0x24, 0x00, 0x00, 0x05, 0x41, 0x42, 0x43, 0x44, 0x45, 0x24, 0x02, 0x00, 0x03, 0x58, 0x59, 0x5A] [] =
      (.ok (.next [0x24, 0x02, 0x00, 0x03, 0x58, 0x59, 0x5A]),
        [{ Type_ := RTP_TYPE_VIDEO, Buffer := [0x41, 0x42, 0x43, 0x44, 0x45] }])) ∧
    (Heap.interleavedSession.startStep [recordPack] [0x24, 0x02, 0x00, 0x03, 0x58, 0x59, 0x5A] [] =
      (.ok (.next []), [{ Type_ := RTP_TYPE_AUDIO, Buffer := [0x58, 0x59, 0x5A] }])) :=
  ⟨by decide,
   by
    have h := (startStep_interleaved Heap.interleavedSession [recordPack] 0x00 0x00 0x05
      [0x41, 0x42, 0x43, 0x44, 0x45] [0x24, 0x02, 0x00, 0x03, 0x58, 0x59, 0x5A] rfl (by decide)).2.2.2.1 rfl
    exact congrFun h [],
   by
    have h := (startStep_interleaved Heap.interleavedSession [recordPack] 0x02 0x00 0x03
      [0x58, 0x59, 0x5A] [] rfl (by decide)).2.1 rfl
    exact congrFun h []⟩

/-! ### `handleRequest` : SETUP -/

/-- SETUP for the audio track: the two channels are whatever the `Transport`
header names. -/
theorem Heap.setup_audio (lib : Lib) (fresh : Ptr) (nonce : String) (s : Ptr) (w : Heap.World)
    (so : Heap.Session) (req : Request) (u : URL) (p : Ptr) (ts0 : String) (ts : List String)
    (vPath : String) (m0 m1 m2 m3 : String)
    (hs : w.sessions.get s = some so) (hauth : so.authorization = false)
    (hm : req.Method = "SETUP") (hu : req.URL = some u) (ht : req.Header.get "Transport" = some (ts0 :: ts))
    (hp : so.Pusher = some p)
    (hv : controlPath lib so.VControl = some vPath)
    (ha : controlPath lib so.AControl = some (urlWithPort lib u))
    (hmatch : lib.FindStringSubmatch ts0 = some [m0, m1, m2, m3]) :
    (Heap.Session.handleRequest lib fresh nonce s (some req) w).1 = .ok () ∧
    (Heap.Session.handleRequest lib fresh nonce s (some req) w).2.out.map Response.StatusCode = [StatusOK] ∧
    (Heap.Session.handleRequest lib fresh nonce s (some req) w).2.world.sessions.get s =
      some { so with TransType := TransTypeTcp, aRtpPort := lib.Atoi m1, aRtcpPort := lib.Atoi m3 } := by
  simp [Heap.Session.handleRequest, Heap.Handler.start, Go.panicked, Heap.Session.handleBody, Heap.setHeader,
    Heap.session, hs, hauth, GoMap.get_set, Heap.Session.authFails, hm, Heap.Session.dispatch,
    Heap.setStatus, Heap.Session.handleDeferred, Heap.writeResponse, Heap.Session.startPlaying,
    Heap.Session.setup, Heap.setSession, hu, ht, hp, hv, ha, hmatch, isTrack, matchAt]

/-- SETUP for the video track, the request not being one for the audio track. -/
theorem Heap.setup_video (lib : Lib) (fresh : Ptr) (nonce : String) (s : Ptr) (w : Heap.World)
    (so : Heap.Session) (req : Request) (u : URL) (p : Ptr) (ts0 : String) (ts : List String)
    (aPath : String) (m0 m1 m2 m3 : String)
    (hs : w.sessions.get s = some so) (hauth : so.authorization = false)
    (hm : req.Method = "SETUP") (hu : req.URL = some u) (ht : req.Header.get "Transport" = some (ts0 :: ts))
    (hp : so.Pusher = some p)
    (hv : controlPath lib so.VControl = some (urlWithPort lib u))
    (ha : controlPath lib so.AControl = some aPath) (hna : isTrack (urlWithPort lib u) aPath = false)
    (hmatch : lib.FindStringSubmatch ts0 = some [m0, m1, m2, m3]) :
    (Heap.Session.handleRequest lib fresh nonce s (some req) w).1 = .ok () ∧
    (Heap.Session.handleRequest lib fresh nonce s (some req) w).2.out.map Response.StatusCode = [StatusOK] ∧
    (Heap.Session.handleRequest lib fresh nonce s (some req) w).2.world.sessions.get s =
      some { so with TransType := TransTypeTcp, vRtpPort := lib.Atoi m1, vRtcpPort := lib.Atoi m3 } := by
  have hv2 : isTrack (urlWithPort lib u) (urlWithPort lib u) = true := by simp [isTrack]
  simp [Heap.Session.handleRequest, Heap.Handler.start, Go.panicked, Heap.Session.handleBody, Heap.setHeader,
    Heap.session, hs, hauth, GoMap.get_set, Heap.Session.authFails, hm, Heap.Session.dispatch,
    Heap.setStatus, Heap.Session.handleDeferred, Heap.writeResponse, Heap.Session.startPlaying,
    Heap.Session.setup, Heap.setSession, hu, ht, hp, hv, ha, hmatch, hna, hv2, matchAt]

/-- C30, the claim fails: session `old` of the sample relay with its two
tracks. The header `interleaved=0-1` on the audio track and then on the video
track is answered 200 both times and binds 0 and 1 twice; the header
`interleaved=5-5` on the audio track binds 5 twice. -/
theorem setup_channels_counterexample :
    ((Heap.Session.handleRequest setupLib "p1" "x" "old"
        (some (setupRequest "/live/audio" "RTP/AVP/TCP;unicast;interleaved=0-1")) Heap.trackWorld).2.out.map
        Response.StatusCode = [StatusOK] ∧
     (Heap.Session.handleRequest setupLib "p1" "x" "old"
        (some (setupRequest "/live/video" "RTP/AVP/TCP;unicast;interleaved=0-1"))
        (Heap.Session.handleRequest setupLib "p1" "x" "old"
          (some (setupRequest "/live/audio" "RTP/AVP/TCP;unicast;interleaved=0-1"))
          Heap.trackWorld).2.world).2.out.map Response.StatusCode = [StatusOK] ∧
      ∃ so2, (Heap.Session.handleRequest setupLib "p1" "x" "old"
          (some (setupRequest "/live/video" "RTP/AVP/TCP;unicast;interleaved=0-1"))
          (Heap.Session.handleRequest setupLib "p1" "x" "old"
            (some (setupRequest "/live/audio" "RTP/AVP/TCP;unicast;interleaved=0-1"))
            Heap.trackWorld).2.world).2.world.sessions.get "old" = some so2 ∧
        so2.boundChannels = [0, 1, 0, 1] ∧ ¬ so2.channelsDistinct) ∧
    ((Heap.Session.handleRequest setupLib "p1" "x" "old"
        (some (setupRequest "/live/audio" "RTP/AVP/TCP;unicast;interleaved=5-5")) Heap.trackWorld).2.out.map
        Response.StatusCode = [StatusOK] ∧
      ∃ so1, (Heap.Session.handleRequest setupLib "p1" "x" "old"
          (some (setupRequest "/live/audio" "RTP/AVP/TCP;unicast;interleaved=5-5"))
          Heap.trackWorld).2.world.sessions.get "old" = some so1 ∧
        so1.boundChannels = [5, 5] ∧ ¬ so1.channelsDistinct) :=
  ⟨⟨rfl, rfl, _, rfl, rfl, by decide⟩, rfl, _, rfl, rfl, by decide⟩

/-- C30, amended: SETUP binds the channels that the `Transport` header names
and compares them with nothing. A SETUP for the audio track is answered 200
and assigns the two numbers of its header to `aRtpPort` and `aRtcpPort`,
leaving the video ports as they were; a SETUP for the video track then assigns
the two numbers of its header to `vRtpPort` and `vRtcpPort`, leaving the audio
ports. After the two requests the bound channels are the numbers that the two
headers name, those that are not -1: they are pairwise distinct exactly when
the client chose them so. -/
theorem setup_binds_requested (lib : Lib) (fresh : Ptr) (nonce : String) (s : Ptr) (w : Heap.World)
    (so : Heap.Session) (audio video : Request) (ua uv : URL) (p : Ptr)
    (tsa : String) (tsas : List String) (tsv : String) (tsvs : List String)
    (a0 a1 a2 a3 v0 v1 v2 v3 : String)
    (hs : w.sessions.get s = some so) (hauth : so.authorization = false) (hp : so.Pusher = some p)
    (hma : audio.Method = "SETUP") (hua : audio.URL = some ua)
    (hta : audio.Header.get "Transport" = some (tsa :: tsas))
    (hmv : video.Method = "SETUP") (huv : video.URL = some uv)
    (htv : video.Header.get "Transport" = some (tsv :: tsvs))
    (ha : controlPath lib so.AControl = some (urlWithPort lib ua))
    (hv : controlPath lib so.VControl = some (urlWithPort lib uv))
    (hna : isTrack (urlWithPort lib uv) (urlWithPort lib ua) = false)
    (hmatcha : lib.FindStringSubmatch tsa = some [a0, a1, a2, a3])
    (hmatchv : lib.FindStringSubmatch tsv = some [v0, v1, v2, v3]) :
    ((Heap.Session.handleRequest lib fresh nonce s (some audio) w).2.out.map Response.StatusCode
        = [StatusOK] ∧
      (Heap.Session.handleRequest lib fresh nonce s (some audio) w).2.world.sessions.get s =
        some { so with TransType := TransTypeTcp, aRtpPort := lib.Atoi a1, aRtcpPort := lib.Atoi a3 }) ∧
    ((Heap.Session.handleRequest lib fresh nonce s (some video)
        (Heap.Session.handleRequest lib fresh nonce s (some audio) w).2.world).2.out.map Response.StatusCode
        = [StatusOK] ∧
      (Heap.Session.handleRequest lib fresh nonce s (some video)
          (Heap.Session.handleRequest lib fresh nonce s (some audio) w).2.world).2.world.sessions.get s =
        some { so with
          TransType := TransTypeTcp, aRtpPort := lib.Atoi a1, aRtcpPort := lib.Atoi a3,
          vRtpPort := lib.Atoi v1, vRtcpPort := lib.Atoi v3 }) ∧
    ∃ so2, (Heap.Session.handleRequest lib fresh nonce s (some video)
        (Heap.Session.handleRequest lib fresh nonce s (some audio) w).2.world).2.world.sessions.get s
        = some so2 ∧
      so2.boundChannels =
        [lib.Atoi a1, lib.Atoi a3, lib.Atoi v1, lib.Atoi v3].filter (fun c => c ≠ -1) ∧
      (so2.channelsDistinct ↔
        ([lib.Atoi a1, lib.Atoi a3, lib.Atoi v1, lib.Atoi v3].filter (fun c => c ≠ -1)).Nodup) := by
  have h1 := Heap.setup_audio lib fresh nonce s w so audio ua p tsa tsas (urlWithPort lib uv) a0 a1 a2 a3
    hs hauth hma hua hta hp hv ha hmatcha
  have h2 := Heap.setup_video lib fresh nonce s
    (Heap.Session.handleRequest lib fresh nonce s (some audio) w).2.world
    { so with TransType := TransTypeTcp, aRtpPort := lib.Atoi a1, aRtcpPort := lib.Atoi a3 }
    video uv p tsv tsvs (urlWithPort lib ua) v0 v1 v2 v3 h1.2.2 hauth hmv huv htv hp hv ha hna hmatchv
  exact ⟨⟨h1.2.1, h1.2.2⟩, ⟨h2.2.1, h2.2.2⟩, _, h2.2.2, rfl, Iff.rfl⟩

/-- C30, witness: session `old` of the sample relay with its two tracks, the
header `interleaved=0-1` on the audio track and `interleaved=2-3` on the video
track: the bound channels are 0, 1, 2, 3, pairwise distinct. -/
theorem setup_binds_requested_witness :
    (Heap.Session.handleRequest setupLib "p1" "x" "old"
        (some (setupRequest "/live/audio" "RTP/AVP/TCP;unicast;interleaved=0-1")) Heap.trackWorld).2.out.map
        Response.StatusCode = [StatusOK] ∧
    (Heap.Session.handleRequest setupLib "p1" "x" "old"
        (some (setupRequest "/live/video" "RTP/AVP/TCP;unicast;interleaved=2-3"))
        (Heap.Session.handleRequest setupLib "p1" "x" "old"
          (some (setupRequest "/live/audio" "RTP/AVP/TCP;unicast;interleaved=0-1"))
          Heap.trackWorld).2.world).2.out.map Response.StatusCode = [StatusOK] ∧
    ∃ so2, (Heap.Session.handleRequest setupLib "p1" "x" "old"
        (some (setupRequest "/live/video" "RTP/AVP/TCP;unicast;interleaved=2-3"))
        (Heap.Session.handleRequest setupLib "p1" "x" "old"
          (some (setupRequest "/live/audio" "RTP/AVP/TCP;unicast;interleaved=0-1"))
          Heap.trackWorld).2.world).2.world.sessions.get "old" = some so2 ∧
      so2.boundChannels = [0, 1, 2, 3] ∧ so2.channelsDistinct := by
  have h := setup_binds_requested setupLib "p1" "x" "old" Heap.trackWorld Heap.trackSession
      (setupRequest "/live/audio" "RTP/AVP/TCP;unicast;interleaved=0-1")
      (setupRequest "/live/video" "RTP/AVP/TCP;unicast;interleaved=2-3")
      { Path := "/live/audio" } { Path := "/live/video" } "P"
      "RTP/AVP/TCP;unicast;interleaved=0-1" [] "RTP/AVP/TCP;unicast;interleaved=2-3" []
      "interleaved=0-1" "0" "-1" "1" "interleaved=2-3" "2" "-3" "3"
      rfl rfl rfl rfl rfl rfl rfl rfl rfl rfl rfl (by decide) rfl rfl
  obtain ⟨h1, h2, so2, h3, h4, h5⟩ := h
  exact ⟨h1.1, h2.1, so2, h3, h4, h5.2 (by decide)⟩

/-! ## base : the order of strings and `sort.Strings` -/

theorem Char.eq_of_toNat_eq (x y : Char) (h : x.toNat = y.toNat) : x = y := by
  apply Char.ext
  apply UInt32.ext
  exact h

theorem strings.le_total (a b : List Char) : strings.le a b = true ∨ strings.le b a = true := by
  induction a generalizing b with
  | nil => simp [strings.le]
  | cons x xs ih =>
    cases b with
    | nil => simp [strings.le]
    | cons y ys =>
      simp only [strings.le, Bool.or_eq_true, Bool.and_eq_true, decide_eq_true_eq]
      rcases Nat.lt_trichotomy x.toNat y.toNat with h | h | h
      · exact Or.inl (Or.inl h)
      · have e := Char.eq_of_toNat_eq x y h
        subst e
        rcases ih ys with h2 | h2
        · exact Or.inl (Or.inr ⟨rfl, h2⟩)
        · exact Or.inr (Or.inr ⟨rfl, h2⟩)
      · exact Or.inr (Or.inl h)

theorem strings.le_trans (a b c : List Char) (h1 : strings.le a b = true) (h2 : strings.le b c = true) :
    strings.le a c = true := by
  induction a generalizing b c with
  | nil => simp [strings.le]
  | cons x xs ih =>
    cases b with
    | nil => simp [strings.le] at h1
    | cons y ys =>
      cases c with
      | nil => simp [strings.le] at h2
      | cons z zs =>
        simp only [strings.le, Bool.or_eq_true, Bool.and_eq_true, decide_eq_true_eq] at h1 h2 ⊢
        rcases h1 with h1 | ⟨h1, h1'⟩
        · rcases h2 with h2 | ⟨h2, _⟩
          · exact Or.inl (by omega)
          · subst h2
            exact Or.inl h1
        · subst h1
          rcases h2 with h2 | ⟨h2, h2'⟩
          · exact Or.inl h2
          · exact Or.inr ⟨h2, ih ys zs h1' h2'⟩

theorem strings.le_antisymm (a b : List Char) (h1 : strings.le a b = true) (h2 : strings.le b a = true) :
    a = b := by
  induction a generalizing b with
  | nil =>
    cases b with
    | nil => rfl
    | cons y ys => simp [strings.le] at h2
  | cons x xs ih =>
    cases b with
    | nil => simp [strings.le] at h1
    | cons y ys =>
      simp only [strings.le, Bool.or_eq_true, Bool.and_eq_true, decide_eq_true_eq] at h1 h2
      rcases h1 with h1 | ⟨h1, h1'⟩
      · rcases h2 with h2 | ⟨h2, _⟩
        · omega
        · subst h2
          omega
      · subst h1
        rcases h2 with h2 | ⟨_, h2'⟩
        · omega
        · rw [ih ys h1' h2']

instance : IsTotal String strings.Le := ⟨fun a b => strings.le_total a.toList b.toList⟩

instance : IsTrans String strings.Le := ⟨fun a b c => strings.le_trans a.toList b.toList c.toList⟩

instance : IsAntisymm String strings.Le :=
  ⟨fun a b h1 h2 => String.ext (strings.le_antisymm a.toList b.toList h1 h2)⟩

theorem sort.Strings_perm (keys : List String) : (sort.Strings keys).Perm keys :=
  List.perm_insertionSort strings.Le keys

theorem sort.Strings_sorted (keys : List String) : (sort.Strings keys).Sorted strings.Le :=
  List.sorted_insertionSort strings.Le keys

/-- Two sorted lists with the same elements, each as often, are equal. -/
theorem sort.Strings_unique (l1 l2 : List String) (hp : l1.Perm l2) (h1 : l1.Sorted strings.Le)
    (h2 : l2.Sorted strings.Le) : l1 = l2 :=
  List.eq_of_perm_of_sorted hp h1 h2

theorem sort.Strings_of_perm (l1 l2 : List String) (hp : l1.Perm l2) : sort.Strings l1 = sort.Strings l2 :=
  sort.Strings_unique _ _ (((sort.Strings_perm l1).trans hp).trans (sort.Strings_perm l2).symm)
    (sort.Strings_sorted l1) (sort.Strings_sorted l2)

theorem sort.Strings_filter (l : List String) (p : String → Bool) :
    (sort.Strings l).filter p = sort.Strings (l.filter p) :=
  sort.Strings_unique _ _ (((sort.Strings_perm l).filter p).trans (sort.Strings_perm (l.filter p)).symm)
    ((sort.Strings_sorted l).filter p) (sort.Strings_sorted _)

/-! ## base : `Header.write` -/

theorem GoMap.get_perm {V : Type} (m1 m2 : GoMap V) (hp : m1.Perm m2) (hnd : (m1.map Prod.fst).Nodup)
    (k : String) : m1.get k = m2.get k := by
  induction hp with
  | nil => rfl
  | cons x _ ih =>
    obtain ⟨a, v⟩ := x
    simp only [List.map_cons, List.nodup_cons] at hnd
    simp [GoMap.get, ih hnd.2]
  | swap x y l =>
    obtain ⟨a, v⟩ := x
    obtain ⟨b, w⟩ := y
    simp only [List.map_cons, List.nodup_cons, List.mem_cons] at hnd
    simp only [GoMap.get]
    by_cases h1 : a = k <;> by_cases h2 : b = k <;> simp [h1, h2]
    exact absurd (h2.trans h1.symm) (fun e => hnd.1 (Or.inl e))
  | trans h12 _ ih1 ih2 =>
    rw [ih1 hnd, ih2 ((h12.map Prod.fst).nodup_iff.1 hnd)]

theorem flatMap_skip {α β : Type} (l : List α) (f : α → List β) (p : α → Bool)
    (h : ∀ a ∈ l, p a = false → f a = []) : l.flatMap f = (l.filter p).flatMap f := by
  induction l with
  | nil => rfl
  | cons a l ih =>
    have ih' := ih (fun b hb => h b (List.mem_cons_of_mem _ hb))
    by_cases hp : p a = true
    · simp [List.filter_cons, hp, List.flatMap_cons, ih']
    · have hp' : p a = false := by simpa using hp
      simp [List.filter_cons, hp', List.flatMap_cons, ih', h a (List.mem_cons_self _ _) hp']

/-- The empty strings that `make([]string, len(h))` puts in front of the names
emit nothing when the map holds no value under the empty name. -/
theorem Header.lines_eq (h : Header) (hne : h.values "" = []) :
    h.lines = (sort.Strings (h.map Prod.fst)).flatMap fun key => (h.values key).map fun val => (key, val) := by
  unfold Header.lines Header.sortedKeys
  have hskip : ∀ (l : List String) (a : String), a ∈ l → (fun k : String => decide (k ≠ "")) a = false →
      (fun key => (h.values key).map fun val => (key, val)) a = [] := by
    intro l a _ ha
    have : a = "" := by simpa using ha
    simp [this, hne]
  rw [flatMap_skip _ _ (fun k => decide (k ≠ "")) (hskip _),
    flatMap_skip (sort.Strings (h.map Prod.fst)) _ (fun k => decide (k ≠ "")) (hskip _),
    sort.Strings_filter, sort.Strings_filter]
  congr 2
  rw [List.filter_append]
  have : (List.replicate h.size "").filter (fun k => decide (k ≠ "")) = [] := by
    rw [List.filter_eq_nil_iff]
    intro a ha
    simp [List.eq_of_mem_replicate ha]
  rw [this, List.nil_append]

theorem Header.write_perm (h h' : Header) (hp : h'.Perm h) (hnd : (h.map Prod.fst).Nodup) :
    Header.write h' = Header.write h := by
  have hnd' : (h'.map Prod.fst).Nodup := (hp.map Prod.fst).nodup_iff.2 hnd
  have hv : ∀ k, h'.values k = h.values k := fun k => by
    unfold Header.values
    rw [GoMap.get_perm h' h hp hnd' k]
  have hk : h'.sortedKeys = h.sortedKeys := by
    unfold Header.sortedKeys
    apply sort.Strings_of_perm
    have : h'.size = h.size := hp.length_eq
    rw [this]
    exact (hp.map Prod.fst).append_left _
  unfold Header.write Header.lines
  rw [hk]
  simp only [hv]

theorem GoMap.keys_set {V : Type} (m : GoMap V) (k : String) (v : V) :
    (m.set k v).map Prod.fst = if k ∈ m.map Prod.fst then m.map Prod.fst else m.map Prod.fst ++ [k] := by
  induction m with
  | nil => simp [GoMap.set]
  | cons e rest ih =>
    obtain ⟨a, w⟩ := e
    by_cases h : a = k
    · simp [GoMap.set, h]
    · have h' : ¬ k = a := fun e => h e.symm
      simp only [GoMap.set, h, if_false, List.map_cons, ih, List.mem_cons, h', false_or]
      split <;> simp

theorem GoMap.nodup_set {V : Type} (m : GoMap V) (k : String) (v : V) (hnd : (m.map Prod.fst).Nodup) :
    ((m.set k v).map Prod.fst).Nodup := by
  rw [GoMap.keys_set]
  split
  · exact hnd
  · rename_i h
    exact List.Nodup.append hnd (List.nodup_singleton k) (by simpa using h)

theorem GoMap.mem_set {V : Type} (m : GoMap V) (k : String) (v : V) : k ∈ (m.set k v).map Prod.fst := by
  rw [GoMap.keys_set]
  split
  · assumption
  · simp

theorem flatMap_absent {β : Type} (l : List String) (k : String) (g : String → List β) (h : k ∉ l) :
    l.flatMap (fun a => if a = k then g a else []) = [] := by
  induction l with
  | nil => rfl
  | cons a l ih =>
    simp only [List.mem_cons, not_or] at h
    have : ¬ a = k := fun e => h.1 e.symm
    simp [List.flatMap_cons, this, ih h.2]

theorem flatMap_once {β : Type} (l : List String) (k : String) (g : String → List β) (h : l.count k = 1) :
    l.flatMap (fun a => if a = k then g a else []) = g k := by
  induction l with
  | nil => simp at h
  | cons a l ih =>
    by_cases e : a = k
    · subst e
      have h0 : l.count a = 0 := by simpa using h
      simp [List.flatMap_cons, flatMap_absent l a g (List.count_eq_zero.1 h0)]
    · have h1 : l.count k = 1 := by
        rw [List.count_cons] at h
        have : (a == k) = false := by simpa using e
        simpa [this] using h
      simp [List.flatMap_cons, e, ih h1]

/-- The lines that `Header.write` emits under one name are the values of that
name, in their order. -/
theorem Header.lines_filter (h : Header) (hnd : (h.map Prod.fst).Nodup) (k : String) (hk : k ≠ "") :
    h.lines.filter (fun l => l.1 = k) = (h.values k).map fun val => (k, val) := by
  unfold Header.lines
  rw [List.filter_flatMap]
  have hf : ∀ a : String, ((h.values a).map fun val => (a, val)).filter (fun l => decide (l.1 = k)) =
      if a = k then (h.values a).map fun val => (a, val) else [] := by
    intro a
    by_cases e : a = k
    · simp [e]
    · simp [e]
  simp only [hf]
  by_cases hmem : k ∈ h.map Prod.fst
  · rw [flatMap_once]
    unfold Header.sortedKeys
    rw [(sort.Strings_perm _).count_eq, List.count_append, List.count_eq_one_of_mem hnd hmem,
      List.count_replicate]
    simp [hk]
    exact fun e => absurd e.symm hk
  · have hv : h.values k = [] := by
      unfold Header.values
      have : ∀ m : Header, k ∉ m.map Prod.fst → m.get k = none := by
        intro m
        induction m with
        | nil => intro _; rfl
        | cons e rest ih =>
          intro hm
          obtain ⟨a, w⟩ := e
          simp only [List.map_cons, List.mem_cons, not_or] at hm
          have : ¬ a = k := fun e => hm.1 e.symm
          simp [GoMap.get, this, ih hm.2]
      rw [this h hmem]
      rfl
    rw [hv, flatMap_absent]
    · rfl
    · unfold Header.sortedKeys
      intro hin
      have := (sort.Strings_perm _).mem_iff.1 hin
      rw [List.mem_append] at this
      rcases this with h1 | h1
      · exact hk (List.eq_of_mem_replicate h1)
      · exact hmem h1

theorem flatMap_lines {γ : Type} (keys : List String) (vals : String → List String) (g : String → String → List γ) :
    (keys.flatMap fun key => (vals key).map fun val => (key, val)).flatMap (fun l => g l.1 l.2) =
      keys.flatMap fun key => (vals key).flatMap fun val => g key val := by
  induction keys with
  | nil => rfl
  | cons k keys ih =>
    simp only [List.flatMap_cons, List.flatMap_append, ih]
    congr 1
    induction vals k with
    | nil => rfl
    | cons v vs ih2 => simp [List.flatMap_cons, ih2]

/-- For a header map that holds no value under the empty name,
`Header.write` emits the lines `name: value\r\n` name by name in ascending
order of the names, the values of one name in their stored order, and then a
final `\r\n`: the names it goes through are the names of the map, sorted. The
bytes written do not depend on the order in which the map hands out its
entries. -/
theorem Header_write_sorted (h : Header) (hnd : (h.map Prod.fst).Nodup) (hne : h.values "" = []) :
    (sort.Strings (h.map Prod.fst)).Perm (h.map Prod.fst) ∧
    (sort.Strings (h.map Prod.fst)).Sorted strings.Le ∧
    Header.write h =
      ((sort.Strings (h.map Prod.fst)).flatMap fun key =>
        (h.values key).flatMap fun val => (key ++ ": " ++ val ++ "\r\n").toList) ++ "\r\n".toList ∧
    ∀ h' : Header, h'.Perm h → Header.write h' = Header.write h := by
  refine ⟨sort.Strings_perm _, sort.Strings_sorted _, ?_, fun h' hp => Header.write_perm h h' hp hnd⟩
  unfold Header.write
  rw [Header.lines_eq h hne, flatMap_lines]
  rfl

/-- C24, the code at the failing input: a map with the one value `x` under
the empty name. `make([]string, len(h))` has put one empty string into `keys`
before the name is appended, so the loop over the sorted keys comes to the
empty name twice and the line `: x` is written twice, where the map holds one
pair. With the further entry `B` the line is written three times, before the
line of `B`. -/
theorem Header_write_repeats_empty_name :
    (Header.lines [("", ["x"])] = [("", "x"), ("", "x")] ∧
      Header.write [("", ["x"])] = ": x\r\n: x\r\n\r\n".toList) ∧
    (Header.lines [("B", ["2"]), ("", ["x"])] = [("", "x"), ("", "x"), ("", "x"), ("B", "2")] ∧
      Header.write [("B", ["2"]), ("", ["x"])] = ": x\r\n: x\r\n: x\r\nB: 2\r\n\r\n".toList) := by
  decide

/-- An instance of `Header_write_sorted`: a map with `CSeq` entered before
`Accept`. -/
theorem Header_write_sorted_witness :
    (([("CSeq", ["1"]), ("Accept", ["a", "b"])] : Header).map Prod.fst).Nodup ∧
    Header.values [("CSeq", ["1"]), ("Accept", ["a", "b"])] "" = [] ∧
    (sort.Strings (([("CSeq", ["1"]), ("Accept", ["a", "b"])] : Header).map Prod.fst)).Perm
      (([("CSeq", ["1"]), ("Accept", ["a", "b"])] : Header).map Prod.fst) ∧
    (sort.Strings (([("CSeq", ["1"]), ("Accept", ["a", "b"])] : Header).map Prod.fst)).Sorted strings.Le ∧
    Header.write [("CSeq", ["1"]), ("Accept", ["a", "b"])] =
      ((sort.Strings (([("CSeq", ["1"]), ("Accept", ["a", "b"])] : Header).map Prod.fst)).flatMap fun key =>
        (Header.values [("CSeq", ["1"]), ("Accept", ["a", "b"])] key).flatMap fun val =>
          (key ++ ": " ++ val ++ "\r\n").toList) ++ "\r\n".toList ∧
    ∀ h' : Header, h'.Perm [("CSeq", ["1"]), ("Accept", ["a", "b"])] →
      Header.write h' = Header.write [("CSeq", ["1"]), ("Accept", ["a", "b"])] :=
  ⟨by decide, rfl, Header_write_sorted [("CSeq", ["1"]), ("Accept", ["a", "b"])] (by decide) rfl⟩

/-- C27: `Request.Write` and `Response.Write` with a body that is not empty.
The bytes written are the start line, the lines of the header map with
`Content-Length` set, the empty line and the body; among these lines exactly
one has the name `Content-Length`, and its value is the decimal number of
bytes of the body, whatever the map of the caller held under that name. -/
theorem Write_content_length (lib : Lib) (u : CodecLib) (req : Request) (r : Response) (url : URL)
    (hurl : req.URL = some url) (hq : req.Body ≠ "") (hr : r.Body ≠ "")
    (hqn : (req.Header.map Prod.fst).Nodup) (hrn : (r.Header.map Prod.fst).Nodup) :
    (Request.Write lib u req =
        .ok ((req.Method ++ " " ++ lib.urlString url ++ " " ++ RtspProtocol10 ++ "\r\n").toList ++
          (((req.Header.withContentLength req.Body).lines.flatMap fun l => headerLine l.1 l.2) ++
            "\r\n".toList) ++ u.bodyWrite req.Body) ∧
      (req.Header.withContentLength req.Body).lines.filter (fun l => l.1 = "Content-Length") =
        [("Content-Length", toString req.Body.length)]) ∧
    (Response.Write u r =
        (RtspProtocol10 ++ " " ++ toString r.StatusCode ++ " " ++ r.messageWritten ++ "\r\n").toList ++
          ((r.withContentLength.Header.lines.flatMap fun l => headerLine l.1 l.2) ++ "\r\n".toList) ++
          u.bodyWrite r.Body ∧
      r.withContentLength.Header.lines.filter (fun l => l.1 = "Content-Length") =
        [("Content-Length", toString r.Body.length)]) := by
  have hql : req.Body.length ≠ 0 := by
    intro h0
    exact hq (String.ext (List.eq_nil_of_length_eq_zero h0))
  refine ⟨⟨?_, ?_⟩, rfl, ?_⟩
  · simp [Request.Write, hurl, Header.write]
  · rw [Header.lines_filter _ _ _ (by decide)]
    · simp [Header.withContentLength, hql, Header.values, GoMap.get_set]
    · unfold Header.withContentLength
      rw [if_pos hql]
      exact GoMap.nodup_set _ _ _ hqn
  · rw [Header.lines_filter _ _ _ (by decide)]
    · simp [Response.withContentLength, hr, Header.values, GoMap.get_set]
    · unfold Response.withContentLength
      rw [if_neg hr]
      exact GoMap.nodup_set _ _ _ hrn

/-- C27, witness: a request and a response with the body `ab` whose maps hold
`Content-Length: 99`. -/
theorem Write_content_length_witness :
    (Request.Write sampleLib sampleCodec
        { Method := "ANNOUNCE", URL := some { Path := "/live" },
          Header := [("Content-Length", ["99"]), ("CSeq", ["1"])], Body := "ab" } =
      .ok "ANNOUNCE rtsp://h/live RTSP/1.0\r\nCSeq: 1\r\nContent-Length: 2\r\n\r\nab".toList) ∧
    Response.Write sampleCodec
        { StatusCode := 200, StatusMessage := "", Header := [("Content-Length", ["99"]), ("CSeq", ["1"])],
          Body := "ab" } =
      "RTSP/1.0 200 OK\r\nCSeq: 1\r\nContent-Length: 2\r\n\r\nab".toList :=
  ⟨((Write_content_length sampleLib sampleCodec
      { Method := "ANNOUNCE", URL := some { Path := "/live" },
        Header := [("Content-Length", ["99"]), ("CSeq", ["1"])], Body := "ab" }
      { StatusCode := 200, StatusMessage := "", Header := [("Content-Length", ["99"]), ("CSeq", ["1"])],
        Body := "ab" }
      { Path := "/live" } rfl (by decide) (by decide) (by decide) (by decide)).1.1).trans rfl,
   ((Write_content_length sampleLib sampleCodec
      { Method := "ANNOUNCE", URL := some { Path := "/live" },
        Header := [("Content-Length", ["99"]), ("CSeq", ["1"])], Body := "ab" }
      { StatusCode := 200, StatusMessage := "", Header := [("Content-Length", ["99"]), ("CSeq", ["1"])],
        Body := "ab" }
      { Path := "/live" } rfl (by decide) (by decide) (by decide) (by decide)).2.1).trans rfl⟩

/-! ## base : `Header.read` -/

theorem sampleReadBytesLimited_found (pre rest : List Char) (delim : Char) (n : Nat)
    (hd : delim ∉ pre) (hn : pre.length + 1 ≤ n) :
    sampleReadBytesLimited (pre ++ delim :: rest) delim n = .ok (pre ++ [delim], rest) := by
  induction pre generalizing n with
  | nil =>
    obtain ⟨m, rfl⟩ : ∃ m, n = m + 1 := ⟨n - 1, by simp at hn; omega⟩
    simp [sampleReadBytesLimited]
  | cons c pre ih =>
    obtain ⟨m, rfl⟩ : ∃ m, n = m + 1 := ⟨n - 1, by simp at hn; omega⟩
    simp only [List.mem_cons, not_or] at hd
    have hc : ¬ c = delim := fun e => hd.1 e.symm
    simp only [List.length_cons] at hn
    simp [sampleReadBytesLimited, hc, ih m hd.2 (by omega)]

theorem sampleReadBytesLimited_limited (input : List Char) (delim : Char) (n : Nat)
    (hd : delim ∉ input.take n) : ∃ e, sampleReadBytesLimited input delim n = .error e := by
  induction n generalizing input with
  | zero => exact ⟨"buffer length exceeds limit", by simp [sampleReadBytesLimited]⟩
  | succ m ih =>
    cases input with
    | nil => exact ⟨"EOF", by simp [sampleReadBytesLimited]⟩
    | cons c rest =>
      simp only [List.take_succ_cons, List.mem_cons, not_or] at hd
      have hc : ¬ c = delim := fun e => hd.1 e.symm
      obtain ⟨e, he⟩ := ih rest hd.2
      exact ⟨e, by simp [sampleReadBytesLimited, hc, he]⟩

/-- The stand-in helpers meet what the statements assume. -/
theorem sampleCodec_sound : sampleCodec.Sound where
  found := by
    intro pre rest delim n hd hn
    show sampleReadBytesLimited (pre ++ delim :: rest) delim n.toNat = _
    exact sampleReadBytesLimited_found pre rest delim n.toNat hd (by omega)
  equal := by
    intro c rest
    simp [sampleCodec]
  differs := by
    intro c d rest h
    exact ⟨"unexpected byte", by simp [sampleCodec, h]⟩
  ended := by
    intro d
    exact ⟨"EOF", rfl⟩

theorem mem_take_succ (a : Char) (n : Nat) (l : List Char) (h : a ∈ l.take n) : a ∈ l.take (n + 1) := by
  induction n generalizing l with
  | zero => simp at h
  | succ m ih =>
    cases l with
    | nil => simp at h
    | cons c rest =>
      simp only [List.take_succ_cons, List.mem_cons] at h ⊢
      rcases h with h | h
      · exact Or.inl h
      · exact Or.inr (ih rest h)

/-- The stand-in `ReadBytesLimited` keeps its limit. -/
theorem sampleCodec_limited : sampleCodec.Limited := by
  intro input delim n _ hd
  show ∃ e, sampleReadBytesLimited input delim n.toNat = .error e
  exact sampleReadBytesLimited_limited input delim n.toNat (fun hmem => hd (mem_take_succ _ _ _ hmem))

theorem dropDelim_concat (pre : List Char) (d : Char) : dropDelim (pre ++ [d]) = .ok pre := by
  simp [dropDelim]

theorem skipSpaces_replicate (k : Nat) (rest : List Char) (h : rest.head? ≠ some ' ') (hne : rest ≠ []) :
    skipSpaces (List.replicate k ' ' ++ rest) = some rest := by
  induction k with
  | zero =>
    cases rest with
    | nil => exact absurd rfl hne
    | cons c rest =>
      have : ¬ c = ' ' := fun e => h (by simp [e])
      simp [skipSpaces, this]
  | succ k ih => simp [List.replicate_succ, skipSpaces, ih]

theorem Header.readLoop_cr (u : CodecLib) (left : Nat) (h : Header) (in1 : List Char) :
    Header.readLoop u left h ('\r' :: in1) =
      match u.ReadByteEqual in1 '\n' with
      | .error e => .ok (.error e)
      | .ok in2 => .ok (.ok (h, in2)) := by
  cases left <;> rfl

theorem Header.readLoop_zero (u : CodecLib) (h : Header) (byt : Char) (in1 : List Char) (hb : byt ≠ '\r') :
    Header.readLoop u 0 h (byt :: in1) = .ok (.error "headers count exceeds 255") := by
  show (if byt = '\r' then _ else _) = _
  rw [if_neg hb]

theorem Header.readLoop_succ (u : CodecLib) (left : Nat) (h : Header) (byt : Char) (in1 : List Char) (hb : byt ≠ '\r') :
    Header.readLoop u (left + 1) h (byt :: in1) =
        match u.ReadBytesLimited in1 ':' (headerMaxKeyLength - 1) with
        | .error _ => .ok (.error "value is missing")
        | .ok (byts, in2) =>
          match dropDelim byts with
          | .panic p => .panic p
          | .ok name =>
            match skipSpaces in2 with
            | none => .ok (.error "EOF")
            | some in3 =>
              match u.ReadBytesLimited in3 '\r' headerMaxValueLength with
              | .error e => .ok (.error e)
              | .ok (byts, in4) =>
                match dropDelim byts with
                | .panic p => .panic p
                | .ok val =>
                  match u.ReadByteEqual in4 '\n' with
                  | .error e => .ok (.error e)
                  | .ok in5 =>
                    Header.readLoop u left
                      (h.append (headerKeyNormalize u (String.mk (byt :: name))) (String.mk val)) in5 := by
  show (if byt = '\r' then _ else _) = _
  exact if_neg hb

/-- A line that is CR LF alone ends the block. -/
theorem Header.readLoop_end (u : CodecLib) (hu : u.Sound) (left : Nat) (h : Header) (rest : List Char) :
    Header.readLoop u left h ('\r' :: '\n' :: rest) = .ok (.ok (h, rest)) := by
  rw [Header.readLoop_cr, hu.equal]

/-- The name of a well-formed line and the spaces behind its colon: the loop
is at the value. -/
theorem Header.readLoop_name (u : CodecLib) (hu : u.Sound) (name : String) (spaces : Nat)
    (hne : name ≠ "") (hcr : name.toList.head? ≠ some '\r') (hcolon : ':' ∉ name.toList.tail)
    (hlen : name.length ≤ 511) (left : Nat) (h : Header) (after : List Char)
    (hsp : after.head? ≠ some ' ') (hafter : after ≠ []) :
    Header.readLoop u (left + 1) h (name.toList ++ ':' :: (List.replicate spaces ' ' ++ after)) =
      match u.ReadBytesLimited after '\r' headerMaxValueLength with
      | .error e => .ok (.error e)
      | .ok (byts, in4) =>
        match dropDelim byts with
        | .panic p => .panic p
        | .ok val =>
          match u.ReadByteEqual in4 '\n' with
          | .error e => .ok (.error e)
          | .ok in5 => Header.readLoop u left (h.append (headerKeyNormalize u name) (String.mk val)) in5 := by
  obtain ⟨cs⟩ := name
  cases cs with
  | nil => exact absurd rfl hne
  | cons c pre =>
    simp only [String.toList, List.tail_cons, List.head?_cons, String.length, List.length_cons] at *
    have hc : ¬ c = '\r' := fun e => hcr (by rw [e])
    have h1 : u.ReadBytesLimited (pre ++ ':' :: (List.replicate spaces ' ' ++ after))
        ':' (headerMaxKeyLength - 1) = .ok (pre ++ [':'], List.replicate spaces ' ' ++ after) :=
      hu.found _ _ _ _ hcolon (by unfold headerMaxKeyLength; omega)
    have h2 : skipSpaces (List.replicate spaces ' ' ++ after) = some after :=
      skipSpaces_replicate _ _ hsp hafter
    rw [List.cons_append, Header.readLoop_succ u left h c _ hc]
    simp only [h1, dropDelim_concat, h2]

/-- A well-formed line up to the CR that ends its value: the loop is at the
byte that should be LF. -/
theorem Header.readLoop_value (u : CodecLib) (hu : u.Sound) (l : WireLine) (hwf : l.WellFormed)
    (left : Nat) (h : Header) (after : List Char) :
    Header.readLoop u (left + 1) h
        (l.name.toList ++ ':' :: (List.replicate l.spaces ' ' ++ (l.value.toList ++ '\r' :: after))) =
      match u.ReadByteEqual after '\n' with
      | .error e => .ok (.error e)
      | .ok in5 => Header.readLoop u left (h.append (headerKeyNormalize u l.name) l.value) in5 := by
  obtain ⟨hne, hcr, hcolon, hlen, hvcr, hvsp, hvlen⟩ := hwf
  have hsp : (l.value.toList ++ '\r' :: after).head? ≠ some ' ' := by
    cases hv : l.value.toList with
    | nil => simp
    | cons v vs =>
      rw [hv] at hvsp
      simpa using hvsp
  rw [Header.readLoop_name u hu l.name l.spaces hne hcr hcolon hlen left h _ hsp (by simp)]
  have h3 : u.ReadBytesLimited (l.value.toList ++ '\r' :: after) '\r' headerMaxValueLength =
      .ok (l.value.toList ++ ['\r'], after) :=
    hu.found _ _ _ _ hvcr (by
      unfold headerMaxValueLength
      have : l.value.toList.length = l.value.length := rfl
      omega)
  simp only [h3, dropDelim_concat]
  rfl

/-- One well-formed line: its value is appended under its normalized name and
the loop goes on behind the line. -/
theorem Header.readLoop_line (u : CodecLib) (hu : u.Sound) (l : WireLine) (hwf : l.WellFormed)
    (left : Nat) (h : Header) (tail : List Char) :
    Header.readLoop u (left + 1) h (l.bytes ++ tail) =
      Header.readLoop u left (h.append (headerKeyNormalize u l.name) l.value) tail := by
  have e : l.bytes ++ tail =
      l.name.toList ++ ':' :: (List.replicate l.spaces ' ' ++ (l.value.toList ++ '\r' :: '\n' :: tail)) := by
    simp [WireLine.bytes]
  rw [e, Header.readLoop_value u hu l hwf, hu.equal]

/-- Well-formed lines one after the other. -/
theorem Header.readLoop_lines (u : CodecLib) (hu : u.Sound) (ls : List WireLine)
    (hwf : ∀ l ∈ ls, l.WellFormed) (left : Nat) (h : Header) (tail : List Char) :
    Header.readLoop u (left + ls.length) h (ls.flatMap WireLine.bytes ++ tail) =
      Header.readLoop u left (Header.ofLines u h ls) tail := by
  induction ls generalizing h with
  | nil => rfl
  | cons l ls ih =>
    rw [List.flatMap_cons, List.append_assoc, List.length_cons, ← Nat.add_assoc,
      Header.readLoop_line u hu l (hwf l (List.mem_cons_self _ _)),
      ih (fun l' hl' => hwf l' (List.mem_cons_of_mem _ hl'))]
    rfl

/-- A whole block of at most 255 well-formed lines. -/
theorem Header.read_block (u : CodecLib) (hu : u.Sound) (ls : List WireLine)
    (hwf : ∀ l ∈ ls, l.WellFormed) (hcount : ls.length ≤ 255) (rest : List Char) :
    Header.read u (ls.flatMap WireLine.bytes ++ '\r' :: '\n' :: rest) = .ok (.ok (Header.ofLines u [] ls, rest)) := by
  unfold Header.read headerMaxEntryCount
  obtain ⟨left, hleft⟩ : ∃ left, 255 = left + ls.length := ⟨255 - ls.length, by omega⟩
  rw [hleft, Header.readLoop_lines u hu ls hwf, Header.readLoop_end u hu]

theorem Header.values_append (h : Header) (key val key' : String) :
    (h.append key val).values key' = if key' = key then h.values key ++ [val] else h.values key' := by
  unfold Header.append Header.values
  rw [GoMap.get_set]
  split <;> rfl

/-- The values that the map built from lines holds under a name: those that it
held before, then the values of the lines with that normalized name, in the
order of the lines. -/
theorem Header.values_ofLines (u : CodecLib) (h : Header) (ls : List WireLine) (key : String) :
    (Header.ofLines u h ls).values key =
      h.values key ++ (ls.filter fun l => headerKeyNormalize u l.name = key).map WireLine.value := by
  induction ls generalizing h with
  | nil => simp [Header.ofLines]
  | cons l ls ih =>
    have e : Header.ofLines u h (l :: ls) = Header.ofLines u (h.append (headerKeyNormalize u l.name) l.value) ls :=
      rfl
    rw [e, ih, Header.values_append]
    by_cases hk : headerKeyNormalize u l.name = key
    · subst hk
      simp [List.filter_cons]
    · have hk' : ¬ key = headerKeyNormalize u l.name := fun e => hk e.symm
      simp [List.filter_cons, hk, hk']

/-! ## base : `headerKeyNormalize` -/

/-- Without the bytes C4 and E2, the lead bytes of U+0130 and U+212A, lower
case is that of ASCII, byte by byte. -/
theorem strings.lowerBytes_plain (l : List Char)
    (h : ∀ c ∈ l, c ≠ Char.ofNat 0xC4 ∧ c ≠ Char.ofNat 0xE2) :
    strings.lowerBytes 0 l = l.map Char.toLower := by
  induction l with
  | nil => rfl
  | cons c rest ih =>
    have hc := h c (List.mem_cons_self _ _)
    simp [strings.lowerBytes, hc.1, hc.2, ih (fun d hd => h d (List.mem_cons_of_mem _ hd))]

theorem strings.ToLower_ascii (s : String) (h : isASCII s) :
    strings.ToLower s = String.mk (s.toList.map Char.toLower) := by
  unfold strings.ToLower
  rw [strings.lowerBytes_plain]
  intro c hc
  have := h c hc
  constructor
  · intro e
    rw [e] at this
    exact absurd this (by decide)
  · intro e
    rw [e] at this
    exact absurd this (by decide)

/-- A string that is a name of ASCII letters and `-` up to the case of ASCII
letters holds neither C4 nor E2. -/
theorem strings.ToLower_fold (s t : String) (h : equalIgnoringCase s t)
    (ht : Char.ofNat 0xC4 ∉ t.toList.map Char.toLower ∧ Char.ofNat 0xE2 ∉ t.toList.map Char.toLower) :
    strings.ToLower s = String.mk (t.toList.map Char.toLower) := by
  unfold strings.ToLower
  unfold equalIgnoringCase at h
  rw [strings.lowerBytes_plain, h]
  intro c hc
  have hm : c.toLower ∈ s.toList.map Char.toLower := List.mem_map_of_mem _ hc
  rw [h] at hm
  constructor
  · intro e
    rw [e] at hm
    exact ht.1 hm
  · intro e
    rw [e] at hm
    exact ht.2 hm

/-- C21 (amended): `headerKeyNormalize` gives `RTP-Info`, `WWW-Authenticate`
or `CSeq` for every name that equals `rtp-info`, `www-authenticate` or `cseq`
when the case of ASCII letters is ignored; for every other name of ASCII bytes
it gives what `http.CanonicalHeaderKey` gives. And `Header.read` stores a block
of well-formed lines under the normalized names: the value of every line is
among the values of the normalized name of that line, and every name under
which the map holds a value is the normalized name of a line. -/
theorem headerKeyNormalize_names (u : CodecLib) :
    (∀ n : String, equalIgnoringCase n "rtp-info" → headerKeyNormalize u n = "RTP-Info") ∧
    (∀ n : String, equalIgnoringCase n "www-authenticate" → headerKeyNormalize u n = "WWW-Authenticate") ∧
    (∀ n : String, equalIgnoringCase n "cseq" → headerKeyNormalize u n = "CSeq") ∧
    (∀ n : String, isASCII n → ¬ equalIgnoringCase n "rtp-info" → ¬ equalIgnoringCase n "www-authenticate" →
      ¬ equalIgnoringCase n "cseq" → headerKeyNormalize u n = u.CanonicalHeaderKey n) ∧
    (∀ (ls : List WireLine) (rest : List Char), u.Sound → (∀ l ∈ ls, l.WellFormed) → ls.length ≤ 255 →
      ∃ h : Header, Header.read u (ls.flatMap WireLine.bytes ++ '\r' :: '\n' :: rest) = .ok (.ok (h, rest)) ∧
        (∀ l ∈ ls, l.value ∈ h.values (headerKeyNormalize u l.name)) ∧
        (∀ key : String, h.values key ≠ [] → ∃ l ∈ ls, headerKeyNormalize u l.name = key)) := by
  refine ⟨fun n h => ?_, fun n h => ?_, fun n h => ?_, fun n ha h1 h2 h3 => ?_,
    fun ls rest hu hwf hcount => ⟨Header.ofLines u [] ls, Header.read_block u hu ls hwf hcount rest, ?_, ?_⟩⟩
  · have e := strings.ToLower_fold n "rtp-info" h (by decide)
    unfold headerKeyNormalize
    rw [if_pos (e.trans (by decide))]
  · have e := strings.ToLower_fold n "www-authenticate" h (by decide)
    have e' : strings.ToLower n = "www-authenticate" := e.trans (by decide)
    unfold headerKeyNormalize
    rw [e', if_neg (by decide), if_pos rfl]
  · have e := strings.ToLower_fold n "cseq" h (by decide)
    have e' : strings.ToLower n = "cseq" := e.trans (by decide)
    unfold headerKeyNormalize
    rw [e', if_neg (by decide), if_neg (by decide), if_pos rfl]
  · have e := strings.ToLower_ascii n ha
    have key : ∀ t : String, t.toList.map Char.toLower = t.toList → ¬ equalIgnoringCase n t →
        strings.ToLower n ≠ t := by
      intro t ht hn heq
      apply hn
      unfold equalIgnoringCase
      rw [ht, ← heq, e]
      rfl
    unfold headerKeyNormalize
    rw [if_neg (key "rtp-info" (by decide) h1), if_neg (key "www-authenticate" (by decide) h2),
      if_neg (key "cseq" (by decide) h3)]
  · intro l hl
    rw [Header.values_ofLines]
    simp only [Header.values, GoMap.get, Option.getD_none, List.nil_append, List.mem_map, List.mem_filter,
      decide_eq_true_eq]
    exact ⟨l, ⟨hl, rfl⟩, rfl⟩
  · intro key hkey
    rw [Header.values_ofLines] at hkey
    simp only [Header.values, GoMap.get, Option.getD_none, List.nil_append, ne_eq, List.map_eq_nil_iff] at hkey
    obtain ⟨l, hl⟩ := List.exists_mem_of_ne_nil _ hkey
    rw [List.mem_filter] at hl
    exact ⟨l, hl.1, by simpa using hl.2⟩

/-- C21, counterexample: the name `rtp-` + U+0130 + `nfo`, nine bytes. It does
not equal `rtp-info` when the case of ASCII letters is ignored, yet
`strings.ToLower` turns U+0130 into `i`, so `headerKeyNormalize` gives the
eight bytes `RTP-Info` whatever `http.CanonicalHeaderKey` does with the name. -/
theorem headerKeyNormalize_counterexample :
    ¬ equalIgnoringCase dottedName "rtp-info" ∧ dottedName.length = 9 ∧
    ∀ u : CodecLib, headerKeyNormalize u dottedName = "RTP-Info" :=
  ⟨by decide, rfl, fun _ => rfl⟩

/-- C21, witness: `rtp-INFO`, `Www-authenticate`, `cseq` and `accept-x`, and a
block of three lines read with the stand-in helpers. -/
theorem headerKeyNormalize_names_witness :
    (equalIgnoringCase "rtp-INFO" "rtp-info" ∧ headerKeyNormalize sampleCodec "rtp-INFO" = "RTP-Info") ∧
    (equalIgnoringCase "Www-authenticate" "www-authenticate" ∧
      headerKeyNormalize sampleCodec "Www-authenticate" = "WWW-Authenticate") ∧
    (equalIgnoringCase "cseq" "cseq" ∧ headerKeyNormalize sampleCodec "cseq" = "CSeq") ∧
    (isASCII "accept-x" ∧ headerKeyNormalize sampleCodec "accept-x" = sampleCodec.CanonicalHeaderKey "accept-x") ∧
    ∃ h : Header, Header.read sampleCodec
        (([⟨"cseq", 3, "1 "⟩, ⟨"accept-x", 0, "a"⟩, ⟨"CSEQ", 1, "2"⟩] : List WireLine).flatMap WireLine.bytes
          ++ '\r' :: '\n' :: "rest".toList) = .ok (.ok (h, "rest".toList)) ∧
      (∀ l ∈ ([⟨"cseq", 3, "1 "⟩, ⟨"accept-x", 0, "a"⟩, ⟨"CSEQ", 1, "2"⟩] : List WireLine),
        l.value ∈ h.values (headerKeyNormalize sampleCodec l.name)) ∧
      (∀ key : String, h.values key ≠ [] →
        ∃ l ∈ ([⟨"cseq", 3, "1 "⟩, ⟨"accept-x", 0, "a"⟩, ⟨"CSEQ", 1, "2"⟩] : List WireLine),
          headerKeyNormalize sampleCodec l.name = key) :=
  ⟨⟨by decide, (headerKeyNormalize_names sampleCodec).1 "rtp-INFO" (by decide)⟩,
   ⟨by decide, (headerKeyNormalize_names sampleCodec).2.1 "Www-authenticate" (by decide)⟩,
   ⟨by decide, (headerKeyNormalize_names sampleCodec).2.2.1 "cseq" (by decide)⟩,
   ⟨by decide, (headerKeyNormalize_names sampleCodec).2.2.2.1 "accept-x" (by decide) (by decide) (by decide)
      (by decide)⟩,
   (headerKeyNormalize_names sampleCodec).2.2.2.2 _ _ sampleCodec_sound (by decide) (by decide)⟩

/-! ## base : `Header.read` and the lines on the wire -/

/-- C23: `Header.read` on a block of at most 255 lines, each a name, a colon,
any number of spaces, a value without CR that does not begin with a space (and
may end with spaces), CR LF; names and values within the size limits. The
block ends at the line that is CR LF alone, and what follows is left unread.
Under every name the map holds exactly the values of the lines with that
normalized name, in the order in which the lines arrived. A CR that ends a
value or begins a line and is not followed by LF is an error. -/
theorem Header_read_lines (u : CodecLib) (hu : u.Sound) (ls : List WireLine)
    (hwf : ∀ l ∈ ls, l.WellFormed) (hcount : ls.length ≤ 255) (rest : List Char) :
    Header.read u (ls.flatMap WireLine.bytes ++ '\r' :: '\n' :: rest) =
      .ok (.ok (Header.ofLines u [] ls, rest)) ∧
    (∀ key : String, (Header.ofLines u [] ls).values key =
      (ls.filter fun l => headerKeyNormalize u l.name = key).map WireLine.value) ∧
    (∀ after : List Char, after.head? ≠ some '\n' →
      ∃ e, Header.read u (ls.flatMap WireLine.bytes ++ '\r' :: after) = .ok (.error e)) ∧
    (∀ (l : WireLine) (after : List Char), l.WellFormed → ls.length < 255 → after.head? ≠ some '\n' →
      ∃ e, Header.read u (ls.flatMap WireLine.bytes ++
        (l.name.toList ++ ':' :: (List.replicate l.spaces ' ' ++ (l.value.toList ++ '\r' :: after)))) =
          .ok (.error e)) := by
  have hbad : ∀ after : List Char, after.head? ≠ some '\n' → ∃ e, u.ReadByteEqual after '\n' = .error e := by
    intro after ha
    cases after with
    | nil => exact hu.ended '\n'
    | cons c tail => exact hu.differs c '\n' tail (fun e => ha (by rw [e]; rfl))
  refine ⟨Header.read_block u hu ls hwf hcount rest, fun key => ?_, fun after ha => ?_,
    fun l after hl hlt ha => ?_⟩
  · rw [Header.values_ofLines]
    rfl
  · obtain ⟨e, he⟩ := hbad after ha
    obtain ⟨left, hleft⟩ : ∃ left, 255 = left + ls.length := ⟨255 - ls.length, by omega⟩
    refine ⟨e, ?_⟩
    unfold Header.read headerMaxEntryCount
    rw [hleft, Header.readLoop_lines u hu ls hwf, Header.readLoop_cr, he]
  · obtain ⟨e, he⟩ := hbad after ha
    obtain ⟨left, hleft⟩ : ∃ left, 255 = (left + 1) + ls.length := ⟨254 - ls.length, by omega⟩
    refine ⟨e, ?_⟩
    unfold Header.read headerMaxEntryCount
    rw [hleft, Header.readLoop_lines u hu ls hwf, Header.readLoop_value u hu l hl, he]

/-- C23, witness: three lines with three, no and one space after the colon, a
value that ends with a space, and a name that comes twice. -/
theorem Header_read_lines_witness :
    Header.read sampleCodec "cseq:   1 \r\naccept-x:a\r\nCSEQ: 2\r\n\r\nrest".toList =
      .ok (.ok ([("CSeq", ["1 ", "2"]), ("Accept-X", ["a"])], "rest".toList)) ∧
    (∃ e, Header.read sampleCodec "cseq:   1 \r\naccept-x:a\r\nCSEQ: 2\r\n\rx".toList = .ok (.error e)) ∧
    (∃ e, Header.read sampleCodec "cseq:   1 \r\naccept-x:a\r\nCSEQ: 2\r\nA: b\rx".toList = .ok (.error e)) :=
  ⟨((Header_read_lines sampleCodec sampleCodec_sound
      [⟨"cseq", 3, "1 "⟩, ⟨"accept-x", 0, "a"⟩, ⟨"CSEQ", 1, "2"⟩] (by decide) (by decide)
      "rest".toList).1).trans rfl,
   (Header_read_lines sampleCodec sampleCodec_sound
      [⟨"cseq", 3, "1 "⟩, ⟨"accept-x", 0, "a"⟩, ⟨"CSEQ", 1, "2"⟩] (by decide) (by decide)
      "rest".toList).2.2.1 "x".toList (by decide),
   (Header_read_lines sampleCodec sampleCodec_sound
      [⟨"cseq", 3, "1 "⟩, ⟨"accept-x", 0, "a"⟩, ⟨"CSEQ", 1, "2"⟩] (by decide) (by decide)
      "rest".toList).2.2.2 ⟨"A", 1, "b"⟩ "x".toList (by decide) (by decide) (by decide)⟩

/-- The limits of `Header.read`, as far as they do not depend on whether
`ReadBytesLimited` counts the delimiter. A block of at most 255 well-formed
lines, with names of at most 511 and values of at most 2047 bytes, is taken in
(`Header.read_block`). After well-formed lines, a 256th line, a name of more
than 512 bytes and a value of more than 2048 bytes are errors. -/
theorem Header.read_limits (u : CodecLib) (hu : u.Sound) (hl : u.Limited) (ls : List WireLine)
    (hwf : ∀ l ∈ ls, l.WellFormed) :
    (ls.length = 255 → ∀ (c : Char) (tail : List Char), c ≠ '\r' →
      Header.read u (ls.flatMap WireLine.bytes ++ c :: tail) = .ok (.error "headers count exceeds 255")) ∧
    (ls.length < 255 → ∀ (c : Char) (long : List Char), c ≠ '\r' → ':' ∉ long.take 512 →
      Header.read u (ls.flatMap WireLine.bytes ++ c :: long) = .ok (.error "value is missing")) ∧
    (ls.length < 255 → ∀ (l : WireLine) (long : List Char), l.WellFormed → '\r' ∉ long.take 2049 →
      long.head? ≠ some ' ' → long ≠ [] →
      ∃ e, Header.read u (ls.flatMap WireLine.bytes ++
        (l.name.toList ++ ':' :: (List.replicate l.spaces ' ' ++ long))) = .ok (.error e)) := by
  refine ⟨fun hlen c tail hc => ?_, fun hlen c long hc hcolon => ?_, fun hlen l long hwl hcr hsp hne => ?_⟩
  · unfold Header.read headerMaxEntryCount
    rw [show 255 = 0 + ls.length by omega, Header.readLoop_lines u hu ls hwf, Header.readLoop_zero u _ c tail hc]
  · obtain ⟨left, hleft⟩ : ∃ left, 255 = (left + 1) + ls.length := ⟨254 - ls.length, by omega⟩
    obtain ⟨e, he⟩ := hl long ':' (headerMaxKeyLength - 1) (by decide) (by simpa [headerMaxKeyLength] using hcolon)
    unfold Header.read headerMaxEntryCount
    rw [hleft, Header.readLoop_lines u hu ls hwf, Header.readLoop_succ u left _ c long hc, he]
  · obtain ⟨left, hleft⟩ : ∃ left, 255 = (left + 1) + ls.length := ⟨254 - ls.length, by omega⟩
    obtain ⟨e, he⟩ := hl long '\r' headerMaxValueLength (by decide) (by simpa [headerMaxValueLength] using hcr)
    refine ⟨e, ?_⟩
    unfold Header.read headerMaxEntryCount
    rw [hleft, Header.readLoop_lines u hu ls hwf,
      Header.readLoop_name u hu l.name l.spaces hwl.1 hwl.2.1 hwl.2.2.1 hwl.2.2.2.1 left _ long hsp hne, he]

/-! ## base : `Response.Read` -/

/-- The start line of a response is read up to the status token; `Response.Read`
is at the reason phrase. -/
theorem Response.Read_start (u : CodecLib) (hu : u.Sound) (token : String) (after : List Char)
    (hsp : ' ' ∉ token.toList) (hlen : token.length ≤ 3) :
    Response.Read u ("RTSP/1.0".toList ++ ' ' :: (token.toList ++ ' ' :: after)) =
      match strconv.ParseInt token with
      | none => .ok (.error "unable to parse status code")
      | some statusCode =>
        match u.ReadBytesLimited after '\r' 255 with
        | .error e => .ok (.error e)
        | .ok (b, in3) =>
          match dropDelim b with
          | .panic p => .panic p
          | .ok message =>
            if message.length = 0 then .ok (.error "empty status message")
            else
              match u.ReadByteEqual in3 '\n' with
              | .error e => .ok (.error e)
              | .ok in4 =>
                match Header.read u in4 with
                | .panic p => .panic p
                | .ok (.error e) => .ok (.error e)
                | .ok (.ok (header, in5)) =>
                  match u.bodyRead header in5 with
                  | .error e => .ok (.error e)
                  | .ok (body, in6) =>
                    .ok (.ok ({ StatusCode := statusCode, StatusMessage := String.mk message,
                                Header := header, Body := body }, in6)) := by
  have h1 : u.ReadBytesLimited ("RTSP/1.0".toList ++ ' ' :: (token.toList ++ ' ' :: after)) ' ' 255 =
      .ok ("RTSP/1.0".toList ++ [' '], token.toList ++ ' ' :: after) :=
    hu.found _ _ _ _ (by decide) (by decide)
  have h2 : u.ReadBytesLimited (token.toList ++ ' ' :: after) ' ' 4 = .ok (token.toList ++ [' '], after) :=
    hu.found _ _ _ _ hsp (by
      have : token.toList.length = token.length := rfl
      omega)
  have hp : ¬ String.mk "RTSP/1.0".toList ≠ RtspProtocol10 := by decide
  unfold Response.Read
  simp only [h1, dropDelim_concat, hp, if_false, h2]
  rfl

/-- C28, the claim fails: the start lines `RTSP/1.0 20 OK`, `RTSP/1.0 +20 OK`
and `RTSP/1.0 -1 OK`, whose status tokens are not three digits, are read
without error, as responses with the status codes 20, 20 and -1. -/
theorem Response_Read_status_counterexample :
    Response.Read sampleCodec "RTSP/1.0 20 OK\r\n\r\n".toList =
      .ok (.ok ({ StatusCode := 20, StatusMessage := "OK", Header := [], Body := "" }, [])) ∧
    Response.Read sampleCodec "RTSP/1.0 +20 OK\r\n\r\n".toList =
      .ok (.ok ({ StatusCode := 20, StatusMessage := "OK", Header := [], Body := "" }, [])) ∧
    Response.Read sampleCodec "RTSP/1.0 -1 OK\r\n\r\n".toList =
      .ok (.ok ({ StatusCode := -1, StatusMessage := "OK", Header := [], Body := "" }, [])) :=
  ⟨rfl, rfl, rfl⟩

/-- C28 (amended): what `Response.Read` does with the start line of a response. The
status token goes through `strconv.ParseInt(_, 10, 32)`, which takes a sign
and any number of digits: a start line whose status token is `20`, `+20` or
`-1` (any token of at most three bytes that `ParseInt` reads) is not an error,
and the response comes back with that number as its status code. Only a token
that `ParseInt` refuses is the error `unable to parse status code`. The other
half of the claim holds: a protocol token other than `RTSP/1.0` is the error
`expected 'RTSP/1.0', got ...`. -/
theorem Response_Read_status (u : CodecLib) (hu : u.Sound) :
    (∀ (token message body : String) (code : Int) (rest after : List Char),
      ' ' ∉ token.toList → token.length ≤ 3 → strconv.ParseInt token = some code →
      message ≠ "" → '\r' ∉ message.toList → message.length ≤ 254 →
      u.bodyRead [] rest = .ok (body, after) →
      Response.Read u ("RTSP/1.0".toList ++ ' ' :: (token.toList ++ ' ' ::
          (message.toList ++ '\r' :: '\n' :: '\r' :: '\n' :: rest))) =
        .ok (.ok ({ StatusCode := code, StatusMessage := message, Header := [], Body := body }, after))) ∧
    (strconv.ParseInt "20" = some 20 ∧ strconv.ParseInt "+20" = some 20 ∧ strconv.ParseInt "-1" = some (-1)) ∧
    (∀ (token : String) (after : List Char), ' ' ∉ token.toList → token.length ≤ 3 →
      strconv.ParseInt token = none →
      Response.Read u ("RTSP/1.0".toList ++ ' ' :: (token.toList ++ ' ' :: after)) =
        .ok (.error "unable to parse status code")) ∧
    (∀ (proto : String) (after : List Char), ' ' ∉ proto.toList → proto.length ≤ 254 → proto ≠ "RTSP/1.0" →
      Response.Read u (proto.toList ++ ' ' :: after) =
        .ok (.error ("expected 'RTSP/1.0', got '" ++ proto ++ "'"))) := by
  refine ⟨fun token message body code rest after hsp hlen hparse hne hcr hmlen hbody => ?_,
    ⟨by decide, by decide, by decide⟩, fun token after hsp hlen hparse => ?_,
    fun proto after hsp hlen hne => ?_⟩
  · have h3 : u.ReadBytesLimited (message.toList ++ '\r' :: '\n' :: '\r' :: '\n' :: rest) '\r' 255 =
        .ok (message.toList ++ ['\r'], '\n' :: '\r' :: '\n' :: rest) :=
      hu.found _ _ _ _ hcr (by
        have : message.toList.length = message.length := rfl
        omega)
    have hm : ¬ message.toList.length = 0 := by
      intro h0
      exact hne (String.ext (List.eq_nil_of_length_eq_zero h0))
    have hh : Header.read u ('\r' :: '\n' :: rest) = .ok (.ok ([], rest)) :=
      Header.read_block u hu [] (by simp) (by simp) rest
    rw [Response.Read_start u hu token _ hsp hlen, hparse]
    simp only [h3, dropDelim_concat, hm, if_false, hu.equal, hh, hbody]
    rfl
  · rw [Response.Read_start u hu token _ hsp hlen, hparse]
  · have h1 : u.ReadBytesLimited (proto.toList ++ ' ' :: after) ' ' 255 = .ok (proto.toList ++ [' '], after) :=
      hu.found _ _ _ _ hsp (by
        have : proto.toList.length = proto.length := rfl
        omega)
    have hp : String.mk proto.toList ≠ RtspProtocol10 := hne
    unfold Response.Read
    simp only [h1, dropDelim_concat]
    rw [if_pos hp]
    rfl

/-- C28, witness: the start lines `RTSP/1.0 200 OK`, `RTSP/1.0 20 OK` and
`RTSP/1.0 -1 OK` are read as responses with the status codes 200, 20 and -1;
`RTSP/1.0 2x0 OK` and `RTSP/2.0 200 OK` are errors. -/
theorem Response_Read_status_witness :
    Response.Read sampleCodec "RTSP/1.0 200 OK\r\n\r\n".toList =
      .ok (.ok ({ StatusCode := 200, StatusMessage := "OK", Header := [], Body := "" }, [])) ∧
    Response.Read sampleCodec "RTSP/1.0 20 OK\r\n\r\n".toList =
      .ok (.ok ({ StatusCode := 20, StatusMessage := "OK", Header := [], Body := "" }, [])) ∧
    Response.Read sampleCodec "RTSP/1.0 -1 OK\r\n\r\n".toList =
      .ok (.ok ({ StatusCode := -1, StatusMessage := "OK", Header := [], Body := "" }, [])) ∧
    Response.Read sampleCodec "RTSP/1.0 2x0 OK\r\n\r\n".toList = .ok (.error "unable to parse status code") ∧
    Response.Read sampleCodec "RTSP/2.0 200 OK\r\n\r\n".toList =
      .ok (.error "expected 'RTSP/1.0', got 'RTSP/2.0'") :=
  ⟨(Response_Read_status sampleCodec sampleCodec_sound).1 "200" "OK" "" 200 [] [] (by decide) (by decide)
      (by decide) (by decide) (by decide) (by decide) rfl,
   (Response_Read_status sampleCodec sampleCodec_sound).1 "20" "OK" "" 20 [] [] (by decide) (by decide)
      (by decide) (by decide) (by decide) (by decide) rfl,
   (Response_Read_status sampleCodec sampleCodec_sound).1 "-1" "OK" "" (-1) [] [] (by decide) (by decide)
      (by decide) (by decide) (by decide) (by decide) rfl,
   (Response_Read_status sampleCodec sampleCodec_sound).2.2.1 "2x0" "OK\r\n\r\n".toList (by decide) (by decide)
      (by decide),
   (Response_Read_status sampleCodec sampleCodec_sound).2.2.2 "RTSP/2.0" "200 OK\r\n\r\n".toList (by decide)
      (by decide) (by decide)⟩

/-! ## base : reading back what was written -/

theorem headerLine_eq (key val : String) : headerLine key val = WireLine.bytes ⟨key, 1, val⟩ := by
  simp [headerLine, WireLine.bytes, String.toList, String.data_append]

theorem Header.write_eq (h : Header) (rest : List Char) :
    Header.write h ++ rest = h.wireLines.flatMap WireLine.bytes ++ '\r' :: '\n' :: rest := by
  unfold Header.write Header.wireLines
  rw [List.flatMap_map, List.append_assoc]
  simp only [headerLine_eq]
  rfl

/-- The names of the map built from lines: those it had, and the normalized
names of the lines. -/
theorem Header.keys_ofLines (u : CodecLib) (h : Header) (ls : List WireLine) (hnd : (h.map Prod.fst).Nodup) :
    ((Header.ofLines u h ls).map Prod.fst).Nodup ∧
    ∀ k : String, k ∈ (Header.ofLines u h ls).map Prod.fst ↔
      k ∈ h.map Prod.fst ∨ ∃ l ∈ ls, headerKeyNormalize u l.name = k := by
  induction ls generalizing h with
  | nil => exact ⟨hnd, fun k => by simp [Header.ofLines]⟩
  | cons l ls ih =>
    have e : Header.ofLines u h (l :: ls) = Header.ofLines u (h.append (headerKeyNormalize u l.name) l.value) ls :=
      rfl
    have hnd' : ((h.append (headerKeyNormalize u l.name) l.value).map Prod.fst).Nodup :=
      GoMap.nodup_set _ _ _ hnd
    obtain ⟨h1, h2⟩ := ih _ hnd'
    rw [e]
    refine ⟨h1, fun k => ?_⟩
    rw [h2 k]
    unfold Header.append
    rw [GoMap.keys_set]
    split
    · rename_i hin
      constructor
      · rintro (hk | ⟨l', hl', e'⟩)
        · exact Or.inl hk
        · exact Or.inr ⟨l', List.mem_cons_of_mem _ hl', e'⟩
      · rintro (hk | ⟨l', hl', e'⟩)
        · exact Or.inl hk
        · rcases List.mem_cons.1 hl' with rfl | hl''
          · exact Or.inl (e' ▸ hin)
          · exact Or.inr ⟨l', hl'', e'⟩
    · constructor
      · rintro (hk | ⟨l', hl', e'⟩)
        · rcases List.mem_append.1 hk with hk | hk
          · exact Or.inl hk
          · exact Or.inr ⟨l, List.mem_cons_self _ _, (List.mem_singleton.1 hk).symm⟩
        · exact Or.inr ⟨l', List.mem_cons_of_mem _ hl', e'⟩
      · rintro (hk | ⟨l', hl', e'⟩)
        · exact Or.inl (List.mem_append_left _ hk)
        · rcases List.mem_cons.1 hl' with rfl | hl''
          · exact Or.inl (List.mem_append_right _ (List.mem_singleton.2 e'.symm))
          · exact Or.inr ⟨l', hl'', e'⟩

theorem GoMap.set_same {V : Type} (m : GoMap V) (k : String) (v : V) (h : m.get k = some v) :
    m.set k v = m := by
  induction m with
  | nil => simp [GoMap.get] at h
  | cons e rest ih =>
    obtain ⟨a, w⟩ := e
    by_cases ha : a = k
    · simp only [GoMap.get, ha, if_true, Option.some.injEq] at h
      simp [GoMap.set, ha, h]
    · simp only [GoMap.get, ha, if_false] at h
      simp [GoMap.set, ha, ih h]

/-- C25 (amended): reading back what `Header.write` wrote. For a header map
whose lines, as `Header.write` emits them, are at most 255, with names that
are not empty, do not begin with CR, have no colon after the first byte and
are at most 511 bytes long, and with values without CR that do not begin with
a space and are at most 2047 bytes long: `Header.read` takes the bytes in and
leaves what follows unread. Under every name the map read holds the values of
the lines whose normalized name it is, in the order of the lines; so where no
other name of the map has the same normalized name, the values of a name are
found unchanged under its normalized name. -/
theorem Header_read_write (u : CodecLib) (hu : u.Sound) (h : Header) (hnd : (h.map Prod.fst).Nodup)
    (hwf : ∀ l ∈ h.wireLines, l.WellFormed) (hcount : h.lines.length ≤ 255) (rest : List Char) :
    ∃ back : Header, Header.read u (Header.write h ++ rest) = .ok (.ok (back, rest)) ∧
      (∀ key : String, back.values key =
        (h.lines.filter fun l => headerKeyNormalize u l.1 = key).map Prod.snd) ∧
      (∀ k : String, k ≠ "" → (∀ l ∈ h.lines, headerKeyNormalize u l.1 = headerKeyNormalize u k → l.1 = k) →
        back.values (headerKeyNormalize u k) = h.values k) := by
  have hv : ∀ key : String, (Header.ofLines u [] h.wireLines).values key =
      (h.lines.filter fun l => headerKeyNormalize u l.1 = key).map Prod.snd := by
    intro key
    rw [Header.values_ofLines]
    unfold Header.wireLines
    rw [List.filter_map, List.map_map]
    rfl
  refine ⟨Header.ofLines u [] h.wireLines, ?_, hv, fun k hk hinj => ?_⟩
  · rw [Header.write_eq]
    exact Header.read_block u hu _ hwf (by simpa [Header.wireLines] using hcount) rest
  · rw [hv]
    have hf : (h.lines.filter fun l => headerKeyNormalize u l.1 = headerKeyNormalize u k) =
        h.lines.filter fun l => l.1 = k := by
      apply List.filter_congr
      intro l hl
      by_cases e : l.1 = k
      · simp [e]
      · have : ¬ headerKeyNormalize u l.1 = headerKeyNormalize u k := fun e' => e (hinj l hl e')
        simp [e, this]
    rw [hf, Header.lines_filter h hnd k hk, List.map_map]
    exact List.map_id _

/-- C25, counterexample: a map with the value ` x`, which begins with a space,
under the name `A`. `Header.write` writes `A:  x`, and `Header.read` skips both
spaces: the map read back holds `x`. -/
theorem Header_read_write_counterexample :
    Header.write [("A", [" x"])] = "A:  x\r\n\r\n".toList ∧
    Header.read sampleCodec (Header.write [("A", [" x"])]) = .ok (.ok ([("A", ["x"])], [])) :=
  ⟨by decide, rfl⟩

/-- C25, witness: a map with two names, one of them with two values. -/
theorem Header_read_write_witness :
    ∃ back : Header,
      Header.read sampleCodec (Header.write [("CSeq", ["1"]), ("accept", ["a", "b"])] ++ "rest".toList) =
        .ok (.ok (back, "rest".toList)) ∧
      (∀ key : String, back.values key =
        ((Header.lines [("CSeq", ["1"]), ("accept", ["a", "b"])]).filter
          fun l => headerKeyNormalize sampleCodec l.1 = key).map Prod.snd) ∧
      (∀ k : String, k ≠ "" →
        (∀ l ∈ Header.lines [("CSeq", ["1"]), ("accept", ["a", "b"])],
          headerKeyNormalize sampleCodec l.1 = headerKeyNormalize sampleCodec k → l.1 = k) →
        back.values (headerKeyNormalize sampleCodec k) =
          Header.values [("CSeq", ["1"]), ("accept", ["a", "b"])] k) :=
  Header_read_write sampleCodec sampleCodec_sound [("CSeq", ["1"]), ("accept", ["a", "b"])] (by decide)
    (by decide) (by decide) "rest".toList

/-! ## base : `Request.Read` and `Request.Write` -/

/-- `Request.Read` on a request line, a block of well-formed header lines and
a body that the reader of bodies takes in. -/
theorem Request.Read_wire (lib : Lib) (u : CodecLib) (hu : u.Sound) (buf1 method rawURL : List Char)
    (ur : Rtsp.URL) (ls : List WireLine) (bodyBytes rest : List Char) (body : String)
    (hm : ' ' ∉ method) (hmlen : method.length ≤ 63) (hmne : buf1 ++ method ≠ [])
    (hr : ' ' ∉ rawURL) (hrlen : rawURL.length ≤ 2047) (hparse : lib.urlParse (String.mk rawURL) = .ok ur)
    (hwf : ∀ l ∈ ls, l.WellFormed) (hcount : ls.length ≤ 255)
    (hbody : u.bodyRead (Header.ofLines u [] ls) bodyBytes = .ok (body, rest)) :
    Request.Read lib u
        (method ++ ' ' :: (rawURL ++ ' ' :: ("RTSP/1.0".toList ++ '\r' :: '\n' ::
          (ls.flatMap WireLine.bytes ++ '\r' :: '\n' :: bodyBytes)))) buf1 =
      .ok (some ({ Method := String.mk (buf1 ++ method), URL := some ur,
                   Header := Header.ofLines u [] ls, Body := body }, rest)) := by
  have h1 := hu.found method (rawURL ++ ' ' :: ("RTSP/1.0".toList ++ '\r' :: '\n' ::
      (ls.flatMap WireLine.bytes ++ '\r' :: '\n' :: bodyBytes))) ' ' 64 hm (by omega)
  have h2 := hu.found rawURL ("RTSP/1.0".toList ++ '\r' :: '\n' ::
      (ls.flatMap WireLine.bytes ++ '\r' :: '\n' :: bodyBytes)) ' ' 2048 hr (by omega)
  have h3 := hu.found "RTSP/1.0".toList ('\n' :: (ls.flatMap WireLine.bytes ++ '\r' :: '\n' :: bodyBytes))
    '\r' 64 (by decide) (by decide)
  have hmne' : ¬ String.mk (buf1 ++ method) = "" := fun e => hmne (congrArg String.data e)
  have hp : ¬ String.mk "RTSP/1.0".toList ≠ RtspProtocol10 := by decide
  unfold Request.Read
  simp only [h1, dropDelim_concat, hmne', if_false, h2, hparse]
  simp only [h3, dropDelim_concat, hp, if_false, hu.equal, Header.read_block u hu ls hwf hcount, hbody]

/-- C26 (amended): `Request.Write` after `Request.Read`. For a request that is
a method, a space, a request URI that `url.Parse` takes, a space, `RTSP/1.0`,
CR LF, at most 255 well-formed header lines, the empty line and a body that
the reader of bodies takes in: `Request.Read` returns a request, and
`Request.Write` of that request writes the method, the URI as `URL.String`
prints it, `RTSP/1.0`, and then the header lines name by name, in ascending
order of the normalized names, the values of one name in the order of
arrival, every line as the normalized name, a colon, one space and the value;
then the empty line and the body. The spaces after the colon are not
reproduced: there is always exactly one. -/
theorem Request_Write_Read (lib : Lib) (u : CodecLib) (hu : u.Sound) (buf1 method rawURL : List Char)
    (ur : URL) (ls : List WireLine) (bodyBytes rest : List Char) (body : String)
    (hm : ' ' ∉ method) (hmlen : method.length ≤ 63) (hmne : buf1 ++ method ≠ [])
    (hr : ' ' ∉ rawURL) (hrlen : rawURL.length ≤ 2047) (hparse : lib.urlParse (String.mk rawURL) = .ok ur)
    (hwf : ∀ l ∈ ls, l.WellFormed) (hcount : ls.length ≤ 255)
    (hnames : ∀ l ∈ ls, headerKeyNormalize u l.name ≠ "")
    (hbody : u.bodyRead (Header.ofLines u [] ls) bodyBytes = .ok (body, rest))
    (hcl : body ≠ "" → (Header.ofLines u [] ls).get "Content-Length" = some [toString body.length]) :
    ∃ (req : Request) (names : List String),
      Request.Read lib u
        (method ++ ' ' :: (rawURL ++ ' ' :: ("RTSP/1.0".toList ++ '\r' :: '\n' ::
          (ls.flatMap WireLine.bytes ++ '\r' :: '\n' :: bodyBytes)))) buf1 = .ok (some (req, rest)) ∧
      names.Nodup ∧ names.Sorted strings.Le ∧
      (∀ k : String, k ∈ names ↔ ∃ l ∈ ls, headerKeyNormalize u l.name = k) ∧
      Request.Write lib u req =
        .ok ((String.mk (buf1 ++ method) ++ " " ++ lib.urlString ur ++ " " ++ RtspProtocol10 ++ "\r\n").toList ++
          ((names.flatMap fun key =>
            ((ls.filter fun l => headerKeyNormalize u l.name = key).flatMap fun l =>
              (key ++ ": " ++ l.value ++ "\r\n").toList)) ++ "\r\n".toList) ++ u.bodyWrite body) := by
  obtain ⟨hnd, hmem⟩ := Header.keys_ofLines u [] ls List.nodup_nil
  have hempty : (Header.ofLines u [] ls).values "" = [] := by
    rw [Header.values_ofLines]
    simp only [Header.values, GoMap.get, Option.getD_none, List.nil_append, List.map_eq_nil_iff,
      List.filter_eq_nil_iff, decide_eq_true_eq]
    exact hnames
  have hsame : (Header.ofLines u [] ls).withContentLength body = Header.ofLines u [] ls := by
    unfold Header.withContentLength
    split
    · rename_i hne
      have hb : body ≠ "" := fun e => hne (by rw [e]; rfl)
      exact GoMap.set_same _ _ _ (hcl hb)
    · rfl
  refine ⟨{ Method := String.mk (buf1 ++ method), URL := some ur, Header := Header.ofLines u [] ls,
            Body := body }, sort.Strings ((Header.ofLines u [] ls).map Prod.fst),
    Request.Read_wire lib u hu buf1 method rawURL ur ls bodyBytes rest body hm hmlen hmne hr hrlen hparse
      hwf hcount hbody,
    (sort.Strings_perm _).nodup_iff.2 hnd, sort.Strings_sorted _, fun k => ?_, ?_⟩
  · rw [(sort.Strings_perm _).mem_iff, hmem k]
    simp
  · have hv : ∀ key : String, (Header.ofLines u [] ls).values key =
        (ls.filter fun l => headerKeyNormalize u l.name = key).map WireLine.value := by
      intro key
      rw [Header.values_ofLines]
      rfl
    simp only [Request.Write, hsame, Header.write]
    rw [Header.lines_eq _ hempty, flatMap_lines]
    simp only [hv, List.flatMap_map, headerLine]

/-- C26, counterexample: the request `OPTIONS rtsp://example/stream RTSP/1.0`
with the header line `CSeq:1`, no space after the colon. It is read, and
written back with the line `CSeq: 1`: one byte more, while the name is in its
normalized form and there is one line only. -/
theorem Request_Write_Read_counterexample :
    ∃ req : Request, Request.Read setupLib sampleCodec tightRequest ['O'] = .ok (some (req, [])) ∧
      Request.Write setupLib sampleCodec req =
        .ok "OPTIONS rtsp://example/stream RTSP/1.0\r\nCSeq: 1\r\n\r\n".toList ∧
      'O' :: tightRequest = "OPTIONS rtsp://example/stream RTSP/1.0\r\nCSeq:1\r\n\r\n".toList :=
  ⟨{ Method := "OPTIONS", URL := some { Path := "rtsp://example/stream" }, Header := [("CSeq", ["1"])],
     Body := "" }, rfl, rfl, rfl⟩

/-- C26, witness: an ANNOUNCE with three header lines, written with no, two
and one space after the colon, and the body `ab`. -/
theorem Request_Write_Read_witness :
    ∃ (req : Request) (names : List String),
      Request.Read setupLib sampleCodec
        ("NNOUNCE".toList ++ ' ' :: ("/live".toList ++ ' ' :: ("RTSP/1.0".toList ++ '\r' :: '\n' ::
          (([⟨"cseq", 0, "3"⟩, ⟨"Content-length", 2, "2"⟩, ⟨"accept", 1, "a"⟩] : List WireLine).flatMap
            WireLine.bytes ++ '\r' :: '\n' :: "abREST".toList)))) ['A'] = .ok (some (req, "REST".toList)) ∧
      names.Nodup ∧ names.Sorted strings.Le ∧
      (∀ k : String, k ∈ names ↔
        ∃ l ∈ ([⟨"cseq", 0, "3"⟩, ⟨"Content-length", 2, "2"⟩, ⟨"accept", 1, "a"⟩] : List WireLine),
          headerKeyNormalize sampleCodec l.name = k) ∧
      Request.Write setupLib sampleCodec req =
        .ok ((String.mk (['A'] ++ "NNOUNCE".toList) ++ " " ++ setupLib.urlString { Path := "/live" } ++ " " ++
            RtspProtocol10 ++ "\r\n").toList ++
          ((names.flatMap fun key =>
            ((([⟨"cseq", 0, "3"⟩, ⟨"Content-length", 2, "2"⟩, ⟨"accept", 1, "a"⟩] : List WireLine).filter
              fun l => headerKeyNormalize sampleCodec l.name = key).flatMap fun l =>
                (key ++ ": " ++ l.value ++ "\r\n").toList)) ++ "\r\n".toList) ++
          sampleCodec.bodyWrite "ab") :=
  Request_Write_Read setupLib sampleCodec sampleCodec_sound ['A'] "NNOUNCE".toList "/live".toList
    { Path := "/live" } [⟨"cseq", 0, "3"⟩, ⟨"Content-length", 2, "2"⟩, ⟨"accept", 1, "a"⟩]
    "abREST".toList "REST".toList "ab" (by decide) (by decide) (by decide) (by decide) (by decide) rfl
    (by decide) (by decide) (by decide) rfl (fun _ => rfl)

/-! ### `ParseRTP` never panics -/

/-- C37: `ParseRTP` returns on every buffer, with or without spare capacity
behind its length: no index and no slice expression of the function is out of
range. Every result that is not nil has its payload offset at 12 or more, its
payload inside the buffer and at least one byte long, and the payload is the
bytes of the input from the payload offset on. -/
theorem ParseRTP_total (input : Slice) :
    (∃ result : Option RTPInfo, ParseRTP input = .ok result) ∧
    ∀ rtp : RTPInfo, ParseRTP input = .ok (some rtp) →
      12 ≤ rtp.PayloadOffset ∧ rtp.PayloadOffset + rtp.Payload.len ≤ input.len ∧ 1 ≤ rtp.Payload.len ∧
      rtp.Payload.elems = (input.elems.drop rtp.PayloadOffset.toNat).take rtp.Payload.elems.length := by
  refine ⟨?_, fun rtp h => ParseRTP_some_bounds input rtp h⟩
  by_cases hlen : input.len < 12
  · exact ⟨none, (ParseRTP_eq_none_iff input).2 (Or.inl hlen)⟩
  · exact ⟨_, ParseRTP_eq input (by omega)⟩

/-- C37, witness: the 32-byte buffer `sampleRTP`, whose payload of six bytes
begins at offset 24. -/
theorem ParseRTP_total_witness :
    ParseRTP sampleRTP = .ok (some sampleInfo) ∧
    (12 ≤ sampleInfo.PayloadOffset ∧ sampleInfo.PayloadOffset + sampleInfo.Payload.len ≤ sampleRTP.len ∧
      1 ≤ sampleInfo.Payload.len ∧
      sampleInfo.Payload.elems =
        (sampleRTP.elems.drop sampleInfo.PayloadOffset.toNat).take sampleInfo.Payload.elems.length) :=
  ⟨by decide, (ParseRTP_total sampleRTP).2 sampleInfo (by decide)⟩

/-! ### pusher.go : the keyframe handling on a payload of one byte -/

/-- C38: the keyframe handling of `Pusher.Start` on a result of `ParseRTP`
whose payload is one byte `b`, for a pusher with video codec h264. `ParseRTP`
only guarantees one payload byte. If `b & 0x1F` is 28 or 29, `isKeyframe`
reads `Payload[1]` and the index is out of range: the test of line 264 and the
whole step panic. If `b & 0x1F` is 5 the frame is a keyframe, and for a pusher
with a client the branch panics at a slice expression: `Payload[2:]` when a
payload hook is switched on, else `Payload[:2]` when the payload has no spare
capacity. With two payload bytes or more `isKeyframe` returns. -/
theorem keyframe_short_payload (p : Pusher) (vcodec : String) (pack : RTPPack) (rtp : RTPInfo) (b : Byte)
    (hv : p.VCodec = .ok vcodec) (hc : strings.EqualFold vcodec "h264" = true)
    (hp : ParseRTP pack.Bytes = .ok (some rtp)) :
    (rtp.Payload.elems = [b] → (b.val &&& 0x1F = 28 ∨ b.val &&& 0x1F = 29) →
      p.isKeyframe rtp = .panic .indexOutOfRange ∧ p.keyframeInfo pack = .panic .indexOutOfRange ∧
      (p.gopCacheEnable = true → pack.Type_ = RTP_TYPE_VIDEO → p.process pack = .panic .indexOutOfRange)) ∧
    (rtp.Payload = ⟨[b], []⟩ → b.val &&& 0x1F = 5 → ∀ c : Client, p.Client = some c →
      p.keyframeInfo pack = .ok (some rtp) ∧ p.rewriteKeyframe pack rtp = .panic .sliceOutOfRange ∧
      (p.gopCacheEnable = true → pack.Type_ = RTP_TYPE_VIDEO → p.process pack = .panic .sliceOutOfRange)) ∧
    (2 ≤ rtp.Payload.elems.length → ∃ key : Bool, p.isKeyframe rtp = .ok key) := by
  refine ⟨fun h1 ht => ?_, fun h1 ht c hcl => ?_, fun h2 => ?_⟩
  · have hk : p.isKeyframe rtp = .panic .indexOutOfRange := by
      have h0 : rtp.Payload.index 0 = .ok b := by simp [Slice.index, h1]
      have hi : rtp.Payload.index 1 = .panic .indexOutOfRange := by simp [Slice.index, h1]
      have hnot : ¬ b.val &&& 0x1F ≤ 23 := by omega
      unfold Pusher.isKeyframe
      simp only [hv, Go.ok_bind, hc, if_true, h0, hnot, if_false, ht, hi]
      rfl
    have hki : p.keyframeInfo pack = .panic .indexOutOfRange := by
      unfold Pusher.keyframeInfo
      simp only [hp, Go.ok_bind, hk]
      rfl
    refine ⟨hk, hki, fun hg hvid => ?_⟩
    have hcond : (p.gopCacheEnable && pack.Type_ == RTP_TYPE_VIDEO) = true := by simp [hg, hvid]
    unfold Pusher.process
    rw [if_pos hcond, hki]
    rfl
  · have hk : p.isKeyframe rtp = .ok true := by
      have h0 : rtp.Payload.index 0 = .ok b := by simp [Slice.index, h1]
      have hle : b.val &&& 0x1F ≤ 23 := by omega
      unfold Pusher.isKeyframe
      simp only [hv, Go.ok_bind, hc, if_true, h0, hle, ht]
      rfl
    have hki : p.keyframeInfo pack = .ok (some rtp) := by
      unfold Pusher.keyframeInfo
      simp only [hp, Go.ok_bind, hk]
      rfl
    have hfrom : rtp.Payload.sliceFrom 2 = .panic .sliceOutOfRange := by
      simp [Slice.sliceFrom, Slice.len, h1]
    have hto : rtp.Payload.sliceTo 2 = .panic .sliceOutOfRange := by
      simp [Slice.sliceTo, Slice.slice, Slice.cap, h1]
    have hrw : ∀ q : Pusher, q.Client = some c → q.rewriteKeyframe pack rtp = .panic .sliceOutOfRange := by
      intro q hq
      unfold Pusher.rewriteKeyframe
      rw [hq]
      simp only [Go.pure_eq, Go.ok_bind, hfrom, hto]
      cases c.options.IsEncrypt <;> cases c.options.IsDecode <;> rfl
    refine ⟨hki, hrw p hcl, fun hg hvid => ?_⟩
    have hcond : (p.gopCacheEnable && pack.Type_ == RTP_TYPE_VIDEO) = true := by simp [hg, hvid]
    unfold Pusher.process
    rw [if_pos hcond, hki]
    simp only [Go.ok_bind, hrw { p with gopCache := [] } hcl]
    rfl
  · obtain ⟨b0, hb0⟩ : ∃ b0, rtp.Payload.index 0 = .ok b0 :=
      ⟨_, Slice.index_ok _ 0 (by omega) (by unfold Slice.len; omega)⟩
    obtain ⟨b1, hb1⟩ : ∃ b1, rtp.Payload.index 1 = .ok b1 :=
      ⟨_, Slice.index_ok _ 1 (by omega) (by unfold Slice.len; omega)⟩
    unfold Pusher.isKeyframe
    simp only [hv, Go.ok_bind, hc, if_true, hb0, hb1]
    split
    · exact ⟨_, rfl⟩
    · split
      · split <;> exact ⟨_, rfl⟩
      · exact ⟨_, rfl⟩

/-- C38, witness: the pusher `clientPusher` (codec h264, no payload hook) on the
13-byte packs `fuShortPack` and `idrShortPack`. -/
theorem keyframe_short_payload_witness :
    (ParseRTP fuShortPack.Bytes = .ok (some (shortInfo 0x7c)) ∧
      clientPusher.process fuShortPack = .panic .indexOutOfRange) ∧
    (ParseRTP idrShortPack.Bytes = .ok (some (shortInfo 0x65)) ∧
      clientPusher.process idrShortPack = .panic .sliceOutOfRange) :=
  ⟨⟨by decide,
    ((keyframe_short_payload clientPusher "h264" fuShortPack (shortInfo 0x7c) 0x7c rfl (by decide)
      (by decide)).1 rfl (by decide)).2.2 rfl rfl⟩,
   ⟨by decide,
    ((keyframe_short_payload clientPusher "h264" idrShortPack (shortInfo 0x65) 0x65 rfl (by decide)
      (by decide)).2.1 rfl (by decide) plainClient rfl).2.2 rfl rfl⟩⟩

/-! ### pusher.go : one step of `Pusher.Start` and the GOP cache -/

/-- The test of line 264 in terms of its two parts. -/
theorem keyframeInfo_eq (p : Pusher) (pack : RTPPack) :
    (ParseRTP pack.Bytes = .ok none → p.keyframeInfo pack = .ok none) ∧
    (∀ (rtp : RTPInfo) (key : Bool), ParseRTP pack.Bytes = .ok (some rtp) → p.isKeyframe rtp = .ok key →
      p.keyframeInfo pack = .ok (if key then some rtp else none)) := by
  refine ⟨fun h => ?_, fun rtp key h hk => ?_⟩
  · unfold Pusher.keyframeInfo
    rw [h]
    rfl
  · unfold Pusher.keyframeInfo
    rw [h]
    simp only [Go.ok_bind, hk]
    cases key <;> rfl

/-- A keyframe on a pusher without client: the step of `Pusher.Start` panics
where it reads `p.Client.options`. -/
theorem process_without_client (p : Pusher) (pack : RTPPack) (rtp : RTPInfo) (hg : p.gopCacheEnable = true)
    (hv : pack.Type_ = RTP_TYPE_VIDEO) (hp : ParseRTP pack.Bytes = .ok (some rtp))
    (hk : p.isKeyframe rtp = .ok true) (hc : p.Client = none) :
    p.process pack = .panic .nilDereference := by
  have hcond : (p.gopCacheEnable && pack.Type_ == RTP_TYPE_VIDEO) = true := by simp [hg, hv]
  have hki : p.keyframeInfo pack = .ok (some rtp) := (keyframeInfo_eq p pack).2 rtp true hp hk
  unfold Pusher.process
  rw [if_pos hcond, hki]
  simp only [Go.ok_bind, Pusher.rewriteKeyframe, hc]
  rfl

/-- C34: one step of `Pusher.Start` on a dequeued pack, GOP caching enabled. A
pack that is not video leaves the GOP cache as it was. A video pack that does
not parse as RTP, or that is not a keyframe, is appended to the cache. For a
video keyframe with two payload bytes or more and a pusher that has a client,
the cache afterwards holds one pack, the pack of the frame with its buffer
rewritten to the RTP header, the first two payload bytes and what the payload
hooks return: the cache is reset whatever the encrypt and decode options are.
For a pusher without client, as `NewPusher` builds it, the step panics on a
keyframe: after the reset it reads `p.Client.options` through the nil
pointer. -/
theorem process_gop_cache (p : Pusher) (pack : RTPPack) (hg : p.gopCacheEnable = true) :
    (pack.Type_ ≠ RTP_TYPE_VIDEO → ∃ q : Pusher, p.process pack = .ok q ∧ q.gopCache = p.gopCache) ∧
    (pack.Type_ = RTP_TYPE_VIDEO → ParseRTP pack.Bytes = .ok none →
      ∃ q : Pusher, p.process pack = .ok q ∧ q.gopCache = p.gopCache ++ [pack]) ∧
    (∀ rtp : RTPInfo, pack.Type_ = RTP_TYPE_VIDEO → ParseRTP pack.Bytes = .ok (some rtp) →
      p.isKeyframe rtp = .ok false →
      ∃ q : Pusher, p.process pack = .ok q ∧ q.gopCache = p.gopCache ++ [pack]) ∧
    (∀ (rtp : RTPInfo) (c : Client), pack.Type_ = RTP_TYPE_VIDEO → ParseRTP pack.Bytes = .ok (some rtp) →
      p.isKeyframe rtp = .ok true → 2 ≤ rtp.Payload.elems.length → p.Client = some c → c.hooksSet = true →
      ∃ (q : Pusher) (payload : List Byte), p.process pack = .ok q ∧
        q.gopCache = [{ pack with
          Buffer := pack.Buffer.take rtp.PayloadOffset.toNat ++ (rtp.Payload.elems.take 2 ++ payload) }]) ∧
    (∀ rtp : RTPInfo, pack.Type_ = RTP_TYPE_VIDEO → ParseRTP pack.Bytes = .ok (some rtp) →
      p.isKeyframe rtp = .ok true → p.Client = none → p.process pack = .panic .nilDereference) := by
  refine ⟨fun hv => ?_, fun hv hp => ?_, fun rtp hv hp hk => ?_, fun rtp c hv hp hk h2 hc hh => ?_,
    fun rtp hv hp hk hc => ?_⟩
  · refine ⟨_, process_not_cached p pack ?_, rfl⟩
    cases ht : pack.Type_ <;> simp_all
  · exact ⟨_, process_delta p pack hg hv ((keyframeInfo_eq p pack).1 hp), rfl⟩
  · exact ⟨_, process_delta p pack hg hv ((keyframeInfo_eq p pack).2 rtp false hp hk), rfl⟩
  · obtain ⟨payload, h⟩ := process_key p c hc hh pack rtp hg hv ((keyframeInfo_eq p pack).2 rtp true hp hk) h2
    exact ⟨_, payload, h, rfl⟩
  · exact process_without_client p pack rtp hg hv hp hk hc

/-- C34, witness: the packs `audioPack`, `deltaPack` and `keyPack` on the
client-backed pusher `clientPusher` that holds `deltaPack` in its cache, and
`keyPack` on the session-backed pusher `sessionPusher`. -/
theorem process_gop_cache_witness :
    (∃ q : Pusher, Pusher.process { clientPusher with gopCache := [deltaPack] } audioPack = .ok q ∧
      q.gopCache = [deltaPack]) ∧
    (∃ q : Pusher, Pusher.process { clientPusher with gopCache := [deltaPack] } deltaPack = .ok q ∧
      q.gopCache = [deltaPack, deltaPack]) ∧
    (∃ (q : Pusher) (payload : List Byte),
      Pusher.process { clientPusher with gopCache := [deltaPack] } keyPack = .ok q ∧
      q.gopCache = [{ keyPack with
        Buffer := keyPack.Buffer.take keyPackInfo.PayloadOffset.toNat ++
          (keyPackInfo.Payload.elems.take 2 ++ payload) }]) ∧
    (sessionPusher "s1" "/cam").process keyPack = .panic .nilDereference :=
  ⟨(process_gop_cache { clientPusher with gopCache := [deltaPack] } audioPack rfl).1 (by decide),
   (process_gop_cache { clientPusher with gopCache := [deltaPack] } deltaPack rfl).2.2.1
      { keyPackInfo with Payload := ⟨[0x41, 0x9a, 0x02, 0x03], []⟩ } rfl (by decide) (by decide),
   (process_gop_cache { clientPusher with gopCache := [deltaPack] } keyPack rfl).2.2.2.1
      keyPackInfo plainClient rfl (by decide) (by decide) (by decide) rfl rfl,
   (process_gop_cache (sessionPusher "s1" "/cam") keyPack rfl).2.2.2.2 keyPackInfo rfl (by decide)
      (by decide) rfl⟩

/-! ### pusher.go : a pusher without client -/

/-- The replay of the GOP cache to a player returns, and changes nothing but
the queue of that player. -/
theorem Heap.replay_run (pl : Ptr) (packs : List RTPPack) :
    ∀ (w : Heap.World) (plo : Heap.Player), w.players.get pl = some plo →
      ∃ plo' : Heap.Player, (Heap.Pusher.replay (some pl) packs w).1 = .ok () ∧
        (Heap.Pusher.replay (some pl) packs w).2.pushers = w.pushers ∧
        (Heap.Pusher.replay (some pl) packs w).2.sessions = w.sessions ∧
        (Heap.Pusher.replay (some pl) packs w).2.servers = w.servers ∧
        (Heap.Pusher.replay (some pl) packs w).2.players.get pl = some plo' ∧
        plo'.Session = plo.Session := by
  induction packs with
  | nil => intro w plo h; exact ⟨plo, rfl, rfl, rfl, rfl, h, rfl⟩
  | cons pack rest ih =>
    intro w plo h
    by_cases hd : (plo.paused && plo.dropPacketWhenPaused) = true
    · have h1 : Heap.Player.QueueRTP (some pl) pack w = (.ok (), w) := by
        unfold Heap.Player.QueueRTP
        simp only [Act.bind_run, Heap.nonNil_some, Heap.player_run w pl plo h]
        rw [if_pos hd]
        rfl
      obtain ⟨plo', e1, e2, e3, e4, e5, e6⟩ := ih w plo h
      refine ⟨plo', ?_, ?_, ?_, ?_, ?_, e6⟩ <;>
        simp only [Heap.Pusher.replay, Act.bind_run, h1] <;> assumption
    · have h1 : ∃ o : Heap.Player, o.Session = plo.Session ∧ Heap.Player.QueueRTP (some pl) pack w =
          (.ok (), { w with players := w.players.set pl o }) := by
        refine ⟨{ plo with queue :=
          if plo.queueLimit > 0 ∧ ((plo.queue ++ [pack]).length : Int) > plo.queueLimit
          then (plo.queue ++ [pack]).drop 1 else plo.queue ++ [pack] }, rfl, ?_⟩
        unfold Heap.Player.QueueRTP
        simp only [Act.bind_run, Heap.nonNil_some, Heap.player_run w pl plo h]
        rw [if_neg hd, Heap.setPlayer_run w pl plo _ h]
      obtain ⟨o, ho, h1⟩ := h1
      obtain ⟨plo', e1, e2, e3, e4, e5, e6⟩ := ih { w with players := w.players.set pl o } o
        (by simp [GoMap.get_set])
      refine ⟨plo', ?_, ?_, ?_, ?_, ?_, e6.trans ho⟩ <;>
        simp only [Heap.Pusher.replay, Act.bind_run, h1] <;> assumption

/-- C40: a pusher made by `NewPusher` has no client, and the code reads
`p.Client` all the same. `AddPlayer` with a player that is not yet in the
subscriber set enters the player and then panics at `p.Client.Println`;
`RemovePlayer` on a subscriber set that is not empty deletes the ID of the
player and then panics at the same call; the step of `Pusher.Start` on a video
keyframe panics at `p.Client.options`. None of the three returns. -/
theorem NewPusher_client_absent (fresh s : Ptr) (w : Heap.World) (so : Heap.Session)
    (hs : w.sessions.get s = some so) :
    ((Heap.NewPusher fresh (some s) w).1 = .ok fresh ∧
      (Heap.NewPusher fresh (some s) w).2.pushers.get fresh =
        some { Session := some s, Client := none, players := [], gopCacheEnable := true, gopCache := [],
               queue := [] }) ∧
    (∀ (w1 : Heap.World) (q pl ps : Ptr) (po : Heap.Pusher) (plo : Heap.Player) (pso : Heap.Session),
      w1.pushers.get q = some po → po.Client = none → w1.players.get pl = some plo →
      plo.Session = some ps → w1.sessions.get ps = some pso → po.players.get pso.ID = none →
      (Heap.Pusher.AddPlayer (some q) (some pl) w1).1 = .panic .nilDereference ∧
      ((Heap.Pusher.AddPlayer (some q) (some pl) w1).2.pushers.get q).map (·.players) =
        some (po.players.set pso.ID pl)) ∧
    (∀ (w1 : Heap.World) (q pl ps : Ptr) (po : Heap.Pusher) (plo : Heap.Player) (pso : Heap.Session),
      w1.pushers.get q = some po → po.Client = none → w1.players.get pl = some plo →
      plo.Session = some ps → w1.sessions.get ps = some pso → po.players.size ≠ 0 →
      (Heap.Pusher.RemovePlayer q (some pl) w1).1 = .panic .nilDereference ∧
      ((Heap.Pusher.RemovePlayer q (some pl) w1).2.pushers.get q).map (·.players) =
        some (po.players.delete pso.ID)) ∧
    (∀ (p : Pusher) (pack : RTPPack) (rtp : RTPInfo), p.Client = none → p.gopCacheEnable = true →
      pack.Type_ = RTP_TYPE_VIDEO → ParseRTP pack.Bytes = .ok (some rtp) → p.isKeyframe rtp = .ok true →
      p.process pack = .panic .nilDereference) := by
  refine ⟨?_, fun w1 q pl ps po plo pso hq hc hpl hps hso hnew => ?_,
    fun w1 q pl ps po plo pso hq hc hpl hps hso hne => ?_,
    fun p pack rtp hc hg hv hp hk => process_without_client p pack rtp hg hv hp hk hc⟩
  · simp [Heap.NewPusher, Heap.Pusher.bindSession, Heap.setPusher, Heap.pusher, GoMap.get_set,
      Heap.setSession, Heap.session, hs]
  · obtain ⟨plo', e1, e2, e3, e4, e5, e6⟩ := Heap.replay_run pl po.gopCache w1 plo hpl
    have hmain : ∀ (w2 : Heap.World) (tail : Act Heap.World Unit), w2.pushers = w1.pushers →
        w2.sessions = w1.sessions → (∃ o : Heap.Player, w2.players.get pl = some o ∧ o.Session = some ps) →
        tail = (do
          let pl' ← (Heap.nonNil (some pl) : Act Heap.World Ptr)
          let id ← Heap.Player.ID (some pl')
          let po ← Heap.pusher q
          match po.players.get id with
          | some _ => pure ()
          | none =>
            Heap.setPusher q fun o => { o with players := o.players.set id pl' }
            Heap.Pusher.clientPrintln q) →
        (tail w2).1 = .panic .nilDereference ∧
        ((tail w2).2.pushers.get q).map (·.players) = some (po.players.set pso.ID pl) := by
      intro w2 tail h1 h2 h3 ht
      obtain ⟨o, h3, h4⟩ := h3
      subst ht
      simp [Heap.Player.ID, Heap.player, h3, h4, Heap.session, h2, hso, Heap.pusher, h1, hq, hnew,
        Heap.setPusher, Heap.Pusher.clientPrintln, GoMap.get_set, hc, Client.Println]
    cases hg : po.gopCacheEnable with
    | false =>
      have := hmain w1 _ rfl rfl ⟨plo, hpl, hps⟩ rfl
      simpa only [Heap.Pusher.AddPlayer, Act.bind_run, Heap.nonNil_some, Heap.pusher_run w1 q po hq, hg,
        Bool.false_eq_true, if_false, Act.pure_run] using this
    | true =>
      have := hmain _ _ e2 e3 ⟨plo', e5, e6.trans hps⟩ rfl
      simp only [Heap.Pusher.AddPlayer, Act.bind_run, Heap.nonNil_some, Heap.pusher_run w1 q po hq, hg,
        if_true] at this ⊢
      generalize Heap.Pusher.replay (some pl) po.gopCache w1 = r at e1 this ⊢
      obtain ⟨r1, r2⟩ := r
      simp only at e1
      subst e1
      exact this
  · simp [Heap.Pusher.RemovePlayer, Heap.pusher, hq, hne, Heap.Player.ID, Heap.player, hpl, hps,
      Heap.session, hso, Heap.setPusher, Heap.Pusher.clientPrintln, GoMap.get_set, hc, Client.Println]

/-- C40, witness: on the sample relay, `NewPusher` for session `new` builds a
pusher without client; `AddPlayer` of the player of session `b` and
`RemovePlayer` of the player of session `a` on the pusher `P` panic after they
have changed the subscriber set; the step of `Pusher.Start` panics on
`keyPack`. -/
theorem NewPusher_client_absent_witness :
    ((Heap.NewPusher "N" (some "new") Heap.liveWorld).1 = .ok "N" ∧
      (Heap.NewPusher "N" (some "new") Heap.liveWorld).2.pushers.get "N" =
        some { Session := some "new", Client := none, players := [], gopCacheEnable := true, gopCache := [],
               queue := [] }) ∧
    ((Heap.Pusher.AddPlayer (some "P") (some "pb") Heap.joinWorld).1 = .panic .nilDereference ∧
      ((Heap.Pusher.AddPlayer (some "P") (some "pb") Heap.joinWorld).2.pushers.get "P").map (·.players) =
        some [("a", "pa"), ("b", "pb")]) ∧
    ((Heap.Pusher.RemovePlayer "P" (some "pa") Heap.liveWorld).1 = .panic .nilDereference ∧
      ((Heap.Pusher.RemovePlayer "P" (some "pa") Heap.liveWorld).2.pushers.get "P").map (·.players) =
        some [("b", "pb")]) ∧
    (sessionPusher "s1" "/cam").process keyPack = .panic .nilDereference :=
  ⟨(NewPusher_client_absent "N" "new" Heap.liveWorld Heap.newSession rfl).1,
   (NewPusher_client_absent "N" "new" Heap.liveWorld Heap.newSession rfl).2.1 Heap.joinWorld "P" "pb" "b"
      { Session := some "old", Client := none, players := [("a", "pa")], gopCacheEnable := true,
        gopCache := [keyPack, deltaPack], queue := [] }
      (Heap.viewerPlayer "b") (Heap.viewer "b" "pb") rfl rfl rfl rfl rfl rfl,
   (NewPusher_client_absent "N" "new" Heap.liveWorld Heap.newSession rfl).2.2.1 Heap.liveWorld "P" "pa" "a"
      { Session := some "old", Client := none, players := [("a", "pa"), ("b", "pb")], gopCacheEnable := true,
        gopCache := [keyPack, deltaPack], queue := [] }
      (Heap.viewerPlayer "a") (Heap.viewer "a" "pa") rfl rfl rfl rfl rfl (by decide),
   (NewPusher_client_absent "N" "new" Heap.liveWorld Heap.newSession rfl).2.2.2 (sessionPusher "s1" "/cam")
      keyPack keyPackInfo rfl rfl rfl (by decide) (by decide)⟩

/-! ## base : `Header.write` and the empty name -/

theorem GoMap.get_absent {V : Type} (m : GoMap V) (k : String) (h : k ∉ m.map Prod.fst) : m.get k = none := by
  induction m with
  | nil => rfl
  | cons e rest ih =>
    obtain ⟨a, w⟩ := e
    simp only [List.map_cons, List.mem_cons, not_or] at h
    have : ¬ a = k := fun e => h.1 e.symm
    simp [GoMap.get, this, ih h.2]

/-- How often a pair of a name and a value is among the lines written for a
list of names. -/
theorem count_lines (keys : List String) (vals : String → List String) (k v : String) :
    (keys.flatMap fun key => (vals key).map fun val => (key, val)).count (k, v) =
      keys.count k * (vals k).count v := by
  induction keys with
  | nil => simp
  | cons a keys ih =>
    rw [List.flatMap_cons, List.count_append, ih, List.count_cons]
    by_cases e : a = k
    · subst e
      have : ∀ l : List String, (l.map fun val => (a, val)).count (a, v) = l.count v := by
        intro l
        induction l with
        | nil => rfl
        | cons x xs ih2 => simp [List.count_cons, ih2]
      rw [this]
      simp [Nat.add_mul, Nat.add_comm]
    · have : ((vals a).map fun val => (a, val)).count (k, v) = 0 := by
        rw [List.count_eq_zero]
        intro hm
        obtain ⟨x, _, hx⟩ := List.mem_map.1 hm
        exact e (Prod.mk.inj hx).1
      rw [this]
      simp [e]

/-- C35: the lines of `Header.write` for a header map, each key once. A pair of
a name that is not empty and a value is written as often as the value stands
under the name: one line for each pair. A pair of the empty name and a value
is written `len(h) + 1` times as often: the slice of keys begins with `len(h)`
empty strings, and each of them writes the values under the empty name once
more. So a map with a value under the empty name gets lines for the empty
name, and at least two for each of its values. -/
theorem Header_write_empty_name (h : Header) (hnd : (h.map Prod.fst).Nodup) :
    (∀ k v : String, k ≠ "" → h.lines.count (k, v) = (h.values k).count v) ∧
    (∀ v : String, h.lines.count ("", v) = (h.size + 1) * (h.values "").count v) ∧
    (∀ v : String, v ∈ h.values "" → ("", v) ∈ h.lines ∧ 2 ≤ h.lines.count ("", v)) := by
  have hcount : ∀ k v : String, h.lines.count (k, v) = h.sortedKeys.count k * (h.values k).count v :=
    fun k v => count_lines h.sortedKeys h.values k v
  have hkeys : ∀ k : String, h.sortedKeys.count k =
      (if k = "" then h.size else 0) + (h.map Prod.fst).count k := by
    intro k
    unfold Header.sortedKeys
    rw [(sort.Strings_perm _).count_eq, List.count_append, List.count_replicate]
    by_cases e : k = ""
    · simp [e]
    · have : ¬ "" = k := fun e' => e e'.symm
      simp [e, this]
  have hval : ∀ k v : String, (h.map Prod.fst).count k * (h.values k).count v = (h.values k).count v := by
    intro k v
    by_cases hm : k ∈ h.map Prod.fst
    · rw [List.count_eq_one_of_mem hnd hm, Nat.one_mul]
    · have : h.values k = [] := by
        unfold Header.values
        rw [GoMap.get_absent h k hm]
        rfl
      simp [this]
  have h2 : ∀ v : String, h.lines.count ("", v) = (h.size + 1) * (h.values "").count v := by
    intro v
    rw [hcount, hkeys, if_pos rfl, Nat.add_mul, Nat.add_mul, hval, Nat.one_mul]
  refine ⟨fun k v hk => ?_, h2, fun v hv => ?_⟩
  · rw [hcount, hkeys, if_neg hk, Nat.zero_add, hval]
  · have hpos : 1 ≤ (h.values "").count v := List.count_pos_iff.2 hv
    have hsize : 1 ≤ h.size := by
      have hm : "" ∈ h.map Prod.fst := by
        by_contra hc
        have : h.values "" = [] := by
          unfold Header.values
          rw [GoMap.get_absent h "" hc]
          rfl
        rw [this] at hv
        cases hv
      unfold GoMap.size
      have := List.length_pos_of_mem hm
      rw [List.length_map] at this
      exact this
    have hc : 2 ≤ h.lines.count ("", v) := by
      rw [h2]
      calc 2 = (1 + 1) * 1 := rfl
        _ ≤ (h.size + 1) * (h.values "").count v := Nat.mul_le_mul (by omega) hpos
    exact ⟨List.count_pos_iff.1 (by omega), hc⟩

/-- C35, witness: the map with `x` under the empty name and `1` under `A`. The
line `: x` is written three times. -/
theorem Header_write_empty_name_witness :
    Header.write [("", ["x"]), ("A", ["1"])] = ": x\r\n: x\r\n: x\r\nA: 1\r\n\r\n".toList ∧
    (("", "x") ∈ Header.lines [("", ["x"]), ("A", ["1"])] ∧
      2 ≤ (Header.lines [("", ["x"]), ("A", ["1"])]).count ("", "x")) :=
  ⟨by decide, (Header_write_empty_name [("", ["x"]), ("A", ["1"])] (by decide)).2.2 "x" (by decide)⟩

/-! ### `handleRequest` : the track test of SETUP -/

/-- The last index below `n + 1` at which a test holds. -/
theorem find_last_range (p : Nat → Bool) (n i : Nat) (hi : i ≤ n) (hp : p i = true)
    (hlast : ∀ j, i < j → j ≤ n → p j = false) :
    (List.range (n + 1)).reverse.find? p = some i := by
  induction n with
  | zero =>
    have : i = 0 := by omega
    subst this
    simp [List.range_succ, hp]
  | succ m ih =>
    rw [List.range_succ, List.reverse_append, List.reverse_singleton, List.singleton_append]
    by_cases e : i = m + 1
    · subst e
      simp [hp]
    · have hm := hlast (m + 1) (by omega) (by omega)
      rw [List.find?_cons, hm]
      exact ih (by omega) (fun j h1 h2 => hlast j h1 (by omega))

/-- When `strings.LastIndex(s, substr)` is `len(s) - len(substr)`: when `s` ends
with `substr`, and also when `substr` is one byte longer than `s`, for then it
does not occur and the index is `-1`. -/
theorem strings.LastIndex_eq_iff (s substr : String) :
    strings.LastIndex s substr = strings.len s - strings.len substr ↔
      List.IsSuffix (goBytes substr) (goBytes s) ∨ strings.len substr = strings.len s + 1 := by
  unfold strings.LastIndex strings.len
  generalize goBytes s = S
  generalize goBytes substr = T
  constructor
  · intro h
    cases hf : (List.range (S.length + 1)).reverse.find? (fun i => T.isPrefixOf (S.drop i)) with
    | none =>
      rw [hf] at h
      right
      simp only at h
      omega
    | some i =>
      rw [hf] at h
      simp only at h
      left
      have hp := List.find?_some hf
      have hpre : List.IsPrefix T (S.drop i) := List.isPrefixOf_iff_prefix.1 hp
      have hlen : (S.drop i).length = T.length := by
        rw [List.length_drop]
        have := hpre.length_le
        rw [List.length_drop] at this
        omega
      have : T = S.drop i := hpre.eq_of_length hlen.symm
      rw [this]
      exact List.drop_suffix i S
  · intro h
    rcases h with ⟨R, hR⟩ | h
    · have hlen : S.length = R.length + T.length := by rw [← hR, List.length_append]
      have hf : (List.range (S.length + 1)).reverse.find? (fun i => T.isPrefixOf (S.drop i)) =
          some R.length := by
        apply find_last_range _ _ _ (by omega)
        · simp [← hR]
        · intro j h1 h2
          have hn : ¬ List.IsPrefix T (S.drop j) := by
            intro hc
            have := hc.length_le
            rw [List.length_drop] at this
            omega
          cases hb : T.isPrefixOf (S.drop j) with
          | false => rfl
          | true => exact absurd ( List.isPrefixOf_iff_prefix.1 hb) hn
      rw [hf]
      simp only
      omega
    · have hf : (List.range (S.length + 1)).reverse.find? (fun i => T.isPrefixOf (S.drop i)) = none := by
        rw [List.find?_eq_none]
        intro j _
        have hn : ¬ List.IsPrefix T (S.drop j) := by
          intro hc
          have := hc.length_le
          rw [List.length_drop] at this
          omega
        simpa using hn
      rw [hf]
      simp only
      omega

/-- The three outcomes of SETUP with a `Transport` header that names
interleaved channels. -/
theorem Heap.setup_tracks (lib : Lib) (fresh : Ptr) (nonce : String) (s : Ptr) (w : Heap.World)
    (so : Heap.Session) (req : Request) (u : URL) (p : Ptr) (ts0 : String) (ts : List String)
    (aPath vPath : String) (m0 m1 m2 m3 : String)
    (hs : w.sessions.get s = some so) (hauth : so.authorization = false)
    (hm : req.Method = "SETUP") (hu : req.URL = some u) (ht : req.Header.get "Transport" = some (ts0 :: ts))
    (hp : so.Pusher = some p)
    (ha : controlPath lib so.AControl = some aPath) (hv : controlPath lib so.VControl = some vPath)
    (hmatch : lib.FindStringSubmatch ts0 = some [m0, m1, m2, m3]) :
    (isTrack (urlWithPort lib u) aPath = true →
      (Heap.Session.handleRequest lib fresh nonce s (some req) w).2.out.map Response.StatusCode = [StatusOK] ∧
      (Heap.Session.handleRequest lib fresh nonce s (some req) w).2.world.sessions.get s =
        some { so with TransType := TransTypeTcp, aRtpPort := lib.Atoi m1, aRtcpPort := lib.Atoi m3 }) ∧
    (isTrack (urlWithPort lib u) aPath = false → isTrack (urlWithPort lib u) vPath = true →
      (Heap.Session.handleRequest lib fresh nonce s (some req) w).2.out.map Response.StatusCode = [StatusOK] ∧
      (Heap.Session.handleRequest lib fresh nonce s (some req) w).2.world.sessions.get s =
        some { so with TransType := TransTypeTcp, vRtpPort := lib.Atoi m1, vRtcpPort := lib.Atoi m3 }) ∧
    (isTrack (urlWithPort lib u) aPath = false → isTrack (urlWithPort lib u) vPath = false →
      (Heap.Session.handleRequest lib fresh nonce s (some req) w).2.out.map Response.StatusCode =
        [StatusInternalServerError] ∧
      (Heap.Session.handleRequest lib fresh nonce s (some req) w).2.world.sessions.get s =
        some { so with TransType := TransTypeTcp }) := by
  refine ⟨fun hA => ?_, fun hA hV => ?_, fun hA hV => ?_⟩
  · simp [Heap.Session.handleRequest, Heap.Handler.start, Go.panicked, Heap.Session.handleBody, Heap.setHeader,
      Heap.session, hs, hauth, GoMap.get_set, Heap.Session.authFails, hm, Heap.Session.dispatch,
      Heap.setStatus, Heap.Session.handleDeferred, Heap.writeResponse,
      Heap.Session.startPlaying, Heap.Session.setup, Heap.setSession, hu, ht, hp, hv, ha, hmatch, hA,
      matchAt, Response.withContentLength]
  · simp [Heap.Session.handleRequest, Heap.Handler.start, Go.panicked, Heap.Session.handleBody, Heap.setHeader,
      Heap.session, hs, hauth, GoMap.get_set, Heap.Session.authFails, hm, Heap.Session.dispatch,
      Heap.setStatus, Heap.Session.handleDeferred, Heap.writeResponse,
      Heap.Session.startPlaying, Heap.Session.setup, Heap.setSession, hu, ht, hp, hv, ha, hmatch, hA, hV,
      matchAt, Response.withContentLength]
  · simp [Heap.Session.handleRequest, Heap.Handler.start, Go.panicked, Heap.Session.handleBody, Heap.setHeader,
      Heap.session, hs, hauth, GoMap.get_set, Heap.Session.authFails, hm, Heap.Session.dispatch,
      Heap.setStatus, Heap.setStatusMessage, Heap.Session.handleDeferred, Heap.writeResponse,
      Heap.Session.startPlaying, Heap.Session.setup, Heap.setSession, hu, ht, hp, hv, ha, hmatch, hA, hV,
      matchAt, Response.withContentLength]

/-- C36: which track a SETUP request binds. With `u` the URL of the request
after the default port was added and `a`, `v` the audio and video control of
the session (made absolute the same way), the handler takes the audio side
when `u = a`, or when `a` is not empty and
`strings.LastIndex(u, a) == len(u) - len(a)`. That test holds when `u` ends
with `a`, and it also holds when `a` is one byte longer than `u`: then `a`
does not occur in `u`, `LastIndex` is `-1`, and so is `len(u) - len(a)`. In
that case the audio channels are bound although `u` neither equals `a` nor
ends with it. Otherwise the same test decides on the video side, and when
neither side is taken the response is 500 and no channel is bound. -/
theorem setup_track_test (lib : Lib) (fresh : Ptr) (nonce : String) (s : Ptr) (w : Heap.World)
    (so : Heap.Session) (req : Request) (u : URL) (p : Ptr) (ts0 : String) (ts : List String)
    (aPath vPath : String) (m0 m1 m2 m3 : String)
    (hs : w.sessions.get s = some so) (hauth : so.authorization = false)
    (hm : req.Method = "SETUP") (hu : req.URL = some u) (ht : req.Header.get "Transport" = some (ts0 :: ts))
    (hp : so.Pusher = some p)
    (ha : controlPath lib so.AControl = some aPath) (hv : controlPath lib so.VControl = some vPath)
    (hmatch : lib.FindStringSubmatch ts0 = some [m0, m1, m2, m3]) :
    (∀ path : String, isTrack (urlWithPort lib u) path = true ↔
      (urlWithPort lib u = path ∨
        (path ≠ "" ∧ List.IsSuffix (goBytes path) (goBytes (urlWithPort lib u))) ∨
        strings.len path = strings.len (urlWithPort lib u) + 1)) ∧
    (strings.len aPath = strings.len (urlWithPort lib u) + 1 →
      (Heap.Session.handleRequest lib fresh nonce s (some req) w).2.out.map Response.StatusCode = [StatusOK] ∧
      (Heap.Session.handleRequest lib fresh nonce s (some req) w).2.world.sessions.get s =
        some { so with TransType := TransTypeTcp, aRtpPort := lib.Atoi m1, aRtcpPort := lib.Atoi m3 }) ∧
    (isTrack (urlWithPort lib u) aPath = true →
      (Heap.Session.handleRequest lib fresh nonce s (some req) w).2.out.map Response.StatusCode = [StatusOK] ∧
      (Heap.Session.handleRequest lib fresh nonce s (some req) w).2.world.sessions.get s =
        some { so with TransType := TransTypeTcp, aRtpPort := lib.Atoi m1, aRtcpPort := lib.Atoi m3 }) ∧
    (isTrack (urlWithPort lib u) aPath = false → isTrack (urlWithPort lib u) vPath = true →
      (Heap.Session.handleRequest lib fresh nonce s (some req) w).2.out.map Response.StatusCode = [StatusOK] ∧
      (Heap.Session.handleRequest lib fresh nonce s (some req) w).2.world.sessions.get s =
        some { so with TransType := TransTypeTcp, vRtpPort := lib.Atoi m1, vRtcpPort := lib.Atoi m3 }) ∧
    (isTrack (urlWithPort lib u) aPath = false → isTrack (urlWithPort lib u) vPath = false →
      (Heap.Session.handleRequest lib fresh nonce s (some req) w).2.out.map Response.StatusCode =
        [StatusInternalServerError] ∧
      (Heap.Session.handleRequest lib fresh nonce s (some req) w).2.world.sessions.get s =
        some { so with TransType := TransTypeTcp }) := by
  have hiff : ∀ path : String, isTrack (urlWithPort lib u) path = true ↔
      (urlWithPort lib u = path ∨
        (path ≠ "" ∧ List.IsSuffix (goBytes path) (goBytes (urlWithPort lib u))) ∨
        strings.len path = strings.len (urlWithPort lib u) + 1) := by
    intro path
    have hne : strings.len path = strings.len (urlWithPort lib u) + 1 → path ≠ "" := by
      intro hl e
      rw [e] at hl
      have h0 : strings.len "" = 0 := rfl
      have h1 : 0 ≤ strings.len (urlWithPort lib u) := by unfold strings.len; omega
      omega
    unfold isTrack
    simp only [Bool.or_eq_true, Bool.and_eq_true, decide_eq_true_eq, strings.LastIndex_eq_iff]
    constructor
    · rintro (h | ⟨h1, h2 | h2⟩)
      · exact Or.inl h
      · exact Or.inr (Or.inl ⟨h1, h2⟩)
      · exact Or.inr (Or.inr h2)
    · rintro (h | ⟨h1, h2⟩ | h)
      · exact Or.inl h
      · exact Or.inr ⟨h1, Or.inl h2⟩
      · exact Or.inr ⟨hne h, Or.inr h⟩
  have h3 := Heap.setup_tracks lib fresh nonce s w so req u p ts0 ts aPath vPath m0 m1 m2 m3 hs hauth hm hu ht
    hp ha hv hmatch
  exact ⟨hiff, fun hl => h3.1 ((hiff aPath).2 (Or.inr (Or.inr hl))), h3⟩

/-- C36, witness: session `old` with the audio control `/live/track10` and the
video control `/live/track1`. A SETUP for `/live/track1` binds the audio
channels 0 and 1 and leaves the video channels unbound. -/
theorem setup_track_test_witness :
    ("/live/track1" ≠ "/live/track10" ∧
      ¬ List.IsSuffix (goBytes "/live/track10") (goBytes "/live/track1")) ∧
    ((Heap.Session.handleRequest setupLib "p1" "x" "old"
        (some (setupRequest "/live/track1" "RTP/AVP/TCP;unicast;interleaved=0-1"))
        Heap.longTrackWorld).2.out.map Response.StatusCode = [StatusOK] ∧
      (Heap.Session.handleRequest setupLib "p1" "x" "old"
        (some (setupRequest "/live/track1" "RTP/AVP/TCP;unicast;interleaved=0-1"))
        Heap.longTrackWorld).2.world.sessions.get "old" =
        some { Heap.longTrackSession with TransType := TransTypeTcp, aRtpPort := 0, aRtcpPort := 1 }) :=
  ⟨⟨by decide, fun h => absurd h.length_le (by decide)⟩,
   (setup_track_test setupLib "p1" "x" "old" Heap.longTrackWorld Heap.longTrackSession
      (setupRequest "/live/track1" "RTP/AVP/TCP;unicast;interleaved=0-1") { Path := "/live/track1" } "P"
      "RTP/AVP/TCP;unicast;interleaved=0-1" [] "/live/track10" "/live/track1" "interleaved=0-1" "0" "-1" "1"
      rfl rfl rfl rfl rfl rfl rfl rfl rfl).2.1 (by decide)⟩

/-! ### session.go : `Session.Stop` -/

theorem Heap.keeps_pure {α : Type} (a : α) : Heap.KeepsSessions (pure a : Act Heap.World α) := fun _ => rfl

theorem Heap.keeps_panic {α : Type} (p : GoPanic) : Heap.KeepsSessions (Act.panic p : Act Heap.World α) :=
  fun _ => rfl

theorem Heap.keeps_read {α : Type} (f : Heap.World → Go α) : Heap.KeepsSessions (Act.read f) := fun _ => rfl

theorem Heap.keeps_nonNil {α : Type} (p : Option α) : Heap.KeepsSessions (Heap.nonNil p : Act Heap.World α) := by
  cases p
  · exact fun _ => rfl
  · exact fun _ => rfl

theorem Heap.keeps_bind {α β : Type} (x : Act Heap.World α) (f : α → Act Heap.World β)
    (hx : Heap.KeepsSessions x) (hf : ∀ a, Heap.KeepsSessions (f a)) : Heap.KeepsSessions (x >>= f) := by
  intro w
  have h1 := hx w
  show (Act.bind x f w).2.sessions = w.sessions
  unfold Act.bind
  rcases hxs : x w with ⟨r, w'⟩
  rw [hxs] at h1
  cases r with
  | ok a => exact (hf a w').trans h1
  | panic p => exact h1

theorem Heap.keeps_ite {α : Type} (c : Prop) [Decidable c] (x y : Act Heap.World α)
    (hx : Heap.KeepsSessions x) (hy : Heap.KeepsSessions y) : Heap.KeepsSessions (if c then x else y) := by
  split
  · exact hx
  · exact hy

theorem Heap.keeps_setPusher (p : Ptr) (f : Heap.Pusher → Heap.Pusher) :
    Heap.KeepsSessions (Heap.setPusher p f) :=
  Heap.keeps_bind _ _ (Heap.keeps_read _) (fun _ _ => rfl)

theorem Heap.keeps_setServer (p : Ptr) (f : Heap.Server → Heap.Server) :
    Heap.KeepsSessions (Heap.setServer p f) :=
  Heap.keeps_bind _ _ (Heap.keeps_read _) (fun _ _ => rfl)

theorem Heap.keeps_modify (f : Heap.World → Heap.World) (h : ∀ w, (f w).sessions = w.sessions) :
    Heap.KeepsSessions (Act.modify f) := h

set_option maxRecDepth 100000 in
/-- A stop handle assigns to no session. -/
theorem StopHandle.run_keeps (h : StopHandle) : Heap.KeepsSessions h.run := by
  cases h <;>
  · unfold StopHandle.run
    simp only [Heap.Pusher.clientPrintln, Heap.Pusher.ClearPlayer, Heap.Server.RemovePusher,
      Heap.Pusher.Server, Heap.Pusher.Path, Heap.Pusher.field, Heap.Pusher.ID, Heap.Pusher.RemovePlayer,
      Heap.Player.ID, Heap.pusher, Heap.session, Heap.server, Heap.player, Heap.Server.Lock,
      Heap.Server.Unlock, chanSend]
    repeat (first
      | with_reducible exact Heap.keeps_read _
      | with_reducible exact Heap.keeps_panic _
      | with_reducible exact Heap.keeps_nonNil _
      | with_reducible exact Heap.keeps_pure _
      | with_reducible exact Heap.keeps_setPusher _ _
      | with_reducible exact Heap.keeps_setServer _ _
      | with_reducible refine Heap.keeps_ite _ _ _ ?_ ?_
      | with_reducible refine Heap.keeps_bind _ _ ?_ (fun _ => ?_)
      | with_reducible refine Heap.keeps_modify _ (fun _ => ?_)
      | rfl
      | dsimp only
      | split)

theorem Heap.runStopHandles_keeps (hs : List StopHandle) :
    Heap.KeepsSessions (Heap.Session.runStopHandles hs) := by
  induction hs with
  | nil => exact Heap.keeps_pure ()
  | cons h rest ih => exact Heap.keeps_bind _ _ (StopHandle.run_keeps h) (fun _ => ih)

/-- The loop of `Session.Stop` over handles that all return: each has run once,
in the order of the list. -/
theorem Heap.runStopHandles_all (hs : List StopHandle) :
    ∀ w : Heap.World, StopHandle.allReturn hs w →
      Heap.Session.runStopHandles hs w = (.ok (), StopHandle.after hs w) := by
  induction hs with
  | nil => intro w _; rfl
  | cons h rest ih =>
    intro w hall
    obtain ⟨h1, h2⟩ := hall
    have hr : h.run w = (.ok (), (h.run w).2) := by
      rw [← h1]
    show (h.run >>= fun _ => Heap.Session.runStopHandles rest) w = _
    rw [Act.bind_run, hr]
    exact ih _ h2

/-- The loop of `Session.Stop` when a handle panics: the handles behind it do
not run. -/
theorem Heap.runStopHandles_panic (pre : List StopHandle) (h : StopHandle) (post : List StopHandle)
    (e : GoPanic) :
    ∀ w : Heap.World, StopHandle.allReturn pre w → (h.run (StopHandle.after pre w)).1 = .panic e →
      Heap.Session.runStopHandles (pre ++ h :: post) w = (.panic e, (h.run (StopHandle.after pre w)).2) := by
  induction pre with
  | nil =>
    intro w _ hp
    have hr : h.run w = (.panic e, (h.run w).2) := by
      rw [← hp]
      rfl
    show (h.run >>= fun _ => Heap.Session.runStopHandles post) w = _
    rw [Act.bind_run, hr]
    rfl
  | cons g rest ih =>
    intro w hall hp
    obtain ⟨h1, h2⟩ := hall
    have hr : g.run w = (.ok (), (g.run w).2) := by
      rw [← h1]
    show (g.run >>= fun _ => Heap.Session.runStopHandles (rest ++ h :: post)) w = _
    rw [Act.bind_run, hr]
    exact ih _ h2 hp

/-- `Session.Stop` on a session that is not stopped, in terms of the loop over
its handles. -/
theorem Heap.Stop_running (w : Heap.World) (s : Ptr) (so : Heap.Session)
    (hs : w.sessions.get s = some so) (hrun : so.Stopped = false) :
    Heap.Session.Stop (some s) w =
      match Heap.Session.runStopHandles so.StopHandles (w.stopping s so) with
      | (.ok _, w2) =>
        if so.options.conn then
          (.ok (), { w2 with sessions := w2.sessions.set s so.closed })
        else (.ok (), w2)
      | (.panic e, w2) => (.panic e, w2) := by
  have hk := Heap.runStopHandles_keeps so.StopHandles (w.stopping s so)
  unfold Heap.Session.Stop
  simp only [Act.bind_run, Heap.nonNil_some, Heap.session_run w s so hs, hrun, Bool.false_eq_true, if_false,
    Heap.setSession_run w s so _ hs, Heap.World.stopping] at hk ⊢
  generalize Heap.Session.runStopHandles so.StopHandles _ = r at hk ⊢
  obtain ⟨r, w2⟩ := r
  have hget : w2.sessions.get s = some { so with Stopped := true } := by
    rw [hk]
    simp [GoMap.get_set]
  cases r with
  | panic e => rfl
  | ok a =>
    simp only [Heap.session_run w2 s _ hget]
    cases hc : so.options.conn with
    | false => simp
    | true => simp [Heap.setSession_run w2 s _ _ hget, Heap.Session.closed]

/-- `Session.Stop` on a stopped session does nothing. -/
theorem Heap.Stop_stopped (w : Heap.World) (s : Ptr) (so : Heap.Session)
    (hs : w.sessions.get s = some so) (hst : so.Stopped = true) :
    Heap.Session.Stop (some s) w = (.ok (), w) := by
  unfold Heap.Session.Stop
  simp [Heap.session_run w s so hs, hst]

/-- After `Session.Stop`, however it ended, the session is stopped. -/
theorem Heap.Stop_sets_Stopped (w : Heap.World) (s : Ptr) (so : Heap.Session)
    (hs : w.sessions.get s = some so) :
    ∃ so' : Heap.Session, (Heap.Session.Stop (some s) w).2.sessions.get s = some so' ∧ so'.Stopped = true := by
  cases hst : so.Stopped with
  | true =>
    rw [Heap.Stop_stopped w s so hs hst]
    exact ⟨so, hs, hst⟩
  | false =>
    have hk := Heap.runStopHandles_keeps so.StopHandles (w.stopping s so)
    rw [Heap.Stop_running w s so hs hst]
    rcases hr : Heap.Session.runStopHandles so.StopHandles (w.stopping s so) with ⟨r, w2⟩
    rw [hr] at hk
    have hget : w2.sessions.get s = some { so with Stopped := true } := by
      have : w2.sessions = (w.stopping s so).sessions := hk
      rw [this]
      simp [Heap.World.stopping, GoMap.get_set]
    cases r with
    | panic e => exact ⟨_, hget, rfl⟩
    | ok a =>
      cases hc : so.options.conn with
      | false => exact ⟨_, hget, rfl⟩
      | true => exact ⟨so.closed, by simp [GoMap.get_set], rfl⟩

/-- C31: `Session.Stop`. On a stopped session it changes nothing and runs no
handle. On a session that is not stopped it sets `Stopped` and runs the
handles in the order in which they were registered: when they all return,
each has run once, and the call ends with the session stopped and its
connection closed. When a handle panics, the panic leaves `Stop`: the handles
registered after it do not run and the connection stays open. In every case
the session is stopped afterwards, so that a second call does nothing: over
any number of calls no handle runs twice. -/
theorem Stop_once (w : Heap.World) (s : Ptr) (so : Heap.Session) (hs : w.sessions.get s = some so) :
    (so.Stopped = true → Heap.Session.Stop (some s) w = (.ok (), w)) ∧
    (so.Stopped = false → StopHandle.allReturn so.StopHandles (w.stopping s so) →
      (Heap.Session.Stop (some s) w).1 = .ok () ∧
      (Heap.Session.Stop (some s) w).2.sessions.get s = some so.closed ∧
      (Heap.Session.Stop (some s) w).2.pushers =
        (StopHandle.after so.StopHandles (w.stopping s so)).pushers ∧
      (Heap.Session.Stop (some s) w).2.players =
        (StopHandle.after so.StopHandles (w.stopping s so)).players ∧
      (Heap.Session.Stop (some s) w).2.servers =
        (StopHandle.after so.StopHandles (w.stopping s so)).servers) ∧
    (so.Stopped = false → ∀ (pre : List StopHandle) (h : StopHandle) (post : List StopHandle) (e : GoPanic),
      so.StopHandles = pre ++ h :: post → StopHandle.allReturn pre (w.stopping s so) →
      (h.run (StopHandle.after pre (w.stopping s so))).1 = .panic e →
      Heap.Session.Stop (some s) w = (.panic e, (h.run (StopHandle.after pre (w.stopping s so))).2)) ∧
    Heap.Session.Stop (some s) (Heap.Session.Stop (some s) w).2 =
      (.ok (), (Heap.Session.Stop (some s) w).2) := by
  refine ⟨fun hst => Heap.Stop_stopped w s so hs hst, fun hrun hall => ?_,
    fun hrun pre h post e hsplit hall hp => ?_, ?_⟩
  · have hk := Heap.runStopHandles_keeps so.StopHandles (w.stopping s so)
    rw [Heap.Stop_running w s so hs hrun, Heap.runStopHandles_all _ _ hall]
    rw [Heap.runStopHandles_all _ _ hall] at hk
    have hget : (StopHandle.after so.StopHandles (w.stopping s so)).sessions.get s =
        some { so with Stopped := true } := by
      have : (StopHandle.after so.StopHandles (w.stopping s so)).sessions = (w.stopping s so).sessions := hk
      rw [this]
      simp [Heap.World.stopping, GoMap.get_set]
    cases hc : so.options.conn with
    | true => simp [GoMap.get_set]
    | false =>
      have hopt : ({ so.options with conn := false } : SessionOptions) = so.options := by
        rcases ho : so.options with ⟨a, b, c, d, t⟩
        rw [ho] at hc
        simp only at hc
        rw [hc]
      have hcl : so.closed = { so with Stopped := true } := by
        unfold Heap.Session.closed
        rw [hopt]
      simp [hget, hcl]
  · rw [Heap.Stop_running w s so hs hrun, hsplit, Heap.runStopHandles_panic pre h post e _ hall hp]
  · obtain ⟨so', h1, h2⟩ := Heap.Stop_sets_Stopped w s so hs
    exact Heap.Stop_stopped _ s so' h1 h2

/-- C31, witness: on the relay with the client-backed pusher `C` the one
handle of the viewer `a` returns, and `Stop` ends with the session closed and
the subscriber set of `C` empty. In the relay with two streams the first handle
of session `a` panics in `RemovePlayer` (the pusher `P` has no client): `Stop`
panics, and the second handle has not run, for `a` is still a subscriber of
`Q`. On the sample relay the handle of the publisher `old` blocks in
`RemovePusher`, and `Stop` with it, the connection still open. -/
theorem Stop_once_witness :
    ((Heap.Session.Stop (some "a") Heap.clientViewerWorld).1 = .ok () ∧
      (Heap.Session.Stop (some "a") Heap.clientViewerWorld).2.sessions.get "a" =
        some Heap.clientViewer.closed ∧
      ((Heap.Session.Stop (some "a") Heap.clientViewerWorld).2.pushers.get "C").map (·.players) = some []) ∧
    ((Heap.Session.Stop (some "a") Heap.twoStreamWorld).1 = .panic .nilDereference ∧
      ((Heap.Session.Stop (some "a") Heap.twoStreamWorld).2.pushers.get "P").map (·.players) =
        some [("b", "pb")] ∧
      ((Heap.Session.Stop (some "a") Heap.twoStreamWorld).2.pushers.get "Q").map (·.players) =
        some [("a", "qa")] ∧
      Heap.Session.Stop (some "a") (Heap.Session.Stop (some "a") Heap.twoStreamWorld).2 =
        (.ok (), (Heap.Session.Stop (some "a") Heap.twoStreamWorld).2)) ∧
    ((Heap.Session.Stop (some "old") Heap.liveWorld).1 = .panic .blocked ∧
      ((Heap.Session.Stop (some "old") Heap.liveWorld).2.sessions.get "old").map (·.options.conn) =
        some true) := by
  have h1 := (Stop_once Heap.clientViewerWorld "a" Heap.clientViewer rfl).2.1 rfl ⟨rfl, trivial⟩
  have h2 := (Stop_once Heap.twoStreamWorld "a" Heap.twoStreamViewer rfl).2.2.1 rfl []
    (.leavePusher "P" "pa") [.leavePusher "Q" "qa"] .nilDereference rfl trivial rfl
  have h3 := (Stop_once Heap.twoStreamWorld "a" Heap.twoStreamViewer rfl).2.2.2
  have h4 := (Stop_once Heap.liveWorld "old" Heap.oldSession rfl).2.2.1 rfl []
    (.releasePusher "P" "old") [] .blocked rfl trivial rfl
  refine ⟨⟨h1.1, h1.2.1, ?_⟩, ⟨?_, ?_, ?_, h3⟩, ?_, ?_⟩
  · rw [h1.2.2.1]
    rfl
  · rw [h2]
  · rw [h2]
    rfl
  · rw [h2]
    rfl
  · rw [h4]
  · rw [h4]
    rfl

/-! ## sdpParser.go : splitting -/

theorem strings.splitBytes_absent (sep : Char) (s : List Char) (h : sep ∉ s) :
    strings.splitBytes sep s = [s] := by
  induction s with
  | nil => rfl
  | cons c cs ih =>
    simp only [List.mem_cons, not_or] at h
    have hc : ¬ c = sep := fun e => h.1 e.symm
    simp [strings.splitBytes, hc, ih h.2]

theorem strings.splitBytes_found (sep : Char) (a b : List Char) (h : sep ∉ a) :
    strings.splitBytes sep (a ++ sep :: b) = a :: strings.splitBytes sep b := by
  induction a with
  | nil => simp [strings.splitBytes]
  | cons c cs ih =>
    simp only [List.mem_cons, not_or] at h
    have hc : ¬ c = sep := fun e => h.1 e.symm
    simp [strings.splitBytes, hc, ih h.2]

theorem strings.splitBytes_pos (sep : Char) (s : List Char) : 0 < (strings.splitBytes sep s).length := by
  cases s with
  | nil => simp [strings.splitBytes]
  | cons c cs =>
    unfold strings.splitBytes
    split
    · simp
    · split <;> simp

theorem strings.splitBytes_length (sep : Char) (s : List Char) :
    1 < (strings.splitBytes sep s).length ↔ sep ∈ s := by
  induction s with
  | nil => simp [strings.splitBytes]
  | cons c cs ih =>
    by_cases hc : c = sep
    · subst hc
      have := strings.splitBytes_pos c cs
      simp [strings.splitBytes]
      omega
    · have hc' : ¬ sep = c := fun e => hc e.symm
      simp only [strings.splitBytes, hc, if_false, List.mem_cons, hc', false_or]
      rw [← ih]
      cases strings.splitBytes sep cs with
      | nil => simp
      | cons p ps => simp

theorem strings.splitNBytes_eq (sep : Char) (s : List Char) :
    strings.splitNBytes sep 2 s =
      if sep ∈ s then [s.takeWhile (· ≠ sep), (s.dropWhile (· ≠ sep)).drop 1] else [s] := by
  simp [strings.splitNBytes]

theorem strings.splitNBytes_absent (sep : Char) (s : List Char) (h : sep ∉ s) :
    strings.splitNBytes sep 2 s = [s] := by
  rw [strings.splitNBytes_eq, if_neg h]

theorem strings.splitNBytes_found (sep : Char) (a b : List Char) (h : sep ∉ a) :
    strings.splitNBytes sep 2 (a ++ sep :: b) = [a, b] := by
  have ht : ∀ a : List Char, sep ∉ a → (a ++ sep :: b).takeWhile (· ≠ sep) = a ∧
      (a ++ sep :: b).dropWhile (· ≠ sep) = sep :: b := by
    intro a
    induction a with
    | nil => intro _; simp
    | cons c cs ih =>
      intro h
      simp only [List.mem_cons, not_or] at h
      have hc : c ≠ sep := fun e => h.1 e.symm
      have ih' := ih h.2
      simp only [ne_eq, decide_not] at ih' ⊢
      simp [List.takeWhile_cons, List.dropWhile_cons, hc, ih'.1, ih'.2]
  rw [strings.splitNBytes_eq, if_pos (by simp), (ht a h).1, (ht a h).2]
  rfl

/-- What two pieces of `SplitN(s, sep, 2)` say about `s`. -/
theorem strings.splitNBytes_two (sep : Char) (s a b : List Char)
    (h : strings.splitNBytes sep 2 s = [a, b]) : s = a ++ sep :: b := by
  rw [strings.splitNBytes_eq] at h
  split at h
  · rename_i hm
    have h1 : s.takeWhile (· ≠ sep) = a := by simpa using (List.cons.inj h).1
    have h2 : (s.dropWhile (· ≠ sep)).drop 1 = b := by simpa using (List.cons.inj h).2
    have hd : ∃ rest, s.dropWhile (· ≠ sep) = sep :: rest := by
      cases hdw : s.dropWhile (· ≠ sep) with
      | nil =>
        rw [List.dropWhile_eq_nil_iff] at hdw
        have := hdw sep hm
        simp at this
      | cons x rest =>
        have hx := List.head_dropWhile_not (· ≠ sep) s (by rw [hdw]; simp)
        simp only [hdw, List.head_cons] at hx
        have : x = sep := by simpa using hx
        exact ⟨rest, by rw [this]⟩
    obtain ⟨rest, hrest⟩ := hd
    rw [hrest] at h2
    have : s = s.takeWhile (· ≠ sep) ++ s.dropWhile (· ≠ sep) := (List.takeWhile_append_dropWhile _ _).symm
    rw [this, h1, hrest]
    simp at h2
    rw [h2]
  · cases h

/-- What a single piece of `SplitN(s, sep, 2)` says about `s`. -/
theorem strings.splitNBytes_one (sep : Char) (s a : List Char)
    (h : strings.splitNBytes sep 2 s = [a]) : s = a ∧ sep ∉ s := by
  rw [strings.splitNBytes_eq] at h
  split at h
  · cases h
  · rename_i hm
    exact ⟨(List.cons.inj h).1, hm⟩

theorem strings.SplitN_found (s : String) (sep : Char) (a b : List Char) (h : s.toList = a ++ sep :: b)
    (ha : sep ∉ a) : strings.SplitN s sep 2 = [String.mk a, String.mk b] := by
  unfold strings.SplitN
  rw [h, strings.splitNBytes_found sep a b ha]
  rfl

theorem strings.SplitN_absent (s : String) (sep : Char) (h : sep ∉ s.toList) :
    strings.SplitN s sep 2 = [s] := by
  unfold strings.SplitN
  rw [strings.splitNBytes_absent sep _ h]
  rfl

theorem strings.Split_found (s : String) (sep : Char) (a b : List Char) (h : s.toList = a ++ sep :: b)
    (ha : sep ∉ a) : strings.Split s sep = String.mk a :: strings.Split (String.mk b) sep := by
  unfold strings.Split
  rw [h, strings.splitBytes_found sep a b ha]
  rfl

theorem strings.Split_absent (s : String) (sep : Char) (h : sep ∉ s.toList) : strings.Split s sep = [s] := by
  unfold strings.Split
  rw [strings.splitBytes_absent sep _ h]
  rfl

theorem strings.Split_length (s : String) (sep : Char) : 1 < (strings.Split s sep).length ↔ sep ∈ s.toList := by
  unfold strings.Split
  rw [List.length_map]
  exact strings.splitBytes_length sep s.toList

/-- A piece of an attribute line without colon and slash: only the test for a
semicolon is left, and with it the loop over both pieces of the line. -/
theorem ParseSDP.attr_plain (e : SDPLib) (fields : List String) (info : SDPInfo) (field : String)
    (h1 : ':' ∉ field.toList) (h2 : '/' ∉ field.toList) :
    ParseSDP.attr e fields info field =
      if ';' ∈ field.toList then fields.foldl (ParseSDP.param e) info else info := by
  unfold ParseSDP.attr
  rw [strings.SplitN_absent field ':' h1, strings.Split_absent field '/' h2]
  simp only [strings.Split_length]

/-- A piece `key:val` of an attribute line without slash and semicolon. -/
theorem ParseSDP.attr_keyed (e : SDPLib) (fields : List String) (info : SDPInfo) (field : String)
    (key val : List Char) (h : field.toList = key ++ ':' :: val) (h1 : ':' ∉ key)
    (h2 : '/' ∉ field.toList) (h3 : ';' ∉ field.toList) :
    ParseSDP.attr e fields info field =
      if String.mk key = "control" then { info with Control := String.mk val }
      else if String.mk key = "rtpmap" then { info with RtpMap := (strconv.Atoi (String.mk val)).1 }
      else info := by
  unfold ParseSDP.attr
  rw [strings.SplitN_found field ':' key val h h1, strings.Split_absent field '/' h2]
  simp only [strings.Split_length, h3, if_false]

/-- The piece `control:` and then an absolute URL: behind the first slash
comes a second one, so the piece between them is no number. -/
theorem ParseSDP.attr_control (e : SDPLib) (fields : List String) (info : SDPInfo)
    (scheme rest : List Char) (h1 : '/' ∉ scheme) (h3 : ';' ∉ scheme) (h4 : ';' ∉ rest) :
    ParseSDP.attr e fields info (String.mk ("control:".toList ++ (scheme ++ '/' :: '/' :: rest))) =
      { info with Control := String.mk (scheme ++ '/' :: '/' :: rest) } := by
  have hs : '/' ∉ "control:".toList ++ scheme := by
    intro hm
    rcases List.mem_append.1 hm with hm | hm
    · revert hm; decide
    · exact h1 hm
  have hsplit : strings.Split (String.mk ("control:".toList ++ (scheme ++ '/' :: '/' :: rest))) '/' =
      String.mk ("control:".toList ++ scheme) :: String.mk [] ::
        strings.Split (String.mk rest) '/' := by
    rw [strings.Split_found (String.mk ("control:".toList ++ (scheme ++ '/' :: '/' :: rest))) '/'
        ("control:".toList ++ scheme) ('/' :: rest) (by simp) hs,
      strings.Split_found (String.mk ('/' :: rest)) '/' [] rest rfl (by simp)]
  have hkey : ∀ name : String, name.toList.head? ≠ some 'c' →
      ¬ String.mk ("control:".toList ++ scheme) = name := by
    intro name hn e
    apply hn
    rw [← e]
    rfl
  have hsemi : ';' ∉ (String.mk ("control:".toList ++ (scheme ++ '/' :: '/' :: rest))).toList := by
    show ';' ∉ "control:".toList ++ (scheme ++ '/' :: '/' :: rest)
    intro hm
    rcases List.mem_append.1 hm with hm | hm
    · revert hm; decide
    · rcases List.mem_append.1 hm with hm | hm
      · exact h3 hm
      · simp only [List.mem_cons] at hm
        rcases hm with hm | hm | hm
        · cases hm
        · cases hm
        · exact h4 hm
  have hcolon : strings.SplitN (String.mk ("control:".toList ++ (scheme ++ '/' :: '/' :: rest))) ':' 2 =
      [String.mk "control".toList, String.mk (scheme ++ '/' :: '/' :: rest)] :=
    strings.SplitN_found _ ':' "control".toList (scheme ++ '/' :: '/' :: rest) rfl (by decide)
  have hatoi : (strconv.Atoi (String.mk [])).2 = false := rfl
  unfold ParseSDP.attr
  rw [hcolon, hsplit]
  simp only [strings.Split_length, hsemi, if_false, hkey "MPEG4-GENERIC" (by decide),
    hkey "H264" (by decide), hkey "H265" (by decide), hatoi, Bool.false_eq_true]
  rfl

/-! ## sdpParser.go : the lines of a media section -/

theorem GoMap.set_set {V : Type} (m : GoMap V) (k : String) (a b : V) : (m.set k a).set k b = m.set k b := by
  induction m with
  | nil => simp [GoMap.set]
  | cons x rest ih =>
    obtain ⟨k0, v0⟩ := x
    by_cases h : k0 = k
    · simp [GoMap.set, h]
    · simp [GoMap.set, h, ih]

theorem SDPState.update_some (st : SDPState) (key : String) (o : SDPInfo) (f : SDPInfo → SDPInfo)
    (hk : st.info = some key) (ho : st.sdpMap.get key = some o) :
    st.update f = { sdpMap := st.sdpMap.set key (f o), info := some key } := by
  unfold SDPState.update
  rw [hk]
  simp only [ho]

/-- The piece `enc/rate` of an `rtpmap` attribute, with or without further
pieces behind a second slash. -/
theorem ParseSDP.attr_encoding (e : SDPLib) (fields : List String) (info : SDPInfo)
    (enc rate tail : List Char) (h1 : '/' ∉ enc) (h2 : '/' ∉ rate)
    (h3 : ':' ∉ enc ++ '/' :: (rate ++ tail)) (h4 : ';' ∉ enc ++ '/' :: (rate ++ tail))
    (ht : tail = [] ∨ ∃ t, tail = '/' :: t) (hr : (strconv.Atoi (String.mk rate)).2 = true) :
    ParseSDP.attr e fields info (String.mk (enc ++ '/' :: (rate ++ tail))) =
      { info with Codec := codecOf (String.mk enc) info.Codec, TimeScale := (strconv.Atoi (String.mk rate)).1 } := by
  have hsplit : ∃ more : List String,
      strings.Split (String.mk (enc ++ '/' :: (rate ++ tail))) '/' = String.mk enc :: String.mk rate :: more := by
    rw [strings.Split_found (String.mk (enc ++ '/' :: (rate ++ tail))) '/' enc (rate ++ tail) rfl h1]
    rcases ht with ht | ⟨t, ht⟩
    · subst ht
      rw [List.append_nil, strings.Split_absent (String.mk rate) '/' h2]
      exact ⟨[], rfl⟩
    · subst ht
      rw [strings.Split_found (String.mk (rate ++ '/' :: t)) '/' rate t rfl h2]
      exact ⟨_, rfl⟩
  obtain ⟨more, hsplit⟩ := hsplit
  unfold ParseSDP.attr
  rw [strings.SplitN_absent (String.mk (enc ++ '/' :: (rate ++ tail))) ':' h3, hsplit]
  have hsemi : ¬ ';' ∈ (String.mk (enc ++ '/' :: (rate ++ tail))).toList := h4
  simp only [strings.Split_length, hsemi, if_false, hr, if_true]
  unfold codecOf
  split
  · rfl
  · split
    · rfl
    · split <;> rfl

/-- An `m=` line for audio or video with port, protocol and payload type. -/
theorem ParseSDP.line_media (e : SDPLib) (st : SDPState) (raw media port proto pt : String)
    (ht : strings.TrimSpace raw = "m=" ++ media ++ " " ++ port ++ " " ++ proto ++ " " ++ pt)
    (hm : media = "audio" ∨ media = "video")
    (h1 : ' ' ∉ port.toList) (h2 : ' ' ∉ proto.toList) (h3 : ' ' ∉ pt.toList) :
    ParseSDP.line e st raw =
      .ok { sdpMap := st.sdpMap.set media { SDPInfo.new media with PayloadType := (strconv.Atoi pt).1 },
            info := some media } := by
  have hl : ("m=" ++ media ++ " " ++ port ++ " " ++ proto ++ " " ++ pt).toList =
      ['m'] ++ '=' :: (media.toList ++ ' ' :: (port.toList ++ ' ' :: (proto.toList ++ ' ' :: pt.toList))) := by
    simp [String.toList, String.data_append]
  have hms : ' ' ∉ media.toList := by
    rcases hm with hm | hm <;> subst hm <;> decide
  have hf : strings.SplitN
      (String.mk (media.toList ++ ' ' :: (port.toList ++ ' ' :: (proto.toList ++ ' ' :: pt.toList)))) ' ' 2 =
      [media, String.mk (port.toList ++ ' ' :: (proto.toList ++ ' ' :: pt.toList))] :=
    strings.SplitN_found _ ' ' media.toList _ rfl hms
  have hp : strings.Split (String.mk (port.toList ++ ' ' :: (proto.toList ++ ' ' :: pt.toList))) ' ' =
      [port, proto, pt] := by
    rw [strings.Split_found (String.mk (port.toList ++ ' ' :: (proto.toList ++ ' ' :: pt.toList))) ' '
        port.toList _ rfl h1,
      strings.Split_found (String.mk (proto.toList ++ ' ' :: pt.toList)) ' ' proto.toList _ rfl h2,
      strings.Split_absent (String.mk pt.toList) ' ' h3]
    rfl
  unfold ParseSDP.line
  rw [ht, strings.SplitN_found _ '=' ['m'] _ hl (by decide)]
  simp only [hf, hp]
  rw [if_pos (by decide), if_pos hm]
  rfl

theorem SDPState.update_twice (st : SDPState) (key : String) (o : SDPInfo) (f g : SDPInfo → SDPInfo)
    (hk : st.info = some key) (ho : st.sdpMap.get key = some o) :
    (st.update f).update g = { sdpMap := st.sdpMap.set key (g (f o)), info := some key } := by
  rw [SDPState.update_some st key o f hk ho,
    SDPState.update_some { sdpMap := st.sdpMap.set key (f o), info := some key } key (f o) g rfl
      (by simp [GoMap.get_set]),
    GoMap.set_set]

/-- An `a=` line: each of its one or two pieces is looked at in turn. -/
theorem ParseSDP.line_attr (e : SDPLib) (st : SDPState) (raw : String) (val : List Char)
    (ht : (strings.TrimSpace raw).toList = ['a'] ++ '=' :: val) :
    ParseSDP.line e st raw =
      .ok (if st.info ≠ none then
        (strings.SplitN (String.mk val) ' ' 2).foldl
          (fun st field => st.update fun info =>
            ParseSDP.attr e (strings.SplitN (String.mk val) ' ' 2) info field) st
        else st) := by
  unfold ParseSDP.line
  rw [strings.SplitN_found _ '=' ['a'] val ht (by decide)]
  simp only []
  rw [if_neg (by decide), if_pos (by decide)]
  split <;> rfl

/-- The line `a=rtpmap:<pt> <enc>/<rate>`, with or without further pieces
behind a second slash, when `info` points to an entry. -/
theorem ParseSDP.line_rtpmap (e : SDPLib) (st : SDPState) (key : String) (o : SDPInfo)
    (raw pt enc rate tail : String)
    (hk : st.info = some key) (ho : st.sdpMap.get key = some o)
    (ht : strings.TrimSpace raw = "a=rtpmap:" ++ pt ++ " " ++ enc ++ "/" ++ rate ++ tail)
    (hpt : strings.free pt [' ', '/', ';']) (henc : strings.free enc ['/', ':', ';'])
    (hrate : strings.free rate ['/', ':', ';']) (hr : (strconv.Atoi rate).2 = true)
    (htail : strings.free tail [':', ';']) (hslash : tail = "" ∨ tail.toList.head? = some '/') :
    ParseSDP.line e st raw =
      .ok { sdpMap := st.sdpMap.set key
              { o with RtpMap := (strconv.Atoi pt).1, Codec := codecOf enc o.Codec,
                       TimeScale := (strconv.Atoi rate).1 },
            info := some key } := by
  have hl : (strings.TrimSpace raw).toList =
      ['a'] ++ '=' :: (("rtpmap".toList ++ ':' :: pt.toList) ++ ' ' ::
        (enc.toList ++ '/' :: (rate.toList ++ tail.toList))) := by
    rw [ht]
    simp [String.toList, String.data_append]
  have hsp : ' ' ∉ "rtpmap".toList ++ ':' :: pt.toList := by
    intro hm
    rcases List.mem_append.1 hm with hm | hm
    · revert hm; decide
    · rcases List.mem_cons.1 hm with hm | hm
      · cases hm
      · exact hpt ' ' (by decide) hm
  have hno : ∀ ch : Char, ch ∉ "rtpmap:".toList → ch ∉ pt.toList →
      ch ∉ (String.mk ("rtpmap".toList ++ ':' :: pt.toList)).toList := by
    intro ch h1 h2 hm
    rcases List.mem_append.1 (show ch ∈ "rtpmap".toList ++ ':' :: pt.toList from hm) with hm | hm
    · exact h1 (by revert hm; simp; intro h; rcases h with h | h | h | h | h | h <;> simp [h])
    · rcases List.mem_cons.1 hm with hm | hm
      · exact h1 (by rw [hm]; decide)
      · exact h2 hm
  have hin : ∀ ch : Char, ch ≠ '/' → ch ∉ enc.toList → ch ∉ rate.toList → ch ∉ tail.toList →
      ch ∉ enc.toList ++ '/' :: (rate.toList ++ tail.toList) := by
    intro ch h0 h1 h2 h3 hm
    rcases List.mem_append.1 hm with hm | hm
    · exact h1 hm
    · rcases List.mem_cons.1 hm with hm | hm
      · exact h0 hm
      · rcases List.mem_append.1 hm with hm | hm
        · exact h2 hm
        · exact h3 hm
  have htl : tail.toList = [] ∨ ∃ t, tail.toList = '/' :: t := by
    rcases hslash with h | h
    · left
      rw [h]
      rfl
    · right
      cases hd : tail.toList with
      | nil => rw [hd] at h; cases h
      | cons x t =>
        rw [hd] at h
        exact ⟨t, by rw [Option.some.inj h]⟩
  have hf := strings.SplitN_found
    (String.mk (("rtpmap".toList ++ ':' :: pt.toList) ++ ' ' ::
      (enc.toList ++ '/' :: (rate.toList ++ tail.toList)))) ' '
    ("rtpmap".toList ++ ':' :: pt.toList) (enc.toList ++ '/' :: (rate.toList ++ tail.toList)) rfl hsp
  have ha1 : ∀ (fields : List String) (info : SDPInfo),
      ParseSDP.attr e fields info (String.mk ("rtpmap".toList ++ ':' :: pt.toList)) =
        { info with RtpMap := (strconv.Atoi pt).1 } := by
    intro fields info
    rw [ParseSDP.attr_keyed e fields info (String.mk ("rtpmap".toList ++ ':' :: pt.toList))
      "rtpmap".toList pt.toList rfl (by decide)
      (hno '/' (by decide) (hpt '/' (by decide))) (hno ';' (by decide) (hpt ';' (by decide)))]
    rw [if_neg (by decide), if_pos (by decide)]
    rfl
  have ha2 := fun (fields : List String) (info : SDPInfo) =>
    ParseSDP.attr_encoding e fields info enc.toList rate.toList tail.toList
      (henc '/' (by decide)) (hrate '/' (by decide))
      (hin ':' (by decide) (henc ':' (by decide)) (hrate ':' (by decide)) (htail ':' (by decide)))
      (hin ';' (by decide) (henc ';' (by decide)) (hrate ';' (by decide)) (htail ';' (by decide)))
      htl hr
  rw [ParseSDP.line_attr e st raw _ hl, hf, if_pos (by rw [hk]; simp)]
  simp only [List.foldl_cons, List.foldl_nil, ha1, ha2]
  rw [SDPState.update_twice st key o _ _ hk ho]
  rfl

/-- The line `a=control:<c>` when `info` points to an entry: `c` is a name
without slash, or an absolute URL. -/
theorem ParseSDP.line_control (e : SDPLib) (st : SDPState) (key : String) (o : SDPInfo) (raw c : String)
    (hk : st.info = some key) (ho : st.sdpMap.get key = some o)
    (ht : strings.TrimSpace raw = "a=control:" ++ c) (hc : strings.free c [' ', ';'])
    (hslash : '/' ∉ c.toList ∨
      ∃ scheme rest : List Char, c.toList = scheme ++ '/' :: '/' :: rest ∧ '/' ∉ scheme) :
    ParseSDP.line e st raw = .ok { sdpMap := st.sdpMap.set key { o with Control := c }, info := some key } := by
  have hl : (strings.TrimSpace raw).toList = ['a'] ++ '=' :: ("control".toList ++ ':' :: c.toList) := by
    rw [ht]
    simp [String.toList, String.data_append]
  have hno : ∀ ch : Char, ch ∉ "control:".toList → ch ∉ c.toList →
      ch ∉ "control".toList ++ ':' :: c.toList := by
    intro ch h1 h2 hm
    rcases List.mem_append.1 hm with hm | hm
    · exact h1 (by revert hm; simp; intro h; rcases h with h | h | h | h | h | h | h <;> simp [h])
    · rcases List.mem_cons.1 hm with hm | hm
      · exact h1 (by rw [hm]; decide)
      · exact h2 hm
  have hf := strings.SplitN_absent (String.mk ("control".toList ++ ':' :: c.toList)) ' '
    (hno ' ' (by decide) (hc ' ' (by decide)))
  have ha : ∀ (fields : List String) (info : SDPInfo),
      ParseSDP.attr e fields info (String.mk ("control".toList ++ ':' :: c.toList)) =
        { info with Control := c } := by
    intro fields info
    rcases hslash with h | ⟨scheme, rest, h, hs⟩
    · rw [ParseSDP.attr_keyed e fields info _ "control".toList c.toList rfl (by decide)
        (hno '/' (by decide) h) (hno ';' (by decide) (hc ';' (by decide)))]
      rw [if_pos (by decide)]
      rfl
    · have hsemi := hc ';' (by decide)
      rw [h] at hsemi
      have := ParseSDP.attr_control e fields info scheme rest hs
        (fun hm => hsemi (List.mem_append_left _ hm))
        (fun hm => hsemi (List.mem_append_right _ (List.mem_cons_of_mem _ (List.mem_cons_of_mem _ hm))))
      rw [← h] at this
      exact this
  rw [ParseSDP.line_attr e st raw _ hl, hf, if_pos (by rw [hk]; simp)]
  simp only [List.foldl_cons, List.foldl_nil, ha]
  rw [SDPState.update_some st key o _ hk ho]

/-! ## sdpParser.go : a media section -/

theorem strings.Split_lines (r1 r2 r3 : String) (h1 : '\n' ∉ r1.toList) (h2 : '\n' ∉ r2.toList)
    (h3 : '\n' ∉ r3.toList) : strings.Split (r1 ++ "\n" ++ r2 ++ "\n" ++ r3) '\n' = [r1, r2, r3] := by
  have hl : (r1 ++ "\n" ++ r2 ++ "\n" ++ r3).toList = r1.toList ++ '\n' :: (r2.toList ++ '\n' :: r3.toList) := by
    simp [String.toList, String.data_append]
  rw [strings.Split_found _ '\n' r1.toList _ hl h1,
    strings.Split_found (String.mk (r2.toList ++ '\n' :: r3.toList)) '\n' r2.toList r3.toList rfl h2,
    strings.Split_absent (String.mk r3.toList) '\n' h3]
  rfl

/-- C32: the three lines of a media section, `m=<media> <port> <proto> <pt>`
for audio or video, `a=rtpmap:<pt> <enc>/<rate>` (with or without a further
piece such as `/2` behind the rate) and `a=control:<c>`, read one after the
other from any state of the loop of `ParseSDP`, white space around each line
being dropped. The entry of the media type then has the payload type `pt`,
the time scale `rate` and the control `c`, and its codec is `h264` for the
encoding `H264` and `h265` for `H265`. For `MPEG4-GENERIC` the codec is the
string `acc`, not `aac`: line 67 of the source assigns `"acc"`. The same holds
for `ParseSDP` on a text that consists of the three lines. -/
theorem ParseSDP_media_section (e : SDPLib) (st : SDPState)
    (r1 r2 r3 media port proto pt enc rate tail c : String)
    (hm : media = "audio" ∨ media = "video")
    (h1 : strings.TrimSpace r1 = "m=" ++ media ++ " " ++ port ++ " " ++ proto ++ " " ++ pt)
    (h2 : strings.TrimSpace r2 = "a=rtpmap:" ++ pt ++ " " ++ enc ++ "/" ++ rate ++ tail)
    (h3 : strings.TrimSpace r3 = "a=control:" ++ c)
    (hport : strings.free port [' ']) (hproto : strings.free proto [' '])
    (hpt : strings.free pt [' ', '/', ';'])
    (henc : enc = "MPEG4-GENERIC" ∨ enc = "H264" ∨ enc = "H265")
    (hrate : strings.free rate ['/', ':', ';']) (hr : (strconv.Atoi rate).2 = true)
    (htail : strings.free tail [':', ';']) (hslash : tail = "" ∨ tail.toList.head? = some '/')
    (hc : strings.free c [' ', ';'])
    (hcs : '/' ∉ c.toList ∨ ∃ scheme rest : List Char, c.toList = scheme ++ '/' :: '/' :: rest ∧ '/' ∉ scheme) :
    ParseSDP.lines e st [r1, r2, r3] =
      .ok { sdpMap := st.sdpMap.set media (sectionInfo media pt enc rate c), info := some media } ∧
    (strings.free r1 ['\n'] → strings.free r2 ['\n'] → strings.free r3 ['\n'] →
      ParseSDP e (r1 ++ "\n" ++ r2 ++ "\n" ++ r3) = .ok [(media, sectionInfo media pt enc rate c)]) ∧
    (sectionInfo media pt enc rate c).Codec =
      (if enc = "MPEG4-GENERIC" then "acc" else if enc = "H264" then "h264" else "h265") := by
  have henc' : strings.free enc ['/', ':', ';'] := by
    rcases henc with h | h | h <;> subst h <;> decide
  have e2 : ∀ (m : GoMap SDPInfo) (o : SDPInfo),
      ParseSDP.line e { sdpMap := m.set media o, info := some media } r2 =
        .ok { sdpMap := m.set media
                { o with RtpMap := (strconv.Atoi pt).1, Codec := codecOf enc o.Codec,
                         TimeScale := (strconv.Atoi rate).1 },
              info := some media } := by
    intro m o
    rw [ParseSDP.line_rtpmap e { sdpMap := m.set media o, info := some media } media o r2 pt enc rate tail rfl
      (by simp [GoMap.get_set]) h2 hpt henc' hrate hr htail hslash, GoMap.set_set]
  have e3 : ∀ (m : GoMap SDPInfo) (o : SDPInfo),
      ParseSDP.line e { sdpMap := m.set media o, info := some media } r3 =
        .ok { sdpMap := m.set media { o with Control := c }, info := some media } := by
    intro m o
    rw [ParseSDP.line_control e { sdpMap := m.set media o, info := some media } media o r3 c rfl
      (by simp [GoMap.get_set]) h3 hc hcs, GoMap.set_set]
  have hlines : ∀ st : SDPState, ParseSDP.lines e st [r1, r2, r3] =
      .ok { sdpMap := st.sdpMap.set media (sectionInfo media pt enc rate c), info := some media } := by
    intro st
    have e1 := ParseSDP.line_media e st r1 media port proto pt h1 hm (hport ' ' (by decide))
      (hproto ' ' (by decide)) (hpt ' ' (by decide))
    simp only [ParseSDP.lines, e1, Go.ok_bind, e2, e3]
    rfl
  refine ⟨hlines st, fun n1 n2 n3 => ?_, ?_⟩
  · unfold ParseSDP
    rw [strings.Split_lines r1 r2 r3 (n1 '\n' (by decide)) (n2 '\n' (by decide)) (n3 '\n' (by decide)),
      hlines]
    rfl
  · rcases henc with h | h | h <;> subst h <;> rfl

/-- C32, witness: an audio section as a camera announces it, each line ending
in CR LF. The entry for `audio` has payload type 97, time scale 44100, control
`streamid=1` and the codec `acc`. -/
theorem ParseSDP_media_section_witness :
    ParseSDP sampleSDPLib
        ("m=audio 0 RTP/AVP 97\r" ++ "\n" ++ "a=rtpmap:97 MPEG4-GENERIC/44100/2\r" ++ "\n" ++
          "a=control:streamid=1\r") =
      .ok [("audio", sectionInfo "audio" "97" "MPEG4-GENERIC" "44100" "streamid=1")] ∧
    sectionInfo "audio" "97" "MPEG4-GENERIC" "44100" "streamid=1" =
      { AVType := "audio", Codec := "acc", TimeScale := 44100, Control := "streamid=1", RtpMap := 97,
        Config := [], ParameterSets := [], PayloadType := 97, SizeLength := 0, IndexLength := 0 } :=
  ⟨(ParseSDP_media_section sampleSDPLib { sdpMap := [], info := none }
      "m=audio 0 RTP/AVP 97\r" "a=rtpmap:97 MPEG4-GENERIC/44100/2\r" "a=control:streamid=1\r"
      "audio" "0" "RTP/AVP" "97" "MPEG4-GENERIC" "44100" "/2" "streamid=1"
      (by decide) (by decide) (by decide) (by decide) (by decide) (by decide) (by decide) (by decide)
      (by decide) (by decide) (by decide) (by decide) (by decide) (Or.inl (by decide))).2.1
      (by decide) (by decide) (by decide),
   by decide⟩

/-! ## sdpParser.go : the `fmtp` attribute -/

theorem SDPState.update_id (st : SDPState) : (st.update fun info => info) = st := by
  unfold SDPState.update
  cases hi : st.info with
  | none => rfl
  | some key =>
    cases hg : st.sdpMap.get key with
    | none =>
      simp only []
      rw [hg]
    | some o =>
      simp only []
      rw [hg]
      simp only []
      rw [GoMap.set_same st.sdpMap key o hg, ← hi]

theorem SDPState.update_update (st : SDPState) (f g : SDPInfo → SDPInfo) :
    (st.update f).update g = st.update fun info => g (f info) := by
  cases hi : st.info with
  | none => simp [SDPState.update, hi]
  | some key =>
    cases hg : st.sdpMap.get key with
    | none => simp [SDPState.update, hi, hg]
    | some o =>
      rw [SDPState.update_twice st key o f g hi hg, SDPState.update_some st key o _ hi hg]

/-- A piece without `=` is no parameter. -/
theorem ParseSDP.param_none (e : SDPLib) (info : SDPInfo) (field : String) (h : '=' ∉ field.toList) :
    ParseSDP.param e info field = info := by
  unfold ParseSDP.param
  rw [strings.SplitN_absent field '=' h]

/-- The digits of a string in which a byte is no digit cannot be read. -/
theorem strconv.digits_none (l : List Char) (ch : Char) (hm : ch ∈ l) (hd : ch.isDigit = false) :
    strconv.digits l = none := by
  unfold strconv.digits
  rw [if_neg]
  intro h
  have := List.all_eq_true.1 h.2 ch hm
  rw [hd] at this
  cases this

/-- `strconv.Atoi` on a string that holds a byte which is neither a digit nor
a sign: 0 and an error. -/
theorem strconv.Atoi_invalid (s : String) (ch : Char) (hm : ch ∈ s.toList) (hd : ch.isDigit = false)
    (hp : ch ≠ '+') (hn : ch ≠ '-') : strconv.Atoi s = (0, false) := by
  unfold strconv.Atoi
  cases hs : s.toList with
  | nil => rfl
  | cons c rest =>
    rw [hs] at hm
    simp only []
    have hrest : c = '+' ∨ c = '-' → ch ∈ rest := by
      intro hc
      rcases List.mem_cons.1 hm with h | h
      · rcases hc with hc | hc
        · exact absurd (h.trans hc) hp
        · exact absurd (h.trans hc) hn
      · exact h
    split
    · rename_i hc
      rw [strconv.digits_none rest ch (hrest (Or.inl hc)) hd]
    · split
      · rename_i hc
        rw [strconv.digits_none rest ch (hrest (Or.inr hc)) hd]
      · rw [strconv.digits_none (c :: rest) ch hm hd]

/-- The line `a=fmtp:<pt> <params>`: the parameters are looked at as one piece,
and only if they hold a semicolon. -/
theorem ParseSDP.line_fmtp (e : SDPLib) (st : SDPState) (raw pt params : String)
    (ht : strings.TrimSpace raw = "a=fmtp:" ++ pt ++ " " ++ params)
    (hpt : strings.free pt [' ', ':', '/', ';', '=']) (hparams : strings.free params [':', '/']) :
    ParseSDP.line e st raw =
      .ok (if ';' ∈ params.toList then st.update fun info => ParseSDP.param e info params else st) := by
  have hl : (strings.TrimSpace raw).toList =
      ['a'] ++ '=' :: (("fmtp".toList ++ ':' :: pt.toList) ++ ' ' :: params.toList) := by
    rw [ht]
    simp [String.toList, String.data_append]
  have hno : ∀ ch : Char, ch ∉ "fmtp:".toList → ch ∉ pt.toList → ch ∉ "fmtp".toList ++ ':' :: pt.toList := by
    intro ch h1 h2 hm
    rcases List.mem_append.1 hm with hm | hm
    · exact h1 (by revert hm; simp; intro h; rcases h with h | h | h | h <;> simp [h])
    · rcases List.mem_cons.1 hm with hm | hm
      · exact h1 (by rw [hm]; decide)
      · exact h2 hm
  have hf := strings.SplitN_found
    (String.mk (("fmtp".toList ++ ':' :: pt.toList) ++ ' ' :: params.toList)) ' '
    ("fmtp".toList ++ ':' :: pt.toList) params.toList rfl (hno ' ' (by decide) (hpt ' ' (by decide)))
  have ha1 : ∀ (fields : List String) (info : SDPInfo),
      ParseSDP.attr e fields info (String.mk ("fmtp".toList ++ ':' :: pt.toList)) = info := by
    intro fields info
    rw [ParseSDP.attr_keyed e fields info (String.mk ("fmtp".toList ++ ':' :: pt.toList))
      "fmtp".toList pt.toList rfl (by decide)
      (hno '/' (by decide) (hpt '/' (by decide))) (hno ';' (by decide) (hpt ';' (by decide)))]
    rw [if_neg (by decide), if_neg (by decide)]
  have hp1 : ∀ info : SDPInfo,
      ParseSDP.param e info (String.mk ("fmtp".toList ++ ':' :: pt.toList)) = info :=
    fun info => ParseSDP.param_none e info _ (hno '=' (by decide) (hpt '=' (by decide)))
  have ha2 : ∀ info : SDPInfo,
      ParseSDP.attr e [String.mk ("fmtp".toList ++ ':' :: pt.toList), String.mk params.toList] info
        (String.mk params.toList) =
        if ';' ∈ params.toList then ParseSDP.param e info params else info := by
    intro info
    rw [ParseSDP.attr_plain e _ info (String.mk params.toList) (hparams ':' (by decide))
      (hparams '/' (by decide))]
    simp only [List.foldl_cons, List.foldl_nil, hp1]
    rfl
  rw [ParseSDP.line_attr e st raw _ hl, hf]
  simp only [List.foldl_cons, List.foldl_nil, ha1, ha2, SDPState.update_id]
  by_cases hi : st.info = none
  · rw [if_neg (by simpa using hi)]
    by_cases hs : ';' ∈ params.toList
    · rw [if_pos hs]
      simp [SDPState.update, hi]
    · rw [if_neg hs]
  · rw [if_pos hi]
    by_cases hs : ';' ∈ params.toList
    · simp only [hs, if_true]
    · simp only [hs, if_false, SDPState.update_id]

/-- A piece `first=rest`: the name is `first` without the white space around
it, and the value is all that follows the first `=`. -/
theorem ParseSDP.param_eq (e : SDPLib) (info : SDPInfo) (first rest : String) (h : '=' ∉ first.toList) :
    ParseSDP.param e info (first ++ "=" ++ rest) =
      if strings.TrimSpace first = "config" then { info with Config := e.hexDecodeString rest }
      else if strings.TrimSpace first = "sizelength" then { info with SizeLength := (strconv.Atoi rest).1 }
      else if strings.TrimSpace first = "indexlength" then { info with IndexLength := (strconv.Atoi rest).1 }
      else if strings.TrimSpace first = "sprop-parameter-sets" then
        { info with ParameterSets := info.ParameterSets ++ (strings.Split rest ',').map e.base64DecodeString }
      else info := by
  have hl : (first ++ "=" ++ rest).toList = first.toList ++ '=' :: rest.toList := by
    simp [String.toList, String.data_append]
  unfold ParseSDP.param
  rw [strings.SplitN_found _ '=' first.toList rest.toList hl h]
  rfl

/-- C33: the line `a=fmtp:<pt> <params>` in `ParseSDP`, white space around the
line being dropped. The loop of line 79 ranges over `fields`, the two pieces of
the line at its first space, and not over the parameters that line 77 split at
the semicolons; and it runs only if there is a semicolon. So a list with a
single parameter is not read at all: the entry stays as it was. A list with
several parameters is read as one piece `first=rest`, whose value `rest` is
all that follows the first `=`, the later parameters included: a parameter
that is not the first is never read, and `sizelength` or `indexlength` as the
first of several is set to 0, since its value does not read as a number. -/
theorem ParseSDP_fmtp (e : SDPLib) (st : SDPState) (raw pt params : String)
    (ht : strings.TrimSpace raw = "a=fmtp:" ++ pt ++ " " ++ params)
    (hpt : strings.free pt [' ', ':', '/', ';', '=']) (hparams : strings.free params [':', '/']) :
    (';' ∉ params.toList → ParseSDP.line e st raw = .ok st) ∧
    (';' ∈ params.toList →
      ParseSDP.line e st raw = .ok (st.update fun info => ParseSDP.param e info params)) ∧
    (∀ first rest : String, params = first ++ "=" ++ rest → '=' ∉ first.toList →
      (∀ info : SDPInfo, ParseSDP.param e info params =
        if strings.TrimSpace first = "config" then { info with Config := e.hexDecodeString rest }
        else if strings.TrimSpace first = "sizelength" then { info with SizeLength := (strconv.Atoi rest).1 }
        else if strings.TrimSpace first = "indexlength" then
          { info with IndexLength := (strconv.Atoi rest).1 }
        else if strings.TrimSpace first = "sprop-parameter-sets" then
          { info with
            ParameterSets := info.ParameterSets ++ (strings.Split rest ',').map e.base64DecodeString }
        else info) ∧
      (strings.TrimSpace first ∉ ["config", "sizelength", "indexlength", "sprop-parameter-sets"] →
        ParseSDP.line e st raw = .ok st) ∧
      (';' ∈ rest.toList → strconv.Atoi rest = (0, false))) := by
  have hline := ParseSDP.line_fmtp e st raw pt params ht hpt hparams
  refine ⟨fun hs => ?_, fun hs => ?_, fun first rest hsplit hfirst => ⟨fun info => ?_, fun hname => ?_,
    fun hs => strconv.Atoi_invalid rest ';' hs (by decide) (by decide) (by decide)⟩⟩
  · rw [hline, if_neg hs]
  · rw [hline, if_pos hs]
  · rw [hsplit]
    exact ParseSDP.param_eq e info first rest hfirst
  · simp only [List.mem_cons, List.mem_singleton, List.not_mem_nil, or_false, not_or] at hname
    have hp : ∀ info : SDPInfo, ParseSDP.param e info params = info := by
      intro info
      rw [hsplit, ParseSDP.param_eq e info first rest hfirst, if_neg hname.1, if_neg hname.2.1,
        if_neg hname.2.2.1, if_neg hname.2.2.2]
    rw [hline]
    simp only [hp, SDPState.update_id, ite_self]

/-- C33, witness: after `m=audio 0 RTP/AVP 97`, neither the line
`a=fmtp:97 config=1210` nor the line of a camera with six parameters, `config`
the last of them, changes the entry. -/
theorem ParseSDP_fmtp_witness :
    ParseSDP.line sampleSDPLib audioState "a=fmtp:97 config=1210\r" = .ok audioState ∧
    ParseSDP.line sampleSDPLib audioState
        "a=fmtp:97 profile-level-id=1;mode=AAC-hbr;sizelength=13;indexlength=3;indexdeltalength=3;config=1210\r" =
      .ok audioState ∧
    ParseSDP sampleSDPLib "m=audio 0 RTP/AVP 97\r\na=fmtp:97 config=1210\r\n" =
      .ok [("audio", { SDPInfo.new "audio" with PayloadType := 97 })] :=
  ⟨(ParseSDP_fmtp sampleSDPLib audioState "a=fmtp:97 config=1210\r" "97" "config=1210" (by decide)
      (by decide) (by decide)).1 (by decide),
   ((ParseSDP_fmtp sampleSDPLib audioState
      "a=fmtp:97 profile-level-id=1;mode=AAC-hbr;sizelength=13;indexlength=3;indexdeltalength=3;config=1210\r"
      "97" "profile-level-id=1;mode=AAC-hbr;sizelength=13;indexlength=3;indexdeltalength=3;config=1210"
      (by decide) (by decide) (by decide)).2.2 "profile-level-id"
      "1;mode=AAC-hbr;sizelength=13;indexlength=3;indexdeltalength=3;config=1210" (by decide)
      (by decide)).2.1 (by decide),
   by decide⟩

/-! ## sdpParser.go : the map that `ParseSDP` returns -/

theorem GoMap.mem_of_set {V : Type} (m : GoMap V) (k : String) (v : V) (p : String × V)
    (h : p ∈ m.set k v) : p ∈ m ∨ p = (k, v) := by
  induction m with
  | nil =>
    simp only [GoMap.set, List.mem_singleton] at h
    exact Or.inr h
  | cons x rest ih =>
    obtain ⟨k0, v0⟩ := x
    by_cases hk : k0 = k
    · simp only [GoMap.set, hk, if_true, List.mem_cons] at h
      rcases h with h | h
      · exact Or.inr h
      · exact Or.inl (List.mem_cons_of_mem _ h)
    · simp only [GoMap.set, hk, if_false, List.mem_cons] at h
      rcases h with h | h
      · exact Or.inl (by rw [h]; exact List.mem_cons_self _ _)
      · rcases ih h with h | h
        · exact Or.inl (List.mem_cons_of_mem _ h)
        · exact Or.inr h

theorem GoMap.mem_of_get {V : Type} (m : GoMap V) (k : String) (v : V) (h : m.get k = some v) :
    (k, v) ∈ m := by
  induction m with
  | nil => cases h
  | cons x rest ih =>
    obtain ⟨k0, v0⟩ := x
    by_cases hk : k0 = k
    · simp only [GoMap.get, hk, if_true, Option.some.injEq] at h
      rw [hk, h]
      exact List.mem_cons_self _ _
    · simp only [GoMap.get, hk, if_false] at h
      exact List.mem_cons_of_mem _ (ih h)

theorem SDPKeyed.set (m : GoMap SDPInfo) (k : String) (v : SDPInfo) (h : SDPKeyed m)
    (hk : k = "audio" ∨ k = "video") (hv : v.AVType = k) : SDPKeyed (m.set k v) := by
  intro p hp
  rcases GoMap.mem_of_set m k v p hp with hp | hp
  · exact h p hp
  · rw [hp]
    exact ⟨hk, hv⟩

theorem SDPState.update_keyed (st : SDPState) (f : SDPInfo → SDPInfo)
    (hf : ∀ o : SDPInfo, (f o).AVType = o.AVType) (h : SDPKeyed st.sdpMap) :
    SDPKeyed (st.update f).sdpMap := by
  unfold SDPState.update
  cases hi : st.info with
  | none => exact h
  | some key =>
    cases hg : st.sdpMap.get key with
    | none =>
      simp only []
      rw [hg]
      exact h
    | some o =>
      simp only []
      rw [hg]
      have hm := h (key, o) (GoMap.mem_of_get _ _ _ hg)
      exact SDPKeyed.set _ _ _ h hm.1 ((hf o).trans hm.2)

theorem ParseSDP.param_AVType (e : SDPLib) (info : SDPInfo) (field : String) :
    (ParseSDP.param e info field).AVType = info.AVType := by
  unfold ParseSDP.param
  split
  · simp only []
    split
    · rfl
    · split
      · rfl
      · split
        · rfl
        · split <;> rfl
  · rfl

theorem ParseSDP.params_AVType (e : SDPLib) (fields : List String) :
    ∀ info : SDPInfo, (fields.foldl (ParseSDP.param e) info).AVType = info.AVType := by
  induction fields with
  | nil => intro info; rfl
  | cons f rest ih =>
    intro info
    rw [List.foldl_cons, ih, ParseSDP.param_AVType]

theorem ParseSDP.attr_AVType (e : SDPLib) (fields : List String) (info : SDPInfo) (field : String) :
    (ParseSDP.attr e fields info field).AVType = info.AVType := by
  unfold ParseSDP.attr
  generalize strings.SplitN field ':' 2 = l1
  generalize strings.Split field '/' = l2
  generalize (strings.Split field ';').length = n
  by_cases hn : n > 1 <;> simp only [hn, if_true, if_false, ParseSDP.params_AVType] <;>
    rcases l1 with _ | ⟨a, _ | ⟨b, t⟩⟩ <;> rcases l2 with _ | ⟨c, _ | ⟨d, u⟩⟩ <;> simp only [] <;>
    (repeat' split) <;> rfl

theorem strings.SplitN_two (s a b : String) (sep : Char) (h : strings.SplitN s sep 2 = [a, b]) :
    s.toList = a.toList ++ sep :: b.toList := by
  unfold strings.SplitN at h
  rcases hl : strings.splitNBytes sep 2 s.toList with _ | ⟨x, _ | ⟨y, _ | ⟨z, t⟩⟩⟩ <;> rw [hl] at h <;>
    simp only [List.map_cons, List.map_nil, List.cons.injEq, and_true, reduceCtorEq, and_false] at h
  rw [strings.splitNBytes_two sep s.toList x y hl, ← h.1, ← h.2]
  rfl

theorem strings.SplitN_one (s a : String) (sep : Char) (h : strings.SplitN s sep 2 = [a]) : s = a := by
  unfold strings.SplitN at h
  rcases hl : strings.splitNBytes sep 2 s.toList with _ | ⟨x, _ | ⟨y, t⟩⟩ <;> rw [hl] at h <;>
    simp only [List.map_cons, List.map_nil, List.cons.injEq, and_true, reduceCtorEq, and_false] at h
  rw [← h, ← (strings.splitNBytes_one sep s.toList x hl).1]
  rfl

/-- The lines on which `ParseSDP` indexes `fields[1]` without a second piece. -/
theorem ParseSDP.line_bad (e : SDPLib) (st : SDPState) (raw : String)
    (h : strings.TrimSpace raw = "m=audio" ∨ strings.TrimSpace raw = "m=video") :
    ParseSDP.line e st raw = .panic .indexOutOfRange := by
  unfold ParseSDP.line
  rcases h with h | h <;> rw [h] <;> rfl

theorem ParseSDP.fold_keyed (e : SDPLib) (fields : List String) (pieces : List String) :
    ∀ st : SDPState, SDPKeyed st.sdpMap →
      SDPKeyed (pieces.foldl (fun st field => st.update fun info =>
        ParseSDP.attr e fields info field) st).sdpMap := by
  induction pieces with
  | nil => intro st h; exact h
  | cons f rest ih =>
    intro st h
    rw [List.foldl_cons]
    exact ih _ (SDPState.update_keyed st _ (fun o => ParseSDP.attr_AVType e fields o f) h)

/-- One line of the text: the loop body panics at `fields[1]` on a line that is
`m=audio` or `m=video` and nothing else, and on every other line it returns
and keeps the shape of the map. -/
theorem ParseSDP.line_cases (e : SDPLib) (st : SDPState) (raw : String) (hinv : SDPKeyed st.sdpMap) :
    (ParseSDP.line e st raw = .panic .indexOutOfRange ∧
      (strings.TrimSpace raw = "m=audio" ∨ strings.TrimSpace raw = "m=video")) ∨
    (∃ st' : SDPState, ParseSDP.line e st raw = .ok st' ∧ SDPKeyed st'.sdpMap) := by
  unfold ParseSDP.line
  rcases htv : strings.SplitN (strings.TrimSpace raw) '=' 2 with _ | ⟨typ, _ | ⟨val, _ | ⟨x, t⟩⟩⟩
  · exact Or.inr ⟨st, rfl, hinv⟩
  · exact Or.inr ⟨st, rfl, hinv⟩
  · simp only []
    by_cases hm : typ = "m"
    · rw [if_pos hm]
      rcases hf : strings.SplitN val ' ' 2 with _ | ⟨media, rest⟩
      · exact Or.inr ⟨st, rfl, hinv⟩
      · simp only []
        by_cases hmedia : media = "audio" ∨ media = "video"
        · rw [if_pos hmedia]
          cases rest with
          | nil =>
            refine Or.inl ⟨rfl, ?_⟩
            have h1 := strings.SplitN_two _ typ val '=' htv
            have h2 := strings.SplitN_one val media ' ' hf
            rw [hm, h2] at h1
            rcases hmedia with hmedia | hmedia
            · left
              apply String.ext
              rw [hmedia] at h1
              exact h1
            · right
              apply String.ext
              rw [hmedia] at h1
              exact h1
          | cons ports more =>
            refine Or.inr ⟨_, rfl, ?_⟩
            apply SDPKeyed.set _ _ _ hinv hmedia
            split <;> rfl
        · rw [if_neg hmedia]
          exact Or.inr ⟨st, rfl, hinv⟩
    · rw [if_neg hm]
      by_cases ha : typ = "a"
      · rw [if_pos ha]
        by_cases hi : st.info ≠ none
        · rw [if_pos hi]
          exact Or.inr ⟨_, rfl, ParseSDP.fold_keyed e _ _ st hinv⟩
        · rw [if_neg hi]
          exact Or.inr ⟨st, rfl, hinv⟩
      · rw [if_neg ha]
        exact Or.inr ⟨st, rfl, hinv⟩
  · exact Or.inr ⟨st, rfl, hinv⟩

/-- The loop over the lines: it panics exactly if one of the lines is `m=audio`
or `m=video` and nothing else. -/
theorem ParseSDP.lines_cases (e : SDPLib) (ls : List String) :
    ∀ st : SDPState, SDPKeyed st.sdpMap →
      ((∃ l ∈ ls, strings.TrimSpace l = "m=audio" ∨ strings.TrimSpace l = "m=video") ∧
        ParseSDP.lines e st ls = .panic .indexOutOfRange) ∨
      ((∀ l ∈ ls, ¬ (strings.TrimSpace l = "m=audio" ∨ strings.TrimSpace l = "m=video")) ∧
        ∃ st' : SDPState, ParseSDP.lines e st ls = .ok st' ∧ SDPKeyed st'.sdpMap) := by
  induction ls with
  | nil => intro st h; exact Or.inr ⟨by simp, st, rfl, h⟩
  | cons l rest ih =>
    intro st h
    rcases ParseSDP.line_cases e st l h with ⟨hp, hb⟩ | ⟨st', hok, hk⟩
    · refine Or.inl ⟨⟨l, List.mem_cons_self _ _, hb⟩, ?_⟩
      simp only [ParseSDP.lines, hp]
      rfl
    · have hnb : ¬ (strings.TrimSpace l = "m=audio" ∨ strings.TrimSpace l = "m=video") := by
        intro hb
        rw [ParseSDP.line_bad e st l hb] at hok
        cases hok
      have hstep : ParseSDP.lines e st (l :: rest) = ParseSDP.lines e st' rest := by
        simp only [ParseSDP.lines, hok, Go.ok_bind]
      rcases ih st' hk with ⟨⟨b, hb1, hb2⟩, hp⟩ | ⟨hall, st2, h1, h2⟩
      · exact Or.inl ⟨⟨b, List.mem_cons_of_mem _ hb1, hb2⟩, hstep.trans hp⟩
      · refine Or.inr ⟨?_, st2, hstep.trans h1, h2⟩
        intro x hx
        rcases List.mem_cons.1 hx with hx | hx
        · rw [hx]
          exact hnb
        · exact hall x hx

/-- C39: `ParseSDP` on an arbitrary text. If one of its lines, white space
around it dropped, is `m=audio` or `m=video` with nothing behind it, the
function panics: `fields` has one element and line 41 of the source reads
`fields[1]`. On every other text it returns a map whose keys are `audio` or
`video` and whose entries have their key as `AVType`. -/
theorem ParseSDP_total (e : SDPLib) (sdpRaw : String) :
    ((∃ l ∈ strings.Split sdpRaw '\n', strings.TrimSpace l = "m=audio" ∨ strings.TrimSpace l = "m=video") →
      ParseSDP e sdpRaw = .panic .indexOutOfRange) ∧
    ((∀ l ∈ strings.Split sdpRaw '\n',
        ¬ (strings.TrimSpace l = "m=audio" ∨ strings.TrimSpace l = "m=video")) →
      ∃ m : GoMap SDPInfo, ParseSDP e sdpRaw = .ok m ∧ SDPKeyed m) := by
  have hinit : SDPKeyed ({ sdpMap := [], info := none } : SDPState).sdpMap := fun p hp => by cases hp
  constructor
  · intro hb
    rcases ParseSDP.lines_cases e (strings.Split sdpRaw '\n') _ hinit with ⟨_, hp⟩ | ⟨hall, _⟩
    · simp only [ParseSDP, hp]
      rfl
    · obtain ⟨l, hl, hbad⟩ := hb
      exact absurd hbad (hall l hl)
  · intro hall
    rcases ParseSDP.lines_cases e (strings.Split sdpRaw '\n') _ hinit with ⟨⟨l, hl, hbad⟩, _⟩ | ⟨_, st', h1, h2⟩
    · exact absurd hbad (hall l hl)
    · refine ⟨st'.sdpMap, ?_, h2⟩
      simp only [ParseSDP, h1, Go.ok_bind]
      rfl

/-- C39, witness: the text `m=audio` makes `ParseSDP` panic, also when it comes
as a line between others; the sample text of two sections returns. -/
theorem ParseSDP_total_witness :
    ParseSDP sampleSDPLib "m=audio" = .panic .indexOutOfRange ∧
    ParseSDP sampleSDPLib "v=0\r\nm=video\r\na=control:streamid=0\r\n" = .panic .indexOutOfRange ∧
    ∃ m : GoMap SDPInfo, ParseSDP sampleSDPLib sampleSDP = .ok m ∧ SDPKeyed m :=
  ⟨(ParseSDP_total sampleSDPLib "m=audio").1 ⟨"m=audio", by decide, by decide⟩,
   (ParseSDP_total sampleSDPLib "v=0\r\nm=video\r\na=control:streamid=0\r\n").1
      ⟨"m=video\r", by decide, by decide⟩,
   (ParseSDP_total sampleSDPLib sampleSDP).2 (by decide)⟩

end Rtsp
